import Mathlib

/-! Libertas SPI link driver (`drivers/net/wireless/libertas/if_spi.c`)

A shallow embedding of the SPI transport of the LF1000 kernel tree: the
register transaction routines (`spu_read`, `spu_write` and their 16/32-bit
helpers), the polling helpers, the main firmware download loop, the worker
thread's dispatch cycle, the host-to-card entry point and the firmware name
table, followed by theorems about them.

The card, the upper layer (`lbs_private`) and the simulated hardware are one
record that is passed through every routine.  The hardware is an oracle: the
result of the n-th `spi_write`, the result and data of the k-th read of each
register, the successive values of `jiffies`, the results of the allocators.
Everything the driver does to the outside is appended to `trace`.
-/

namespace IfSpi

/-! ## Constants of headers that are not part of the sources -/

/-- Constants of `if_spi.h`, `defs.h`, `host.h`, `dev.h` and of the kernel
configuration used by `if_spi.c`.  The headers are not among the sources, so
the values are parameters of every definition below.  `LBS_UPLD_SIZE` is the
size in bytes of each of the two response slots `priv->resp_buf[i]`. -/
structure if_spi_h where
  HZ : Nat
  IF_SPI_READ_OPERATION_MASK : Nat
  IF_SPI_WRITE_OPERATION_MASK : Nat
  IF_SPI_IO_RDWRPORT_REG : Nat
  IF_SPI_CMD_RDWRPORT_REG : Nat
  IF_SPI_DATA_RDWRPORT_REG : Nat
  IF_SPI_HOST_INT_STATUS_REG : Nat
  IF_SPI_HOST_INT_STATUS_MASK_REG : Nat
  IF_SPI_HOST_INT_CTRL_REG : Nat
  IF_SPI_CARD_INT_CAUSE_REG : Nat
  IF_SPI_SCRATCH_1_REG : Nat
  IF_SPI_SCRATCH_2_REG : Nat
  IF_SPI_SCRATCH_3_REG : Nat
  IF_SPI_SCRATCH_4_REG : Nat
  IF_SPI_HIST_TX_DOWNLOAD_RDY : Nat
  IF_SPI_HIST_RX_UPLOAD_RDY : Nat
  IF_SPI_HIST_CMD_DOWNLOAD_RDY : Nat
  IF_SPI_HIST_CARD_EVENT : Nat
  IF_SPI_HIST_CMD_UPLOAD_RDY : Nat
  IF_SPI_HISM_TX_DOWNLOAD_RDY : Nat
  IF_SPI_HISM_RX_UPLOAD_RDY : Nat
  IF_SPI_HISM_CMD_DOWNLOAD_RDY : Nat
  IF_SPI_HISM_CARDEVENT : Nat
  IF_SPI_HISM_CMD_UPLOAD_RDY : Nat
  IF_SPI_HICT_TX_DOWNLOAD_OVER_AUTO : Nat
  IF_SPI_HICT_RX_UPLOAD_OVER_AUTO : Nat
  IF_SPI_HICT_CMD_DOWNLOAD_OVER_AUTO : Nat
  IF_SPI_HICT_CMD_UPLOAD_OVER_AUTO : Nat
  IF_SPI_CIC_TX_DOWNLOAD_OVER : Nat
  IF_SPI_CIC_CMD_DOWNLOAD_OVER : Nat
  IF_SPI_CMD_BUF_SIZE : Nat
  LBS_UPLD_SIZE : Nat
  HELPER_FW_LOAD_CHUNK_SZ : Nat
  FIRMWARE_DNLD_OK : Nat
  MRVDRV_ETH_RX_PACKET_BUFFER_SIZE : Nat
  IPFIELD_ALIGN_OFFSET : Nat
  MAX_MAIN_FW_LOAD_CRC_ERR : Nat
  SUCCESSFUL_FW_DOWNLOAD_MAGIC : Nat
  MVMS_DAT : Nat
  MVMS_CMD : Nat
  DNLD_CMD_SENT : Nat
  DNLD_DATA_SENT : Nat
  IF_SPI_DEVICEID_CTRL_REG : Nat
  IF_SPI_SPU_BUS_MODE_REG : Nat
  IF_SPI_DELAY_READ_REG : Nat
  IF_SPI_BUS_MODE_SPI_CLOCK_PHASE_RISING : Nat
  IF_SPI_BUS_MODE_DELAY_METHOD_TIMED : Nat
  IF_SPI_BUS_MODE_DELAY_METHOD_DUMMY_CLOCK : Nat
  IF_SPI_BUS_MODE_16_BIT_ADDRESS_16_BIT_DATA : Nat
  IF_SPI_DEVICEID_CTRL_REG_TO_CARD_ID : Nat → Nat
  IF_SPI_DEVICEID_CTRL_REG_TO_CARD_REV : Nat → Nat
  CONFIG_ARCH_LF1000 : Bool

/-- Error numbers of `errno.h` (positive values, returned negated). -/
def EINTR : Int := 4
/-- I/O error. -/
def EIO : Int := 5
/-- Out of memory. -/
def ENOMEM : Int := 12
/-- Invalid argument. -/
def EINVAL : Int := 22
/-- Address family not supported. -/
def EAFNOSUPPORT : Int := 97
/-- No buffer space available. -/
def ENOBUFS : Int := 105
/-- Connection timed out. -/
def ETIMEDOUT : Int := 110

/-- Size in bytes of the name buffers of `struct if_spi_card`. -/
def FIRMWARE_NAME_MAX : Nat := 30

/-! ## Machine integers -/

/-- Truncation to `u8`. -/
def u8 (n : Nat) : Nat := n % 256
/-- Truncation to `u16`. -/
def u16 (n : Nat) : Nat := n % 65536
/-- Truncation to `u32`. -/
def u32 (n : Nat) : Nat := n % 4294967296
/-- Truncation to `unsigned long` (32 bits on the ARM LF1000). -/
def ulong (n : Nat) : Nat := n % 4294967296

/-- The two bytes of a `u16` object in memory (little-endian CPU), as seen
through the `(u8 *)&val` casts of the 16-bit helpers. -/
def bytes_of_u16 (v : Nat) : List Nat := [v % 256, v / 256 % 256]

/-- The `u16` object stored at byte offset `2 * i` of a buffer. -/
def u16_at (buf : List Nat) (i : Nat) : Nat :=
  buf.getD (2 * i) 0 % 256 + 256 * (buf.getD (2 * i + 1) 0 % 256)

/-- Modelled from the spec: `ALIGN` of `linux/kernel.h` is not among the
sources; the spec's `align(length, 4)` pads a length to the next 4-byte
boundary.  The result is computed in `int`, before any store to a narrower
variable. -/
def ALIGN (x a : Nat) : Nat := (x + (a - 1)) / a * a

/-- Modelled from the spec: `time_after` of `linux/jiffies.h` is not among the
sources; the spec's budget is exceeded once the tick count `a` is later than
the deadline `b`.  Tick counts are `unsigned long` and are compared by the sign
of their wrapped difference. -/
def time_after (a b : Nat) : Bool :=
  decide (2147483648 ≤ (ulong b + 4294967296 - ulong a) % 4294967296)

/-! ## Data model -/

/-- A queued packet (`struct if_spi_packet`): `blen` and the bytes of the
flexible array `buffer`, whose allocated size is the length of the list. -/
structure if_spi_packet where
  blen : Nat
  buffer : List Nat
deriving DecidableEq, Repr

/-- Everything observable that the driver does, in program order. -/
inductive Event where
  /-- Chip-select line driven to `level` (0 asserts). -/
  | cs (level : Nat)
  /-- Busy-wait delays. -/
  | ndelay (ns : Nat)
  | udelay (us : Nat)
  | mdelay (ms : Nat)
  /-- The register index word of a transaction and the result of its transfer. -/
  | spi_addr (reg_out : Nat) (res : Int)
  /-- A zero-valued dummy word clocked out during a read. -/
  | spi_dummy (res : Int)
  /-- Payload written in a transaction on register `reg`. -/
  | spi_out (reg : Nat) (buf : List Nat) (res : Int)
  /-- Payload of `len` bytes read in a transaction on register `reg`. -/
  | spi_in (reg : Nat) (len : Nat) (res : Int)
  /-- Calls into the libertas core. -/
  | lbs_host_to_card_done
  | lbs_notify_command_response (i : Nat)
  | lbs_process_rxed_packet (skb : List Nat) (res : Int)
  | lbs_queue_event (cause : Nat)
  /-- A packet handed to `if_spi_h2c` with the given type. -/
  | h2c (type : Nat) (packet : if_spi_packet)
  /-- A packet released with `kfree`. -/
  | kfree (packet : if_spi_packet)
  /-- A receive buffer released with `dev_kfree_skb`. -/
  | dev_kfree_skb
  /-- Semaphore posts. -/
  | up_spi_ready
  | up_spi_thread_terminated
  /-- The worker thread leaves through `do_exit`. -/
  | do_exit
  /-- An error line written with `lbs_pr_err`. -/
  | pr_err (code : Int)
  /-- Steps of attach and detach: the hooks of the platform data, the driver
  data pointer of the SPI device (`true`: set to the card), the chip-select
  GPIO, the libertas core, the worker thread, the interrupt line and the
  release of the card structure. -/
  | pdata_setup (res : Int)
  | pdata_teardown
  | spi_set_drvdata (card : Bool)
  | gpio_request (res : Int)
  | gpio_direction_output (res : Int)
  | gpio_free
  | lbs_add_card (ok : Bool)
  | kthread_run (res : Int)
  | request_irq (res : Int)
  | free_irq
  | lbs_start_card (res : Int)
  | lbs_stop_card
  | lbs_remove_card
  | kfree_card
deriving DecidableEq, Repr

/-- The fields of `struct lbs_private` that `if_spi.c` touches.  `resp_buf i`
lists the bytes of response slot `i` from its start; the slot has room for
`LBS_UPLD_SIZE` bytes. -/
structure lbs_private where
  dnld_sent : Nat
  resp_idx : Nat
  resp_len : Nat → Nat
  resp_buf : Nat → List Nat
  fw_ready : Nat
  ps_supported : Nat
  surpriseremoved : Nat

/-- The simulated SPI device behind `card->spi`: the result of the n-th
`spi_write`, the result and the bytes of the k-th `spi_read` on each register,
and how many of each have been consumed. -/
structure spi_device where
  wr_res : Nat → Int
  rd_res : Nat → Nat → Int
  rd_data : Nat → Nat → List Nat
  nwr : Nat
  nrd : Nat → Nat

/-- The kernel services the driver relies on: successive readings of
`jiffies`, results of `kzalloc` and `dev_alloc_skb` (true: memory granted),
results of `lbs_process_rxed_packet`, and the firmware images handed out by
`request_firmware` (result code and image bytes per name), results of
`down_interruptible`. -/
structure kernel where
  clock : Nat → Nat
  nclk : Nat
  alloc_ok : Nat → Bool
  nalloc : Nat
  rx_res : Nat → Int
  nrx : Nat
  down_res : Nat → Int
  ndown : Nat
  firmware : List Char → Int × List Nat

/-- The driver state, `struct if_spi_card`, with the objects it points to. -/
structure if_spi_card where
  spi : spi_device
  priv : lbs_private
  sys : kernel
  helper_fw_name : List Char
  main_fw_name : List Char
  card_id : Nat
  card_rev : Nat
  gpio_cs : Nat
  prev_xfer_time : Nat
  use_dummy_writes : Nat
  spu_port_delay : Nat
  spu_reg_delay : Nat
  run_thread : Nat
  spi_ready : Nat
  spi_thread_terminated : Nat
  cmd_buffer : List Nat
  cmd_packet_list : List if_spi_packet
  data_packet_list : List if_spi_packet
  trace : List Event

/-- Why a routine did not return: a `BUG_ON` fired, a memory copy left its
buffers, or the model's iteration budget for an unbounded loop ran out. -/
inductive Halt where
  | bug
  | fault
  | fuel
deriving DecidableEq, Repr

/-- A routine returns a value and the new state, or halts. -/
abbrev Run (α : Type) := Except Halt (α × if_spi_card)

/-- Append an event to the trace. -/
def emit (c : if_spi_card) (e : Event) : if_spi_card :=
  { c with trace := c.trace ++ [e] }

/-- Read the volatile tick counter `jiffies`. -/
def jiffies (c : if_spi_card) : Nat × if_spi_card :=
  (ulong (c.sys.clock c.sys.nclk), { c with sys := { c.sys with nclk := c.sys.nclk + 1 } })

/-- One `spi_write` of the bus layer: its result comes from the device. -/
def spi_write (c : if_spi_card) : Int × if_spi_card :=
  (c.spi.wr_res c.spi.nwr, { c with spi := { c.spi with nwr := c.spi.nwr + 1 } })

/-- One `spi_read` of `len` bytes in a transaction on `reg`: result and bytes
come from the device; on failure the buffer `buf` keeps its contents. -/
def spi_read (c : if_spi_card) (reg : Nat) (buf : List Nat) (len : Nat) :
    (Int × List Nat) × if_spi_card :=
  let k := c.spi.nrd reg
  let res := c.spi.rd_res reg k
  let data := (List.range len).map (fun i => (c.spi.rd_data reg k).getD i 0 % 256)
  let c1 := { c with spi := { c.spi with nrd := Function.update c.spi.nrd reg (k + 1) } }
  ((res, if res = 0 then data ++ buf.drop len else buf), c1)

/-! ## SPI Interface Unit routines -/

/-- Source `spu_transaction_init`: guard delay unless more than a jiffy has
passed since the previous transaction, then assert chip select. -/
def spu_transaction_init (c : if_spi_card) : if_spi_card :=
  let j := jiffies c
  let c2 := if !time_after j.1 (ulong (j.2.prev_xfer_time + 1)) then emit j.2 (.ndelay 400) else j.2
  emit c2 (.cs 0)

/-- Source `spu_transaction_finish`: drop chip select and record the time. -/
def spu_transaction_finish (c : if_spi_card) : if_spi_card :=
  let j := jiffies (emit c (.cs 1))
  { j.2 with prev_xfer_time := j.1 }

/-- The start of every transaction of `spu_write` and `spu_read`:
`spu_transaction_init`, then the register index word `reg_out`; the value is
the result of that transfer. -/
def spu_addr (c : if_spi_card) (reg_out : Nat) : Int × if_spi_card :=
  let w := spi_write (spu_transaction_init c)
  (w.1, emit w.2 (.spi_addr reg_out w.1))

/-- Source `spu_write`: write a byte buffer to an SPI register (`reg` is a
`u16` parameter). -/
def spu_write (K : if_spi_h) (c : if_spi_card) (reg : Nat) (buf : List Nat) (len : Nat) :
    Run Int :=
  let reg := u16 reg
  if len % 2 = 1 then .error .bug
  else
    let a := spu_addr c (u16 (reg ||| K.IF_SPI_WRITE_OPERATION_MASK))
    if a.1 ≠ 0 then .ok (a.1, spu_transaction_finish a.2)
    else
      let w := spi_write a.2
      .ok (w.1, spu_transaction_finish (emit w.2 (.spi_out reg (buf.take len) w.1)))

/-- Source `spu_write_u16`. -/
def spu_write_u16 (K : if_spi_h) (c : if_spi_card) (reg val : Nat) : Run Int :=
  spu_write K c reg (bytes_of_u16 (u16 val)) 2

/-- Source `spu_write_u32`: the lower 16 bits are written first. -/
def spu_write_u32 (K : if_spi_h) (c : if_spi_card) (reg val : Nat) : Run Int :=
  let out0 := u16 (val &&& 0xffff)
  let out1 := u16 ((val &&& 0xffff0000) >>> 16)
  spu_write K c reg (bytes_of_u16 out0 ++ bytes_of_u16 out1) 4

/-- Source `spu_reg_is_port_reg`. -/
def spu_reg_is_port_reg (K : if_spi_h) (reg : Nat) : Bool :=
  reg = K.IF_SPI_IO_RDWRPORT_REG || reg = K.IF_SPI_CMD_RDWRPORT_REG ||
    reg = K.IF_SPI_DATA_RDWRPORT_REG

/-- The dummy-clock loop of `spu_read`: `n` zero words, stopping at the first
transfer that fails. -/
def spu_read_dummies : Nat → if_spi_card → Int × if_spi_card
  | 0, c => (0, c)
  | n + 1, c =>
    let w := spi_write c
    let c2 := emit w.2 (.spi_dummy w.1)
    if w.1 ≠ 0 then (w.1, c2) else spu_read_dummies n c2

/-- The wait of `spu_read` for the SPU to fill its FIFO: dummy words in
dummy-write mode, a busy-wait otherwise.  The value is non-zero when a dummy
transfer failed. -/
def spu_read_settle (K : if_spi_h) (c : if_spi_card) (reg : Nat) : Int × if_spi_card :=
  let delay := u32 (if spu_reg_is_port_reg K reg then c.spu_port_delay else c.spu_reg_delay)
  if c.use_dummy_writes ≠ 0 then spu_read_dummies (delay / 16) c
  else (0, emit c (.ndelay (u32 (100 + delay * 10))))

/-- Source `spu_read`: read `len` bytes from an SPI register into `buf` (`reg`
is a `u16` parameter). -/
def spu_read (K : if_spi_h) (c : if_spi_card) (reg : Nat) (buf : List Nat) (len : Nat) :
    Run (Int × List Nat) :=
  let reg := u16 reg
  if len % 2 = 1 then .error .bug
  else
    let a := spu_addr c (u16 (reg ||| K.IF_SPI_READ_OPERATION_MASK))
    if a.1 ≠ 0 then .ok ((a.1, buf), spu_transaction_finish a.2)
    else
      let s := spu_read_settle K a.2 reg
      if s.1 ≠ 0 then .ok ((s.1, buf), s.2)
      else
        let r := spi_read s.2 reg buf len
        .ok (r.1, spu_transaction_finish (emit r.2 (.spi_in reg len r.1.1)))

/-- Source `spu_read_u16`: read 16 bits from an SPI register.  The value is
meaningful only when the result is 0. -/
def spu_read_u16 (K : if_spi_h) (c : if_spi_card) (reg : Nat) : Run (Int × Nat) :=
  match spu_read K c reg [0, 0] 2 with
  | .error h => .error h
  | .ok ((err, buf), c1) => .ok ((err, u16_at buf 0), c1)

/-- Source `spu_read_u32`: the low 16 bits are read first.  `val` is the
caller's variable, left alone on failure. -/
def spu_read_u32 (K : if_spi_h) (c : if_spi_card) (reg : Nat) (val : Nat) : Run (Int × Nat) :=
  match spu_read K c reg [0, 0, 0, 0] 4 with
  | .error h => .error h
  | .ok ((err, buf), c1) =>
    if err = 0 then .ok ((err, u32 (u16_at buf 0 ||| (u16_at buf 1 <<< 16))), c1)
    else .ok ((err, val), c1)

/-- Source `spu_wait_for_u16`, loop body iterated at most `fuel` times: poll
until `(val & target_mask) == target` (any non-zero value if the mask is 0),
giving up once `jiffies` is after `timeout`. -/
def spu_wait_for_u16_loop (K : if_spi_h) (reg target_mask target timeout : Nat) :
    Nat → if_spi_card → Run Int
  | 0, _ => .error .fuel
  | fuel + 1, c =>
    match spu_read_u16 K c reg with
    | .error h => .error h
    | .ok ((err, val), c1) =>
      if err ≠ 0 then .ok (err, c1)
      else if target_mask ≠ 0 ∧ (val &&& target_mask) = target then .ok (0, c1)
      else if target_mask = 0 ∧ val ≠ 0 then .ok (0, c1)
      else
        let j := jiffies (emit c1 (.udelay 100))
        if time_after j.1 timeout then .ok (-ETIMEDOUT, emit j.2 (.pr_err (-ETIMEDOUT)))
        else spu_wait_for_u16_loop K reg target_mask target timeout fuel j.2

/-- Source `spu_wait_for_u16`. -/
def spu_wait_for_u16 (K : if_spi_h) (fuel : Nat) (c : if_spi_card)
    (reg target_mask target : Nat) : Run Int :=
  let j := jiffies c
  let timeout := ulong (j.1 + 5 * K.HZ)
  spu_wait_for_u16_loop K reg (u16 target_mask) (u16 target) timeout fuel j.2

/-- The `for (try = 0; try < 4; ++try)` loop of `spu_wait_for_u32` with `n`
tries left. -/
def spu_wait_for_u32_loop (K : if_spi_h) (reg target : Nat) : Nat → if_spi_card → Run Int
  | 0, c => .ok (-ETIMEDOUT, c)
  | n + 1, c =>
    match spu_read_u32 K c reg 0 with
    | .error h => .error h
    | .ok ((err, val), c1) =>
      if err ≠ 0 then .ok (err, c1)
      else if val = target then .ok (0, c1)
      else spu_wait_for_u32_loop K reg target n (emit c1 (.mdelay 100))

/-- Source `spu_wait_for_u32`: four tries. -/
def spu_wait_for_u32 (K : if_spi_h) (c : if_spi_card) (reg target : Nat) : Run Int :=
  spu_wait_for_u32_loop K reg (u32 target) 4 c

/-- Source `spu_set_interrupt_mode`. -/
def spu_set_interrupt_mode (K : if_spi_h) (c : if_spi_card)
    (suppress_host_int auto_int : Int) : Run Int :=
  let first :=
    if suppress_host_int ≠ 0 then spu_write_u16 K c K.IF_SPI_HOST_INT_STATUS_MASK_REG 0
    else spu_write_u16 K c K.IF_SPI_HOST_INT_STATUS_MASK_REG
      (K.IF_SPI_HISM_TX_DOWNLOAD_RDY ||| K.IF_SPI_HISM_RX_UPLOAD_RDY |||
        K.IF_SPI_HISM_CMD_DOWNLOAD_RDY ||| K.IF_SPI_HISM_CARDEVENT |||
        K.IF_SPI_HISM_CMD_UPLOAD_RDY)
  match first with
  | .error h => .error h
  | .ok (err, c1) =>
    if err ≠ 0 then .ok (err, c1)
    else if auto_int ≠ 0 then
      spu_write_u16 K c1 K.IF_SPI_HOST_INT_CTRL_REG
        (K.IF_SPI_HICT_TX_DOWNLOAD_OVER_AUTO ||| K.IF_SPI_HICT_RX_UPLOAD_OVER_AUTO |||
          K.IF_SPI_HICT_CMD_DOWNLOAD_OVER_AUTO ||| K.IF_SPI_HICT_CMD_UPLOAD_OVER_AUTO)
    else spu_write_u16 K c1 K.IF_SPI_HOST_INT_STATUS_MASK_REG 0

/-- Source `spu_get_chip_revision`: read the device id register and store the
chip id and revision it encodes in `card_id` (`u16`) and `card_rev` (`u8`). -/
def spu_get_chip_revision (K : if_spi_h) (c : if_spi_card) : Run Int :=
  match spu_read_u32 K c K.IF_SPI_DEVICEID_CTRL_REG 0 with
  | .error h => .error h
  | .ok ((err, dev_ctrl), c1) =>
    if err ≠ 0 then .ok (err, c1)
    else
      .ok (err, { c1 with
        card_id := u16 (K.IF_SPI_DEVICEID_CTRL_REG_TO_CARD_ID dev_ctrl),
        card_rev := u8 (K.IF_SPI_DEVICEID_CTRL_REG_TO_CARD_REV dev_ctrl) })

/-- Source `spu_set_bus_mode`: write the bus mode register and check that it
reads back what was written (`mode` is a `u16` parameter). -/
def spu_set_bus_mode (K : if_spi_h) (c : if_spi_card) (mode : Nat) : Run Int :=
  let mode := u16 mode
  match spu_write_u16 K c K.IF_SPI_SPU_BUS_MODE_REG mode with
  | .error h => .error h
  | .ok (err, c1) =>
    if err ≠ 0 then .ok (err, c1)
    else
      match spu_read_u16 K c1 K.IF_SPI_SPU_BUS_MODE_REG with
      | .error h => .error h
      | .ok ((err2, rval), c2) =>
        if err2 ≠ 0 then .ok (err2, c2)
        else if rval ≠ mode then .ok (- EIO, emit c2 (.pr_err (- EIO)))
        else .ok (0, c2)

/-- Source `spu_init`: start in timed delay mode, read the delay register with
both delays at 1000, store the two delays it holds and, if asked to, switch to
dummy-write mode. -/
def spu_init (K : if_spi_h) (c : if_spi_card) (use_dummy_writes : Int) : Run Int :=
  match spu_set_bus_mode K { c with use_dummy_writes := 0 }
      (K.IF_SPI_BUS_MODE_SPI_CLOCK_PHASE_RISING ||| K.IF_SPI_BUS_MODE_DELAY_METHOD_TIMED |||
        K.IF_SPI_BUS_MODE_16_BIT_ADDRESS_16_BIT_DATA) with
  | .error h => .error h
  | .ok (err, c1) =>
    if err ≠ 0 then .ok (err, c1)
    else
      match spu_read_u32 K { c1 with spu_port_delay := 1000, spu_reg_delay := 1000 }
          K.IF_SPI_DELAY_READ_REG 0 with
      | .error h => .error h
      | .ok ((err2, delay), c2) =>
        if err2 ≠ 0 then .ok (err2, c2)
        else
          let c3 := { c2 with
            spu_port_delay := delay &&& 0x0000ffff,
            spu_reg_delay := (delay &&& 0xffff0000) >>> 16 }
          if use_dummy_writes ≠ 0 then
            spu_set_bus_mode K { c3 with use_dummy_writes := 1 }
              (K.IF_SPI_BUS_MODE_SPI_CLOCK_PHASE_RISING |||
                K.IF_SPI_BUS_MODE_DELAY_METHOD_DUMMY_CLOCK |||
                K.IF_SPI_BUS_MODE_16_BIT_ADDRESS_16_BIT_DATA)
          else .ok (err2, c3)

/-! ## Memory copies -/

/-- The bytes `memcpy` reads: `n` bytes of `src` from offset `off`, or nothing
when the range leaves the object. -/
def memcpy_src (src : List Nat) (off n : Nat) : Option (List Nat) :=
  if off + n ≤ src.length then some ((src.drop off).take n) else none

/-- Store `data` at the start of `dst`. -/
def store (dst data : List Nat) : List Nat := data ++ dst.drop data.length

/-! ## Firmware loading -/

/-- The `out:` label of `if_spi_prog_helper_firmware`: log the error, if any,
and return it. -/
def if_spi_prog_helper_firmware_out (c : if_spi_card) (err : Int) : Run Int :=
  .ok (err, if err ≠ 0 then emit c (.pr_err err) else c)

/-- The two writes with which `if_spi_prog_helper_firmware` interrupts the boot
code: clear the host interrupt status, then write the download-over cause.
The value is `err`. -/
def if_spi_prog_helper_firmware_signal (K : if_spi_h) (c : if_spi_card) : Run Int :=
  match spu_write_u16 K c K.IF_SPI_HOST_INT_STATUS_REG 0 with
  | .error h => .error h
  | .ok (e1, c1) =>
    if e1 ≠ 0 then .ok (e1, c1)
    else spu_write_u16 K c1 K.IF_SPI_CARD_INT_CAUSE_REG K.IF_SPI_CIC_CMD_DOWNLOAD_OVER

/-- The buffer `temp` of `if_spi_prog_helper_firmware` after
`memset(temp, 0, sizeof(temp))` and
`memcpy(temp, fw, min(bytes_remaining, HELPER_FW_LOAD_CHUNK_SZ))`, or nothing
when the copy leaves the image. -/
def if_spi_prog_helper_firmware_temp (K : if_spi_h) (image : List Nat) (fw : Nat)
    (bytes_remaining : Int) : Option (List Nat) :=
  (memcpy_src image fw (min bytes_remaining K.HELPER_FW_LOAD_CHUNK_SZ).toNat).map
    (store (List.replicate K.HELPER_FW_LOAD_CHUNK_SZ 0))

/-- The body of the `while (bytes_remaining > 0)` loop of
`if_spi_prog_helper_firmware` up to the update of its counters: announce the
chunk size in scratch register 1, wait for command-download-ready, write one
chunk to the command port and interrupt the boot code.  The value is `err`. -/
def if_spi_prog_helper_firmware_body (K : if_spi_h) (wfuel : Nat) (image : List Nat)
    (c : if_spi_card) (fw : Nat) (bytes_remaining : Int) : Run Int :=
  match spu_write_u16 K c K.IF_SPI_SCRATCH_1_REG K.HELPER_FW_LOAD_CHUNK_SZ with
  | .error h => .error h
  | .ok (e1, c1) =>
    if e1 ≠ 0 then .ok (e1, c1)
    else
      match spu_wait_for_u16 K wfuel c1 K.IF_SPI_HOST_INT_STATUS_REG
          K.IF_SPI_HIST_CMD_DOWNLOAD_RDY K.IF_SPI_HIST_CMD_DOWNLOAD_RDY with
      | .error h => .error h
      | .ok (e2, c2) =>
        if e2 ≠ 0 then .ok (e2, c2)
        else
          match if_spi_prog_helper_firmware_temp K image fw bytes_remaining with
          | none => .error .fault
          | some temp =>
            match spu_write K (emit c2 (.mdelay 10)) K.IF_SPI_CMD_RDWRPORT_REG temp
                K.HELPER_FW_LOAD_CHUNK_SZ with
            | .error h => .error h
            | .ok (e3, c3) =>
              if e3 ≠ 0 then .ok (e3, c3) else if_spi_prog_helper_firmware_signal K c3

/-- The end of `if_spi_prog_helper_firmware` after its loop: write
`FIRMWARE_DNLD_OK` to scratch register 1 and interrupt the boot code.  The
value is `err`. -/
def if_spi_prog_helper_firmware_done (K : if_spi_h) (c : if_spi_card) : Run Int :=
  match spu_write_u16 K c K.IF_SPI_SCRATCH_1_REG K.FIRMWARE_DNLD_OK with
  | .error h => .error h
  | .ok (e1, c1) =>
    if e1 ≠ 0 then .ok (e1, c1) else if_spi_prog_helper_firmware_signal K c1

/-- The `while (bytes_remaining > 0)` loop of `if_spi_prog_helper_firmware`,
iterated at most `fuel` times, and the writes that follow it, up to the label
`release_firmware`: `fw` is the offset of the source pointer into the image.
The value is `err`. -/
def if_spi_prog_helper_firmware_loop (K : if_spi_h) (wfuel : Nat) (image : List Nat) :
    Nat → if_spi_card → Nat → Int → Run Int
  | 0, _, _, _ => .error .fuel
  | fuel + 1, c, fw, bytes_remaining =>
    if bytes_remaining > 0 then
      match if_spi_prog_helper_firmware_body K wfuel image c fw bytes_remaining with
      | .error h => .error h
      | .ok (err, c1) =>
        if err ≠ 0 then .ok (err, c1)
        else if_spi_prog_helper_firmware_loop K wfuel image fuel c1
          (fw + K.HELPER_FW_LOAD_CHUNK_SZ) (bytes_remaining - K.HELPER_FW_LOAD_CHUNK_SZ)
    else if_spi_prog_helper_firmware_done K c

/-- Source `if_spi_prog_helper_firmware`.  `fuel` bounds the chunk loop and
`wfuel` each 16-bit wait; `bytes_remaining` starts as the size of the image,
which fits `int`. -/
def if_spi_prog_helper_firmware (K : if_spi_h) (fuel wfuel : Nat) (c : if_spi_card) : Run Int :=
  match spu_set_interrupt_mode K c 1 0 with
  | .error h => .error h
  | .ok (err, c1) =>
    if err ≠ 0 then if_spi_prog_helper_firmware_out c1 err
    else
      let f := c1.sys.firmware c1.helper_fw_name
      if f.1 ≠ 0 then if_spi_prog_helper_firmware_out (emit c1 (.pr_err f.1)) f.1
      else
        match if_spi_prog_helper_firmware_loop K wfuel f.2 fuel c1 0 f.2.length with
        | .error h => .error h
        | .ok (e, c2) => if_spi_prog_helper_firmware_out c2 e

/-- Source `if_spi_prog_main_firmware_check_len`: the length of the next chunk
the firmware wants (or a negative error), and the new value of `*crc_err`. -/
def if_spi_prog_main_firmware_check_len (K : if_spi_h) (wfuel : Nat) (c : if_spi_card)
    (crc_err : Int) : Run (Int × Int) :=
  match spu_wait_for_u16 K wfuel c K.IF_SPI_HOST_INT_STATUS_REG
      K.IF_SPI_HIST_CMD_DOWNLOAD_RDY K.IF_SPI_HIST_CMD_DOWNLOAD_RDY with
  | .error h => .error h
  | .ok (err, c1) =>
    if err ≠ 0 then .ok ((err, crc_err), emit c1 (.pr_err err))
    else
      match spu_read_u16 K c1 K.IF_SPI_SCRATCH_1_REG with
      | .error h => .error h
      | .ok ((err2, len), c2) =>
        if err2 ≠ 0 then .ok ((err2, crc_err), c2)
        else if len > K.IF_SPI_CMD_BUF_SIZE then .ok ((- EIO, crc_err), emit c2 (.pr_err (- EIO)))
        else if len % 2 = 1 then .ok (((len - 1 : Nat), 1), c2)
        else .ok (((len : Nat), 0), c2)

/-- The local variables of `if_spi_prog_main_firmware` that live across
iterations of its loop: `fw` is the offset of the source pointer into the
image, `bytes` the (signed) count of bytes still to send. -/
structure main_fw_vars where
  prev_len : Int
  bytes : Int
  fw : Nat
  crc_err : Int
  num_crc_errs : Nat
  err : Int

/-- The variables as `if_spi_prog_main_firmware` sets them before its loop:
`num_crc_errs = 0`, `prev_len = 0`, `bytes = firmware->size`,
`fw = firmware->data`, with `crc_err` and `err` at 0. -/
def main_fw_vars_init (image : List Nat) : main_fw_vars :=
  { prev_len := 0, bytes := image.length, fw := 0, crc_err := 0, num_crc_errs := 0, err := 0 }

/-- How the chunk loop was left: by its condition or `break` (`fall`), or by
`goto release_firmware`. -/
inductive loop_exit where
  | fall
  | release
deriving DecidableEq, Repr

/-- The `if (crc_err) ... else ...` statement of the chunk loop: count a CRC
error, or advance `bytes` and `fw` by the length of the previous chunk.  The
second component tells whether the count now exceeds
`MAX_MAIN_FW_LOAD_CRC_ERR`. -/
def if_spi_prog_main_firmware_count (K : if_spi_h) (v : main_fw_vars) : main_fw_vars × Bool :=
  if v.crc_err ≠ 0 then
    ({ v with num_crc_errs := u16 (v.num_crc_errs + 1) },
      decide (u16 (v.num_crc_errs + 1) > K.MAX_MAIN_FW_LOAD_CRC_ERR))
  else ({ v with bytes := v.bytes - v.prev_len, fw := v.fw + v.prev_len.toNat }, false)

/-- The `if (bytes < len) ... else ...` statement of the chunk loop: the new
contents of `cmd_buffer`, or nothing when a copy leaves the image. -/
def if_spi_prog_main_firmware_fill (image cmd_buffer : List Nat) (v : main_fw_vars)
    (len : Int) : Option (List Nat) :=
  if v.bytes < len then
    if v.bytes < 0 then none
    else (memcpy_src image v.fw v.bytes.toNat).map
      (store (store cmd_buffer (List.replicate len.toNat 0)))
  else (memcpy_src image v.fw len.toNat).map (store cmd_buffer)

/-- The three register writes that end an iteration of the chunk loop: clear
the host interrupt status, write `len` bytes of `cmd_buffer` to the command
port, signal download-over.  The value is `err`. -/
def if_spi_prog_main_firmware_send (K : if_spi_h) (c : if_spi_card) (len : Int) : Run Int :=
  match spu_write_u16 K c K.IF_SPI_HOST_INT_STATUS_REG 0 with
  | .error h => .error h
  | .ok (e1, c1) =>
    if e1 ≠ 0 then .ok (e1, c1)
    else
      match spu_write K c1 K.IF_SPI_CMD_RDWRPORT_REG c1.cmd_buffer len.toNat with
      | .error h => .error h
      | .ok (e2, c2) =>
        if e2 ≠ 0 then .ok (e2, c2)
        else spu_write_u16 K c2 K.IF_SPI_CARD_INT_CAUSE_REG K.IF_SPI_CIC_CMD_DOWNLOAD_OVER

/-- One evaluation of the condition and body of the chunk loop of
`if_spi_prog_main_firmware`: `none` when the loop goes on to its next
iteration, else how it is left. -/
def if_spi_prog_main_firmware_body (K : if_spi_h) (wfuel : Nat) (image : List Nat)
    (c : if_spi_card) (v : main_fw_vars) : Run (Option loop_exit × main_fw_vars) :=
  match if_spi_prog_main_firmware_check_len K wfuel c v.crc_err with
  | .error h => .error h
  | .ok ((len, crc), c1) =>
    let v1 := { v with crc_err := crc }
    if len = 0 then .ok ((some .fall, v1), c1)
    else if len < 0 then .ok ((some .release, { v1 with err := len }), c1)
    else if v1.bytes < 0 then .ok ((some .fall, v1), emit c1 (.pr_err 0))
    else
      let v2 := if_spi_prog_main_firmware_count K v1
      if v2.2 then .ok ((some .release, { v2.1 with err := - EIO }), emit c1 (.pr_err (- EIO)))
      else
        match if_spi_prog_main_firmware_fill image c1.cmd_buffer v2.1 len with
        | none => .error .fault
        | some cmd_buffer =>
          match if_spi_prog_main_firmware_send K { c1 with cmd_buffer := cmd_buffer } len with
          | .error h => .error h
          | .ok (err, c2) =>
            if err ≠ 0 then .ok ((some .release, { v2.1 with err := err }), c2)
            else .ok ((none, { v2.1 with err := err, prev_len := len }), c2)

/-- The `while ((len = if_spi_prog_main_firmware_check_len(...)))` loop of
`if_spi_prog_main_firmware`, iterated at most `fuel` times. -/
def if_spi_prog_main_firmware_loop (K : if_spi_h) (wfuel : Nat) (image : List Nat) :
    Nat → if_spi_card → main_fw_vars → Run (loop_exit × main_fw_vars)
  | 0, _, _ => .error .fuel
  | fuel + 1, c, v =>
    match if_spi_prog_main_firmware_body K wfuel image c v with
    | .error h => .error h
    | .ok ((some x, v1), c1) => .ok ((x, v1), c1)
    | .ok ((none, v1), c1) => if_spi_prog_main_firmware_loop K wfuel image fuel c1 v1

/-- The `out:` tail of `if_spi_prog_main_firmware`. -/
def if_spi_prog_main_firmware_out (c : if_spi_card) (err : Int) : Run Int :=
  .ok (err, if err ≠ 0 then emit c (.pr_err err) else c)

/-- Source `if_spi_prog_main_firmware`.  `fuel` bounds the chunk loop and
`wfuel` each 16-bit wait. -/
def if_spi_prog_main_firmware (K : if_spi_h) (fuel wfuel : Nat) (c : if_spi_card) : Run Int :=
  match spu_set_interrupt_mode K c 1 0 with
  | .error h => .error h
  | .ok (err, c1) =>
    if err ≠ 0 then if_spi_prog_main_firmware_out c1 err
    else
      let (ferr, image) := c1.sys.firmware c1.main_fw_name
      if ferr ≠ 0 then if_spi_prog_main_firmware_out (emit c1 (.pr_err ferr)) ferr
      else
        match spu_wait_for_u16 K wfuel c1 K.IF_SPI_SCRATCH_1_REG 0 0 with
        | .error h => .error h
        | .ok (werr, c2) =>
          if werr ≠ 0 then if_spi_prog_main_firmware_out (emit c2 (.pr_err werr)) werr
          else
            match if_spi_prog_main_firmware_loop K wfuel image fuel c2
                (main_fw_vars_init image) with
            | .error h => .error h
            | .ok ((.release, v), c3) => if_spi_prog_main_firmware_out c3 v.err
            | .ok ((.fall, v), c3) =>
              let c4 := if v.bytes > v.prev_len then emit c3 (.pr_err 0) else c3
              match spu_wait_for_u32 K c4 K.IF_SPI_SCRATCH_4_REG
                  K.SUCCESSFUL_FW_DOWNLOAD_MAGIC with
              | .error h => .error h
              | .ok (cerr, c5) =>
                if cerr ≠ 0 then if_spi_prog_main_firmware_out (emit c5 (.pr_err cerr)) cerr
                else if_spi_prog_main_firmware_out c5 cerr

/-- The part of `if_spi_prog_main_firmware` that follows its initial wait on
scratch register 1: the chunk loop, the check for bytes left over and the
confirmation of the download, for the image `image` and entered in state `c`. -/
def if_spi_prog_main_firmware_chunks (K : if_spi_h) (fuel wfuel : Nat) (image : List Nat)
    (c : if_spi_card) : Run Int :=
  match if_spi_prog_main_firmware_loop K wfuel image fuel c (main_fw_vars_init image) with
  | .error h => .error h
  | .ok ((.release, v), c3) => if_spi_prog_main_firmware_out c3 v.err
  | .ok ((.fall, v), c3) =>
    let c4 := if v.bytes > v.prev_len then emit c3 (.pr_err 0) else c3
    match spu_wait_for_u32 K c4 K.IF_SPI_SCRATCH_4_REG K.SUCCESSFUL_FW_DOWNLOAD_MAGIC with
    | .error h => .error h
    | .ok (cerr, c5) =>
      if cerr ≠ 0 then if_spi_prog_main_firmware_out (emit c5 (.pr_err cerr)) cerr
      else if_spi_prog_main_firmware_out c5 cerr

/-! ## SPI transfer thread -/

/-- The `out:` label of `if_spi_c2h_cmd` and of `if_spi_c2h_data`: log the
error, if any, and return it. -/
def if_spi_c2h_out (c : if_spi_card) (err : Int) : Run Int :=
  .ok (err, if err ≠ 0 then emit c (.pr_err err) else c)

/-- The part of `if_spi_c2h_cmd` under `driver_lock`, for the slot index `i`
it computed: store the `len` bytes of the response in slot `i` of `priv` and
notify the libertas core.  The slot `priv->resp_buf[i]` has room for
`LBS_UPLD_SIZE` bytes; the `memcpy` of a longer response runs past it. -/
def if_spi_c2h_cmd_notify (K : if_spi_h) (c : if_spi_card) (i len : Nat) : Run Int :=
  if c.priv.resp_len i ≠ 0 then .error .bug
  else if len > K.LBS_UPLD_SIZE then .error .fault
  else
    if_spi_c2h_out
      (emit { c with priv := { c.priv with
          resp_len := Function.update c.priv.resp_len i len,
          resp_buf := Function.update c.priv.resp_buf i
            (store (c.priv.resp_buf i) (c.cmd_buffer.take len)) } }
        (.lbs_notify_command_response i)) 0

/-- Source `if_spi_c2h_cmd`: move a command response from the card to the host. -/
def if_spi_c2h_cmd (K : if_spi_h) (c : if_spi_card) : Run Int :=
  match spu_read_u16 K c K.IF_SPI_SCRATCH_2_REG with
  | .error h => .error h
  | .ok ((err, len), c1) =>
    if err ≠ 0 then if_spi_c2h_out c1 err
    else if len = 0 then if_spi_c2h_out (emit c1 (.pr_err (-EINVAL))) (-EINVAL)
    else if len > K.IF_SPI_CMD_BUF_SIZE then
      if_spi_c2h_out (emit c1 (.pr_err (-EINVAL))) (-EINVAL)
    else
      match spu_read K c1 K.IF_SPI_CMD_RDWRPORT_REG c1.cmd_buffer (ALIGN len 4) with
      | .error h => .error h
      | .ok ((err2, buf), c2) =>
        if err2 ≠ 0 then if_spi_c2h_out { c2 with cmd_buffer := buf } err2
        else if_spi_c2h_cmd_notify K { c2 with cmd_buffer := buf }
          (if c2.priv.resp_idx = 0 then 1 else 0) len

/-- The end of `if_spi_c2h_data`: pass the `len` received bytes to
`lbs_process_rxed_packet`, and free the buffer if that fails. -/
def if_spi_c2h_data_rx (c : if_spi_card) (data : List Nat) (len : Nat) : Run Int :=
  let err := c.sys.rx_res c.sys.nrx
  let c1 := emit { c with sys := { c.sys with nrx := c.sys.nrx + 1 } }
    (.lbs_process_rxed_packet (data.take len) err)
  if err ≠ 0 then if_spi_c2h_out (emit c1 .dev_kfree_skb) err
  else if_spi_c2h_out c1 err

/-- Source `if_spi_c2h_data`: move a data packet from the card to the host.
The buffer granted by `dev_alloc_skb(MRVDRV_ETH_RX_PACKET_BUFFER_SIZE)` has
room for that many bytes; `skb_reserve` gives `IPFIELD_ALIGN_OFFSET` of them
away and `skb_put(skb, len)` claims `len` of the rest, stopping the kernel when
they are not there; a successful read of `ALIGN(len, 4)` bytes that is longer
than the rest writes past the buffer.  Both count as memory faults. -/
def if_spi_c2h_data (K : if_spi_h) (c : if_spi_card) : Run Int :=
  match spu_read_u16 K c K.IF_SPI_SCRATCH_1_REG with
  | .error h => .error h
  | .ok ((err, len), c1) =>
    if err ≠ 0 then if_spi_c2h_out c1 err
    else if len = 0 then if_spi_c2h_out (emit c1 (.pr_err (-EINVAL))) (-EINVAL)
    else if len > K.MRVDRV_ETH_RX_PACKET_BUFFER_SIZE then
      if_spi_c2h_out (emit c1 (.pr_err (-EINVAL))) (-EINVAL)
    else
      let c2 := { c1 with sys := { c1.sys with nalloc := c1.sys.nalloc + 1 } }
      if !c1.sys.alloc_ok c1.sys.nalloc then if_spi_c2h_out c2 (-ENOBUFS)
      else if K.IPFIELD_ALIGN_OFFSET + len > K.MRVDRV_ETH_RX_PACKET_BUFFER_SIZE then
        .error .fault
      else
        match spu_read K c2 K.IF_SPI_DATA_RDWRPORT_REG
            (List.replicate (K.MRVDRV_ETH_RX_PACKET_BUFFER_SIZE - K.IPFIELD_ALIGN_OFFSET) 0)
            (ALIGN len 4) with
        | .error h => .error h
        | .ok ((err2, data), c3) =>
          if err2 ≠ 0 then if_spi_c2h_out (emit c3 .dev_kfree_skb) err2
          else if K.IPFIELD_ALIGN_OFFSET + ALIGN len 4 > K.MRVDRV_ETH_RX_PACKET_BUFFER_SIZE then
            .error .fault
          else if_spi_c2h_data_rx c3 data len

/-- The `out:` label of `if_spi_h2c`: free the packet and log the error, if
any. -/
def if_spi_h2c_out (c : if_spi_card) (packet : if_spi_packet) (err : Int) : Run Unit :=
  .ok ((), if err ≠ 0 then emit (emit c (.kfree packet)) (.pr_err err)
    else emit c (.kfree packet))

/-- Source `if_spi_h2c`: move data or a command from the host to the card and
release the packet. -/
def if_spi_h2c (K : if_spi_h) (c : if_spi_card) (packet : if_spi_packet) (type : Int) :
    Run Unit :=
  let c0 := emit c (.h2c type.toNat packet)
  if type = K.MVMS_DAT then
    match spu_write K c0 K.IF_SPI_DATA_RDWRPORT_REG packet.buffer packet.blen with
    | .error h => .error h
    | .ok (err, c1) => if_spi_h2c_out c1 packet err
  else if type = K.MVMS_CMD then
    match spu_write K c0 K.IF_SPI_CMD_RDWRPORT_REG packet.buffer packet.blen with
    | .error h => .error h
    | .ok (err, c1) => if_spi_h2c_out c1 packet err
  else if_spi_h2c_out (emit c0 (.pr_err (-EINVAL))) packet (-EINVAL)

/-- Source `if_spi_e2h`: inform the host about a card event. -/
def if_spi_e2h (K : if_spi_h) (c : if_spi_card) : Run Unit :=
  match spu_read_u32 K c K.IF_SPI_SCRATCH_3_REG 0 with
  | .error h => .error h
  | .ok ((err, cause), c1) =>
    if err ≠ 0 then .ok ((), emit c1 (.pr_err err))
    else .ok ((), emit c1 (.lbs_queue_event (cause &&& 0xff)))

/-- The `err:` label at the end of one pass of the worker loop. -/
def lbs_spi_thread_err (c : if_spi_card) (err : Int) : Run Int :=
  .ok (err, if err ≠ 0 then emit c (.pr_err err) else c)

/-- The command-download-ready block of `lbs_spi_thread`: report the previous
command as done, then take the head of the command list, if any, and send it. -/
def lbs_spi_thread_cmd_download (K : if_spi_h) (c : if_spi_card) : Run Unit :=
  let c1 := emit c .lbs_host_to_card_done
  match c1.cmd_packet_list with
  | [] => .ok ((), c1)
  | packet :: rest => if_spi_h2c K { c1 with cmd_packet_list := rest } packet K.MVMS_CMD

/-- The data-download-ready block of `lbs_spi_thread`: take the head of the
data list, if any, and send it. -/
def lbs_spi_thread_tx_download (K : if_spi_h) (c : if_spi_card) : Run Unit :=
  match c.data_packet_list with
  | [] => .ok ((), c)
  | packet :: rest => if_spi_h2c K { c with data_packet_list := rest } packet K.MVMS_DAT

/-- The part of the body of the worker loop of `lbs_spi_thread` that follows
the wake-up: read the host interrupt status and act on its bits.  The value
returned is `err` as it stands at the `err:` label. -/
def lbs_spi_thread_dispatch (K : if_spi_h) (c : if_spi_card) : Run Int :=
  match spu_read_u16 K c K.IF_SPI_HOST_INT_STATUS_REG with
  | .error h => .error h
  | .ok ((err, hiStatus), c1) =>
    if err ≠ 0 then lbs_spi_thread_err (emit c1 (.pr_err err)) err
    else
      let r1 : Run Int :=
        if hiStatus &&& K.IF_SPI_HIST_CMD_UPLOAD_RDY ≠ 0 then if_spi_c2h_cmd K c1
        else .ok (err, c1)
      match r1 with
      | .error h => .error h
      | .ok (err1, c2) =>
        if err1 ≠ 0 then lbs_spi_thread_err c2 err1
        else
          let r2 : Run Int :=
            if hiStatus &&& K.IF_SPI_HIST_RX_UPLOAD_RDY ≠ 0 then if_spi_c2h_data K c2
            else .ok (err1, c2)
          match r2 with
          | .error h => .error h
          | .ok (err2, c3) =>
            if err2 ≠ 0 then lbs_spi_thread_err c3 err2
            else
              let r3 : Run Unit :=
                if hiStatus &&& K.IF_SPI_HIST_CMD_DOWNLOAD_RDY ≠ 0 then
                  lbs_spi_thread_cmd_download K c3
                else .ok ((), c3)
              match r3 with
              | .error h => .error h
              | .ok (_, c4) =>
                let r4 : Run Unit :=
                  if hiStatus &&& K.IF_SPI_HIST_TX_DOWNLOAD_RDY ≠ 0 then
                    lbs_spi_thread_tx_download K c4
                  else .ok ((), c4)
                match r4 with
                | .error h => .error h
                | .ok (_, c5) =>
                  let r5 : Run Unit :=
                    if hiStatus &&& K.IF_SPI_HIST_CARD_EVENT ≠ 0 then if_spi_e2h K c5
                    else .ok ((), c5)
                  match r5 with
                  | .error h => .error h
                  | .ok (_, c6) => lbs_spi_thread_err c6 err2

/-- The wake-up `do ... while (err == EINTR)` of `lbs_spi_thread`, iterated at
most `fuel` times: the value is `none` when the thread left through `do_exit`,
else the result of `down_interruptible`. -/
def lbs_spi_thread_wait : Nat → if_spi_card → Run (Option Int)
  | 0, _ => .error .fuel
  | fuel + 1, c =>
    let err := c.sys.down_res c.sys.ndown
    let c1 := { c with
      sys := { c.sys with ndown := c.sys.ndown + 1 },
      spi_ready := if err = 0 then c.spi_ready - 1 else c.spi_ready }
    if c1.run_thread = 0 then
      .ok (none, emit (emit { c1 with spi_thread_terminated := c1.spi_thread_terminated + 1 }
        .up_spi_thread_terminated) .do_exit)
    else if err = EINTR then lbs_spi_thread_wait fuel c1
    else .ok (some err, c1)

/-- One pass of the `while (1)` loop of `lbs_spi_thread`: the value is `true`
when the thread has exited. -/
def lbs_spi_thread_cycle (K : if_spi_h) (fuel : Nat) (c : if_spi_card) : Run Bool :=
  match lbs_spi_thread_wait fuel c with
  | .error h => .error h
  | .ok (none, c1) => .ok (true, c1)
  | .ok (some _, c1) =>
    match lbs_spi_thread_dispatch K c1 with
    | .error h => .error h
    | .ok (_, c2) => .ok (false, c2)

/-- Source `if_spi_terminate_spi_thread`, up to the point where it blocks on
`spi_thread_terminated`. -/
def if_spi_terminate_spi_thread (c : if_spi_card) : if_spi_card :=
  emit { c with run_thread := 0, spi_ready := c.spi_ready + 1 } .up_spi_ready

/-! ## Host to card -/

/-- The packet `if_spi_host_to_card` builds in its zeroed allocation of
`blen` payload bytes: `memcpy(packet->buffer, buf, nb)` followed by
`memset(packet->buffer + nb, 0, blen - nb)`; nothing when a copy leaves the
caller's buffer or the allocation. -/
def if_spi_host_to_card_packet (buf : List Nat) (nb blen : Nat) : Option if_spi_packet :=
  match memcpy_src buf 0 nb with
  | none => none
  | some data =>
    if nb > blen then none
    else
      some { blen := blen,
             buffer := (store (List.replicate blen 0) data).take nb ++
               List.replicate (blen - nb) 0 }

/-- The `switch (type)` of `if_spi_host_to_card`: append the packet to the
tail of the list its type selects.  The value is `err`. -/
def if_spi_host_to_card_enqueue (K : if_spi_h) (c : if_spi_card) (type : Nat)
    (packet : if_spi_packet) : Int × if_spi_card :=
  if type = K.MVMS_CMD then
    (0, { c with
      priv := { c.priv with dnld_sent := K.DNLD_CMD_SENT },
      cmd_packet_list := c.cmd_packet_list ++ [packet] })
  else if type = K.MVMS_DAT then
    (0, { c with
      priv := { c.priv with dnld_sent := K.DNLD_DATA_SENT },
      data_packet_list := c.data_packet_list ++ [packet] })
  else (-EINVAL, emit c (.pr_err (-EINVAL)))

/-- The wake-up of the worker with `up(&card->spi_ready)`. -/
def up_spi_ready (c : if_spi_card) : if_spi_card :=
  emit { c with spi_ready := c.spi_ready + 1 } .up_spi_ready

/-- Source `if_spi_host_to_card`: queue a buffer of `nb` bytes for the worker
(`type` is a `u8` and `nb` a `u16` parameter). -/
def if_spi_host_to_card (K : if_spi_h) (c : if_spi_card) (type : Nat) (buf : List Nat)
    (nb : Nat) : Run Int :=
  if u16 nb = 0 then .ok (-EINVAL, emit c (.pr_err (-EINVAL)))
  else
    let c1 := { c with sys := { c.sys with nalloc := c.sys.nalloc + 1 } }
    if !c.sys.alloc_ok c.sys.nalloc then .ok (-ENOMEM, c1)
    else
      match if_spi_host_to_card_packet buf (u16 nb) (u16 (ALIGN (u16 nb) 4)) with
      | none => .error .fault
      | some packet =>
        let r := if_spi_host_to_card_enqueue K c1 (u8 type) packet
        .ok (r.1, up_spi_ready r.2)

/-! ## Firmware names -/

/-- Source table `chip_id_to_device_name`: pairs of chip id and device name. -/
def chip_id_to_device_name : List (Nat × Nat) := [(0x04, 8385), (0x0b, 8686)]

/-- The text `snprintf(buf, size, "<pre>%d<post>", n)` leaves in `buf`: at most
`size - 1` characters before the terminating NUL. -/
def snprintf_d (size : Nat) (pre : List Char) (n : Nat) (post : List Char) : List Char :=
  (pre ++ Nat.toDigits 10 n ++ post).take (size - 1)

/-- Source `if_spi_calculate_fw_names`: the result code and the contents of the
two name buffers on return. -/
def if_spi_calculate_fw_names (card_id : Nat) (helper_fw main_fw : List Char) :
    Int × List Char × List Char :=
  let i := chip_id_to_device_name.findIdx (fun e => e.1 = u16 card_id)
  if i = chip_id_to_device_name.length then (-EAFNOSUPPORT, helper_fw, main_fw)
  else
    let name := (chip_id_to_device_name.getD i (0, 0)).2
    (0, snprintf_d FIRMWARE_NAME_MAX "libertas/gspi".toList name "_hlp.bin".toList,
      snprintf_d FIRMWARE_NAME_MAX "libertas/gspi".toList name ".bin".toList)

/-! ## SPI callbacks -/

/-- Source `free_if_spi_card`: with the worker stopped, unlink and free every
packet of the command list, then of the data list, clear the driver data of
the SPI device and free the card. -/
def free_if_spi_card (c : if_spi_card) : Run Unit :=
  if c.run_thread ≠ 0 then .error .bug
  else
    .ok ((), { c with
      cmd_packet_list := [],
      data_packet_list := [],
      trace := c.trace ++ c.cmd_packet_list.map Event.kfree ++
        c.data_packet_list.map Event.kfree ++ [.spi_set_drvdata false, .kfree_card] })

/-- The platform data `struct libertas_spi_platform_data` of
`linux/spi/libertas_spi.h`, as far as `if_spi.c` reads it: `setup` is the
result of the setup hook if there is one, `teardown` tells whether there is a
teardown hook. -/
structure libertas_spi_platform_data where
  use_dummy_writes : Nat
  gpio_cs : Nat
  setup : Option Int
  teardown : Bool

/-- What `if_spi_probe` is given and what the kernel
answers: the platform data (if any), the results of `gpio_request` and
`gpio_direction_output`, whether `lbs_add_card` returns a device, the error of
`kthread_run` (0: the thread runs), the results of `request_irq` and of
`lbs_start_card`. -/
structure attach_env where
  pdata : Option libertas_spi_platform_data
  gpio_request : Int
  gpio_direction_output : Int
  lbs_add_card : Bool
  kthread_run : Int
  request_irq : Int
  lbs_start_card : Int

/-- The labels of `if_spi_probe`. -/
inductive probe_label where
  | release_irq
  | terminate_thread
  | remove_card
  | free_gpio
  | free_card
  | out
deriving DecidableEq, Repr

/-- The card structure `if_spi_probe` gets from `kzalloc` and fills in before
it touches the hardware: every field zero, then the chip-select pin, the time
of the previous transfer, the two semaphores at 0 and the two lists empty. -/
def if_spi_probe_card (K : if_spi_h) (c : if_spi_card) (pdata : libertas_spi_platform_data) :
    if_spi_card :=
  let j := jiffies (emit { c with sys := { c.sys with nalloc := c.sys.nalloc + 1 } }
    (.spi_set_drvdata true))
  { j.2 with
    helper_fw_name := [],
    main_fw_name := [],
    card_id := 0,
    card_rev := 0,
    gpio_cs := pdata.gpio_cs,
    prev_xfer_time := j.1,
    use_dummy_writes := 0,
    spu_port_delay := 0,
    spu_reg_delay := 0,
    run_thread := 0,
    spi_ready := 0,
    spi_thread_terminated := 0,
    cmd_buffer := List.replicate K.IF_SPI_CMD_BUF_SIZE 0,
    cmd_packet_list := [],
    data_packet_list := [] }

/-- The call of the setup hook of the platform data in `if_spi_probe`, if
there is one.  The value is `err`. -/
def if_spi_probe_setup (c : if_spi_card) (pdata : libertas_spi_platform_data) :
    Int × if_spi_card :=
  match pdata.setup with
  | none => (0, c)
  | some r => (r, emit c (.pdata_setup r))

/-- The set-up of the chip-select GPIO in `if_spi_probe`, compiled in unless
the kernel is configured for the LF1000. -/
def if_spi_probe_gpio (K : if_spi_h) (E : attach_env) (c : if_spi_card) :
    Option probe_label × Int × if_spi_card :=
  if K.CONFIG_ARCH_LF1000 then (none, 0, c)
  else
    let c1 := emit c (.gpio_request E.gpio_request)
    if E.gpio_request ≠ 0 then (some .free_card, E.gpio_request, c1)
    else
      let c2 := emit c1 (.gpio_direction_output E.gpio_direction_output)
      if E.gpio_direction_output ≠ 0 then (some .free_gpio, E.gpio_direction_output, c2)
      else (none, 0, c2)

/-- The firmware load of `if_spi_probe`: read scratch register 4 and, unless
it holds the magic of a finished download, derive the firmware names from the
chip id and run the helper and the main download.  The value is `err`. -/
def if_spi_probe_firmware (K : if_spi_h) (fuel wfuel : Nat) (c : if_spi_card) : Run Int :=
  match spu_read_u32 K c K.IF_SPI_SCRATCH_4_REG 0 with
  | .error h => .error h
  | .ok ((err, scratch), c1) =>
    if err ≠ 0 then .ok (err, c1)
    else if scratch = K.SUCCESSFUL_FW_DOWNLOAD_MAGIC then .ok (err, c1)
    else
      let n := if_spi_calculate_fw_names c1.card_id c1.helper_fw_name c1.main_fw_name
      if n.1 ≠ 0 then
        .ok (n.1, emit { c1 with helper_fw_name := n.2.1, main_fw_name := n.2.2 } (.pr_err n.1))
      else
        match if_spi_prog_helper_firmware K fuel wfuel
            { c1 with helper_fw_name := n.2.1, main_fw_name := n.2.2 } with
        | .error h => .error h
        | .ok (e1, c2) =>
          if e1 ≠ 0 then .ok (e1, c2) else if_spi_prog_main_firmware K fuel wfuel c2

/-- The part of `if_spi_probe` that talks to the SPI Interface Unit, every
failure of which leads to the label `free_gpio`: `spu_init`, the chip
revision, the firmware load and the switch to automatic interrupts.  The value
is `err`. -/
def if_spi_probe_spu (K : if_spi_h) (fuel wfuel : Nat) (c : if_spi_card)
    (pdata : libertas_spi_platform_data) : Run Int :=
  match spu_init K c pdata.use_dummy_writes with
  | .error h => .error h
  | .ok (e1, c1) =>
    if e1 ≠ 0 then .ok (e1, c1)
    else
      match spu_get_chip_revision K c1 with
      | .error h => .error h
      | .ok (e2, c2) =>
        if e2 ≠ 0 then .ok (e2, c2)
        else
          match if_spi_probe_firmware K fuel wfuel c2 with
          | .error h => .error h
          | .ok (e3, c3) =>
            if e3 ≠ 0 then .ok (e3, c3) else spu_set_interrupt_mode K c3 0 1

/-- The end of `if_spi_probe`: register the card with libertas, start the
worker thread, request the interrupt line and start the card.  The label is
the one the routine jumps to, `out` with `err` 0 on success. -/
def if_spi_probe_start (E : attach_env) (c : if_spi_card) : probe_label × Int × if_spi_card :=
  let c1 := emit c (.lbs_add_card E.lbs_add_card)
  if !E.lbs_add_card then (.free_gpio, - ENOMEM, c1)
  else
    let c2 := emit { c1 with
      priv := { c1.priv with fw_ready := 1, ps_supported := 1 },
      run_thread := 1 } (.kthread_run E.kthread_run)
    if E.kthread_run ≠ 0 then
      (.remove_card, E.kthread_run, emit { c2 with run_thread := 0 } (.pr_err E.kthread_run))
    else
      let c3 := emit c2 (.request_irq E.request_irq)
      if E.request_irq ≠ 0 then (.terminate_thread, E.request_irq, emit c3 (.pr_err E.request_irq))
      else
        let c4 := emit c3 (.lbs_start_card E.lbs_start_card)
        if E.lbs_start_card ≠ 0 then (.release_irq, E.lbs_start_card, c4)
        else (.out, 0, c4)

/-- The body of `if_spi_probe` above its labels: the label it leaves to, with
`err`. -/
def if_spi_probe_body (K : if_spi_h) (E : attach_env) (fuel wfuel : Nat) (c : if_spi_card) :
    Run (probe_label × Int) :=
  match E.pdata with
  | none => .ok ((.out, - EINVAL), c)
  | some pdata =>
    let s := if_spi_probe_setup c pdata
    if s.1 ≠ 0 then .ok ((.out, s.1), s.2)
    else if !s.2.sys.alloc_ok s.2.sys.nalloc then
      .ok ((.out, - ENOMEM), { s.2 with sys := { s.2.sys with nalloc := s.2.sys.nalloc + 1 } })
    else
      match if_spi_probe_gpio K E (if_spi_probe_card K s.2 pdata) with
      | (some l, err, c2) => .ok ((l, err), c2)
      | (none, _, c2) =>
        match if_spi_probe_spu K fuel wfuel c2 pdata with
        | .error h => .error h
        | .ok (err, c3) =>
          if err ≠ 0 then .ok ((.free_gpio, err), c3)
          else
            let r := if_spi_probe_start E c3
            .ok ((r.1, r.2.1), r.2.2)

/-- The code of `if_spi_probe` from the label `remove_card` on: unregister from
libertas, release the chip-select GPIO (unless configured for the LF1000) and
free the card. -/
def if_spi_probe_remove_card (K : if_spi_h) (c : if_spi_card) : Run Unit :=
  let c1 := emit c .lbs_remove_card
  free_if_spi_card (if K.CONFIG_ARCH_LF1000 then c1 else emit c1 .gpio_free)

/-- The code of `if_spi_probe` from the label it jumps to down to `out`; the
labels fall through to one another.  `if_spi_terminate_spi_thread` returns
once the worker has posted `spi_thread_terminated`. -/
def if_spi_probe_unwind (K : if_spi_h) (l : probe_label) (c : if_spi_card) : Run Unit :=
  match l with
  | .release_irq =>
    if_spi_probe_remove_card K (if_spi_terminate_spi_thread (emit c .free_irq))
  | .terminate_thread => if_spi_probe_remove_card K (if_spi_terminate_spi_thread c)
  | .remove_card => if_spi_probe_remove_card K c
  | .free_gpio => free_if_spi_card (if K.CONFIG_ARCH_LF1000 then c else emit c .gpio_free)
  | .free_card => free_if_spi_card c
  | .out => .ok ((), c)

/-- Source `if_spi_probe`. -/
def if_spi_probe (K : if_spi_h) (E : attach_env) (fuel wfuel : Nat) (c : if_spi_card) :
    Run Int :=
  match if_spi_probe_body K E fuel wfuel c with
  | .error h => .error h
  | .ok ((l, err), c1) =>
    match if_spi_probe_unwind K l c1 with
    | .error h => .error h
    | .ok (_, c2) => .ok (err, c2)

/-- Source `libertas_spi_remove`, for the platform data `card->pdata`;
`if_spi_terminate_spi_thread` returns once the worker has posted
`spi_thread_terminated`. -/
def libertas_spi_remove (K : if_spi_h) (c : if_spi_card) (pdata : libertas_spi_platform_data) :
    Run Int :=
  let c1 := emit (emit { c with priv := { c.priv with surpriseremoved := 1 } } .lbs_stop_card)
    .free_irq
  let c2 := emit (if_spi_terminate_spi_thread c1) .lbs_remove_card
  let c3 := if K.CONFIG_ARCH_LF1000 then c2 else emit c2 .gpio_free
  let c4 := if pdata.teardown then emit c3 .pdata_teardown else c3
  match free_if_spi_card c4 with
  | .error h => .error h
  | .ok (_, c5) => .ok (0, c5)

/-! ## Reading the trace and the device -/

/-- The 16-bit value the device returns on the `k`-th read of `reg`. -/
def rd_u16 (d : spi_device) (reg k : Nat) : Nat :=
  (d.rd_data reg k).getD 0 0 % 256 + 256 * ((d.rd_data reg k).getD 1 0 % 256)

/-- The 32-bit value the device returns on the `k`-th read of `reg`, low half
first. -/
def rd_u32 (d : spi_device) (reg k : Nat) : Nat :=
  u32 (rd_u16 d reg k |||
    (((d.rd_data reg k).getD 2 0 % 256 + 256 * ((d.rd_data reg k).getD 3 0 % 256)) <<< 16))

/-- All transfers written to the device succeed. -/
def writes_ok (c : if_spi_card) : Prop := ∀ n, c.spi.wr_res n = 0

/-- All reads of register `reg` succeed. -/
def reads_ok (c : if_spi_card) (reg : Nat) : Prop := ∀ k, c.spi.rd_res reg k = 0

/-- Events of the bus layer and of the log, as opposed to calls into the
libertas core, queue hand-overs and semaphore posts. -/
def bus_event : Event → Bool
  | .cs _ => true
  | .ndelay _ => true
  | .udelay _ => true
  | .mdelay _ => true
  | .spi_addr _ _ => true
  | .spi_dummy _ => true
  | .spi_out _ _ _ => true
  | .spi_in _ _ _ => true
  | .pr_err _ => true
  | _ => false

/-- Bus events other than payload writes. -/
def read_event : Event → Bool
  | .spi_out _ _ _ => false
  | e => bus_event e

/-- The payloads written to register `reg`, in order. -/
def port_writes (reg : Nat) (t : List Event) : List (List Nat) :=
  t.filterMap (fun e => match e with
    | .spi_out r b _ => if r = reg then some b else none
    | _ => none)

/-- The packets handed to `if_spi_h2c` with type `type`, in order. -/
def handed (type : Nat) (t : List Event) : List if_spi_packet :=
  t.filterMap (fun e => match e with
    | .h2c ty p => if ty = type then some p else none
    | _ => none)

/-- A card after bus activity: only the transfer counters, the clock position,
`prev_xfer_time` and the trace differ. -/
def bus_upd (c : if_spi_card) (a : Nat) (b : Nat → Nat) (n t : Nat) (evs : List Event) :
    if_spi_card :=
  { c with
    spi := { c.spi with nwr := a, nrd := b },
    sys := { c.sys with nclk := n },
    prev_xfer_time := t,
    trace := c.trace ++ evs }

/-- Card `d` results from `c` by bus activity that appended only events
satisfying `P` to the trace. -/
def touches (P : Event → Bool) (c d : if_spi_card) : Prop :=
  ∃ a b n t evs, d = bus_upd c a b n t evs ∧ ∀ e ∈ evs, P e = true

/-- The bytes the device delivers on its `k`-th read of `reg`, cut to `len`. -/
def rd_bytes (d : spi_device) (reg k len : Nat) : List Nat :=
  (List.range len).map (fun i => (d.rd_data reg k).getD i 0 % 256)

/-- The chunk the loop of `if_spi_prog_main_firmware` sends for a request of
`len` bytes when the source pointer is at offset `fw` and `bytes` bytes are
left: image bytes, followed by zeros where the image ends first. -/
def fw_chunk (image : List Nat) (fw bytes len : Nat) : List Nat :=
  if bytes < len then (image.drop fw).take bytes ++ List.replicate (len - bytes) 0
  else (image.drop fw).take len

/-- The test of `spu_wait_for_u16` on a polled value. -/
def wait_hit (target_mask target val : Nat) : Prop :=
  (target_mask ≠ 0 ∧ (val &&& target_mask) = target) ∨ (target_mask = 0 ∧ val ≠ 0)

instance (target_mask target val : Nat) : Decidable (wait_hit target_mask target val) := by
  unfold wait_hit
  infer_instance

/-- The trace after the `n`-th payload read of register `reg`. -/
def after_read (reg : Nat) : Nat → List Event → List Event
  | 0, t => t
  | _ + 1, [] => []
  | n + 1, .spi_in r _ _ :: t => if r = reg then after_read reg n t else after_read reg (n + 1) t
  | n + 1, _ :: t => after_read reg (n + 1) t

/-- The packet `if_spi_host_to_card` builds for a buffer of `nb` bytes: the
length padded to a multiple of 4, the bytes of the buffer, zeros in the
padding. -/
def padded_packet (buf : List Nat) (nb : Nat) : if_spi_packet :=
  { blen := ALIGN nb 4, buffer := buf.take nb ++ List.replicate (ALIGN nb 4 - nb) 0 }

/-- An action on the transfer queues: a submission through
`if_spi_host_to_card`, or a wake-up of the worker thread. -/
inductive queue_op where
  | submit (type : Nat) (buf : List Nat) (nb : Nat)
  | wake (fuel : Nat)

/-- Run a sequence of submissions and worker cycles.  The second component
collects, in order, the type and packet of every submission that returned 0. -/
def run_ops (K : if_spi_h) : List queue_op → if_spi_card →
    Except Halt (if_spi_card × List (Nat × if_spi_packet))
  | [], c => .ok (c, [])
  | .submit type buf nb :: ops, c =>
    match if_spi_host_to_card K c type buf nb with
    | .error h => .error h
    | .ok (err, c1) =>
      match run_ops K ops c1 with
      | .error h => .error h
      | .ok (d, acc) =>
        .ok (d, if err = 0 then (u8 type, padded_packet buf (u16 nb)) :: acc else acc)
  | .wake fuel :: ops, c =>
    match lbs_spi_thread_cycle K fuel c with
    | .error h => .error h
    | .ok (_, c1) => run_ops K ops c1

/-- The packets of type `type` among accepted submissions. -/
def accepted (type : Nat) (acc : List (Nat × if_spi_packet)) : List if_spi_packet :=
  (acc.filter (fun e => e.1 = type)).map (fun e => e.2)

/-- Modelled from the spec: values for the constants of the headers that are
not among the sources.  The bound on CRC errors is the 5 and the helper chunk
size the 64 the specification states; the register offsets, bit masks and
sizes are sample values, pairwise distinct where the driver tells them apart,
the response slot smaller than the command buffer as the build-time checks of
`if_spi_c2h_cmd` allow; the chip id is taken from the upper half of the device id register and the
revision from its low byte; the tree is configured for the LF1000. -/
def sample_h : if_spi_h :=
  { HZ := 100,
    IF_SPI_READ_OPERATION_MASK := 0x0,
    IF_SPI_WRITE_OPERATION_MASK := 0x8000,
    IF_SPI_IO_RDWRPORT_REG := 0x0C,
    IF_SPI_CMD_RDWRPORT_REG := 0x18,
    IF_SPI_DATA_RDWRPORT_REG := 0x24,
    IF_SPI_HOST_INT_STATUS_REG := 0x5C,
    IF_SPI_HOST_INT_STATUS_MASK_REG := 0x64,
    IF_SPI_HOST_INT_CTRL_REG := 0x40,
    IF_SPI_CARD_INT_CAUSE_REG := 0x44,
    IF_SPI_SCRATCH_1_REG := 0x28,
    IF_SPI_SCRATCH_2_REG := 0x2C,
    IF_SPI_SCRATCH_3_REG := 0x30,
    IF_SPI_SCRATCH_4_REG := 0x34,
    IF_SPI_HIST_TX_DOWNLOAD_RDY := 0x0001,
    IF_SPI_HIST_RX_UPLOAD_RDY := 0x0002,
    IF_SPI_HIST_CMD_DOWNLOAD_RDY := 0x0004,
    IF_SPI_HIST_CARD_EVENT := 0x0008,
    IF_SPI_HIST_CMD_UPLOAD_RDY := 0x0010,
    IF_SPI_HISM_TX_DOWNLOAD_RDY := 0x0001,
    IF_SPI_HISM_RX_UPLOAD_RDY := 0x0002,
    IF_SPI_HISM_CMD_DOWNLOAD_RDY := 0x0004,
    IF_SPI_HISM_CARDEVENT := 0x0008,
    IF_SPI_HISM_CMD_UPLOAD_RDY := 0x0010,
    IF_SPI_HICT_TX_DOWNLOAD_OVER_AUTO := 0x0001,
    IF_SPI_HICT_RX_UPLOAD_OVER_AUTO := 0x0002,
    IF_SPI_HICT_CMD_DOWNLOAD_OVER_AUTO := 0x0004,
    IF_SPI_HICT_CMD_UPLOAD_OVER_AUTO := 0x0008,
    IF_SPI_CIC_TX_DOWNLOAD_OVER := 0x0001,
    IF_SPI_CIC_CMD_DOWNLOAD_OVER := 0x0004,
    IF_SPI_CMD_BUF_SIZE := 2400,
    LBS_UPLD_SIZE := 2312,
    HELPER_FW_LOAD_CHUNK_SZ := 64,
    FIRMWARE_DNLD_OK := 0,
    MRVDRV_ETH_RX_PACKET_BUFFER_SIZE := 1600,
    IPFIELD_ALIGN_OFFSET := 2,
    MAX_MAIN_FW_LOAD_CRC_ERR := 5,
    SUCCESSFUL_FW_DOWNLOAD_MAGIC := 0x88888888,
    MVMS_DAT := 0,
    MVMS_CMD := 1,
    DNLD_CMD_SENT := 2,
    DNLD_DATA_SENT := 1,
    IF_SPI_DEVICEID_CTRL_REG := 0x00,
    IF_SPI_SPU_BUS_MODE_REG := 0x70,
    IF_SPI_DELAY_READ_REG := 0x6C,
    IF_SPI_BUS_MODE_SPI_CLOCK_PHASE_RISING := 0x08,
    IF_SPI_BUS_MODE_DELAY_METHOD_TIMED := 0x04,
    IF_SPI_BUS_MODE_DELAY_METHOD_DUMMY_CLOCK := 0x00,
    IF_SPI_BUS_MODE_16_BIT_ADDRESS_16_BIT_DATA := 0x02,
    IF_SPI_DEVICEID_CTRL_REG_TO_CARD_ID := fun dc => (dc &&& 0xffff0000) >>> 16,
    IF_SPI_DEVICEID_CTRL_REG_TO_CARD_REV := fun dc => dc &&& 0x000000ff,
    CONFIG_ARCH_LF1000 := true }

/-- A card at rest (empty queues, empty trace, thread running) in front of a
simulated device: `rd_data reg k` are the bytes of the `k`-th read of `reg`,
`clock` the readings of `jiffies`, `image` the main firmware image; every bus
transfer and allocation succeeds. -/
def sim_card (rd_data : Nat → Nat → List Nat) (clock : Nat → Nat) (image : List Nat) :
    if_spi_card :=
  { spi := { wr_res := fun _ => 0, rd_res := fun _ _ => 0, rd_data := rd_data,
             nwr := 0, nrd := fun _ => 0 },
    priv := { dnld_sent := 0, resp_idx := 0, resp_len := fun _ => 0, resp_buf := fun _ => [],
              fw_ready := 0, ps_supported := 0, surpriseremoved := 0 },
    sys := { clock := clock, nclk := 0, alloc_ok := fun _ => true, nalloc := 0,
             rx_res := fun _ => 0, nrx := 0, down_res := fun _ => 0, ndown := 0,
             firmware := fun _ => (0, image) },
    helper_fw_name := [],
    main_fw_name := [],
    card_id := 0,
    card_rev := 0,
    gpio_cs := 0,
    prev_xfer_time := 0,
    use_dummy_writes := 0,
    spu_port_delay := 0,
    spu_reg_delay := 0,
    run_thread := 1,
    spi_ready := 0,
    spi_thread_terminated := 0,
    cmd_buffer := [],
    cmd_packet_list := [],
    data_packet_list := [],
    trace := [] }

/-- Card `d` has the transfer queues of `c` and the same packets handed to
`if_spi_h2c`. -/
def qsame (c d : if_spi_card) : Prop :=
  d.cmd_packet_list = c.cmd_packet_list ∧ d.data_packet_list = c.data_packet_list ∧
    ∀ ty, handed ty d.trace = handed ty c.trace

/-- Between `c` and `d` the worker has handed over, in order, the packets at
the head of each list as it stood in `c` extended by the packets `accC`
(commands) and `accD` (data) appended meanwhile; what it has not handed over is
still in the lists of `d`. -/
def qmoved (K : if_spi_h) (c d : if_spi_card) (accC accD : List if_spi_packet) : Prop :=
  ∃ nc nd,
    handed K.MVMS_CMD d.trace = handed K.MVMS_CMD c.trace ++ nc ∧
    nc ++ d.cmd_packet_list = c.cmd_packet_list ++ accC ∧
    handed K.MVMS_DAT d.trace = handed K.MVMS_DAT c.trace ++ nd ∧
    nd ++ d.data_packet_list = c.data_packet_list ++ accD

/-- Whether a run returned. -/
def returned {α : Type} (r : Except Halt α) : Bool :=
  match r with
  | .ok _ => true
  | .error _ => false

/-- A device whose host interrupt status always reads 0x0005 (data- and
command-download ready with the sample constants) and whose other registers
read 0. -/
def download_ready_dev : Nat → Nat → List Nat :=
  fun reg _ => if reg = 0x5C then [5, 0] else [0, 0]

/-- Three submissions (two commands around one data buffer) followed by two
wake-ups of the worker. -/
def sample_ops : List queue_op :=
  [.submit 1 [1, 2, 3] 3, .submit 0 [9, 8, 7, 6, 5] 5, .submit 1 [4] 1, .wake 1, .wake 1]

/-- The state a run ended in, or `c` when it halted. -/
def state_of {α : Type} (r : Run α) (c : if_spi_card) : if_spi_card :=
  match r with
  | .ok (_, d) => d
  | .error _ => c

/-- The value a run returned, if it returned. -/
def value_of {α : Type} (r : Run α) : Option α :=
  match r with
  | .ok (a, _) => some a
  | .error _ => none

/-- A device whose host interrupt status always reads 0x001f (with the sample
constants: command upload, data upload, command download, data download and
card event at once) and whose other registers read 0; in particular scratch
register 2 announces a command response of length 0, which `if_spi_c2h_cmd`
rejects. -/
def all_bits_dev : Nat → Nat → List Nat :=
  fun reg _ => if reg = 0x5C then [0x1f, 0] else [0, 0]

/-- A running card with one command packet and one data packet queued, in
front of `all_bits_dev`. -/
def busy_card : if_spi_card :=
  { sim_card all_bits_dev (fun _ => 0) [] with
    cmd_packet_list := [{ blen := 4, buffer := [1, 2, 3, 4] }],
    data_packet_list := [{ blen := 4, buffer := [5, 6, 7, 8] }] }

/-- The deadline `jiffies + 5*HZ` that `spu_wait_for_u16` computes when it is
entered in state `c`. -/
def wait_deadline (K : if_spi_h) (c : if_spi_card) : Nat :=
  ulong (ulong (c.sys.clock c.sys.nclk) + 5 * K.HZ)

/-- The reading of `jiffies` that `spu_wait_for_u16`, entered in state `c`,
compares with its deadline after its poll number `i` (from 0): the call reads
the clock once for the deadline, and every poll reads it twice in its bus
transaction and once for the comparison. -/
def wait_clock (c : if_spi_card) (i : Nat) : Nat :=
  ulong (c.sys.clock (c.sys.nclk + 3 * i + 3))

/-- The value of poll number `i` (from 0) of register `reg` by a routine
entered in state `c`. -/
def poll_u16 (c : if_spi_card) (reg i : Nat) : Nat :=
  rd_u16 c.spi (u16 reg) (c.spi.nrd (u16 reg) + i)

/-- The bus result of poll number `i` (from 0) of register `reg` by a routine
entered in state `c`. -/
def poll_res (c : if_spi_card) (reg i : Nat) : Int :=
  c.spi.rd_res (u16 reg) (c.spi.nrd (u16 reg) + i)

/-- Card `d` faces the same device and kernel as `c`: the oracles agree. -/
def same_dev (c d : if_spi_card) : Prop :=
  d.spi.wr_res = c.spi.wr_res ∧ d.spi.rd_res = c.spi.rd_res ∧ d.spi.rd_data = c.spi.rd_data ∧
    d.sys.clock = c.sys.clock

/-- A device on which the main firmware load meets no bus error and finds the
card ready for a command download at every poll of the host interrupt status,
for constants under which the registers involved are distinct. -/
def fw_dev_ok (K : if_spi_h) (c : if_spi_card) : Prop :=
  writes_ok c ∧ reads_ok c (u16 K.IF_SPI_HOST_INT_STATUS_REG) ∧
    reads_ok c (u16 K.IF_SPI_SCRATCH_1_REG) ∧
    (∀ k, wait_hit (u16 K.IF_SPI_HIST_CMD_DOWNLOAD_RDY) (u16 K.IF_SPI_HIST_CMD_DOWNLOAD_RDY)
      (rd_u16 c.spi (u16 K.IF_SPI_HOST_INT_STATUS_REG) k)) ∧
    u16 K.IF_SPI_HOST_INT_STATUS_REG ≠ u16 K.IF_SPI_SCRATCH_1_REG ∧
    u16 K.IF_SPI_HOST_INT_STATUS_REG ≠ u16 K.IF_SPI_CMD_RDWRPORT_REG ∧
    u16 K.IF_SPI_CARD_INT_CAUSE_REG ≠ u16 K.IF_SPI_CMD_RDWRPORT_REG

/-- The length reply number `i` (from 0) that the chunk loop of
`if_spi_prog_main_firmware` reads from scratch register 1 when entered in
state `c`. -/
def len_reply (K : if_spi_h) (c : if_spi_card) (i : Nat) : Nat :=
  poll_u16 c K.IF_SPI_SCRATCH_1_REG i

/-- The chunks written to the command port so far. -/
def cmd_chunks (K : if_spi_h) (c : if_spi_card) : List (List Nat) :=
  port_writes (u16 K.IF_SPI_CMD_RDWRPORT_REG) c.trace

/-- The chunk length a length reply asks for: the reply with its low bit
cleared. -/
def reply_len (r : Nat) : Nat := r - r % 2

/-- The CRC-error flag of a length reply: its low bit. -/
def reply_crc (r : Nat) : Nat := r % 2

/-- The loop variables of `if_spi_prog_main_firmware` after it has taken the
length reply `r` into account: the CRC flag set from the reply, then the
counting or advancing step. -/
def vars_after (K : if_spi_h) (v : main_fw_vars) (r : Nat) : main_fw_vars :=
  (if_spi_prog_main_firmware_count K { v with crc_err := reply_crc r }).1

/-- Whether the length reply `r` takes the CRC error count past
`MAX_MAIN_FW_LOAD_CRC_ERR`. -/
def crc_over (K : if_spi_h) (v : main_fw_vars) (r : Nat) : Bool :=
  (if_spi_prog_main_firmware_count K { v with crc_err := reply_crc r }).2

/-- A device that is always ready for a command download (host interrupt
status 0x0004 with the sample constants) and whose scratch register 1 reads 4,
then 5 (a request for 4 bytes with the CRC-error bit), then 4 again. -/
def crc_retry_dev : Nat → Nat → List Nat :=
  fun reg k => if reg = 0x5C then [4, 0] else if reg = 0x28 then
    (if k = 1 then [5, 0] else [4, 0]) else [0, 0]

/-- A device that is always ready for a command download and whose scratch
register 1 always reads 3: a request for 2 bytes with the CRC-error bit. -/
def crc_always_dev : Nat → Nat → List Nat :=
  fun reg _ => if reg = 0x5C then [4, 0] else if reg = 0x28 then [3, 0] else [0, 0]

/-- A device that is always ready for a command download and whose scratch
register 1 reads 3 on even reads and 2 on odd reads: every request for 2 bytes
with the CRC-error bit is followed by a clean request for 2 bytes. -/
def crc_alternating_dev : Nat → Nat → List Nat :=
  fun reg k => if reg = 0x5C then [4, 0] else if reg = 0x28 then
    (if k % 2 = 0 then [3, 0] else [2, 0]) else [0, 0]

/-- The number of times register `reg` has been read since state `c`. -/
def reads_since (c d : if_spi_card) (reg : Nat) : Nat :=
  d.spi.nrd (u16 reg) - c.spi.nrd (u16 reg)

/-- A card at rest in front of `crc_always_dev`, with a main firmware image
of 8 bytes. -/
def crc_always_card : if_spi_card :=
  sim_card crc_always_dev (fun _ => 0) [1, 2, 3, 4, 5, 6, 7, 8]

/-- A card at rest in front of `crc_alternating_dev`, with a main firmware
image of 16 bytes. -/
def crc_alternating_card : if_spi_card :=
  sim_card crc_alternating_dev (fun _ => 0) (List.range 16)

/-! ## More observers and sample devices -/

/-- The level to which the driver last drove chip select (0 asserts it), if
it has driven it at all. -/
def cs_level (t : List Event) : Option Nat :=
  (t.filterMap (fun e => match e with
    | .cs l => some l
    | _ => none)).getLast?

/-- A card in dummy-write mode with a register delay of 16 (one dummy word per
read) in front of a device that fails the second transfer written to it: the
dummy word of the first read. -/
def dummy_fail_card : if_spi_card :=
  { sim_card (fun _ _ => [0, 0]) (fun _ => 0) [] with
    spi := { wr_res := fun n => if n = 1 then - EIO else 0, rd_res := fun _ _ => 0,
             rd_data := fun _ _ => [0, 0], nwr := 0, nrd := fun _ => 0 },
    use_dummy_writes := 1,
    spu_reg_delay := 16 }

/-- Every payload written, with its register, in order. -/
def bus_writes (t : List Event) : List (Nat × List Nat) :=
  t.filterMap (fun e => match e with
    | .spi_out r b _ => some (r, b)
    | _ => none)

/-- Every payload read, as register and length in bytes, in order. -/
def bus_reads (t : List Event) : List (Nat × Nat) :=
  t.filterMap (fun e => match e with
    | .spi_in r n _ => some (r, n)
    | _ => none)

/-- The packets released with `kfree`, in order. -/
def frees (t : List Event) : List if_spi_packet :=
  t.filterMap (fun e => match e with
    | .kfree p => some p
    | _ => none)

/-- Bus events that carry no payload in either direction. -/
def quiet_event : Event → Bool
  | .spi_in _ _ _ => false
  | e => read_event e

/-- The response slots of which the libertas core was notified, in order. -/
def notified (t : List Event) : List Nat :=
  t.filterMap (fun e => match e with
    | .lbs_notify_command_response i => some i
    | _ => none)

/-- A device that announces a command response of 2316 bytes in scratch
register 2 (0x090c, low byte first) and reads 0 elsewhere: with the sample
constants more than a response slot holds (2312) and no more than the command
buffer holds (2400). -/
def long_resp_dev : Nat → Nat → List Nat :=
  fun reg _ => if reg = 0x2C then [0x0c, 0x09] else [0, 0]

/-- A device that announces 5 bytes in scratch registers 1 and 2 and delivers
the bytes 1 to 8 on every other register. -/
def upload_dev : Nat → Nat → List Nat :=
  fun reg _ => if reg = 0x28 ∨ reg = 0x2C then [5, 0] else [1, 2, 3, 4, 5, 6, 7, 8]

/-- A card at rest whose two response slots hold `LBS_UPLD_SIZE` zero bytes
each (2312 with the sample constants), in front of the simulated device
`rd_data`. -/
def slot_card (rd_data : Nat → Nat → List Nat) : if_spi_card :=
  { sim_card rd_data (fun _ => 0) [] with
    priv := { (sim_card rd_data (fun _ => 0) []).priv with
      resp_buf := fun _ => List.replicate 2312 0 } }

/-- Events of a worker thread that goes on: everything but the post of
`spi_thread_terminated` and `do_exit`. -/
def worker_event : Event → Bool
  | .up_spi_thread_terminated => false
  | .do_exit => false
  | _ => true

/-- Between `c` and `d` the worker has not left: `run_thread` and the
semaphore `spi_thread_terminated` are as they were, and the trace has grown by
events other than the post of `spi_thread_terminated` and `do_exit`. -/
def stays (c d : if_spi_card) : Prop :=
  d.run_thread = c.run_thread ∧ d.spi_thread_terminated = c.spi_thread_terminated ∧
    ∃ evs, d.trace = c.trace ++ evs ∧ ∀ e ∈ evs, worker_event e = true

/-- A card at rest whose device reads 0 on every register, with a clock that
advances 100 ticks per reading (one second with the sample `HZ`) and a main
firmware image of 4 bytes. -/
def zero_scratch_card : if_spi_card :=
  sim_card (fun _ _ => [0, 0]) (fun n => 100 * n) [1, 2, 3, 4]

/-- The chunks of a main firmware load without CRC errors for the successive
lengths `ls` the device asks for, the source pointer being at offset `off`:
each chunk is cut from the image at the offset the lengths before it add up
to, and is followed by zeros where it runs past the end of the image. -/
def main_chunks (image : List Nat) : Nat → List Nat → List (List Nat)
  | _, [] => []
  | off, l :: ls => fw_chunk image off (image.length - off) l :: main_chunks image (off + l) ls

/-- A device that is always ready for a command download and whose scratch
register 1 reads 4 (initial wait), then asks for 4, 2 and 4 bytes, then
reads 0. -/
def clean_dev : Nat → Nat → List Nat :=
  fun reg k => if reg = 0x5C then [4, 0] else if reg = 0x28 then
    (if k ≤ 1 then [4, 0] else if k = 2 then [2, 0] else if k = 3 then [4, 0] else [0, 0])
    else [0, 0]

/-- A card at rest in front of `clean_dev`, with a main firmware image of 8
bytes. -/
def clean_card : if_spi_card :=
  sim_card clean_dev (fun _ => 0) [1, 2, 3, 4, 5, 6, 7, 8]

/-- The writes of one round of the helper firmware load for each of the
chunks `chunks`: the chunk size to scratch register 1, the chunk to the command
port, then the download-over cause signal (host interrupt status cleared, cause
written). -/
def helper_writes (K : if_spi_h) : List (List Nat) → List (Nat × List Nat)
  | [] => []
  | ch :: rest =>
    (u16 K.IF_SPI_SCRATCH_1_REG, bytes_of_u16 (u16 K.HELPER_FW_LOAD_CHUNK_SZ)) ::
    (u16 K.IF_SPI_CMD_RDWRPORT_REG, ch) ::
    (u16 K.IF_SPI_HOST_INT_STATUS_REG, bytes_of_u16 0) ::
    (u16 K.IF_SPI_CARD_INT_CAUSE_REG, bytes_of_u16 (u16 K.IF_SPI_CIC_CMD_DOWNLOAD_OVER)) ::
    helper_writes K rest

/-- The chunks of a helper image: chunk `i` holds the image bytes from offset
`HELPER_FW_LOAD_CHUNK_SZ * i`, followed by zeros where the image ends first;
there are as many chunks as the size of the image divided by the chunk size,
rounded up. -/
def helper_chunks (K : if_spi_h) (image : List Nat) : List (List Nat) :=
  (List.range ((image.length + K.HELPER_FW_LOAD_CHUNK_SZ - 1) / K.HELPER_FW_LOAD_CHUNK_SZ)).map
    (fun i => fw_chunk image (K.HELPER_FW_LOAD_CHUNK_SZ * i)
      (image.length - K.HELPER_FW_LOAD_CHUNK_SZ * i) K.HELPER_FW_LOAD_CHUNK_SZ)

/-- A device on which the helper firmware load meets no bus error and finds
the card ready for a command download at every poll of the host interrupt
status. -/
def helper_dev_ok (K : if_spi_h) (c : if_spi_card) : Prop :=
  writes_ok c ∧ reads_ok c (u16 K.IF_SPI_HOST_INT_STATUS_REG) ∧
    ∀ k, wait_hit (u16 K.IF_SPI_HIST_CMD_DOWNLOAD_RDY) (u16 K.IF_SPI_HIST_CMD_DOWNLOAD_RDY)
      (rd_u16 c.spi (u16 K.IF_SPI_HOST_INT_STATUS_REG) k)

/-- A card at rest in front of a device that is always ready for a command
download, with a helper firmware image of 70 bytes (the bytes 0 to 69). -/
def helper_card : if_spi_card :=
  sim_card (fun reg _ => if reg = 0x5C then [4, 0] else [0, 0]) (fun _ => 0) (List.range 70)

/-- A device whose scratch register 1 reads 0 at its first two reads and 3
from then on. -/
def late_scratch_dev : Nat → Nat → List Nat :=
  fun reg k => if reg = 0x28 then (if k < 2 then [0, 0] else [3, 0]) else [0, 0]

/-- A card on `late_scratch_dev`, with a clock that stands still. -/
def late_scratch_card : if_spi_card :=
  sim_card late_scratch_dev (fun _ => 0) [1, 2, 3, 4, 5, 6, 7, 8]

/-- Events of the bus layer and of a transfer in either direction: the
notifications of the libertas core of a response, a received packet or a card
event, and the release of a receive buffer or of a packet. -/
def transfer_event : Event → Bool
  | .lbs_notify_command_response _ => true
  | .lbs_process_rxed_packet _ _ => true
  | .lbs_queue_event _ => true
  | .dev_kfree_skb => true
  | .kfree _ => true
  | e => bus_event e

/-- Between `c` and `d` the queues and `run_thread` are as they were and the
trace has grown by events satisfying `P`. -/
def grows (P : Event → Bool) (c d : if_spi_card) : Prop :=
  d.cmd_packet_list = c.cmd_packet_list ∧ d.data_packet_list = c.data_packet_list ∧
    d.run_thread = c.run_thread ∧
    ∃ evs, d.trace = c.trace ++ evs ∧ ∀ e ∈ evs, P e = true

/-- The calls of `lbs_host_to_card_done` and the hand-overs to `if_spi_h2c`,
in order. -/
def queue_events (t : List Event) : List Event :=
  t.filterMap (fun e => match e with
    | .lbs_host_to_card_done => some e
    | .h2c _ _ => some e
    | _ => none)

/-- Why a run halted, if it did. -/
def halt_of {α : Type} (r : Except Halt α) : Option Halt :=
  match r with
  | .ok _ => none
  | .error h => some h

/-- A running card with two command packets and one data packet queued, in
front of `download_ready_dev`. -/
def download_card : if_spi_card :=
  { sim_card download_ready_dev (fun _ => 0) [] with
    cmd_packet_list := [{ blen := 4, buffer := [1, 2, 3, 4] }, { blen := 2, buffer := [9, 9] }],
    data_packet_list := [{ blen := 4, buffer := [5, 6, 7, 8] }] }

/-- A card in dummy-write mode with a port delay of 48 (three dummy words) and
a register delay of 16 (one dummy word), on a device that reads 0. -/
def dummy_card : if_spi_card :=
  { sim_card (fun _ _ => [0, 0]) (fun _ => 0) [] with
    use_dummy_writes := 1, spu_port_delay := 48, spu_reg_delay := 16 }

/-- The dummy words clocked out, with the result of each transfer, in order. -/
def dummy_words (t : List Event) : List Int :=
  t.filterMap (fun e => match e with
    | .spi_dummy r => some r
    | _ => none)

/-- The bus layer keeps to the contract of `spi_write` and `spi_read`: zero on
success, else a negative error code. -/
def bus_errno (c : if_spi_card) : Prop :=
  (∀ n, c.spi.wr_res n ≤ 0) ∧ ∀ r k, c.spi.rd_res r k ≤ 0

/-- Every packet queued has an even length. -/
def even_queues (c : if_spi_card) : Prop :=
  (∀ p ∈ c.cmd_packet_list, p.blen % 2 = 0) ∧ ∀ p ∈ c.data_packet_list, p.blen % 2 = 0

/-- A card on a device whose bus mode register reads back 0x0e at its first
read and 0x0a from then on (timed mode, then dummy-clock mode, with the sample
constants) and whose delay register reads 0x00300010: a register delay of 0x30
in the upper half, a port delay of 0x10 in the lower. -/
def delay_card : if_spi_card :=
  sim_card (fun reg k => if reg = 0x70 then (if k = 0 then [0x0e, 0] else [0x0a, 0])
    else if reg = 0x6C then [0x10, 0, 0x30, 0] else [0, 0]) (fun _ => 0) []

/-- A card with a main firmware image of 4 bytes in front of a device that is
always ready for a command download and whose scratch register 1 always reads
6: every length reply asks for a chunk of 6 bytes. -/
def short_image_card : if_spi_card :=
  sim_card (fun reg _ => if reg = 0x5C then [4, 0] else if reg = 0x28 then [6, 0] else [0, 0])
    (fun _ => 0) [1, 2, 3, 4]

/-- The loop variables of `if_spi_prog_main_firmware` on `short_image_card`
after its first iteration: a chunk of 6 bytes has been sent from offset 0, with
4 bytes of image left. -/
def short_image_vars : main_fw_vars :=
  { prev_len := 6, bytes := 4, fw := 0, crc_err := 0, num_crc_errs := 0, err := 0 }

/-- The posts of the wake semaphore `spi_ready` in a trace. -/
def wakes (t : List Event) : Nat := t.count .up_spi_ready

/-- A card at rest whose kernel grants no memory. -/
def no_memory_card : if_spi_card :=
  { sim_card (fun _ _ => [0, 0]) (fun _ => 0) [] with
    sys := { clock := fun _ => 0, nclk := 0, alloc_ok := fun _ => false, nalloc := 0,
             rx_res := fun _ => 0, nrx := 0, down_res := fun _ => 0, ndown := 0,
             firmware := fun _ => (0, []) } }

/-- The last payload written to register `reg`, if any. -/
def last_write (reg : Nat) (t : List Event) : Option (List Nat) :=
  (port_writes reg t).getLast?

/-- Constants under which the command buffer holds 6 bytes, a size that is not
a multiple of 4. -/
def odd_buf_h : if_spi_h := { sample_h with IF_SPI_CMD_BUF_SIZE := 6 }

/-- A card on a device ready for an attach that needs no firmware: the bus
mode register reads back 0x0e (timed mode with the sample constants), the delay
register 0x00300010 and scratch register 4 the magic 0x88888888 of a finished
download; the other registers read 0. -/
def attach_card : if_spi_card :=
  sim_card (fun reg _ => if reg = 0x70 then [0x0e, 0]
    else if reg = 0x6C then [0x10, 0, 0x30, 0]
    else if reg = 0x34 then [0x88, 0x88, 0x88, 0x88] else [0, 0, 0, 0]) (fun _ => 0) []

/-- Platform data without hooks, in timed mode. -/
def plain_pdata : libertas_spi_platform_data :=
  { use_dummy_writes := 0, gpio_cs := 0, setup := none, teardown := false }

/-- A kernel that registers the card and starts the worker thread but refuses
the interrupt line with `-EBUSY` (-16). -/
def irq_busy_env : attach_env :=
  { pdata := some plain_pdata, gpio_request := 0, gpio_direction_output := 0,
    lbs_add_card := true, kthread_run := 0, request_irq := -16, lbs_start_card := 0 }

/-- A card on a device that already runs its firmware but identifies itself
with a chip id outside the table: as `attach_card`, with the device id
register (0x00 with the sample constants) reading 0x00990000, chip id 0x99. -/
def alien_loaded_card : if_spi_card :=
  sim_card (fun reg _ => if reg = 0x70 then [0x0e, 0]
    else if reg = 0x6C then [0x10, 0, 0x30, 0]
    else if reg = 0x34 then [0x88, 0x88, 0x88, 0x88]
    else if reg = 0x00 then [0, 0, 0x99, 0] else [0, 0, 0, 0]) (fun _ => 0) []

/-- A card on a device with the same chip id 0x99 whose scratch register 4
reads 0: no firmware runs on it yet. -/
def alien_blank_card : if_spi_card :=
  sim_card (fun reg _ => if reg = 0x70 then [0x0e, 0]
    else if reg = 0x6C then [0x10, 0, 0x30, 0]
    else if reg = 0x00 then [0, 0, 0x99, 0] else [0, 0, 0, 0]) (fun _ => 0) []

/-- A kernel that grants every request of `if_spi_probe`. -/
def granting_env : attach_env :=
  { pdata := some plain_pdata, gpio_request := 0, gpio_direction_output := 0,
    lbs_add_card := true, kthread_run := 0, request_irq := 0, lbs_start_card := 0 }

/-! ## Frame lemmas for the bus layer -/

theorem touches_refl (P : Event → Bool) (c : if_spi_card) : touches P c c :=
  ⟨c.spi.nwr, c.spi.nrd, c.sys.nclk, c.prev_xfer_time, [], by simp [bus_upd], by simp⟩

theorem touches_trans {P : Event → Bool} {c d e : if_spi_card}
    (h1 : touches P c d) (h2 : touches P d e) : touches P c e := by
  obtain ⟨a, b, n, t, u, rfl, hu⟩ := h1
  obtain ⟨a2, b2, n2, t2, v, rfl, hv⟩ := h2
  refine ⟨a2, b2, n2, t2, u ++ v, by simp [bus_upd], ?_⟩
  intro x hx
  rcases List.mem_append.1 hx with h | h
  · exact hu x h
  · exact hv x h

theorem touches_mono {P Q : Event → Bool} (hPQ : ∀ e, P e = true → Q e = true)
    {c d : if_spi_card} (h : touches P c d) : touches Q c d := by
  obtain ⟨a, b, n, t, u, rfl, hu⟩ := h
  exact ⟨a, b, n, t, u, rfl, fun e he => hPQ e (hu e he)⟩

theorem read_event_bus (e : Event) (h : read_event e = true) : bus_event e = true := by
  cases e <;> simp_all [read_event, bus_event]

theorem touches_emit {P : Event → Bool} {c d : if_spi_card} {e : Event}
    (h : touches P c d) (he : P e = true) : touches P c (emit d e) :=
  touches_trans h ⟨d.spi.nwr, d.spi.nrd, d.sys.nclk, d.prev_xfer_time, [e],
    by simp [bus_upd, emit], by simpa using he⟩

theorem touches_jiffies {P : Event → Bool} {c d : if_spi_card}
    (h : touches P c d) : touches P c (jiffies d).2 :=
  touches_trans h ⟨d.spi.nwr, d.spi.nrd, d.sys.nclk + 1, d.prev_xfer_time, [],
    by simp [bus_upd, jiffies], by simp⟩

theorem touches_spi_write {P : Event → Bool} {c d : if_spi_card}
    (h : touches P c d) : touches P c (spi_write d).2 :=
  touches_trans h ⟨d.spi.nwr + 1, d.spi.nrd, d.sys.nclk, d.prev_xfer_time, [],
    by simp [bus_upd, spi_write], by simp⟩

theorem touches_spi_read {P : Event → Bool} {c d : if_spi_card}
    (reg : Nat) (buf : List Nat) (len : Nat)
    (h : touches P c d) : touches P c (spi_read d reg buf len).2 :=
  touches_trans h ⟨d.spi.nwr, Function.update d.spi.nrd reg (d.spi.nrd reg + 1), d.sys.nclk,
    d.prev_xfer_time, [], by simp [bus_upd, spi_read], by simp⟩

theorem touches_prev {P : Event → Bool} {c d : if_spi_card} (t : Nat)
    (h : touches P c d) : touches P c { d with prev_xfer_time := t } :=
  touches_trans h ⟨d.spi.nwr, d.spi.nrd, d.sys.nclk, t, [], by simp [bus_upd], by simp⟩

theorem touches_init {P : Event → Bool} {c d : if_spi_card}
    (hn : ∀ n, P (.ndelay n) = true) (hc : ∀ l, P (.cs l) = true)
    (h : touches P c d) : touches P c (spu_transaction_init d) := by
  unfold spu_transaction_init
  simp only []
  split
  · exact touches_emit (touches_emit (touches_jiffies h) (hn _)) (hc _)
  · exact touches_emit (touches_jiffies h) (hc _)

theorem touches_finish {P : Event → Bool} {c d : if_spi_card}
    (hc : ∀ l, P (.cs l) = true)
    (h : touches P c d) : touches P c (spu_transaction_finish d) := by
  exact touches_prev _ (touches_jiffies (touches_emit h (hc _)))

theorem touches_dummies {P : Event → Bool} (hd : ∀ r, P (.spi_dummy r) = true)
    (n : Nat) {c d : if_spi_card}
    (h : touches P c d) : touches P c (spu_read_dummies n d).2 := by
  induction n generalizing d with
  | zero => simpa [spu_read_dummies] using h
  | succ n ih =>
    simp only [spu_read_dummies]
    split
    · exact touches_emit (touches_spi_write h) (hd _)
    · exact ih (touches_emit (touches_spi_write h) (hd _))


theorem touches_wr_res {P : Event → Bool} {c d : if_spi_card} (h : touches P c d) :
    d.spi.wr_res = c.spi.wr_res := by
  obtain ⟨a, b, n, t, u, rfl, _⟩ := h; rfl

theorem touches_rd_res {P : Event → Bool} {c d : if_spi_card} (h : touches P c d) :
    d.spi.rd_res = c.spi.rd_res := by
  obtain ⟨a, b, n, t, u, rfl, _⟩ := h; rfl

theorem touches_rd_data {P : Event → Bool} {c d : if_spi_card} (h : touches P c d) :
    d.spi.rd_data = c.spi.rd_data := by
  obtain ⟨a, b, n, t, u, rfl, _⟩ := h; rfl

theorem touches_clock {P : Event → Bool} {c d : if_spi_card} (h : touches P c d) :
    d.sys.clock = c.sys.clock := by
  obtain ⟨a, b, n, t, u, rfl, _⟩ := h; rfl

theorem touches_queues {P : Event → Bool} {c d : if_spi_card} (h : touches P c d) :
    d.cmd_packet_list = c.cmd_packet_list ∧ d.data_packet_list = c.data_packet_list := by
  obtain ⟨a, b, n, t, u, rfl, _⟩ := h; exact ⟨rfl, rfl⟩

theorem touches_cmd_buffer {P : Event → Bool} {c d : if_spi_card} (h : touches P c d) :
    d.cmd_buffer = c.cmd_buffer := by
  obtain ⟨a, b, n, t, u, rfl, _⟩ := h; rfl

theorem touches_priv {P : Event → Bool} {c d : if_spi_card} (h : touches P c d) :
    d.priv = c.priv := by
  obtain ⟨a, b, n, t, u, rfl, _⟩ := h; rfl

theorem touches_writes_ok {P : Event → Bool} {c d : if_spi_card} (h : touches P c d)
    (hw : writes_ok c) : writes_ok d := by
  intro n; rw [touches_wr_res h]; exact hw n

theorem touches_reads_ok {P : Event → Bool} {c d : if_spi_card} (h : touches P c d)
    {reg : Nat} (hr : reads_ok c reg) : reads_ok d reg := by
  intro k; rw [touches_rd_res h]; exact hr k

theorem touches_rd_u16 {P : Event → Bool} {c d : if_spi_card} (h : touches P c d)
    (reg k : Nat) : rd_u16 d.spi reg k = rd_u16 c.spi reg k := by
  simp [rd_u16, touches_rd_data h]

theorem touches_rd_u32 {P : Event → Bool} {c d : if_spi_card} (h : touches P c d)
    (reg k : Nat) : rd_u32 d.spi reg k = rd_u32 c.spi reg k := by
  simp [rd_u32, rd_u16, touches_rd_data h]

theorem port_writes_append (r : Nat) (u v : List Event) :
    port_writes r (u ++ v) = port_writes r u ++ port_writes r v := by
  simp [port_writes]

theorem handed_append (ty : Nat) (u v : List Event) :
    handed ty (u ++ v) = handed ty u ++ handed ty v := by
  simp [handed]

theorem port_writes_quiet (r : Nat) (u : List Event) (h : ∀ e ∈ u, read_event e = true) :
    port_writes r u = [] := by
  induction u with
  | nil => rfl
  | cons e u ih =>
    have he : read_event e = true := h e (List.mem_cons_self _ _)
    have ih2 := ih (fun x hx => h x (List.mem_cons_of_mem _ hx))
    have hcons : port_writes r (e :: u) = port_writes r [e] ++ port_writes r u :=
      port_writes_append r [e] u
    rw [hcons, ih2, List.append_nil]
    cases e <;> first | rfl | exact absurd he (by simp [read_event])

theorem handed_quiet (ty : Nat) (u : List Event) (h : ∀ e ∈ u, bus_event e = true) :
    handed ty u = [] := by
  induction u with
  | nil => rfl
  | cons e u ih =>
    have he : bus_event e = true := h e (List.mem_cons_self _ _)
    have ih2 := ih (fun x hx => h x (List.mem_cons_of_mem _ hx))
    have hcons : handed ty (e :: u) = handed ty [e] ++ handed ty u := handed_append ty [e] u
    rw [hcons, ih2, List.append_nil]
    cases e <;> first | rfl | exact absurd he (by simp [bus_event])

/-- Bus activity without payload writes leaves the payloads written to every
register as they were. -/
theorem touches_port_writes {c d : if_spi_card} (h : touches read_event c d) (r : Nat) :
    port_writes r d.trace = port_writes r c.trace := by
  obtain ⟨a, b, n, t, u, rfl, hu⟩ := h
  simp [bus_upd, port_writes_append, port_writes_quiet r u hu]

/-- Bus activity hands no packet to `if_spi_h2c`. -/
theorem touches_handed {c d : if_spi_card} (h : touches bus_event c d) (ty : Nat) :
    handed ty d.trace = handed ty c.trace := by
  obtain ⟨a, b, n, t, u, rfl, hu⟩ := h
  simp [bus_upd, handed_append, handed_quiet ty u hu]

/-! ### The pieces of a transaction -/

theorem spu_addr_touches {P : Event → Bool} (hn : ∀ n, P (.ndelay n) = true)
    (hc : ∀ l, P (.cs l) = true) (ha : ∀ r e, P (.spi_addr r e) = true)
    (c : if_spi_card) (reg_out : Nat) : touches P c (spu_addr c reg_out).2 :=
  touches_emit (touches_spi_write (touches_init hn hc (touches_refl P c))) (ha _ _)

theorem spu_addr_counts (c : if_spi_card) (reg_out : Nat) :
    (spu_addr c reg_out).2.spi.nrd = c.spi.nrd ∧
    (spu_addr c reg_out).2.sys.nclk = c.sys.nclk + 1 ∧
    (spu_addr c reg_out).2.spi.nwr = c.spi.nwr + 1 ∧
    (spu_addr c reg_out).1 = c.spi.wr_res c.spi.nwr := by
  simp only [spu_addr, spu_transaction_init, spi_write, emit, jiffies]
  split <;> simp

theorem spu_read_dummies_counts (n : Nat) (c : if_spi_card) :
    (spu_read_dummies n c).2.spi.nrd = c.spi.nrd ∧
    (spu_read_dummies n c).2.sys.nclk = c.sys.nclk ∧
    (writes_ok c → (spu_read_dummies n c).1 = 0) := by
  induction n generalizing c with
  | zero => simp [spu_read_dummies]
  | succ n ih =>
    simp only [spu_read_dummies]
    split
    · rename_i h
      refine ⟨by simp [emit, spi_write], by simp [emit, spi_write], fun hw => ?_⟩
      exact absurd (by simpa [spi_write] using hw c.spi.nwr) h
    · have := ih (emit (spi_write c).2 (.spi_dummy (spi_write c).1))
      refine ⟨by simpa [emit, spi_write] using this.1, by simpa [emit, spi_write] using this.2.1,
        fun hw => this.2.2 ?_⟩
      intro k
      simpa [emit, spi_write] using hw k

theorem spu_read_settle_touches {P : Event → Bool} (hn : ∀ n, P (.ndelay n) = true)
    (hd : ∀ r, P (.spi_dummy r) = true) (K : if_spi_h) (c : if_spi_card) (reg : Nat) :
    touches P c (spu_read_settle K c reg).2 := by
  unfold spu_read_settle
  simp only []
  split
  · exact touches_dummies hd _ (touches_refl P c)
  · exact touches_emit (touches_refl P c) (hn _)

theorem spu_read_settle_counts (K : if_spi_h) (c : if_spi_card) (reg : Nat) :
    (spu_read_settle K c reg).2.spi.nrd = c.spi.nrd ∧
    (spu_read_settle K c reg).2.sys.nclk = c.sys.nclk ∧
    (writes_ok c → (spu_read_settle K c reg).1 = 0) := by
  unfold spu_read_settle
  simp only []
  split
  · exact spu_read_dummies_counts _ c
  · simp [emit]

theorem spu_transaction_finish_counts (c : if_spi_card) :
    (spu_transaction_finish c).spi = c.spi ∧
    (spu_transaction_finish c).sys.nclk = c.sys.nclk + 1 ∧
    (spu_transaction_finish c).trace = c.trace ++ [.cs 1] := by
  simp [spu_transaction_finish, jiffies, emit]

/-! ### `spu_read` and `spu_write` -/

theorem read_event_ndelay (n : Nat) : read_event (.ndelay n) = true := rfl
theorem read_event_cs (l : Nat) : read_event (.cs l) = true := rfl
theorem read_event_addr (r : Nat) (e : Int) : read_event (.spi_addr r e) = true := rfl
theorem read_event_dummy (e : Int) : read_event (.spi_dummy e) = true := rfl
theorem bus_event_ndelay (n : Nat) : bus_event (.ndelay n) = true := rfl
theorem bus_event_cs (l : Nat) : bus_event (.cs l) = true := rfl
theorem bus_event_addr (r : Nat) (e : Int) : bus_event (.spi_addr r e) = true := rfl

/-- Whatever `spu_read` returns, it has only touched the bus, has written no
payload, and has read register `reg` at most once and no other register. -/
theorem spu_read_touches (K : if_spi_h) (c : if_spi_card) (reg : Nat) (buf : List Nat)
    (len : Nat) (r : Int × List Nat) (d : if_spi_card)
    (h : spu_read K c reg buf len = .ok (r, d)) :
    touches read_event c d ∧
      (d.spi.nrd = c.spi.nrd ∨
        d.spi.nrd = Function.update c.spi.nrd (u16 reg) (c.spi.nrd (u16 reg) + 1)) := by
  have ha := spu_addr_touches read_event_ndelay read_event_cs read_event_addr c
    (u16 (u16 reg ||| K.IF_SPI_READ_OPERATION_MASK))
  have hac := spu_addr_counts c (u16 (u16 reg ||| K.IF_SPI_READ_OPERATION_MASK))
  have hs := spu_read_settle_touches read_event_ndelay read_event_dummy K
    (spu_addr c (u16 (u16 reg ||| K.IF_SPI_READ_OPERATION_MASK))).2 (u16 reg)
  have hsc := spu_read_settle_counts K
    (spu_addr c (u16 (u16 reg ||| K.IF_SPI_READ_OPERATION_MASK))).2 (u16 reg)
  unfold spu_read at h
  simp only [] at h
  by_cases h1 : len % 2 = 1
  · simp [h1] at h
  · by_cases h2 : (spu_addr c (u16 (u16 reg ||| K.IF_SPI_READ_OPERATION_MASK))).1 = 0
    · by_cases h3 : (spu_read_settle K
          (spu_addr c (u16 (u16 reg ||| K.IF_SPI_READ_OPERATION_MASK))).2 (u16 reg)).1 = 0
      · simp only [h1, h2, h3, ne_eq, not_true_eq_false, ↓reduceIte, Except.ok.injEq,
          Prod.mk.injEq] at h
        rw [← h.2]
        refine ⟨touches_finish read_event_cs
          (touches_emit (touches_spi_read _ _ _ (touches_trans ha hs)) rfl), Or.inr ?_⟩
        rw [(spu_transaction_finish_counts _).1]
        simp [emit, spi_read, hsc.1, hac.1]
      · simp only [h1, h2, h3, ne_eq, not_true_eq_false, not_false_eq_true, ↓reduceIte,
          Except.ok.injEq, Prod.mk.injEq] at h
        rw [← h.2]
        exact ⟨touches_trans ha hs, Or.inl (by rw [hsc.1, hac.1])⟩
    · simp only [h1, h2, ne_eq, not_false_eq_true, ↓reduceIte, Except.ok.injEq,
        Prod.mk.injEq] at h
      rw [← h.2]
      exact ⟨touches_finish read_event_cs ha,
        Or.inl (by rw [(spu_transaction_finish_counts _).1, hac.1])⟩

/-- With working write transfers and an even length, `spu_read` returns the
result of the device's next read of the register, with its bytes on success,
after one read of that register and two readings of the clock. -/
theorem spu_read_ok (K : if_spi_h) (c : if_spi_card) (reg : Nat) (buf : List Nat)
    (len : Nat) (hw : writes_ok c) (hl : len % 2 = 0) :
    ∃ d, spu_read K c reg buf len =
        .ok ((c.spi.rd_res (u16 reg) (c.spi.nrd (u16 reg)),
          if c.spi.rd_res (u16 reg) (c.spi.nrd (u16 reg)) = 0 then
            rd_bytes c.spi (u16 reg) (c.spi.nrd (u16 reg)) len ++ buf.drop len
          else buf), d) ∧
      touches read_event c d ∧
      d.spi.nrd = Function.update c.spi.nrd (u16 reg) (c.spi.nrd (u16 reg) + 1) ∧
      d.sys.nclk = c.sys.nclk + 2 := by
  have ha := spu_addr_touches read_event_ndelay read_event_cs read_event_addr c
    (u16 (u16 reg ||| K.IF_SPI_READ_OPERATION_MASK))
  have hac := spu_addr_counts c (u16 (u16 reg ||| K.IF_SPI_READ_OPERATION_MASK))
  have hs := spu_read_settle_touches read_event_ndelay read_event_dummy K
    (spu_addr c (u16 (u16 reg ||| K.IF_SPI_READ_OPERATION_MASK))).2 (u16 reg)
  have hsc := spu_read_settle_counts K
    (spu_addr c (u16 (u16 reg ||| K.IF_SPI_READ_OPERATION_MASK))).2 (u16 reg)
  have h2 : (spu_addr c (u16 (u16 reg ||| K.IF_SPI_READ_OPERATION_MASK))).1 = 0 := by
    rw [hac.2.2.2]; exact hw _
  have h3 := hsc.2.2 (touches_writes_ok ha hw)
  have h1 : ¬ len % 2 = 1 := by omega
  have hrr := touches_rd_res (touches_trans ha hs)
  have hrd := touches_rd_data (touches_trans ha hs)
  have hres : spu_read K c reg buf len = .ok ((spi_read (spu_read_settle K
      (spu_addr c (u16 (u16 reg ||| K.IF_SPI_READ_OPERATION_MASK))).2 (u16 reg)).2
        (u16 reg) buf len).1,
      spu_transaction_finish (emit (spi_read (spu_read_settle K
        (spu_addr c (u16 (u16 reg ||| K.IF_SPI_READ_OPERATION_MASK))).2 (u16 reg)).2
          (u16 reg) buf len).2
        (.spi_in (u16 reg) len (spi_read (spu_read_settle K
          (spu_addr c (u16 (u16 reg ||| K.IF_SPI_READ_OPERATION_MASK))).2 (u16 reg)).2
            (u16 reg) buf len).1.1))) := by
    unfold spu_read
    simp only [h1, h2, h3, ne_eq, not_true_eq_false, ↓reduceIte]
  have ht := (spu_read_touches K c reg buf len _ _ hres).1
  refine ⟨_, ?_, ht, ?_, ?_⟩
  · rw [hres]
    simp only [spi_read, hsc.1, hac.1, hrr, hrd, rd_bytes]
  · rw [(spu_transaction_finish_counts _).1]
    simp [emit, spi_read, hsc.1, hac.1]
  · rw [(spu_transaction_finish_counts _).2.1]
    simp [emit, spi_read, hsc.2.1, hac.2.1]

/-- Whatever `spu_write` returns, it has only touched the bus and read nothing. -/
theorem spu_write_touches (K : if_spi_h) (c : if_spi_card) (reg : Nat) (buf : List Nat)
    (len : Nat) (r : Int) (d : if_spi_card)
    (h : spu_write K c reg buf len = .ok (r, d)) :
    touches bus_event c d ∧ d.spi.nrd = c.spi.nrd := by
  have ha := spu_addr_touches bus_event_ndelay bus_event_cs bus_event_addr c
    (u16 (u16 reg ||| K.IF_SPI_WRITE_OPERATION_MASK))
  have hac := spu_addr_counts c (u16 (u16 reg ||| K.IF_SPI_WRITE_OPERATION_MASK))
  unfold spu_write at h
  simp only [] at h
  by_cases h1 : len % 2 = 1
  · simp [h1] at h
  · by_cases h2 : (spu_addr c (u16 (u16 reg ||| K.IF_SPI_WRITE_OPERATION_MASK))).1 = 0
    · simp only [h1, h2, ne_eq, not_true_eq_false, ↓reduceIte, Except.ok.injEq,
        Prod.mk.injEq] at h
      rw [← h.2]
      refine ⟨touches_finish bus_event_cs (touches_emit (touches_spi_write ha) rfl), ?_⟩
      rw [(spu_transaction_finish_counts _).1]
      simp [emit, spi_write, hac.1]
    · simp only [h1, h2, ne_eq, not_false_eq_true, ↓reduceIte, Except.ok.injEq,
        Prod.mk.injEq] at h
      rw [← h.2]
      exact ⟨touches_finish bus_event_cs ha, by rw [(spu_transaction_finish_counts _).1, hac.1]⟩

/-- With working write transfers and an even length, `spu_write` returns 0
after putting exactly the first `len` bytes of `buf` on register `reg`. -/
theorem spu_write_ok (K : if_spi_h) (c : if_spi_card) (reg : Nat) (buf : List Nat)
    (len : Nat) (hw : writes_ok c) (hl : len % 2 = 0) :
    ∃ d, spu_write K c reg buf len = .ok (0, d) ∧
      touches bus_event c d ∧ d.spi.nrd = c.spi.nrd ∧
      (∀ r, port_writes r d.trace =
        port_writes r c.trace ++ if u16 reg = r then [buf.take len] else []) := by
  have ha := spu_addr_touches read_event_ndelay read_event_cs read_event_addr c
    (u16 (u16 reg ||| K.IF_SPI_WRITE_OPERATION_MASK))
  have hac := spu_addr_counts c (u16 (u16 reg ||| K.IF_SPI_WRITE_OPERATION_MASK))
  have h2 : (spu_addr c (u16 (u16 reg ||| K.IF_SPI_WRITE_OPERATION_MASK))).1 = 0 := by
    rw [hac.2.2.2]; exact hw _
  have h1 : ¬ len % 2 = 1 := by omega
  have hw2 : (spi_write (spu_addr c (u16 (u16 reg ||| K.IF_SPI_WRITE_OPERATION_MASK))).2).1 = 0 := by
    simp only [spi_write]
    exact touches_writes_ok ha hw _
  have hres : spu_write K c reg buf len = .ok (0, spu_transaction_finish
      (emit (spi_write (spu_addr c (u16 (u16 reg ||| K.IF_SPI_WRITE_OPERATION_MASK))).2).2
        (.spi_out (u16 reg) (buf.take len) 0))) := by
    unfold spu_write
    simp only [h1, h2, hw2, ne_eq, not_true_eq_false, ↓reduceIte]
  obtain ⟨ht, hn⟩ := spu_write_touches K c reg buf len _ _ hres
  refine ⟨_, hres, ht, hn, fun r => ?_⟩
  rw [(spu_transaction_finish_counts _).2.2]
  have hp := touches_port_writes (touches_spi_write ha) r
  simp only [emit, port_writes_append, hp]
  by_cases hr : u16 reg = r <;> simp [port_writes, hr]

/-- With an even length `spu_read` always returns. -/
theorem spu_read_returns (K : if_spi_h) (c : if_spi_card) (reg : Nat) (buf : List Nat)
    (len : Nat) (hl : len % 2 = 0) : ∃ r d, spu_read K c reg buf len = .ok (r, d) := by
  have h1 : ¬ len % 2 = 1 := by omega
  unfold spu_read
  simp only [h1, ↓reduceIte]
  split
  · exact ⟨_, _, rfl⟩
  · split
    · exact ⟨_, _, rfl⟩
    · exact ⟨_, _, rfl⟩

/-- With an even length `spu_write` always returns. -/
theorem spu_write_returns (K : if_spi_h) (c : if_spi_card) (reg : Nat) (buf : List Nat)
    (len : Nat) (hl : len % 2 = 0) : ∃ r d, spu_write K c reg buf len = .ok (r, d) := by
  have h1 : ¬ len % 2 = 1 := by omega
  unfold spu_write
  simp only [h1, ↓reduceIte]
  split
  · exact ⟨_, _, rfl⟩
  · exact ⟨_, _, rfl⟩

theorem u16_at_rd_bytes (d : spi_device) (reg k : Nat) (tl : List Nat) :
    u16_at (rd_bytes d reg k 2 ++ tl) 0 = rd_u16 d reg k := by
  simp [u16_at, rd_bytes, rd_u16, List.range_succ]

theorem u32_at_rd_bytes (d : spi_device) (reg k : Nat) (tl : List Nat) :
    u32 (u16_at (rd_bytes d reg k 4 ++ tl) 0 ||| (u16_at (rd_bytes d reg k 4 ++ tl) 1 <<< 16)) =
      rd_u32 d reg k := by
  simp [u16_at, rd_bytes, rd_u32, rd_u16, List.range_succ]

/-- `spu_read_u16` always returns, having only touched the bus, written no
payload and read the register at most once. -/
theorem spu_read_u16_touches (K : if_spi_h) (c : if_spi_card) (reg : Nat) :
    ∃ r d, spu_read_u16 K c reg = .ok (r, d) ∧ touches read_event c d ∧
      (d.spi.nrd = c.spi.nrd ∨
        d.spi.nrd = Function.update c.spi.nrd (u16 reg) (c.spi.nrd (u16 reg) + 1)) := by
  obtain ⟨⟨e, b⟩, d, h⟩ := spu_read_returns K c reg [0, 0] 2 rfl
  have ht := spu_read_touches K c reg [0, 0] 2 _ d h
  exact ⟨(e, u16_at b 0), d, by simp [spu_read_u16, h], ht⟩

/-- With working write transfers, `spu_read_u16` returns the result of the
device's next read of the register and, on success, its 16-bit value. -/
theorem spu_read_u16_ok (K : if_spi_h) (c : if_spi_card) (reg : Nat) (hw : writes_ok c) :
    ∃ d, spu_read_u16 K c reg =
        .ok ((c.spi.rd_res (u16 reg) (c.spi.nrd (u16 reg)),
          if c.spi.rd_res (u16 reg) (c.spi.nrd (u16 reg)) = 0 then
            rd_u16 c.spi (u16 reg) (c.spi.nrd (u16 reg)) else 0), d) ∧
      touches read_event c d ∧
      d.spi.nrd = Function.update c.spi.nrd (u16 reg) (c.spi.nrd (u16 reg) + 1) ∧
      d.sys.nclk = c.sys.nclk + 2 := by
  obtain ⟨d, h, ht, hn, hk⟩ := spu_read_ok K c reg [0, 0] 2 hw rfl
  refine ⟨d, ?_, ht, hn, hk⟩
  simp only [spu_read_u16, h]
  split
  · have := u16_at_rd_bytes c.spi (u16 reg) (c.spi.nrd (u16 reg)) []
    simpa using this
  · simp [u16_at]

/-- `spu_read_u32` always returns, having only touched the bus, written no
payload and read the register at most once. -/
theorem spu_read_u32_touches (K : if_spi_h) (c : if_spi_card) (reg val : Nat) :
    ∃ r d, spu_read_u32 K c reg val = .ok (r, d) ∧ touches read_event c d ∧
      (d.spi.nrd = c.spi.nrd ∨
        d.spi.nrd = Function.update c.spi.nrd (u16 reg) (c.spi.nrd (u16 reg) + 1)) := by
  obtain ⟨r, d, h⟩ := spu_read_returns K c reg [0, 0, 0, 0] 4 rfl
  have ht := spu_read_touches K c reg [0, 0, 0, 0] 4 r d h
  simp only [spu_read_u32, h]
  split
  · exact ⟨_, d, rfl, ht⟩
  · exact ⟨_, d, rfl, ht⟩

/-- With working write transfers, `spu_read_u32` returns the result of the
device's next read of the register and, on success, its 32-bit value. -/
theorem spu_read_u32_ok (K : if_spi_h) (c : if_spi_card) (reg val : Nat) (hw : writes_ok c) :
    ∃ d, spu_read_u32 K c reg val =
        .ok ((c.spi.rd_res (u16 reg) (c.spi.nrd (u16 reg)),
          if c.spi.rd_res (u16 reg) (c.spi.nrd (u16 reg)) = 0 then
            rd_u32 c.spi (u16 reg) (c.spi.nrd (u16 reg)) else val), d) ∧
      touches read_event c d ∧
      d.spi.nrd = Function.update c.spi.nrd (u16 reg) (c.spi.nrd (u16 reg) + 1) ∧
      d.sys.nclk = c.sys.nclk + 2 := by
  obtain ⟨d, h, ht, hn, hk⟩ := spu_read_ok K c reg [0, 0, 0, 0] 4 hw rfl
  refine ⟨d, ?_, ht, hn, hk⟩
  simp only [spu_read_u32, h]
  split
  · have := u32_at_rd_bytes c.spi (u16 reg) (c.spi.nrd (u16 reg)) []
    simpa using this
  · simp

/-! ### `spu_wait_for_u32` -/

/-- Every run of the try loop returns after at most `n` reads of the register. -/
theorem spu_wait_for_u32_loop_le (K : if_spi_h) (reg target : Nat) (n : Nat)
    (c : if_spi_card) :
    ∃ r d, spu_wait_for_u32_loop K reg target n c = .ok (r, d) ∧ touches read_event c d ∧
      d.spi.nrd (u16 reg) ≤ c.spi.nrd (u16 reg) + n := by
  induction n generalizing c with
  | zero => exact ⟨_, c, rfl, touches_refl _ _, by simp⟩
  | succ n ih =>
    obtain ⟨r, d, h, ht, hn⟩ := spu_read_u32_touches K c reg 0
    have hle : d.spi.nrd (u16 reg) ≤ c.spi.nrd (u16 reg) + 1 := by
      rcases hn with hn | hn <;> simp [hn]
    simp only [spu_wait_for_u32_loop, h]
    split
    · exact ⟨_, d, rfl, ht, by omega⟩
    · split
      · exact ⟨_, d, rfl, ht, by omega⟩
      · obtain ⟨r2, d2, h2, ht2, hn2⟩ := ih (emit d (.mdelay 100))
        have hte : touches read_event c (emit d (.mdelay 100)) := touches_emit ht rfl
        refine ⟨r2, d2, h2, touches_trans hte ht2, ?_⟩
        have : (emit d (.mdelay 100)).spi.nrd = d.spi.nrd := rfl
        rw [this] at hn2
        omega

/-- The try loop returns 0 after `k + 1` reads when the target first shows on
read `k + 1` and `k + 1` tries are left. -/
theorem spu_wait_for_u32_loop_hit (K : if_spi_h) (reg target : Nat) (n : Nat)
    (c : if_spi_card) (k : Nat) (hk : k < n) (hw : writes_ok c) (hr : reads_ok c (u16 reg))
    (hmiss : ∀ j, j < k → rd_u32 c.spi (u16 reg) (c.spi.nrd (u16 reg) + j) ≠ target)
    (hhit : rd_u32 c.spi (u16 reg) (c.spi.nrd (u16 reg) + k) = target) :
    ∃ d, spu_wait_for_u32_loop K reg target n c = .ok (0, d) ∧
      d.spi.nrd (u16 reg) = c.spi.nrd (u16 reg) + (k + 1) := by
  induction n generalizing c k with
  | zero => omega
  | succ n ih =>
    obtain ⟨d, h, ht, hn, _⟩ := spu_read_u32_ok K c reg 0 hw
    simp only [hr _, ↓reduceIte] at h
    simp only [spu_wait_for_u32_loop, h, ne_eq, not_true_eq_false, ↓reduceIte]
    cases k with
    | zero =>
      simp only [Nat.add_zero] at hhit
      simp only [hhit, ↓reduceIte]
      exact ⟨d, rfl, by simp [hn]⟩
    | succ k =>
      have h0 := hmiss 0 (by omega)
      simp only [Nat.add_zero] at h0
      simp only [h0, ↓reduceIte]
      have ht2 : touches read_event c (emit d (.mdelay 100)) := touches_emit ht rfl
      have hnd : (emit d (.mdelay 100)).spi.nrd (u16 reg) = c.spi.nrd (u16 reg) + 1 := by
        show d.spi.nrd (u16 reg) = _
        simp [hn]
      obtain ⟨d2, h2, hn2⟩ := ih (emit d (.mdelay 100)) k (by omega)
        (touches_writes_ok ht2 hw) (touches_reads_ok ht2 hr)
        (fun j hj => by
          rw [touches_rd_u32 ht2, hnd, Nat.add_assoc, Nat.add_comm 1 j]
          exact hmiss (j + 1) (by omega))
        (by
          rw [touches_rd_u32 ht2, hnd, Nat.add_assoc, Nat.add_comm 1 k]
          exact hhit)
      exact ⟨d2, h2, by rw [hn2, hnd]; omega⟩

/-- The try loop returns `-ETIMEDOUT` after `n` reads when none of them shows
the target. -/
theorem spu_wait_for_u32_loop_miss (K : if_spi_h) (reg target : Nat) (n : Nat)
    (c : if_spi_card) (hw : writes_ok c) (hr : reads_ok c (u16 reg))
    (hmiss : ∀ j, j < n → rd_u32 c.spi (u16 reg) (c.spi.nrd (u16 reg) + j) ≠ target) :
    ∃ d, spu_wait_for_u32_loop K reg target n c = .ok (-ETIMEDOUT, d) ∧
      d.spi.nrd (u16 reg) = c.spi.nrd (u16 reg) + n := by
  induction n generalizing c with
  | zero => exact ⟨c, rfl, rfl⟩
  | succ n ih =>
    obtain ⟨d, h, ht, hn, _⟩ := spu_read_u32_ok K c reg 0 hw
    simp only [hr _, ↓reduceIte] at h
    simp only [spu_wait_for_u32_loop, h, ne_eq, not_true_eq_false, ↓reduceIte]
    have h0 := hmiss 0 (by omega)
    simp only [Nat.add_zero] at h0
    simp only [h0, ↓reduceIte]
    have ht2 : touches read_event c (emit d (.mdelay 100)) := touches_emit ht rfl
    have hnd : (emit d (.mdelay 100)).spi.nrd (u16 reg) = c.spi.nrd (u16 reg) + 1 := by
      show d.spi.nrd (u16 reg) = _
      simp [hn]
    obtain ⟨d2, h2, hn2⟩ := ih (emit d (.mdelay 100))
      (touches_writes_ok ht2 hw) (touches_reads_ok ht2 hr)
      (fun j hj => by
        rw [touches_rd_u32 ht2, hnd, Nat.add_assoc, Nat.add_comm 1 j]
        exact hmiss (j + 1) (by omega))
    exact ⟨d2, h2, by rw [hn2, hnd]; omega⟩

/-! ## Claims -/

/-- C5: `if_spi_calculate_fw_names` returns 0 for chip id 0x04 with the names
"libertas/gspi8385_hlp.bin" and "libertas/gspi8385.bin", returns 0 for chip id
0x0b with the same names built from 8686, and for every other 16-bit chip id
returns `-EAFNOSUPPORT` and leaves both name buffers as they were; the text of
every name of the table, with its terminating NUL, fits in `FIRMWARE_NAME_MAX`
= 30 bytes, so nothing is truncated. -/
theorem if_spi_calculate_fw_names_table :
    (∀ helper_fw main_fw, if_spi_calculate_fw_names 0x04 helper_fw main_fw =
      (0, "libertas/gspi8385_hlp.bin".toList, "libertas/gspi8385.bin".toList)) ∧
    (∀ helper_fw main_fw, if_spi_calculate_fw_names 0x0b helper_fw main_fw =
      (0, "libertas/gspi8686_hlp.bin".toList, "libertas/gspi8686.bin".toList)) ∧
    (∀ card_id helper_fw main_fw, card_id < 65536 → card_id ≠ 0x04 → card_id ≠ 0x0b →
      if_spi_calculate_fw_names card_id helper_fw main_fw =
        (-EAFNOSUPPORT, helper_fw, main_fw)) ∧
    FIRMWARE_NAME_MAX = 30 ∧
    (∀ e ∈ chip_id_to_device_name,
      ("libertas/gspi".toList ++ Nat.toDigits 10 e.2 ++ "_hlp.bin".toList).length + 1
        ≤ FIRMWARE_NAME_MAX ∧
      ("libertas/gspi".toList ++ Nat.toDigits 10 e.2 ++ ".bin".toList).length + 1
        ≤ FIRMWARE_NAME_MAX) := by
  refine ⟨fun _ _ => rfl, fun _ _ => rfl, ?_, rfl, by decide⟩
  intro card_id helper_fw main_fw hlt h4 hb
  have hu : u16 card_id = card_id := by simp [u16]; omega
  have h4b : ¬ (4 = card_id) := fun h => h4 h.symm
  have hbb : ¬ (11 = card_id) := fun h => hb h.symm
  simp [if_spi_calculate_fw_names, chip_id_to_device_name, List.findIdx_cons, hu, h4b, hbb]

/-- C5, at chip id 0x07: unsupported, and the buffers keep their contents. -/
theorem if_spi_calculate_fw_names_table_witness :
    if_spi_calculate_fw_names 0x07 ['a'] ['b'] = (-EAFNOSUPPORT, ['a'], ['b']) :=
  if_spi_calculate_fw_names_table.2.2.1 0x07 ['a'] ['b'] (by decide) (by decide) (by decide)

/-- C7: `spu_wait_for_u32` always returns after at most 4 reads of the
register; with working bus transfers it returns 0 after exactly `k + 1` reads
when the target first shows on read `k + 1 ≤ 4`, and `-ETIMEDOUT` after
exactly 4 reads when none of the first 4 reads shows the target. -/
theorem spu_wait_for_u32_tries (K : if_spi_h) (c : if_spi_card) (reg target : Nat) :
    (∃ r d, spu_wait_for_u32 K c reg target = .ok (r, d) ∧
      d.spi.nrd (u16 reg) ≤ c.spi.nrd (u16 reg) + 4) ∧
    (writes_ok c → reads_ok c (u16 reg) →
      (∀ k, k < 4 →
        (∀ j, j < k → rd_u32 c.spi (u16 reg) (c.spi.nrd (u16 reg) + j) ≠ u32 target) →
        rd_u32 c.spi (u16 reg) (c.spi.nrd (u16 reg) + k) = u32 target →
        ∃ d, spu_wait_for_u32 K c reg target = .ok (0, d) ∧
          d.spi.nrd (u16 reg) = c.spi.nrd (u16 reg) + (k + 1)) ∧
      ((∀ j, j < 4 → rd_u32 c.spi (u16 reg) (c.spi.nrd (u16 reg) + j) ≠ u32 target) →
        ∃ d, spu_wait_for_u32 K c reg target = .ok (-ETIMEDOUT, d) ∧
          d.spi.nrd (u16 reg) = c.spi.nrd (u16 reg) + 4)) := by
  refine ⟨?_, fun hw hr => ⟨fun k hk hmiss hhit => ?_, fun hmiss => ?_⟩⟩
  · obtain ⟨r, d, h, _, hn⟩ := spu_wait_for_u32_loop_le K reg (u32 target) 4 c
    exact ⟨r, d, h, hn⟩
  · exact spu_wait_for_u32_loop_hit K reg (u32 target) 4 c k hk hw hr hmiss hhit
  · exact spu_wait_for_u32_loop_miss K reg (u32 target) 4 c hw hr hmiss

/-- C7, on a device whose scratch register 4 shows the download magic on its
third read: success after exactly 3 reads. -/
theorem spu_wait_for_u32_tries_witness :
    ∃ d, spu_wait_for_u32 sample_h
        (sim_card (fun _ k => if k = 2 then [0x88, 0x88, 0x88, 0x88] else [0, 0, 0, 0])
          (fun _ => 0) [])
        sample_h.IF_SPI_SCRATCH_4_REG sample_h.SUCCESSFUL_FW_DOWNLOAD_MAGIC = .ok (0, d) ∧
      d.spi.nrd (u16 sample_h.IF_SPI_SCRATCH_4_REG) = 3 :=
  ((spu_wait_for_u32_tries sample_h
      (sim_card (fun _ k => if k = 2 then [0x88, 0x88, 0x88, 0x88] else [0, 0, 0, 0])
        (fun _ => 0) [])
      sample_h.IF_SPI_SCRATCH_4_REG sample_h.SUCCESSFUL_FW_DOWNLOAD_MAGIC).2
    (fun _ => rfl) (fun _ => rfl)).1 2 (by decide)
    (fun j hj => by
      have : j = 0 ∨ j = 1 := by omega
      rcases this with h | h <;> subst h <;> decide)
    (by decide)

/-! ### `if_spi_host_to_card` -/

theorem ALIGN_4_bounds (n : Nat) : n ≤ ALIGN n 4 ∧ ALIGN n 4 < n + 4 ∧ ALIGN n 4 % 4 = 0 := by
  simp only [ALIGN]
  omega

/-- A length that survives the store of `ALIGN(nb, 4)` into the `u16` field
`blen` is one that `ALIGN` did not push past 16 bits. -/
theorem blen_no_wrap (nb : Nat) (h1 : nb < 65536) (h2 : nb ≤ u16 (ALIGN nb 4)) :
    u16 (ALIGN nb 4) = ALIGN nb 4 := by
  have hb := ALIGN_4_bounds nb
  simp only [u16] at h2 ⊢
  omega

/-- When the packet can be built, it is the padded packet. -/
theorem if_spi_host_to_card_packet_eq (buf : List Nat) (nb : Nat) (hlt : nb < 65536)
    (p : if_spi_packet)
    (h : if_spi_host_to_card_packet buf nb (u16 (ALIGN nb 4)) = some p) :
    p = padded_packet buf nb ∧ nb ≤ buf.length ∧ u16 (ALIGN nb 4) = ALIGN nb 4 := by
  unfold if_spi_host_to_card_packet at h
  cases hm : memcpy_src buf 0 nb with
  | none => simp [hm] at h
  | some data =>
    simp only [hm] at h
    have hdata : data = buf.take nb ∧ nb ≤ buf.length := by
      simp only [memcpy_src] at hm
      split at hm
      · simp at hm
        exact ⟨hm.symm, by omega⟩
      · simp at hm
    by_cases hfit : nb > u16 (ALIGN nb 4)
    · simp [hfit] at h
    · have hblen := blen_no_wrap nb hlt (by omega)
      simp only [hfit, ↓reduceIte, Option.some.injEq] at h
      refine ⟨?_, hdata.2, hblen⟩
      rw [← h]
      simp only [padded_packet, hblen, store, hdata.1]
      congr 2
      rw [List.take_append_eq_append_take]
      simp [List.length_take, Nat.min_eq_left hdata.2]

theorem if_spi_host_to_card_enqueue_effect (K : if_spi_h) (c : if_spi_card) (type : Nat)
    (p : if_spi_packet) :
    (∀ ty, handed ty (if_spi_host_to_card_enqueue K c type p).2.trace = handed ty c.trace) ∧
    ((if_spi_host_to_card_enqueue K c type p).1 ≠ 0 →
      (if_spi_host_to_card_enqueue K c type p).1 = -EINVAL ∧
      type ≠ K.MVMS_CMD ∧ type ≠ K.MVMS_DAT ∧
      (if_spi_host_to_card_enqueue K c type p).2.cmd_packet_list = c.cmd_packet_list ∧
      (if_spi_host_to_card_enqueue K c type p).2.data_packet_list = c.data_packet_list) ∧
    ((if_spi_host_to_card_enqueue K c type p).1 = 0 → type = K.MVMS_CMD →
      (if_spi_host_to_card_enqueue K c type p).2.cmd_packet_list = c.cmd_packet_list ++ [p] ∧
      (if_spi_host_to_card_enqueue K c type p).2.data_packet_list = c.data_packet_list) ∧
    ((if_spi_host_to_card_enqueue K c type p).1 = 0 → type ≠ K.MVMS_CMD →
      type = K.MVMS_DAT ∧
      (if_spi_host_to_card_enqueue K c type p).2.data_packet_list = c.data_packet_list ++ [p] ∧
      (if_spi_host_to_card_enqueue K c type p).2.cmd_packet_list = c.cmd_packet_list) := by
  unfold if_spi_host_to_card_enqueue
  by_cases hc : type = K.MVMS_CMD
  · simp [hc]
  · by_cases hd : type = K.MVMS_DAT
    · subst hd
      simp [hc]
    · simp [hc, hd, emit, handed, EINVAL]

/-- What `if_spi_host_to_card` does to the queues, whatever it returns: on 0
it has appended the padded packet to the tail of the list its type selects and
left the other list alone; on an error both lists are unchanged.  It hands
nothing to `if_spi_h2c`. -/
theorem if_spi_host_to_card_effect (K : if_spi_h) (c : if_spi_card) (type : Nat)
    (buf : List Nat) (nb : Nat) (err : Int) (d : if_spi_card)
    (h : if_spi_host_to_card K c type buf nb = .ok (err, d)) :
    (∀ ty, handed ty d.trace = handed ty c.trace) ∧
    (err ≠ 0 → d.cmd_packet_list = c.cmd_packet_list ∧
      d.data_packet_list = c.data_packet_list) ∧
    (err = 0 → u8 type = K.MVMS_CMD →
      d.cmd_packet_list = c.cmd_packet_list ++ [padded_packet buf (u16 nb)] ∧
      d.data_packet_list = c.data_packet_list) ∧
    (err = 0 → u8 type ≠ K.MVMS_CMD →
      u8 type = K.MVMS_DAT ∧
      d.data_packet_list = c.data_packet_list ++ [padded_packet buf (u16 nb)] ∧
      d.cmd_packet_list = c.cmd_packet_list) := by
  unfold if_spi_host_to_card at h
  by_cases h0 : u16 nb = 0
  · simp only [h0, ↓reduceIte, Except.ok.injEq, Prod.mk.injEq] at h
    obtain ⟨he, hd⟩ := h
    subst hd; subst he
    simp [emit, handed, EINVAL]
  · by_cases hg : c.sys.alloc_ok c.sys.nalloc = true
    · simp only [h0, hg, ↓reduceIte, Bool.not_true, Bool.false_eq_true] at h
      have hlt : u16 nb < 65536 := by simp only [u16]; omega
      cases hp : if_spi_host_to_card_packet buf (u16 nb) (u16 (ALIGN (u16 nb) 4)) with
      | none => simp [hp] at h
      | some p =>
        simp only [hp, Except.ok.injEq, Prod.mk.injEq] at h
        obtain ⟨he, hd⟩ := h
        have hpe := (if_spi_host_to_card_packet_eq buf (u16 nb) hlt p hp).1
        have hq := if_spi_host_to_card_enqueue_effect K
          { c with sys := { c.sys with nalloc := c.sys.nalloc + 1 } } (u8 type) p
        subst hd; subst he
        rw [hpe] at hq ⊢
        refine ⟨fun ty => ?_, fun hne => ?_, fun h0 hc => ?_, fun h0 hc => ?_⟩
        · simpa [up_spi_ready, emit, handed] using hq.1 ty
        · simpa [up_spi_ready, emit] using (hq.2.1 hne).2.2.2
        · simpa [up_spi_ready, emit] using hq.2.2.1 h0 hc
        · simpa [up_spi_ready, emit] using hq.2.2.2 h0 hc
    · simp only [Bool.not_eq_true] at hg
      simp only [h0, hg, ↓reduceIte, Bool.not_false, Except.ok.injEq, Prod.mk.injEq] at h
      obtain ⟨he, hd⟩ := h
      subst hd; subst he
      simp [handed, ENOMEM]

/-! ### The worker leaves the queues to its two download blocks -/

theorem qsame_refl (c : if_spi_card) : qsame c c := ⟨rfl, rfl, fun _ => rfl⟩

theorem qsame_trans {c d e : if_spi_card} (h1 : qsame c d) (h2 : qsame d e) : qsame c e :=
  ⟨h2.1.trans h1.1, h2.2.1.trans h1.2.1, fun ty => (h2.2.2 ty).trans (h1.2.2 ty)⟩

theorem qsame_of_touches {P : Event → Bool} (hP : ∀ e, P e = true → bus_event e = true)
    {c d : if_spi_card} (h : touches P c d) : qsame c d :=
  ⟨(touches_queues h).1, (touches_queues h).2, touches_handed (touches_mono hP h)⟩

theorem qsame_read {c d : if_spi_card} (h : touches read_event c d) : qsame c d :=
  qsame_of_touches read_event_bus h

theorem qsame_bus {c d : if_spi_card} (h : touches bus_event c d) : qsame c d :=
  qsame_of_touches (fun _ he => he) h

/-- Appending an event that is not a hand-over to `if_spi_h2c`. -/
theorem qsame_emit (c : if_spi_card) (e : Event) (he : ∀ ty, handed ty [e] = []) :
    qsame c (emit c e) :=
  ⟨rfl, rfl, fun ty => by simp [emit, handed_append, he ty]⟩

theorem qsame_pr_err (c : if_spi_card) (err : Int) : qsame c (emit c (.pr_err err)) :=
  qsame_emit c _ (fun _ => rfl)

theorem qsame_kfree_skb (c : if_spi_card) : qsame c (emit c .dev_kfree_skb) :=
  qsame_emit c _ (fun _ => rfl)

theorem if_spi_c2h_out_qsame (c : if_spi_card) (err : Int) (r : Int) (d : if_spi_card)
    (h : if_spi_c2h_out c err = .ok (r, d)) : qsame c d := by
  unfold if_spi_c2h_out at h
  simp only [Except.ok.injEq, Prod.mk.injEq] at h
  rw [← h.2]
  split
  · exact qsame_pr_err c err
  · exact qsame_refl c

theorem if_spi_c2h_cmd_notify_qsame (K : if_spi_h) (c : if_spi_card) (i len : Nat) (r : Int)
    (d : if_spi_card) (h : if_spi_c2h_cmd_notify K c i len = .ok (r, d)) : qsame c d := by
  unfold if_spi_c2h_cmd_notify at h
  split at h
  · simp at h
  split at h
  · simp at h
  have q := if_spi_c2h_out_qsame _ _ _ _ h
  refine qsame_trans ?_ q
  exact ⟨rfl, rfl, fun ty => by simp [emit, handed]⟩

/-- `if_spi_c2h_cmd` leaves the queues alone. -/
theorem if_spi_c2h_cmd_qsame (K : if_spi_h) (c : if_spi_card) (err : Int) (d : if_spi_card)
    (h : if_spi_c2h_cmd K c = .ok (err, d)) : qsame c d := by
  obtain ⟨⟨e1, len⟩, c1, h1, ht1, _⟩ := spu_read_u16_touches K c K.IF_SPI_SCRATCH_2_REG
  have q1 := qsame_read ht1
  unfold if_spi_c2h_cmd at h
  simp only [h1] at h
  split at h
  · exact qsame_trans q1 (if_spi_c2h_out_qsame _ _ _ _ h)
  · split at h
    · exact qsame_trans q1 (qsame_trans (qsame_pr_err _ _) (if_spi_c2h_out_qsame _ _ _ _ h))
    · split at h
      · exact qsame_trans q1 (qsame_trans (qsame_pr_err _ _) (if_spi_c2h_out_qsame _ _ _ _ h))
      · cases hr : spu_read K c1 K.IF_SPI_CMD_RDWRPORT_REG c1.cmd_buffer (ALIGN len 4) with
        | error x => simp [hr] at h
        | ok x =>
          obtain ⟨⟨e2, buf⟩, c2⟩ := x
          have q2 := qsame_read (spu_read_touches K c1 _ _ _ _ c2 hr).1
          have q3 : qsame c2 { c2 with cmd_buffer := buf } := ⟨rfl, rfl, fun _ => rfl⟩
          simp only [hr] at h
          split at h
          · exact qsame_trans q1 (qsame_trans q2 (qsame_trans q3 (if_spi_c2h_out_qsame _ _ _ _ h)))
          · exact qsame_trans q1 (qsame_trans q2 (qsame_trans q3
              (if_spi_c2h_cmd_notify_qsame _ _ _ _ _ _ h)))

theorem if_spi_c2h_data_rx_qsame (c : if_spi_card) (data : List Nat) (len : Nat) (r : Int)
    (d : if_spi_card) (h : if_spi_c2h_data_rx c data len = .ok (r, d)) : qsame c d := by
  unfold if_spi_c2h_data_rx at h
  simp only [] at h
  have q0 : qsame c (emit { c with sys := { c.sys with nrx := c.sys.nrx + 1 } }
      (.lbs_process_rxed_packet (data.take len) (c.sys.rx_res c.sys.nrx))) :=
    ⟨rfl, rfl, fun ty => by simp [emit, handed]⟩
  split at h
  · exact qsame_trans q0 (qsame_trans (qsame_kfree_skb _)
      (if_spi_c2h_out_qsame _ _ _ _ h))
  · exact qsame_trans q0 (if_spi_c2h_out_qsame _ _ _ _ h)

/-- `if_spi_c2h_data` leaves the queues alone. -/
theorem if_spi_c2h_data_qsame (K : if_spi_h) (c : if_spi_card) (err : Int) (d : if_spi_card)
    (h : if_spi_c2h_data K c = .ok (err, d)) : qsame c d := by
  obtain ⟨⟨e1, len⟩, c1, h1, ht1, _⟩ := spu_read_u16_touches K c K.IF_SPI_SCRATCH_1_REG
  have q1 := qsame_read ht1
  unfold if_spi_c2h_data at h
  simp only [h1] at h
  split at h
  · exact qsame_trans q1 (if_spi_c2h_out_qsame _ _ _ _ h)
  · split at h
    · exact qsame_trans q1 (qsame_trans (qsame_pr_err _ _) (if_spi_c2h_out_qsame _ _ _ _ h))
    · split at h
      · exact qsame_trans q1 (qsame_trans (qsame_pr_err _ _) (if_spi_c2h_out_qsame _ _ _ _ h))
      · have qa : qsame c1 { c1 with sys := { c1.sys with nalloc := c1.sys.nalloc + 1 } } :=
          ⟨rfl, rfl, fun _ => rfl⟩
        split at h
        · exact qsame_trans q1 (qsame_trans qa (if_spi_c2h_out_qsame _ _ _ _ h))
        split at h
        · simp at h
        cases hr : spu_read K { c1 with sys := { c1.sys with nalloc := c1.sys.nalloc + 1 } }
            K.IF_SPI_DATA_RDWRPORT_REG
            (List.replicate (K.MRVDRV_ETH_RX_PACKET_BUFFER_SIZE - K.IPFIELD_ALIGN_OFFSET) 0)
            (ALIGN len 4) with
        | error x => simp [hr] at h
        | ok x =>
          obtain ⟨⟨e2, buf⟩, c2⟩ := x
          have q2 := qsame_read (spu_read_touches K _ _ _ _ _ c2 hr).1
          simp only [hr] at h
          split at h
          · exact qsame_trans q1 (qsame_trans qa (qsame_trans q2
              (qsame_trans (qsame_kfree_skb _) (if_spi_c2h_out_qsame _ _ _ _ h))))
          split at h
          · simp at h
          exact qsame_trans q1 (qsame_trans qa (qsame_trans q2
            (if_spi_c2h_data_rx_qsame _ _ _ _ _ h)))

/-- `if_spi_e2h` leaves the queues alone. -/
theorem if_spi_e2h_qsame (K : if_spi_h) (c : if_spi_card) (d : if_spi_card)
    (h : if_spi_e2h K c = .ok ((), d)) : qsame c d := by
  obtain ⟨⟨e1, cause⟩, c1, h1, ht1, _⟩ := spu_read_u32_touches K c K.IF_SPI_SCRATCH_3_REG 0
  have q1 := qsame_read ht1
  unfold if_spi_e2h at h
  simp only [h1] at h
  split at h
  · simp only [Except.ok.injEq, Prod.mk.injEq, true_and] at h
    rw [← h]
    exact qsame_trans q1 (qsame_pr_err _ _)
  · simp only [Except.ok.injEq, Prod.mk.injEq, true_and] at h
    rw [← h]
    exact qsame_trans q1 (qsame_emit _ (.lbs_queue_event _) (fun _ => rfl))

theorem qmoved_of_qsame (K : if_spi_h) {c d : if_spi_card} (h : qsame c d) :
    qmoved K c d [] [] :=
  ⟨[], [], by simp [h.2.2], by simp [h.1], by simp [h.2.2], by simp [h.2.1]⟩

theorem qmoved_trans (K : if_spi_h) {c d e : if_spi_card} {a b a2 b2 : List if_spi_packet}
    (h1 : qmoved K c d a b) (h2 : qmoved K d e a2 b2) : qmoved K c e (a ++ a2) (b ++ b2) := by
  obtain ⟨nc, nd, h11, h12, h13, h14⟩ := h1
  obtain ⟨nc2, nd2, h21, h22, h23, h24⟩ := h2
  refine ⟨nc ++ nc2, nd ++ nd2, ?_, ?_, ?_, ?_⟩
  · rw [h21, h11, List.append_assoc]
  · rw [List.append_assoc, h22, ← List.append_assoc, h12, List.append_assoc]
  · rw [h23, h13, List.append_assoc]
  · rw [List.append_assoc, h24, ← List.append_assoc, h14, List.append_assoc]

theorem if_spi_h2c_out_effect (c : if_spi_card) (p : if_spi_packet) (err : Int)
    (d : if_spi_card) (h : if_spi_h2c_out c p err = .ok ((), d)) : qsame c d := by
  unfold if_spi_h2c_out at h
  simp only [Except.ok.injEq, Prod.mk.injEq, true_and] at h
  rw [← h]
  split
  · exact qsame_trans (qsame_emit c (.kfree p) (fun _ => rfl)) (qsame_pr_err _ _)
  · exact qsame_emit c (.kfree p) (fun _ => rfl)

/-- `if_spi_h2c` leaves the queues alone and records the hand-over of its
packet under its type. -/
theorem if_spi_h2c_effect (K : if_spi_h) (c : if_spi_card) (p : if_spi_packet) (type : Int)
    (d : if_spi_card) (h : if_spi_h2c K c p type = .ok ((), d)) :
    d.cmd_packet_list = c.cmd_packet_list ∧ d.data_packet_list = c.data_packet_list ∧
    ∀ ty, handed ty d.trace = handed ty c.trace ++ if type.toNat = ty then [p] else [] := by
  have q0 : ∀ ty, handed ty (emit c (.h2c type.toNat p)).trace =
      handed ty c.trace ++ if type.toNat = ty then [p] else [] := by
    intro ty
    simp only [emit, handed_append]
    by_cases hty : type.toNat = ty <;> simp [handed, hty]
  have fin : ∀ m, qsame (emit c (.h2c type.toNat p)) m → qsame m d →
      d.cmd_packet_list = c.cmd_packet_list ∧ d.data_packet_list = c.data_packet_list ∧
      ∀ ty, handed ty d.trace = handed ty c.trace ++ if type.toNat = ty then [p] else [] := by
    intro m q1 q2
    have q := qsame_trans q1 q2
    exact ⟨q.1, q.2.1, fun ty => by rw [q.2.2 ty, q0 ty]⟩
  unfold if_spi_h2c at h
  simp only [] at h
  split at h
  · cases hw : spu_write K (emit c (.h2c type.toNat p)) K.IF_SPI_DATA_RDWRPORT_REG
        p.buffer p.blen with
    | error x => simp [hw] at h
    | ok x =>
      obtain ⟨e, c1⟩ := x
      simp only [hw] at h
      exact fin c1 (qsame_bus (spu_write_touches K _ _ _ _ _ _ hw).1)
        (if_spi_h2c_out_effect _ _ _ _ h)
  · split at h
    · cases hw : spu_write K (emit c (.h2c type.toNat p)) K.IF_SPI_CMD_RDWRPORT_REG
          p.buffer p.blen with
      | error x => simp [hw] at h
      | ok x =>
        obtain ⟨e, c1⟩ := x
        simp only [hw] at h
        exact fin c1 (qsame_bus (spu_write_touches K _ _ _ _ _ _ hw).1)
          (if_spi_h2c_out_effect _ _ _ _ h)
    · exact fin _ (qsame_pr_err _ _) (if_spi_h2c_out_effect _ _ _ _ h)

/-- The command-download block hands over at most the head of the command
list and leaves the data list alone. -/
theorem lbs_spi_thread_cmd_download_effect (K : if_spi_h) (hne : K.MVMS_CMD ≠ K.MVMS_DAT)
    (c d : if_spi_card) (h : lbs_spi_thread_cmd_download K c = .ok ((), d)) :
    qmoved K c d [] [] := by
  unfold lbs_spi_thread_cmd_download at h
  simp only [] at h
  have q0 : qsame c (emit c .lbs_host_to_card_done) := qsame_emit c _ (fun _ => rfl)
  cases hl : c.cmd_packet_list with
  | nil =>
    have hl2 : (emit c .lbs_host_to_card_done).cmd_packet_list = [] := hl
    simp only [hl2, Except.ok.injEq, Prod.mk.injEq, true_and] at h
    rw [← h]
    exact qmoved_of_qsame K q0
  | cons p rest =>
    have hl2 : (emit c .lbs_host_to_card_done).cmd_packet_list = p :: rest := hl
    simp only [hl2] at h
    obtain ⟨h1, h2, h3⟩ := if_spi_h2c_effect K _ p _ d h
    refine ⟨[p], [], ?_, ?_, ?_, ?_⟩
    · rw [h3]
      simp [q0.2.2 K.MVMS_CMD]
    · simp [h1, hl]
    · rw [h3]
      simp [q0.2.2 K.MVMS_DAT, hne]
    · simp only [h2, List.nil_append, List.append_nil]
      rfl

/-- The data-download block hands over at most the head of the data list and
leaves the command list alone. -/
theorem lbs_spi_thread_tx_download_effect (K : if_spi_h) (hne : K.MVMS_CMD ≠ K.MVMS_DAT)
    (c d : if_spi_card) (h : lbs_spi_thread_tx_download K c = .ok ((), d)) :
    qmoved K c d [] [] := by
  unfold lbs_spi_thread_tx_download at h
  cases hl : c.data_packet_list with
  | nil =>
    simp only [hl, Except.ok.injEq, Prod.mk.injEq, true_and] at h
    rw [← h]
    exact qmoved_of_qsame K (qsame_refl c)
  | cons p rest =>
    simp only [hl] at h
    obtain ⟨h1, h2, h3⟩ := if_spi_h2c_effect K _ p _ d h
    refine ⟨[], [p], ?_, ?_, ?_, ?_⟩
    · rw [h3]
      simp [Ne.symm hne]
    · simp only [h1, List.nil_append, List.append_nil]
    · rw [h3]
      simp
    · simp [h2, hl]

theorem lbs_spi_thread_err_qsame (c : if_spi_card) (err r : Int) (d : if_spi_card)
    (h : lbs_spi_thread_err c err = .ok (r, d)) : qsame c d := by
  unfold lbs_spi_thread_err at h
  simp only [Except.ok.injEq, Prod.mk.injEq] at h
  rw [← h.2]
  split
  · exact qsame_pr_err c err
  · exact qsame_refl c

/-- One dispatch pass hands over at most the head of each list. -/
theorem lbs_spi_thread_dispatch_effect (K : if_spi_h) (hne : K.MVMS_CMD ≠ K.MVMS_DAT)
    (c : if_spi_card) (r : Int) (d : if_spi_card)
    (h : lbs_spi_thread_dispatch K c = .ok (r, d)) : qmoved K c d [] [] := by
  obtain ⟨⟨e0, hi⟩, c1, h1, ht1, _⟩ := spu_read_u16_touches K c K.IF_SPI_HOST_INT_STATUS_REG
  have q1 := qsame_read ht1
  unfold lbs_spi_thread_dispatch at h
  simp only [h1] at h
  split at h
  · exact qmoved_of_qsame K (qsame_trans q1 (qsame_trans (qsame_pr_err _ _)
      (lbs_spi_thread_err_qsame _ _ _ _ h)))
  · -- command upload
    have s2 : ∀ x, (if hi &&& K.IF_SPI_HIST_CMD_UPLOAD_RDY ≠ 0 then if_spi_c2h_cmd K c1
        else .ok (e0, c1)) = .ok x → qsame c1 x.2 := by
      intro x hx
      split at hx
      · exact if_spi_c2h_cmd_qsame K c1 x.1 x.2 hx
      · simp only [Except.ok.injEq] at hx
        rw [← hx]
        exact qsame_refl c1
    cases hr1 : (if hi &&& K.IF_SPI_HIST_CMD_UPLOAD_RDY ≠ 0 then if_spi_c2h_cmd K c1
        else .ok (e0, c1)) with
    | error x => simp [hr1] at h
    | ok x =>
      obtain ⟨err1, c2⟩ := x
      have q2 : qsame c1 c2 := s2 _ hr1
      simp only [hr1] at h
      split at h
      · exact qmoved_of_qsame K (qsame_trans q1 (qsame_trans q2
          (lbs_spi_thread_err_qsame _ _ _ _ h)))
      · -- data upload
        have s3 : ∀ x, (if hi &&& K.IF_SPI_HIST_RX_UPLOAD_RDY ≠ 0 then if_spi_c2h_data K c2
            else .ok (err1, c2)) = .ok x → qsame c2 x.2 := by
          intro x hx
          split at hx
          · exact if_spi_c2h_data_qsame K c2 x.1 x.2 hx
          · simp only [Except.ok.injEq] at hx
            rw [← hx]
            exact qsame_refl c2
        cases hr2 : (if hi &&& K.IF_SPI_HIST_RX_UPLOAD_RDY ≠ 0 then if_spi_c2h_data K c2
            else .ok (err1, c2)) with
        | error x => simp [hr2] at h
        | ok x =>
          obtain ⟨err2, c3⟩ := x
          have q3 : qsame c2 c3 := s3 _ hr2
          have q13 := qmoved_of_qsame K (qsame_trans q1 (qsame_trans q2 q3))
          simp only [hr2] at h
          split at h
          · exact qmoved_of_qsame K (qsame_trans q1 (qsame_trans q2 (qsame_trans q3
              (lbs_spi_thread_err_qsame _ _ _ _ h))))
          · -- command download
            cases hr3 : (if hi &&& K.IF_SPI_HIST_CMD_DOWNLOAD_RDY ≠ 0 then
                lbs_spi_thread_cmd_download K c3 else .ok ((), c3)) with
            | error x => simp [hr3] at h
            | ok x =>
              obtain ⟨_, c4⟩ := x
              have m4 : qmoved K c3 c4 [] [] := by
                split at hr3
                · exact lbs_spi_thread_cmd_download_effect K hne c3 c4 hr3
                · simp only [Except.ok.injEq, Prod.mk.injEq, true_and] at hr3
                  rw [← hr3]
                  exact qmoved_of_qsame K (qsame_refl c3)
              simp only [hr3] at h
              -- data download
              cases hr4 : (if hi &&& K.IF_SPI_HIST_TX_DOWNLOAD_RDY ≠ 0 then
                  lbs_spi_thread_tx_download K c4 else .ok ((), c4)) with
              | error x => simp [hr4] at h
              | ok x =>
                obtain ⟨_, c5⟩ := x
                have m5 : qmoved K c4 c5 [] [] := by
                  split at hr4
                  · exact lbs_spi_thread_tx_download_effect K hne c4 c5 hr4
                  · simp only [Except.ok.injEq, Prod.mk.injEq, true_and] at hr4
                    rw [← hr4]
                    exact qmoved_of_qsame K (qsame_refl c4)
                simp only [hr4] at h
                -- card event
                cases hr5 : (if hi &&& K.IF_SPI_HIST_CARD_EVENT ≠ 0 then if_spi_e2h K c5
                    else .ok ((), c5)) with
                | error x => simp [hr5] at h
                | ok x =>
                  obtain ⟨_, c6⟩ := x
                  have q6 : qsame c5 c6 := by
                    split at hr5
                    · exact if_spi_e2h_qsame K c5 c6 hr5
                    · simp only [Except.ok.injEq, Prod.mk.injEq, true_and] at hr5
                      rw [← hr5]
                      exact qsame_refl c5
                  simp only [hr5] at h
                  have m6 := qmoved_of_qsame K (qsame_trans q6
                    (lbs_spi_thread_err_qsame _ _ _ _ h))
                  have := qmoved_trans K (qmoved_trans K (qmoved_trans K q13 m4) m5) m6
                  simpa using this

/-- The wake-up leaves the queues alone. -/
theorem lbs_spi_thread_wait_qsame (fuel : Nat) (c : if_spi_card) (r : Option Int)
    (d : if_spi_card) (h : lbs_spi_thread_wait fuel c = .ok (r, d)) : qsame c d := by
  induction fuel generalizing c with
  | zero => simp [lbs_spi_thread_wait] at h
  | succ n ih =>
    simp only [lbs_spi_thread_wait] at h
    split at h
    · simp only [Except.ok.injEq, Prod.mk.injEq] at h
      rw [← h.2]
      exact ⟨rfl, rfl, fun ty => by simp [emit, handed]⟩
    · split at h
      · have q := ih _ h
        refine qsame_trans ?_ q
        exact ⟨rfl, rfl, fun _ => rfl⟩
      · simp only [Except.ok.injEq, Prod.mk.injEq] at h
        rw [← h.2]
        exact ⟨rfl, rfl, fun _ => rfl⟩

/-- One pass of the worker loop hands over at most the head of each list. -/
theorem lbs_spi_thread_cycle_effect (K : if_spi_h) (hne : K.MVMS_CMD ≠ K.MVMS_DAT)
    (fuel : Nat) (c : if_spi_card) (r : Bool) (d : if_spi_card)
    (h : lbs_spi_thread_cycle K fuel c = .ok (r, d)) : qmoved K c d [] [] := by
  unfold lbs_spi_thread_cycle at h
  cases hw : lbs_spi_thread_wait fuel c with
  | error x => simp [hw] at h
  | ok x =>
    obtain ⟨o, c1⟩ := x
    have q1 := lbs_spi_thread_wait_qsame fuel c o c1 hw
    cases o with
    | none =>
      simp only [hw, Except.ok.injEq, Prod.mk.injEq] at h
      rw [← h.2]
      exact qmoved_of_qsame K q1
    | some e =>
      simp only [hw] at h
      cases hd : lbs_spi_thread_dispatch K c1 with
      | error x => simp [hd] at h
      | ok x =>
        obtain ⟨e2, c2⟩ := x
        simp only [hd, Except.ok.injEq, Prod.mk.injEq] at h
        rw [← h.2]
        have := qmoved_trans K (qmoved_of_qsame K q1)
          (lbs_spi_thread_dispatch_effect K hne c1 e2 c2 hd)
        simpa using this

theorem run_ops_effect (K : if_spi_h) (hne : K.MVMS_CMD ≠ K.MVMS_DAT) (ops : List queue_op)
    (c d : if_spi_card) (acc : List (Nat × if_spi_packet))
    (h : run_ops K ops c = .ok (d, acc)) :
    qmoved K c d (accepted K.MVMS_CMD acc) (accepted K.MVMS_DAT acc) := by
  induction ops generalizing c d acc with
  | nil =>
    simp only [run_ops, Except.ok.injEq, Prod.mk.injEq] at h
    rw [← h.1, ← h.2]
    exact qmoved_of_qsame K (qsame_refl c)
  | cons op ops ih =>
    cases op with
    | submit type buf nb =>
      simp only [run_ops] at h
      cases hs : if_spi_host_to_card K c type buf nb with
      | error x => simp [hs] at h
      | ok x =>
        obtain ⟨err, c1⟩ := x
        simp only [hs] at h
        cases hr : run_ops K ops c1 with
        | error x => simp [hr] at h
        | ok x =>
          obtain ⟨d1, acc1⟩ := x
          simp only [hr, Except.ok.injEq, Prod.mk.injEq] at h
          obtain ⟨hd, hacc⟩ := h
          subst hd
          have m2 := ih c1 d1 acc1 hr
          obtain ⟨e1, e2, e3, e4⟩ := if_spi_host_to_card_effect K c type buf nb err c1 hs
          by_cases herr : err = 0
          · simp only [herr, ↓reduceIte] at hacc
            subst hacc
            by_cases hc : u8 type = K.MVMS_CMD
            · obtain ⟨l1, l2⟩ := e3 herr hc
              have m1 : qmoved K c c1 [padded_packet buf (u16 nb)] [] :=
                ⟨[], [], by simp [e1], by simp [l1], by simp [e1], by simp [l2]⟩
              have := qmoved_trans K m1 m2
              simpa [accepted, hc, hne] using this
            · obtain ⟨hdt, l1, l2⟩ := e4 herr hc
              have m1 : qmoved K c c1 [] [padded_packet buf (u16 nb)] :=
                ⟨[], [], by simp [e1], by simp [l2], by simp [e1], by simp [l1]⟩
              have := qmoved_trans K m1 m2
              simpa [accepted, hdt, Ne.symm hne] using this
          · simp only [herr, ↓reduceIte] at hacc
            subst hacc
            obtain ⟨l1, l2⟩ := e2 herr
            have m1 : qmoved K c c1 [] [] :=
              ⟨[], [], by simp [e1], by simp [l1], by simp [e1], by simp [l2]⟩
            have := qmoved_trans K m1 m2
            simpa using this
    | wake fuel =>
      simp only [run_ops] at h
      cases hs : lbs_spi_thread_cycle K fuel c with
      | error x => simp [hs] at h
      | ok x =>
        obtain ⟨b, c1⟩ := x
        simp only [hs] at h
        have := qmoved_trans K (lbs_spi_thread_cycle_effect K hne fuel c b c1 hs) (ih c1 d acc h)
        simpa using this

/-- C3: over any sequence of submissions through `if_spi_host_to_card` and
wake-ups of `lbs_spi_thread` that runs to its end, and for each direction, the
packets handed to `if_spi_h2c` since the start (`nc`, `nd`) followed by the
packets still in the list are exactly the packets the list held at the start
followed by the packets of the submissions that returned 0, in submission
order: packets enter at the tail, leave at the head, are in one list only and
leave at most once, and a direction is not affected by the other.  Starting
from empty lists the packets handed over are a prefix of those submitted. -/
theorem transfer_queues_fifo (K : if_spi_h) (hne : K.MVMS_CMD ≠ K.MVMS_DAT)
    (ops : List queue_op) (c d : if_spi_card) (acc : List (Nat × if_spi_packet))
    (h : run_ops K ops c = .ok (d, acc)) :
    ∃ nc nd,
      handed K.MVMS_CMD d.trace = handed K.MVMS_CMD c.trace ++ nc ∧
      nc ++ d.cmd_packet_list = c.cmd_packet_list ++ accepted K.MVMS_CMD acc ∧
      handed K.MVMS_DAT d.trace = handed K.MVMS_DAT c.trace ++ nd ∧
      nd ++ d.data_packet_list = c.data_packet_list ++ accepted K.MVMS_DAT acc ∧
      (c.cmd_packet_list = [] → nc <+: accepted K.MVMS_CMD acc) ∧
      (c.data_packet_list = [] → nd <+: accepted K.MVMS_DAT acc) := by
  obtain ⟨nc, nd, h1, h2, h3, h4⟩ := run_ops_effect K hne ops c d acc h
  refine ⟨nc, nd, h1, h2, h3, h4, fun hc => ?_, fun hd => ?_⟩
  · rw [hc, List.nil_append] at h2
    exact ⟨_, h2⟩
  · rw [hd, List.nil_append] at h4
    exact ⟨_, h4⟩

/-- C3, on two commands and one data buffer submitted to an idle card whose
device is ready for both downloads, followed by two wake-ups. -/
theorem transfer_queues_fifo_witness :
    ∃ d acc, run_ops sample_h sample_ops (sim_card download_ready_dev (fun _ => 0) []) =
        .ok (d, acc) ∧
      ∃ nc nd,
        handed sample_h.MVMS_CMD d.trace =
          handed sample_h.MVMS_CMD (sim_card download_ready_dev (fun _ => 0) []).trace ++ nc ∧
        nc ++ d.cmd_packet_list =
          (sim_card download_ready_dev (fun _ => 0) []).cmd_packet_list ++
            accepted sample_h.MVMS_CMD acc ∧
        handed sample_h.MVMS_DAT d.trace =
          handed sample_h.MVMS_DAT (sim_card download_ready_dev (fun _ => 0) []).trace ++ nd ∧
        nd ++ d.data_packet_list =
          (sim_card download_ready_dev (fun _ => 0) []).data_packet_list ++
            accepted sample_h.MVMS_DAT acc ∧
        ((sim_card download_ready_dev (fun _ => 0) []).cmd_packet_list = [] →
          nc <+: accepted sample_h.MVMS_CMD acc) ∧
        ((sim_card download_ready_dev (fun _ => 0) []).data_packet_list = [] →
          nd <+: accepted sample_h.MVMS_DAT acc) :=
  match h : run_ops sample_h sample_ops (sim_card download_ready_dev (fun _ => 0) []) with
  | .ok (d, acc) =>
    ⟨d, acc, rfl, transfer_queues_fifo sample_h (by decide) sample_ops
      (sim_card download_ready_dev (fun _ => 0) []) d acc h⟩
  | .error e => by
    have hr : returned (run_ops sample_h sample_ops
        (sim_card download_ready_dev (fun _ => 0) [])) = true := by decide
    rw [h] at hr
    exact Bool.noConfusion hr

/-- Up to 65532 bytes the packet is built, and it is the padded packet. -/
theorem if_spi_host_to_card_packet_some (buf : List Nat) (nb : Nat) (h1 : nb ≤ 65532)
    (hb : nb ≤ buf.length) :
    if_spi_host_to_card_packet buf nb (u16 (ALIGN nb 4)) = some (padded_packet buf nb) := by
  have hal := ALIGN_4_bounds nb
  have hu : u16 (ALIGN nb 4) = ALIGN nb 4 := by simp only [u16]; omega
  have hm : memcpy_src buf 0 nb = some (buf.take nb) := by simp [memcpy_src, hb]
  have hfit : ¬ nb > ALIGN nb 4 := by omega
  simp only [if_spi_host_to_card_packet, hm, hu, hfit, ↓reduceIte, padded_packet, store,
    Option.some.injEq, if_spi_packet.mk.injEq, true_and]
  congr 1
  rw [List.take_append_eq_append_take]
  simp [List.length_take, Nat.min_eq_left hb]

/-- The shape of the padded packet: a length that is the next multiple of 4,
the caller's bytes, zeros in the padding. -/
theorem padded_packet_shape (buf : List Nat) (nb : Nat) (hb : nb ≤ buf.length) :
    (padded_packet buf nb).blen = ALIGN nb 4 ∧
    (padded_packet buf nb).blen % 4 = 0 ∧
    nb ≤ (padded_packet buf nb).blen ∧ (padded_packet buf nb).blen < nb + 4 ∧
    (padded_packet buf nb).buffer.length = (padded_packet buf nb).blen ∧
    (padded_packet buf nb).buffer.take nb = buf.take nb ∧
    (∀ i, nb ≤ i → i < (padded_packet buf nb).blen →
      (padded_packet buf nb).buffer.get? i = some 0) := by
  have hal := ALIGN_4_bounds nb
  have hlen : (buf.take nb).length = nb := by simp [List.length_take, Nat.min_eq_left hb]
  refine ⟨rfl, hal.2.2, hal.1, hal.2.1, ?_, ?_, ?_⟩
  · simp only [padded_packet, List.length_append, hlen, List.length_replicate]
    omega
  · simp only [padded_packet]
    rw [List.take_append_eq_append_take]
    simp [hlen]
  · intro i h1 h2
    simp only [padded_packet] at h2 ⊢
    rw [List.get?_eq_getElem?, List.getElem?_append_right (by omega)]
    simp [hlen, List.getElem?_replicate]
    omega

/-- In range, `if_spi_host_to_card` queues the padded packet: for a length
`0 < nb ≤ 65532`, a buffer that holds `nb` bytes, a granted allocation and a
type that is `MVMS_CMD` or `MVMS_DAT`, it returns 0 with the padded packet at
the tail of the list of that type. -/
theorem if_spi_host_to_card_pads (K : if_spi_h) (c : if_spi_card) (type : Nat)
    (buf : List Nat) (nb : Nat) (h0 : 0 < nb) (h1 : nb ≤ 65532) (hb : nb ≤ buf.length)
    (hg : c.sys.alloc_ok c.sys.nalloc = true)
    (ht : u8 type = K.MVMS_CMD ∨ u8 type = K.MVMS_DAT) :
    ∃ d, if_spi_host_to_card K c type buf nb = .ok (0, d) ∧
      (u8 type = K.MVMS_CMD →
        d.cmd_packet_list = c.cmd_packet_list ++ [padded_packet buf nb] ∧
        d.data_packet_list = c.data_packet_list) ∧
      (u8 type ≠ K.MVMS_CMD →
        d.data_packet_list = c.data_packet_list ++ [padded_packet buf nb] ∧
        d.cmd_packet_list = c.cmd_packet_list) := by
  have hu : u16 nb = nb := by simp only [u16]; omega
  have hn0 : ¬ u16 nb = 0 := by omega
  have hp := if_spi_host_to_card_packet_some buf nb h1 hb
  have hres : if_spi_host_to_card K c type buf nb = .ok
      ((if_spi_host_to_card_enqueue K { c with sys := { c.sys with nalloc := c.sys.nalloc + 1 } }
        (u8 type) (padded_packet buf nb)).1,
       up_spi_ready (if_spi_host_to_card_enqueue K
        { c with sys := { c.sys with nalloc := c.sys.nalloc + 1 } }
        (u8 type) (padded_packet buf nb)).2) := by
    unfold if_spi_host_to_card
    simp only [hn0, hg, ↓reduceIte, Bool.not_true, Bool.false_eq_true]
    rw [hu, hp]
  have he : (if_spi_host_to_card_enqueue K
      { c with sys := { c.sys with nalloc := c.sys.nalloc + 1 } }
      (u8 type) (padded_packet buf nb)).1 = 0 := by
    unfold if_spi_host_to_card_enqueue
    rcases ht with ht | ht
    · simp [ht]
    · by_cases hc : K.MVMS_DAT = K.MVMS_CMD
      · simp [ht, hc]
      · simp [ht, hc]
  rw [he] at hres
  obtain ⟨_, _, e3, e4⟩ := if_spi_host_to_card_effect K c type buf nb 0 _ hres
  rw [hu] at e3 e4
  exact ⟨_, hres, fun hc => e3 rfl hc, fun hc => (e4 rfl hc).2⟩

/-- The return codes of `if_spi_host_to_card` for a type that is `MVMS_CMD`
or `MVMS_DAT`: `-EINVAL` for `nb = 0`; `-ENOMEM` for `nb > 0` with a refused
allocation; whenever it returns, the code is `-EINVAL` only for `nb = 0` and
`-ENOMEM` only for a refused allocation with `nb > 0`, and an error code leaves
both lists unchanged. -/
theorem if_spi_host_to_card_codes (K : if_spi_h) (c : if_spi_card) (type : Nat)
    (buf : List Nat) (nb : Nat) (ht : u8 type = K.MVMS_CMD ∨ u8 type = K.MVMS_DAT) :
    (u16 nb = 0 → ∃ d, if_spi_host_to_card K c type buf nb = .ok (-EINVAL, d)) ∧
    (u16 nb ≠ 0 → c.sys.alloc_ok c.sys.nalloc = false →
      ∃ d, if_spi_host_to_card K c type buf nb = .ok (-ENOMEM, d)) ∧
    (∀ err d, if_spi_host_to_card K c type buf nb = .ok (err, d) →
      (err = -EINVAL ↔ u16 nb = 0) ∧
      (err = -ENOMEM ↔ u16 nb ≠ 0 ∧ c.sys.alloc_ok c.sys.nalloc = false) ∧
      (err = 0 ∨ err = -EINVAL ∨ err = -ENOMEM) ∧
      (err ≠ 0 → d.cmd_packet_list = c.cmd_packet_list ∧
        d.data_packet_list = c.data_packet_list)) := by
  refine ⟨fun h0 => ?_, fun h0 hg => ?_, fun err d h => ?_⟩
  · exact ⟨emit c (.pr_err (-EINVAL)), by simp [if_spi_host_to_card, h0]⟩
  · exact ⟨{ c with sys := { c.sys with nalloc := c.sys.nalloc + 1 } },
      by simp [if_spi_host_to_card, h0, hg]⟩
  · have eff := if_spi_host_to_card_effect K c type buf nb err d h
    refine ⟨?_, ?_, ?_, eff.2.1⟩ <;>
    · unfold if_spi_host_to_card at h
      by_cases h0 : u16 nb = 0
      · simp only [h0, ↓reduceIte, Except.ok.injEq, Prod.mk.injEq] at h
        simp [← h.1, h0, EINVAL, ENOMEM]
      · by_cases hg : c.sys.alloc_ok c.sys.nalloc = true
        · simp only [h0, hg, ↓reduceIte, Bool.not_true, Bool.false_eq_true] at h
          cases hp : if_spi_host_to_card_packet buf (u16 nb) (u16 (ALIGN (u16 nb) 4)) with
          | none => simp [hp] at h
          | some p =>
            simp only [hp, Except.ok.injEq, Prod.mk.injEq] at h
            have he : (if_spi_host_to_card_enqueue K
                { c with sys := { c.sys with nalloc := c.sys.nalloc + 1 } } (u8 type) p).1 = 0 := by
              unfold if_spi_host_to_card_enqueue
              rcases ht with ht | ht
              · simp [ht]
              · by_cases hc : K.MVMS_DAT = K.MVMS_CMD
                · simp [ht, hc]
                · simp [ht, hc]
            rw [he] at h
            simp [← h.1, h0, hg, EINVAL, ENOMEM]
        · simp only [Bool.not_eq_true] at hg
          simp only [h0, hg, ↓reduceIte, Bool.not_false, Except.ok.injEq, Prod.mk.injEq] at h
          simp [← h.1, h0, hg, EINVAL, ENOMEM]

/-- C2, where the code breaks it: for `nb = 65535` the padded length is
65536, which the `u16` field `blen` holds as 0; the 65535 bytes are then copied
into an allocation without room for them (a memory fault in the model), and no
packet with the padded length is queued. -/
theorem if_spi_host_to_card_blen_wraps (K : if_spi_h) (rd_data : Nat → Nat → List Nat)
    (clock : Nat → Nat) (image : List Nat) (type : Nat) (buf : List Nat) :
    ALIGN 65535 4 = 65536 ∧ u16 (ALIGN 65535 4) = 0 ∧
    if_spi_host_to_card K (sim_card rd_data clock image) type buf 65535 = .error .fault := by
  refine ⟨by decide, by decide, ?_⟩
  have h1 : u16 65535 = 65535 := by decide
  have h2 : u16 (ALIGN 65535 4) = 0 := by decide
  have hp : if_spi_host_to_card_packet buf 65535 0 = none := by
    unfold if_spi_host_to_card_packet
    cases memcpy_src buf 0 65535 <;> simp
  simp [if_spi_host_to_card, h1, h2, hp, sim_card]

/-- C4, where the code breaks it: a command submission of `nb = 65533` bytes
with a granted allocation returns neither 0 nor an error code; its copy runs
past the allocation (a memory fault in the model). -/
theorem if_spi_host_to_card_no_code (K : if_spi_h) (rd_data : Nat → Nat → List Nat)
    (clock : Nat → Nat) (image : List Nat) (buf : List Nat) :
    u16 (ALIGN 65533 4) < 65533 ∧
    if_spi_host_to_card K (sim_card rd_data clock image) K.MVMS_CMD buf 65533 =
      .error .fault := by
  refine ⟨by decide, ?_⟩
  have h1 : u16 65533 = 65533 := by decide
  have h2 : u16 (ALIGN 65533 4) = 0 := by decide
  have hp : if_spi_host_to_card_packet buf 65533 0 = none := by
    unfold if_spi_host_to_card_packet
    cases memcpy_src buf 0 65533 <;> simp
  simp [if_spi_host_to_card, h1, h2, hp, sim_card]

/-! ### One dispatch pass of the worker -/

/-- `if_spi_c2h_cmd` fails with `-EINVAL` when scratch register 2 announces a
length of 0. -/
theorem if_spi_c2h_cmd_no_data (K : if_spi_h) (c : if_spi_card) (hw : writes_ok c)
    (hr : c.spi.rd_res (u16 K.IF_SPI_SCRATCH_2_REG) (c.spi.nrd (u16 K.IF_SPI_SCRATCH_2_REG)) = 0)
    (hl : rd_u16 c.spi (u16 K.IF_SPI_SCRATCH_2_REG) (c.spi.nrd (u16 K.IF_SPI_SCRATCH_2_REG)) = 0) :
    ∃ d, if_spi_c2h_cmd K c = .ok (-EINVAL, d) := by
  obtain ⟨c1, h1, _⟩ := spu_read_u16_ok K c K.IF_SPI_SCRATCH_2_REG hw
  simp only [hr, hl, ↓reduceIte] at h1
  exact ⟨emit (emit c1 (.pr_err (-EINVAL))) (.pr_err (-EINVAL)),
    by simp [if_spi_c2h_cmd, h1, if_spi_c2h_out, EINVAL]⟩

/-- C1 (amended): in one dispatch pass of `lbs_spi_thread` whose status read
succeeds with the command-upload bit set, a failure of `if_spi_c2h_cmd` ends
the pass at once (`goto err`): the pass logs the error and ends in the state
`if_spi_c2h_cmd` left, so the data-reception, command-transmit, data-transmit
and event branches are not executed, whatever the other status bits are; both
transfer queues are as they were and no packet has been handed to
`if_spi_h2c`. -/
theorem lbs_spi_thread_dispatch_stops (K : if_spi_h) (c : if_spi_card) (hiStatus : Nat)
    (c1 : if_spi_card) (err : Int) (c2 : if_spi_card)
    (h1 : spu_read_u16 K c K.IF_SPI_HOST_INT_STATUS_REG = .ok ((0, hiStatus), c1))
    (hbit : hiStatus &&& K.IF_SPI_HIST_CMD_UPLOAD_RDY ≠ 0)
    (h2 : if_spi_c2h_cmd K c1 = .ok (err, c2)) (herr : err ≠ 0) :
    lbs_spi_thread_dispatch K c = .ok (err, emit c2 (.pr_err err)) ∧
    (emit c2 (.pr_err err)).cmd_packet_list = c.cmd_packet_list ∧
    (emit c2 (.pr_err err)).data_packet_list = c.data_packet_list ∧
    ∀ ty, handed ty (emit c2 (.pr_err err)).trace = handed ty c.trace := by
  have hd : lbs_spi_thread_dispatch K c = .ok (err, emit c2 (.pr_err err)) := by
    simp [lbs_spi_thread_dispatch, h1, hbit, h2, herr, lbs_spi_thread_err]
  obtain ⟨_, _, h0, ht0, _⟩ := spu_read_u16_touches K c K.IF_SPI_HOST_INT_STATUS_REG
  rw [h1] at h0
  simp only [Except.ok.injEq, Prod.mk.injEq] at h0
  rw [← h0.2] at ht0
  have q := qsame_trans (qsame_read ht0)
    (qsame_trans (if_spi_c2h_cmd_qsame K c1 err c2 h2) (qsame_pr_err c2 err))
  exact ⟨hd, q.1, q.2.1, q.2.2⟩

/-- C1 (amended), on the busy card: all five status bits are set, the command
response has length 0, and the pass ends with `-EINVAL`. -/
theorem lbs_spi_thread_dispatch_stops_witness :
    ∃ d, lbs_spi_thread_dispatch sample_h busy_card = .ok (-EINVAL, d) := by
  obtain ⟨c1, h1, ht1, hn1, _⟩ :=
    spu_read_u16_ok sample_h busy_card sample_h.IF_SPI_HOST_INT_STATUS_REG (fun _ => rfl)
  have hv : rd_u16 busy_card.spi (u16 sample_h.IF_SPI_HOST_INT_STATUS_REG)
      (busy_card.spi.nrd (u16 sample_h.IF_SPI_HOST_INT_STATUS_REG)) = 0x1f := by decide
  have hr : busy_card.spi.rd_res (u16 sample_h.IF_SPI_HOST_INT_STATUS_REG)
      (busy_card.spi.nrd (u16 sample_h.IF_SPI_HOST_INT_STATUS_REG)) = 0 := rfl
  simp only [hr, hv, ↓reduceIte] at h1
  obtain ⟨c2, h2⟩ := if_spi_c2h_cmd_no_data sample_h c1 (touches_writes_ok ht1 (fun _ => rfl))
    (by rw [touches_rd_res ht1]; rfl)
    (by rw [touches_rd_u16 ht1]; rfl)
  exact ⟨_, (lbs_spi_thread_dispatch_stops sample_h busy_card 0x1f c1 (-EINVAL) c2 h1
    (by decide) h2 (by decide)).1⟩

/-- C1 as stated fails on the busy card: the status register shows all five
bits, `if_spi_c2h_cmd` fails (no data), and the pass returns `-EINVAL` having
done nothing but bus reads: `lbs_host_to_card_done` is not called, the command
and data packets stay queued, nothing is handed to `if_spi_h2c`, and neither
scratch register 1 (data length) nor scratch register 3 (event cause) is read. -/
theorem lbs_spi_thread_dispatch_not_independent :
    value_of (lbs_spi_thread_dispatch sample_h busy_card) = some (-EINVAL) ∧
    sample_h.IF_SPI_HIST_CMD_UPLOAD_RDY ||| sample_h.IF_SPI_HIST_RX_UPLOAD_RDY |||
      sample_h.IF_SPI_HIST_CMD_DOWNLOAD_RDY ||| sample_h.IF_SPI_HIST_TX_DOWNLOAD_RDY |||
      sample_h.IF_SPI_HIST_CARD_EVENT = rd_u16 busy_card.spi sample_h.IF_SPI_HOST_INT_STATUS_REG 0 ∧
    (∀ e ∈ (state_of (lbs_spi_thread_dispatch sample_h busy_card) busy_card).trace,
      read_event e = true) ∧
    Event.lbs_host_to_card_done ∉
      (state_of (lbs_spi_thread_dispatch sample_h busy_card) busy_card).trace ∧
    (state_of (lbs_spi_thread_dispatch sample_h busy_card) busy_card).cmd_packet_list =
      [{ blen := 4, buffer := [1, 2, 3, 4] }] ∧
    (state_of (lbs_spi_thread_dispatch sample_h busy_card) busy_card).data_packet_list =
      [{ blen := 4, buffer := [5, 6, 7, 8] }] ∧
    (state_of (lbs_spi_thread_dispatch sample_h busy_card) busy_card).spi.nrd
      sample_h.IF_SPI_SCRATCH_1_REG = 0 ∧
    (state_of (lbs_spi_thread_dispatch sample_h busy_card) busy_card).spi.nrd
      sample_h.IF_SPI_SCRATCH_3_REG = 0 := by
  decide

/-! ### `spu_wait_for_u16` -/

/-- The polling loop, entered in state `c` with `fuel > k`: when polls
`0 .. k-1` read without error, miss, and are followed by a clock reading that
is not after the deadline, and poll `k` fails on the bus, or hits, or is
followed by a reading after the deadline, the loop returns after exactly
`k + 1` reads of the register with the bus error, 0, or `-ETIMEDOUT`. -/
theorem spu_wait_for_u16_loop_ends (K : if_spi_h) (reg m t timeout : Nat) (fuel : Nat)
    (c : if_spi_card) (k : Nat) (hk : k < fuel) (hw : writes_ok c)
    (hbefore : ∀ i, i < k → poll_res c reg i = 0 ∧ ¬ wait_hit m t (poll_u16 c reg i) ∧
      time_after (ulong (c.sys.clock (c.sys.nclk + 3 * i + 2))) timeout = false)
    (hend : poll_res c reg k ≠ 0 ∨ wait_hit m t (poll_u16 c reg k) ∨
      time_after (ulong (c.sys.clock (c.sys.nclk + 3 * k + 2))) timeout = true) :
    ∃ d, spu_wait_for_u16_loop K reg m t timeout fuel c =
        .ok (if poll_res c reg k ≠ 0 then poll_res c reg k
          else if wait_hit m t (poll_u16 c reg k) then 0 else -ETIMEDOUT, d) ∧
      touches read_event c d ∧
      d.spi.nrd (u16 reg) = c.spi.nrd (u16 reg) + (k + 1) := by
  induction fuel generalizing c k with
  | zero => omega
  | succ n ih =>
    obtain ⟨d, h, ht, hn, hclk⟩ := spu_read_u16_ok K c reg hw
    have hnr : d.spi.nrd (u16 reg) = c.spi.nrd (u16 reg) + 1 := by simp [hn]
    cases k with
    | zero =>
      simp only [poll_res, poll_u16, Nat.add_zero, Nat.mul_zero, Nat.zero_add] at hend ⊢
      by_cases he : c.spi.rd_res (u16 reg) (c.spi.nrd (u16 reg)) = 0
      · simp only [he, ↓reduceIte] at h
        by_cases hh : wait_hit m t (rd_u16 c.spi (u16 reg) (c.spi.nrd (u16 reg)))
        · refine ⟨d, ?_, ht, hnr⟩
          simp only [spu_wait_for_u16_loop, h, he, hh, ne_eq, not_true_eq_false, ↓reduceIte]
          unfold wait_hit at hh
          rcases hh with ⟨h1, h2⟩ | ⟨h1, h2⟩
          · simp [h1, h2]
          · simp [h1, h2]
        · have htime : time_after (ulong (c.sys.clock (c.sys.nclk + 2))) timeout = true := by
            rcases hend with h1 | h1 | h1
            · exact absurd he h1
            · exact absurd h1 hh
            · exact h1
          have hj : (jiffies (emit d (.udelay 100))).1 = ulong (c.sys.clock (c.sys.nclk + 2)) := by
            simp [jiffies, emit, hclk, touches_clock ht]
          have hte : touches read_event c (emit d (.udelay 100)) := touches_emit ht rfl
          refine ⟨emit (jiffies (emit d (.udelay 100))).2 (.pr_err (-ETIMEDOUT)), ?_,
            touches_emit (touches_jiffies hte) rfl, ?_⟩
          · simp only [spu_wait_for_u16_loop, h, he, hh, ne_eq, not_true_eq_false, ↓reduceIte,
              hj, htime]
            unfold wait_hit at hh
            have h1 : ¬ (m ≠ 0 ∧ rd_u16 c.spi (u16 reg) (c.spi.nrd (u16 reg)) &&& m = t) :=
              fun hx => hh (Or.inl hx)
            have h2 : ¬ (m = 0 ∧ rd_u16 c.spi (u16 reg) (c.spi.nrd (u16 reg)) ≠ 0) :=
              fun hx => hh (Or.inr hx)
            simp only [ne_eq] at h1 h2
            simp only [h1, h2, ↓reduceIte]
          · simpa [emit, jiffies] using hnr
      · refine ⟨d, ?_, ht, hnr⟩
        simp only [he, ↓reduceIte] at h
        simp only [spu_wait_for_u16_loop, h, he, ne_eq, not_false_eq_true, ↓reduceIte]
    | succ k =>
      obtain ⟨hr0, hm0, ht0⟩ := hbefore 0 (by omega)
      simp only [poll_res, poll_u16, Nat.add_zero, Nat.mul_zero] at hr0 hm0 ht0
      simp only [hr0, ↓reduceIte] at h
      have hj : (jiffies (emit d (.udelay 100))).1 = ulong (c.sys.clock (c.sys.nclk + 2)) := by
        simp [jiffies, emit, hclk, touches_clock ht]
      have hte : touches read_event c (jiffies (emit d (.udelay 100))).2 :=
        touches_jiffies (touches_emit ht rfl)
      have hnd : (jiffies (emit d (.udelay 100))).2.spi.nrd (u16 reg) =
          c.spi.nrd (u16 reg) + 1 := by simpa [emit, jiffies] using hnr
      have hnc : (jiffies (emit d (.udelay 100))).2.sys.nclk = c.sys.nclk + 3 := by
        simp [emit, jiffies, hclk]
      have hres : ∀ i, poll_res (jiffies (emit d (.udelay 100))).2 reg i =
          poll_res c reg (i + 1) := by
        intro i
        simp only [poll_res, touches_rd_res hte, hnd]
        rw [Nat.add_assoc, Nat.add_comm 1 i]
      have hval : ∀ i, poll_u16 (jiffies (emit d (.udelay 100))).2 reg i =
          poll_u16 c reg (i + 1) := by
        intro i
        simp only [poll_u16, touches_rd_u16 hte, hnd]
        rw [Nat.add_assoc, Nat.add_comm 1 i]
      have hck : ∀ i, (jiffies (emit d (.udelay 100))).2.sys.clock
          ((jiffies (emit d (.udelay 100))).2.sys.nclk + 3 * i + 2) =
          c.sys.clock (c.sys.nclk + 3 * (i + 1) + 2) := by
        intro i
        rw [touches_clock hte, hnc]
        congr 1
        omega
      obtain ⟨d2, h2, ht2, hn2⟩ := ih (jiffies (emit d (.udelay 100))).2 k (by omega)
        (touches_writes_ok hte hw)
        (fun i hi => by
          rw [hres, hval, hck]
          exact hbefore (i + 1) (by omega))
        (by
          rw [hres, hval, hck]
          exact hend)
      rw [hres, hval] at h2
      refine ⟨d2, ?_, touches_trans hte ht2, by rw [hn2, hnd]; omega⟩
      simp only [spu_wait_for_u16_loop, h, ne_eq, not_true_eq_false, ↓reduceIte, hj, ht0]
      unfold wait_hit at hm0
      have h1 : ¬ (m ≠ 0 ∧ rd_u16 c.spi (u16 reg) (c.spi.nrd (u16 reg)) &&& m = t) :=
        fun hx => hm0 (Or.inl hx)
      have h3 : ¬ (m = 0 ∧ rd_u16 c.spi (u16 reg) (c.spi.nrd (u16 reg)) ≠ 0) :=
        fun hx => hm0 (Or.inr hx)
      simp only [ne_eq] at h1 h3
      simp only [h1, h3, ↓reduceIte, Bool.false_eq_true]
      exact h2

/-- `spu_wait_for_u16`, entered in state `c` with `fuel > k`: when polls
`0 .. k-1` read without error, miss, and are followed by a clock reading that
is not after the deadline, and poll `k` fails on the bus, or hits, or is
followed by a reading after the deadline, the call returns after exactly
`k + 1` reads of the register with the bus error, 0, or `-ETIMEDOUT`. -/
theorem spu_wait_for_u16_ends (K : if_spi_h) (c : if_spi_card) (reg mask target : Nat)
    (fuel k : Nat) (hk : k < fuel) (hw : writes_ok c)
    (hbefore : ∀ i, i < k → poll_res c reg i = 0 ∧
      ¬ wait_hit (u16 mask) (u16 target) (poll_u16 c reg i) ∧
      time_after (wait_clock c i) (wait_deadline K c) = false)
    (hend : poll_res c reg k ≠ 0 ∨ wait_hit (u16 mask) (u16 target) (poll_u16 c reg k) ∨
      time_after (wait_clock c k) (wait_deadline K c) = true) :
    ∃ d, spu_wait_for_u16 K fuel c reg mask target =
        .ok (if poll_res c reg k ≠ 0 then poll_res c reg k
          else if wait_hit (u16 mask) (u16 target) (poll_u16 c reg k) then 0 else -ETIMEDOUT, d) ∧
      d.spi.nrd (u16 reg) = c.spi.nrd (u16 reg) + (k + 1) := by
  have hj : touches read_event c (jiffies c).2 := touches_jiffies (touches_refl _ c)
  have hnc : (jiffies c).2.sys.nclk = c.sys.nclk + 1 := by simp [jiffies]
  have hsp : (jiffies c).2.spi = c.spi := by simp [jiffies]
  have hres : ∀ i, poll_res (jiffies c).2 reg i = poll_res c reg i := by
    intro i; simp only [poll_res, hsp]
  have hval : ∀ i, poll_u16 (jiffies c).2 reg i = poll_u16 c reg i := by
    intro i; simp only [poll_u16, hsp]
  have hck : ∀ i, ulong ((jiffies c).2.sys.clock ((jiffies c).2.sys.nclk + 3 * i + 2)) =
      wait_clock c i := by
    intro i
    simp only [wait_clock, touches_clock hj, hnc]
    congr 2
    omega
  have hdl : ulong ((jiffies c).1 + 5 * K.HZ) = wait_deadline K c := by
    simp [wait_deadline, jiffies]
  obtain ⟨d, h, _, hn⟩ := spu_wait_for_u16_loop_ends K reg (u16 mask) (u16 target)
    (wait_deadline K c) fuel (jiffies c).2 k hk (touches_writes_ok hj hw)
    (fun i hi => by
      rw [hres, hval, hck]
      exact hbefore i hi)
    (by
      rw [hres, hval, hck]
      exact hend)
  rw [hres, hval] at h
  rw [hsp] at hn
  refine ⟨d, ?_, hn⟩
  simp only [spu_wait_for_u16, hdl]
  exact h

/-- C6: `spu_wait_for_u16` over a simulated register and clock.  Suppose the
polls before poll `k` (counted from 0) read without bus error, fail the test
`(v & mask) == target` (`v != 0` for a zero mask), and are each followed by a
reading of `jiffies` that is not after the deadline `jiffies + 5*HZ` taken at
entry.  Then, given fuel for `k + 1` polls: if poll `k` passes the test the
call returns 0; if it fails the test and the next reading of `jiffies` is
after the deadline the call returns `-ETIMEDOUT` (so it does for a zero mask
and a register that reads zero throughout); if its bus read fails the call
returns that error at once.  In each case the register has been read exactly
`k + 1` times. -/
theorem spu_wait_for_u16_polls (K : if_spi_h) (c : if_spi_card) (reg mask target : Nat)
    (fuel k : Nat) (hk : k < fuel) (hw : writes_ok c)
    (hbefore : ∀ i, i < k → poll_res c reg i = 0 ∧
      ¬ wait_hit (u16 mask) (u16 target) (poll_u16 c reg i) ∧
      time_after (wait_clock c i) (wait_deadline K c) = false) :
    (poll_res c reg k = 0 → wait_hit (u16 mask) (u16 target) (poll_u16 c reg k) →
      ∃ d, spu_wait_for_u16 K fuel c reg mask target = .ok (0, d) ∧
        d.spi.nrd (u16 reg) = c.spi.nrd (u16 reg) + (k + 1)) ∧
    (poll_res c reg k = 0 → ¬ wait_hit (u16 mask) (u16 target) (poll_u16 c reg k) →
      time_after (wait_clock c k) (wait_deadline K c) = true →
      ∃ d, spu_wait_for_u16 K fuel c reg mask target = .ok (-ETIMEDOUT, d) ∧
        d.spi.nrd (u16 reg) = c.spi.nrd (u16 reg) + (k + 1)) ∧
    (u16 mask = 0 → poll_res c reg k = 0 → poll_u16 c reg k = 0 →
      time_after (wait_clock c k) (wait_deadline K c) = true →
      ∃ d, spu_wait_for_u16 K fuel c reg mask target = .ok (-ETIMEDOUT, d) ∧
        d.spi.nrd (u16 reg) = c.spi.nrd (u16 reg) + (k + 1)) ∧
    (poll_res c reg k ≠ 0 →
      ∃ d, spu_wait_for_u16 K fuel c reg mask target = .ok (poll_res c reg k, d) ∧
        d.spi.nrd (u16 reg) = c.spi.nrd (u16 reg) + (k + 1)) := by
  have key := spu_wait_for_u16_ends K c reg mask target fuel k hk hw hbefore
  refine ⟨fun h0 hh => ?_, fun h0 hh htm => ?_, fun hm h0 hz htm => ?_, fun hne => ?_⟩
  · obtain ⟨d, h, hn⟩ := key (Or.inr (Or.inl hh))
    simp only [h0, hh, ne_eq, not_true_eq_false, ↓reduceIte] at h
    exact ⟨d, h, hn⟩
  · obtain ⟨d, h, hn⟩ := key (Or.inr (Or.inr htm))
    simp only [h0, hh, ne_eq, not_true_eq_false, ↓reduceIte] at h
    exact ⟨d, h, hn⟩
  · have hh : ¬ wait_hit (u16 mask) (u16 target) (poll_u16 c reg k) := by
      simp [wait_hit, hm, hz]
    obtain ⟨d, h, hn⟩ := key (Or.inr (Or.inr htm))
    simp only [h0, hh, ne_eq, not_true_eq_false, ↓reduceIte] at h
    exact ⟨d, h, hn⟩
  · obtain ⟨d, h, hn⟩ := key (Or.inl hne)
    simp only [hne, ne_eq, not_false_eq_true, ↓reduceIte] at h
    exact ⟨d, h, hn⟩

/-- C6, with a zero mask on a register that reads 0, 0, then 1, and a clock
that advances one tick per reading (deadline 500 ticks away): success at the
third poll, after exactly 3 reads. -/
theorem spu_wait_for_u16_polls_witness :
    ∃ d, spu_wait_for_u16 sample_h 3
        (sim_card (fun _ k => if k = 2 then [1, 0] else [0, 0]) (fun n => n) [])
        sample_h.IF_SPI_SCRATCH_1_REG 0 0 = .ok (0, d) ∧
      d.spi.nrd (u16 sample_h.IF_SPI_SCRATCH_1_REG) =
        (sim_card (fun _ k => if k = 2 then [1, 0] else [0, 0]) (fun n => n) []).spi.nrd
          (u16 sample_h.IF_SPI_SCRATCH_1_REG) + (2 + 1) :=
  (spu_wait_for_u16_polls sample_h
    (sim_card (fun _ k => if k = 2 then [1, 0] else [0, 0]) (fun n => n) [])
    sample_h.IF_SPI_SCRATCH_1_REG 0 0 3 2 (by decide) (fun _ => rfl)
    (fun i hi => by
      have : i = 0 ∨ i = 1 := by omega
      rcases this with h | h <;> subst h <;> decide)).1 rfl (by decide)

/-! ### Main firmware load -/

theorem same_dev_refl (c : if_spi_card) : same_dev c c := ⟨rfl, rfl, rfl, rfl⟩

theorem same_dev_trans {c d e : if_spi_card} (h1 : same_dev c d) (h2 : same_dev d e) :
    same_dev c e :=
  ⟨h2.1.trans h1.1, h2.2.1.trans h1.2.1, h2.2.2.1.trans h1.2.2.1, h2.2.2.2.trans h1.2.2.2⟩

theorem same_dev_of_touches {P : Event → Bool} {c d : if_spi_card} (h : touches P c d) :
    same_dev c d :=
  ⟨touches_wr_res h, touches_rd_res h, touches_rd_data h, touches_clock h⟩

theorem fw_dev_ok_same (K : if_spi_h) {c d : if_spi_card} (h : same_dev c d)
    (hc : fw_dev_ok K c) : fw_dev_ok K d := by
  obtain ⟨h1, h2, h3, h4, h5, h6, h7⟩ := hc
  refine ⟨fun n => ?_, fun k => ?_, fun k => ?_, fun k => ?_, h5, h6, h7⟩
  · rw [h.1]; exact h1 n
  · rw [h.2.1]; exact h2 k
  · rw [h.2.1]; exact h3 k
  · have : rd_u16 d.spi (u16 K.IF_SPI_HOST_INT_STATUS_REG) k =
        rd_u16 c.spi (u16 K.IF_SPI_HOST_INT_STATUS_REG) k := by simp [rd_u16, h.2.2.1]
    rw [this]; exact h4 k

/-- Whatever the polling loop returns, it has only touched the bus, written
no payload, and read no register but its own. -/
theorem spu_wait_for_u16_loop_touches (K : if_spi_h) (reg m t timeout : Nat) (fuel : Nat)
    (c : if_spi_card) (r : Int) (d : if_spi_card)
    (h : spu_wait_for_u16_loop K reg m t timeout fuel c = .ok (r, d)) :
    touches read_event c d ∧ ∀ x, x ≠ u16 reg → d.spi.nrd x = c.spi.nrd x := by
  induction fuel generalizing c with
  | zero => simp [spu_wait_for_u16_loop] at h
  | succ n ih =>
    obtain ⟨⟨e, v⟩, c1, h1, ht1, hn1⟩ := spu_read_u16_touches K c reg
    have hx : ∀ x, x ≠ u16 reg → c1.spi.nrd x = c.spi.nrd x := by
      intro x hx
      rcases hn1 with hn | hn
      · rw [hn]
      · rw [hn, Function.update_noteq hx]
    simp only [spu_wait_for_u16_loop, h1] at h
    split at h
    · simp only [Except.ok.injEq, Prod.mk.injEq] at h
      rw [← h.2]; exact ⟨ht1, hx⟩
    · split at h
      · simp only [Except.ok.injEq, Prod.mk.injEq] at h
        rw [← h.2]; exact ⟨ht1, hx⟩
      · split at h
        · simp only [Except.ok.injEq, Prod.mk.injEq] at h
          rw [← h.2]; exact ⟨ht1, hx⟩
        · have hte : touches read_event c (jiffies (emit c1 (.udelay 100))).2 :=
            touches_jiffies (touches_emit ht1 rfl)
          have hsp : (jiffies (emit c1 (.udelay 100))).2.spi = c1.spi := by simp [jiffies, emit]
          split at h
          · simp only [Except.ok.injEq, Prod.mk.injEq] at h
            rw [← h.2]
            exact ⟨touches_emit hte rfl, fun x hxx => by
              simpa [emit, jiffies] using hx x hxx⟩
          · obtain ⟨ht2, hn2⟩ := ih _ h
            exact ⟨touches_trans hte ht2, fun x hxx => by
              rw [hn2 x hxx, hsp]; exact hx x hxx⟩

/-- Whatever `spu_wait_for_u16` returns, it has only touched the bus, written
no payload, and read no register but its own. -/
theorem spu_wait_for_u16_touches (K : if_spi_h) (fuel : Nat) (c : if_spi_card)
    (reg mask target : Nat) (r : Int) (d : if_spi_card)
    (h : spu_wait_for_u16 K fuel c reg mask target = .ok (r, d)) :
    touches read_event c d ∧ ∀ x, x ≠ u16 reg → d.spi.nrd x = c.spi.nrd x := by
  unfold spu_wait_for_u16 at h
  simp only [] at h
  obtain ⟨ht, hn⟩ := spu_wait_for_u16_loop_touches K _ _ _ _ _ _ _ _ h
  exact ⟨touches_trans (touches_jiffies (touches_refl _ c)) ht, fun x hx => by
    rw [hn x hx]; simp [jiffies]⟩

/-- On a device that is ready at once, the wait for command-download-ready
returns 0 after one poll. -/
theorem spu_wait_ready (K : if_spi_h) (wfuel : Nat) (hf : 0 < wfuel) (c : if_spi_card)
    (hc : fw_dev_ok K c) :
    ∃ d, spu_wait_for_u16 K wfuel c K.IF_SPI_HOST_INT_STATUS_REG
        K.IF_SPI_HIST_CMD_DOWNLOAD_RDY K.IF_SPI_HIST_CMD_DOWNLOAD_RDY = .ok (0, d) ∧
      touches read_event c d ∧
      d.spi.nrd (u16 K.IF_SPI_SCRATCH_1_REG) = c.spi.nrd (u16 K.IF_SPI_SCRATCH_1_REG) := by
  obtain ⟨h1, h2, h3, h4, h5, h6, h7⟩ := hc
  obtain ⟨d, h, _⟩ := spu_wait_for_u16_ends K c K.IF_SPI_HOST_INT_STATUS_REG
    K.IF_SPI_HIST_CMD_DOWNLOAD_RDY K.IF_SPI_HIST_CMD_DOWNLOAD_RDY wfuel 0 hf h1
    (fun i hi => absurd hi (Nat.not_lt_zero i)) (Or.inr (Or.inl (h4 _)))
  have hp0 : poll_res c K.IF_SPI_HOST_INT_STATUS_REG 0 = 0 := h2 _
  have hh0 : wait_hit (u16 K.IF_SPI_HIST_CMD_DOWNLOAD_RDY) (u16 K.IF_SPI_HIST_CMD_DOWNLOAD_RDY)
      (poll_u16 c K.IF_SPI_HOST_INT_STATUS_REG 0) := h4 _
  simp only [hp0, hh0, ne_eq, not_true_eq_false, ↓reduceIte] at h
  obtain ⟨ht, hn⟩ := spu_wait_for_u16_touches K _ _ _ _ _ _ _ h
  exact ⟨d, h, ht, hn _ (Ne.symm h5)⟩

/-- On a working device, `if_spi_prog_main_firmware_check_len` returns the
length reply with its low bit cleared, and that bit as the CRC flag. -/
theorem check_len_ok (K : if_spi_h) (wfuel : Nat) (hf : 0 < wfuel) (c : if_spi_card)
    (hc : fw_dev_ok K c) (crc_err : Int)
    (hle : len_reply K c 0 ≤ K.IF_SPI_CMD_BUF_SIZE) :
    ∃ d, if_spi_prog_main_firmware_check_len K wfuel c crc_err =
        .ok ((((len_reply K c 0 - len_reply K c 0 % 2 : Nat) : Int),
          ((len_reply K c 0 % 2 : Nat) : Int)), d) ∧
      touches read_event c d ∧
      d.spi.nrd (u16 K.IF_SPI_SCRATCH_1_REG) = c.spi.nrd (u16 K.IF_SPI_SCRATCH_1_REG) + 1 := by
  obtain ⟨c1, h1, ht1, hn1⟩ := spu_wait_ready K wfuel hf c hc
  have hc1 := fw_dev_ok_same K (same_dev_of_touches ht1) hc
  obtain ⟨c2, h2, ht2, hn2, _⟩ := spu_read_u16_ok K c1 K.IF_SPI_SCRATCH_1_REG hc1.1
  have hv : rd_u16 c1.spi (u16 K.IF_SPI_SCRATCH_1_REG) (c1.spi.nrd (u16 K.IF_SPI_SCRATCH_1_REG)) =
      len_reply K c 0 := by
    simp [len_reply, poll_u16, touches_rd_u16 ht1, hn1]
  simp only [hc1.2.2.1 _, ↓reduceIte, hv] at h2
  refine ⟨c2, ?_, touches_trans ht1 ht2, by simp [hn2, hn1]⟩
  have hle2 : ¬ len_reply K c 0 > K.IF_SPI_CMD_BUF_SIZE := by omega
  simp only [if_spi_prog_main_firmware_check_len, h1, h2, ne_eq, not_true_eq_false, ↓reduceIte,
    hle2]
  by_cases hodd : len_reply K c 0 % 2 = 1
  · simp [hodd]
  · have : len_reply K c 0 % 2 = 0 := by omega
    simp [this]

/-- On a working device the three writes that end an iteration succeed, and
the only payload they put on the command port is the chunk in `cmd_buffer`. -/
theorem send_ok (K : if_spi_h) (c : if_spi_card) (len : Nat) (hc : fw_dev_ok K c)
    (heven : len % 2 = 0) :
    ∃ d, if_spi_prog_main_firmware_send K c (len : Int) = .ok (0, d) ∧
      touches bus_event c d ∧ d.spi.nrd = c.spi.nrd ∧
      cmd_chunks K d = cmd_chunks K c ++ [c.cmd_buffer.take len] := by
  obtain ⟨hw, _, _, _, _, h6, h7⟩ := hc
  obtain ⟨c1, h1, ht1, hn1, hp1⟩ := spu_write_ok K c K.IF_SPI_HOST_INT_STATUS_REG
    (bytes_of_u16 (u16 0)) 2 hw rfl
  have hw1 := touches_writes_ok ht1 hw
  obtain ⟨c2, h2, ht2, hn2, hp2⟩ := spu_write_ok K c1 K.IF_SPI_CMD_RDWRPORT_REG
    c1.cmd_buffer len hw1 heven
  have hw2 := touches_writes_ok ht2 hw1
  obtain ⟨c3, h3, ht3, hn3, hp3⟩ := spu_write_ok K c2 K.IF_SPI_CARD_INT_CAUSE_REG
    (bytes_of_u16 (u16 K.IF_SPI_CIC_CMD_DOWNLOAD_OVER)) 2 hw2 rfl
  refine ⟨c3, ?_, touches_trans (touches_trans ht1 ht2) ht3, by rw [hn3, hn2, hn1], ?_⟩
  · simp only [if_spi_prog_main_firmware_send, spu_write_u16, h1, Int.toNat_ofNat, h2, ne_eq,
      not_true_eq_false, ↓reduceIte, h3]
  · simp only [cmd_chunks, hp3, hp2, hp1, h6, h7, ↓reduceIte, List.append_nil,
      touches_cmd_buffer ht1]

/-- With a non-negative `bytes` that matches the offset, the buffer is filled
without leaving the image, and its first `len` bytes are the chunk. -/
theorem fill_ok (image buf : List Nat) (v : main_fw_vars) (len : Nat)
    (hb : 0 ≤ v.bytes) (hinv : v.bytes + v.fw = image.length) :
    ∃ b, if_spi_prog_main_firmware_fill image buf v (len : Int) = some b ∧
      b.take len = fw_chunk image v.fw v.bytes.toNat len := by
  obtain ⟨n, hn⟩ := Int.eq_ofNat_of_zero_le hb
  have hlen : n + v.fw = image.length := by
    rw [hn] at hinv
    exact_mod_cast hinv
  have hdl : (image.drop v.fw).length = n := by simp [List.length_drop]; omega
  by_cases hlt : n < len
  · have h1 : (n : Int) < (len : Int) := by exact_mod_cast hlt
    have h2 : ¬ (n : Int) < 0 := by omega
    have hm : memcpy_src image v.fw n = some ((image.drop v.fw).take n) := by
      simp [memcpy_src]; omega
    have hf : if_spi_prog_main_firmware_fill image buf v (len : Int) =
        some (store (store buf (List.replicate len 0)) ((image.drop v.fw).take n)) := by
      simp only [if_spi_prog_main_firmware_fill, hn, h1, h2, ↓reduceIte, Int.toNat_ofNat, hm,
        Option.map_some']
    refine ⟨_, hf, ?_⟩
    have htl : ((image.drop v.fw).take n).length = n := by simp [List.length_take, hdl]
    simp only [store, fw_chunk, hn, Int.toNat_ofNat, hlt, ↓reduceIte, htl, List.length_replicate]
    rw [List.take_append_eq_append_take, htl]
    rw [List.take_of_length_le (by rw [htl]; omega)]
    congr 1
    rw [List.drop_append_eq_append_drop, List.take_append_eq_append_take]
    simp only [List.drop_replicate, List.length_replicate, List.take_replicate]
    have h0 : len - n - (len - n) = 0 := by omega
    have h3 : min (len - n) (len - n) = len - n := by omega
    simp [h0, h3]
  · have h1 : ¬ (n : Int) < (len : Int) := by exact_mod_cast hlt
    have hm : memcpy_src image v.fw len = some ((image.drop v.fw).take len) := by
      simp [memcpy_src]; omega
    have hf : if_spi_prog_main_firmware_fill image buf v (len : Int) =
        some (store buf ((image.drop v.fw).take len)) := by
      simp only [if_spi_prog_main_firmware_fill, hn, h1, ↓reduceIte, Int.toNat_ofNat, hm,
        Option.map_some']
    refine ⟨_, hf, ?_⟩
    have htl : ((image.drop v.fw).take len).length = len := by
      simp [List.length_take, hdl]; omega
    simp only [store, fw_chunk, hn, Int.toNat_ofNat, hlt, ↓reduceIte, htl]
    rw [List.take_append_eq_append_take, htl]
    simp [List.take_of_length_le (Nat.le_of_eq htl)]

theorem cmd_chunks_of_read (K : if_spi_h) {c d : if_spi_card} (h : touches read_event c d) :
    cmd_chunks K d = cmd_chunks K c :=
  touches_port_writes h _

/-- One iteration of the chunk loop on a working device, for a length reply
that asks for a chunk and does not exhaust the CRC budget: the iteration sends
exactly one chunk, cut from the image at the offset and with the remaining
count the variables hold after the reply was taken into account, and the loop
goes on. -/
theorem body_sends (K : if_spi_h) (wfuel : Nat) (hf : 0 < wfuel) (image : List Nat)
    (c : if_spi_card) (v : main_fw_vars) (hc : fw_dev_ok K c)
    (hle : len_reply K c 0 ≤ K.IF_SPI_CMD_BUF_SIZE) (hpos : 2 ≤ len_reply K c 0)
    (hb : 0 ≤ v.bytes) (hnot : crc_over K v (len_reply K c 0) = false)
    (hb2 : 0 ≤ (vars_after K v (len_reply K c 0)).bytes)
    (hinv : (vars_after K v (len_reply K c 0)).bytes + (vars_after K v (len_reply K c 0)).fw =
      image.length) :
    ∃ d, if_spi_prog_main_firmware_body K wfuel image c v =
        .ok ((none, { vars_after K v (len_reply K c 0) with
          err := 0, prev_len := reply_len (len_reply K c 0) }), d) ∧
      same_dev c d ∧
      d.spi.nrd (u16 K.IF_SPI_SCRATCH_1_REG) = c.spi.nrd (u16 K.IF_SPI_SCRATCH_1_REG) + 1 ∧
      cmd_chunks K d = cmd_chunks K c ++
        [fw_chunk image (vars_after K v (len_reply K c 0)).fw
          (vars_after K v (len_reply K c 0)).bytes.toNat (reply_len (len_reply K c 0))] := by
  obtain ⟨c1, h1, ht1, hn1⟩ := check_len_ok K wfuel hf c hc v.crc_err hle
  have hc1 := fw_dev_ok_same K (same_dev_of_touches ht1) hc
  obtain ⟨b, hfill, hchunk⟩ := fill_ok image c1.cmd_buffer (vars_after K v (len_reply K c 0))
    (reply_len (len_reply K c 0)) hb2 hinv
  have hsd : same_dev c1 { c1 with cmd_buffer := b } := ⟨rfl, rfl, rfl, rfl⟩
  have heven : reply_len (len_reply K c 0) % 2 = 0 := by simp only [reply_len]; omega
  obtain ⟨d, hs, hts, hns, hcs⟩ := send_ok K { c1 with cmd_buffer := b }
    (reply_len (len_reply K c 0)) (fw_dev_ok_same K hsd hc1) heven
  refine ⟨d, ?_, same_dev_trans (same_dev_of_touches ht1)
    (same_dev_trans hsd (same_dev_of_touches hts)), ?_, ?_⟩
  · have hl0 : ¬ (((len_reply K c 0 - len_reply K c 0 % 2 : Nat) : Int) = 0) := by omega
    have hl1 : ¬ (((len_reply K c 0 - len_reply K c 0 % 2 : Nat) : Int) < 0) := by omega
    have hb' : ¬ v.bytes < 0 := by omega
    simp only [crc_over, reply_crc] at hnot
    simp only [vars_after, reply_crc, reply_len] at hfill hs ⊢
    simp only [if_spi_prog_main_firmware_body, h1, hl0, hl1, hb', ↓reduceIte, hnot,
      Bool.false_eq_true, hfill, hs, ne_eq, not_true_eq_false]
  · rw [hns]; exact hn1
  · rw [hcs, hchunk]
    show cmd_chunks K c1 ++ _ = _
    rw [cmd_chunks_of_read K ht1]

/-- One iteration of the chunk loop on a working device, for a length reply
that asks for a chunk and takes the CRC error count past the bound: the loop
is left with `-EIO` and no chunk is sent. -/
theorem body_aborts (K : if_spi_h) (wfuel : Nat) (hf : 0 < wfuel) (image : List Nat)
    (c : if_spi_card) (v : main_fw_vars) (hc : fw_dev_ok K c)
    (hle : len_reply K c 0 ≤ K.IF_SPI_CMD_BUF_SIZE) (hpos : 2 ≤ len_reply K c 0)
    (hb : 0 ≤ v.bytes) (hover : crc_over K v (len_reply K c 0) = true) :
    ∃ d, if_spi_prog_main_firmware_body K wfuel image c v =
        .ok ((some .release, { vars_after K v (len_reply K c 0) with err := - EIO }), d) ∧
      same_dev c d ∧
      d.spi.nrd (u16 K.IF_SPI_SCRATCH_1_REG) = c.spi.nrd (u16 K.IF_SPI_SCRATCH_1_REG) + 1 ∧
      cmd_chunks K d = cmd_chunks K c := by
  obtain ⟨c1, h1, ht1, hn1⟩ := check_len_ok K wfuel hf c hc v.crc_err hle
  have hte : touches read_event c (emit c1 (.pr_err (- EIO))) := touches_emit ht1 rfl
  refine ⟨emit c1 (.pr_err (- EIO)), ?_, same_dev_of_touches hte, hn1,
    cmd_chunks_of_read K hte⟩
  have hl0 : ¬ (((len_reply K c 0 - len_reply K c 0 % 2 : Nat) : Int) = 0) := by omega
  have hl1 : ¬ (((len_reply K c 0 - len_reply K c 0 % 2 : Nat) : Int) < 0) := by omega
  have hb' : ¬ v.bytes < 0 := by omega
  simp only [crc_over, reply_crc] at hover
  simp only [vars_after, reply_crc]
  simp only [if_spi_prog_main_firmware_body, h1, hl0, hl1, hb', ↓reduceIte, hover]

/-- One evaluation of the loop condition on a working device, for a length
reply of 0 or 1: the loop ends and no chunk is sent. -/
theorem body_ends (K : if_spi_h) (wfuel : Nat) (hf : 0 < wfuel) (image : List Nat)
    (c : if_spi_card) (v : main_fw_vars) (hc : fw_dev_ok K c)
    (hle : len_reply K c 0 ≤ K.IF_SPI_CMD_BUF_SIZE) (hzero : len_reply K c 0 < 2) :
    ∃ d, if_spi_prog_main_firmware_body K wfuel image c v =
        .ok ((some .fall, { v with crc_err := reply_crc (len_reply K c 0) }), d) ∧
      same_dev c d ∧
      d.spi.nrd (u16 K.IF_SPI_SCRATCH_1_REG) = c.spi.nrd (u16 K.IF_SPI_SCRATCH_1_REG) + 1 ∧
      cmd_chunks K d = cmd_chunks K c := by
  obtain ⟨c1, h1, ht1, hn1⟩ := check_len_ok K wfuel hf c hc v.crc_err hle
  refine ⟨c1, ?_, same_dev_of_touches ht1, hn1, cmd_chunks_of_read K ht1⟩
  have hl0 : ((len_reply K c 0 - len_reply K c 0 % 2 : Nat) : Int) = 0 := by omega
  simp only [reply_crc]
  simp only [if_spi_prog_main_firmware_body, h1, hl0, ↓reduceIte]

theorem fw_dev_ok_sample (dev : Nat → Nat → List Nat) (clock : Nat → Nat) (image : List Nat)
    (h : ∀ k, dev 0x5C k = [4, 0]) : fw_dev_ok sample_h (sim_card dev clock image) := by
  refine ⟨fun _ => rfl, fun _ => rfl, fun _ => rfl, fun k => ?_, by decide, by decide, by decide⟩
  have : rd_u16 (sim_card dev clock image).spi (u16 sample_h.IF_SPI_HOST_INT_STATUS_REG) k = 4 := by
    show (dev 0x5C k).getD 0 0 % 256 + 256 * ((dev 0x5C k).getD 1 0 % 256) = 4
    rw [h k]
    rfl
  rw [this]
  decide

/-- C8: two successive iterations of the chunk loop of
`if_spi_prog_main_firmware` on a working device.  The first sends a chunk;
the second length reply carries the CRC-error bit without exhausting the CRC
budget.  Then the second iteration does not advance the source offset nor the
remaining count: its chunk is cut from the image at the offset of the chunk
before, and when it asks for the same length the chunk resent is the chunk
that failed, byte for byte. -/
theorem crc_reply_resends (K : if_spi_h) (wfuel : Nat) (hf : 0 < wfuel) (image : List Nat)
    (c : if_spi_card) (v : main_fw_vars) (hc : fw_dev_ok K c)
    (hle1 : len_reply K c 0 ≤ K.IF_SPI_CMD_BUF_SIZE) (hpos1 : 2 ≤ len_reply K c 0)
    (hb : 0 ≤ v.bytes) (hnot1 : crc_over K v (len_reply K c 0) = false)
    (hb1 : 0 ≤ (vars_after K v (len_reply K c 0)).bytes)
    (hinv : (vars_after K v (len_reply K c 0)).bytes + (vars_after K v (len_reply K c 0)).fw =
      image.length)
    (hle2 : len_reply K c 1 ≤ K.IF_SPI_CMD_BUF_SIZE) (hpos2 : 2 ≤ len_reply K c 1)
    (hcrc : reply_crc (len_reply K c 1) = 1)
    (hnot2 : crc_over K { vars_after K v (len_reply K c 0) with
        err := 0, prev_len := reply_len (len_reply K c 0) } (len_reply K c 1) = false) :
    ∃ c1 v1 c2 v2,
      if_spi_prog_main_firmware_body K wfuel image c v = .ok ((none, v1), c1) ∧
      if_spi_prog_main_firmware_body K wfuel image c1 v1 = .ok ((none, v2), c2) ∧
      v2.fw = v1.fw ∧ v2.bytes = v1.bytes ∧
      cmd_chunks K c1 = cmd_chunks K c ++
        [fw_chunk image v1.fw v1.bytes.toNat (reply_len (len_reply K c 0))] ∧
      cmd_chunks K c2 = cmd_chunks K c1 ++
        [fw_chunk image v1.fw v1.bytes.toNat (reply_len (len_reply K c 1))] ∧
      (reply_len (len_reply K c 1) = reply_len (len_reply K c 0) →
        cmd_chunks K c2 = cmd_chunks K c ++
          [fw_chunk image v1.fw v1.bytes.toNat (reply_len (len_reply K c 0)),
           fw_chunk image v1.fw v1.bytes.toNat (reply_len (len_reply K c 0))]) := by
  obtain ⟨c1, h1, hs1, hn1, hk1⟩ := body_sends K wfuel hf image c v hc hle1 hpos1 hb hnot1 hb1 hinv
  have hc1 := fw_dev_ok_same K hs1 hc
  have hr : len_reply K c1 0 = len_reply K c 1 := by
    simp only [len_reply, poll_u16, rd_u16, hs1.2.2.1, hn1, Nat.add_zero]
  have hva : vars_after K { vars_after K v (len_reply K c 0) with
      err := 0, prev_len := reply_len (len_reply K c 0) } (len_reply K c 1) =
      { vars_after K v (len_reply K c 0) with
        err := 0, prev_len := reply_len (len_reply K c 0), crc_err := 1,
        num_crc_errs := u16 ((vars_after K v (len_reply K c 0)).num_crc_errs + 1) } := by
    simp [vars_after, if_spi_prog_main_firmware_count, hcrc]
  obtain ⟨c2, h2, hs2, hn2, hk2⟩ := body_sends K wfuel hf image c1
    { vars_after K v (len_reply K c 0) with err := 0, prev_len := reply_len (len_reply K c 0) }
    hc1 (by rw [hr]; exact hle2) (by rw [hr]; exact hpos2) hb1
    (by rw [hr]; exact hnot2) (by rw [hr, hva]; exact hb1) (by rw [hr, hva]; exact hinv)
  rw [hr, hva] at h2 hk2
  refine ⟨c1, _, c2, _, h1, h2, rfl, rfl, hk1, hk2, fun hl => ?_⟩
  rw [hk2, hk1, hl]
  simp

/-- C8, on a device that asks for 4 bytes, then reports a CRC error with a
request for 4 bytes: the second chunk is cut at the offset of the first, and
is the first chunk again. -/
theorem crc_reply_resends_witness :
    ∃ c1 v1 c2 v2,
      if_spi_prog_main_firmware_body sample_h 1 [1, 2, 3, 4, 5, 6, 7, 8]
        (sim_card crc_retry_dev (fun _ => 0) []) (main_fw_vars_init [1, 2, 3, 4, 5, 6, 7, 8]) =
          .ok ((none, v1), c1) ∧
      if_spi_prog_main_firmware_body sample_h 1 [1, 2, 3, 4, 5, 6, 7, 8] c1 v1 =
        .ok ((none, v2), c2) ∧
      v2.fw = v1.fw ∧
      cmd_chunks sample_h c2 =
        [fw_chunk [1, 2, 3, 4, 5, 6, 7, 8] v1.fw v1.bytes.toNat 4,
         fw_chunk [1, 2, 3, 4, 5, 6, 7, 8] v1.fw v1.bytes.toNat 4] := by
  obtain ⟨c1, v1, c2, v2, h1, h2, h3, _, _, _, h7⟩ := crc_reply_resends sample_h 1 (by decide)
    [1, 2, 3, 4, 5, 6, 7, 8] (sim_card crc_retry_dev (fun _ => 0) [])
    (main_fw_vars_init [1, 2, 3, 4, 5, 6, 7, 8])
    (fw_dev_ok_sample crc_retry_dev _ _ (fun _ => rfl))
    (by decide) (by decide) (by decide) (by decide) (by decide) (by decide)
    (by decide) (by decide) (by decide) (by decide)
  exact ⟨c1, v1, c2, v2, h1, h2, h3, h7 (by decide)⟩

theorem len_reply_shift (K : if_spi_h) {c d : if_spi_card} (hs : same_dev c d) (n : Nat)
    (hn : d.spi.nrd (u16 K.IF_SPI_SCRATCH_1_REG) = c.spi.nrd (u16 K.IF_SPI_SCRATCH_1_REG) + n)
    (i : Nat) : len_reply K d i = len_reply K c (n + i) := by
  simp only [len_reply, poll_u16, rd_u16, hs.2.2.1, hn, Nat.add_assoc]

/-- With working write transfers `spu_set_interrupt_mode(card, 1, 0)` returns
0 after two writes to the host interrupt status mask register. -/
theorem spu_set_interrupt_mode_ok (K : if_spi_h) (c : if_spi_card) (hw : writes_ok c) :
    ∃ d, spu_set_interrupt_mode K c 1 0 = .ok (0, d) ∧ touches bus_event c d ∧
      d.spi.nrd = c.spi.nrd ∧
      (∀ r, r ≠ u16 K.IF_SPI_HOST_INT_STATUS_MASK_REG →
        port_writes r d.trace = port_writes r c.trace) := by
  obtain ⟨c1, h1, ht1, hn1, hp1⟩ := spu_write_ok K c K.IF_SPI_HOST_INT_STATUS_MASK_REG
    (bytes_of_u16 (u16 0)) 2 hw rfl
  obtain ⟨c2, h2, ht2, hn2, hp2⟩ := spu_write_ok K c1 K.IF_SPI_HOST_INT_STATUS_MASK_REG
    (bytes_of_u16 (u16 0)) 2 (touches_writes_ok ht1 hw) rfl
  refine ⟨c2, ?_, touches_trans ht1 ht2, by rw [hn2, hn1], fun r hr => ?_⟩
  · simp only [spu_set_interrupt_mode, spu_write_u16, ne_eq, one_ne_zero, not_false_eq_true,
      ↓reduceIte, h1, not_true_eq_false, h2]
  · rw [hp2, hp1]
    simp [Ne.symm hr]

/-- The chunk loop on a working device whose every length reply carries the
CRC-error bit and asks for a chunk: with `n` CRC errors to go before the count
reaches the bound, the loop sends `n` more chunks, reads `n + 1` more length
replies and is left with `-EIO`. -/
theorem loop_crc_aborts (K : if_spi_h) (wfuel : Nat) (hf : 0 < wfuel) (image : List Nat)
    (hM : K.MAX_MAIN_FW_LOAD_CRC_ERR < 65535) (n : Nat) :
    ∀ (fuel : Nat) (c : if_spi_card) (v : main_fw_vars), n < fuel → fw_dev_ok K c →
      (∀ i, len_reply K c i % 2 = 1 ∧ 3 ≤ len_reply K c i ∧
        len_reply K c i ≤ K.IF_SPI_CMD_BUF_SIZE) →
      v.num_crc_errs + n = K.MAX_MAIN_FW_LOAD_CRC_ERR → 0 ≤ v.bytes →
      v.bytes + v.fw = image.length →
      ∃ d v2, if_spi_prog_main_firmware_loop K wfuel image fuel c v = .ok ((.release, v2), d) ∧
        v2.err = - EIO ∧ same_dev c d ∧
        d.spi.nrd (u16 K.IF_SPI_SCRATCH_1_REG) =
          c.spi.nrd (u16 K.IF_SPI_SCRATCH_1_REG) + (n + 1) ∧
        (cmd_chunks K d).length = (cmd_chunks K c).length + n := by
  induction n with
  | zero =>
    intro fuel c v hfu hc hcrc hnum hb hinv
    obtain ⟨f, rfl⟩ : ∃ f, fuel = f + 1 := ⟨fuel - 1, by omega⟩
    obtain ⟨h1, h2, h3⟩ := hcrc 0
    have hover : crc_over K v (len_reply K c 0) = true := by
      have hu : u16 (v.num_crc_errs + 1) = v.num_crc_errs + 1 := by simp only [u16]; omega
      simp [crc_over, if_spi_prog_main_firmware_count, reply_crc, h1, hu]
      omega
    obtain ⟨d, hd, hs, hn, hk⟩ := body_aborts K wfuel hf image c v hc h3 (by omega) hb hover
    exact ⟨d, { vars_after K v (len_reply K c 0) with err := - EIO },
      by simp only [if_spi_prog_main_firmware_loop, hd], rfl, hs, hn, by rw [hk]; rfl⟩
  | succ n ih =>
    intro fuel c v hfu hc hcrc hnum hb hinv
    obtain ⟨f, rfl⟩ : ∃ f, fuel = f + 1 := ⟨fuel - 1, by omega⟩
    obtain ⟨h1, h2, h3⟩ := hcrc 0
    have hu : u16 (v.num_crc_errs + 1) = v.num_crc_errs + 1 := by simp only [u16]; omega
    have hnot : crc_over K v (len_reply K c 0) = false := by
      simp [crc_over, if_spi_prog_main_firmware_count, reply_crc, h1, hu]
      omega
    have hva : vars_after K v (len_reply K c 0) =
        { v with crc_err := 1, num_crc_errs := v.num_crc_errs + 1 } := by
      simp [vars_after, if_spi_prog_main_firmware_count, reply_crc, h1, hu]
    obtain ⟨d, hd, hs, hn, hk⟩ := body_sends K wfuel hf image c v hc h3 (by omega) hb hnot
      (by rw [hva]; exact hb) (by rw [hva]; exact hinv)
    rw [hva] at hd
    obtain ⟨d2, v2, hl, he, hs2, hn2, hk2⟩ := ih f d
      { ({ v with crc_err := 1, num_crc_errs := v.num_crc_errs + 1 } : main_fw_vars) with err := 0, prev_len := (reply_len (len_reply K c 0) : Int) }
      (by omega) (fw_dev_ok_same K hs hc)
      (fun i => by rw [len_reply_shift K hs 1 hn i]; exact hcrc (1 + i))
      (by show v.num_crc_errs + 1 + n = _; omega) hb hinv
    refine ⟨d2, v2, by simp only [if_spi_prog_main_firmware_loop, hd, hl], he,
      same_dev_trans hs hs2, by rw [hn2, hn]; omega, ?_⟩
    rw [hk2, hk]
    simp
    omega

theorem touches_firmware {P : Event → Bool} {c d : if_spi_card} (h : touches P c d) :
    d.sys.firmware = c.sys.firmware ∧ d.main_fw_name = c.main_fw_name := by
  obtain ⟨a, b, n, t, u, rfl, _⟩ := h; exact ⟨rfl, rfl⟩

/-- The main firmware load on a working device whose every length reply
carries the CRC-error bit and asks for a chunk: the load sends one chunk after
each of the first `MAX_MAIN_FW_LOAD_CRC_ERR` replies and aborts with `-EIO` on
reply `MAX_MAIN_FW_LOAD_CRC_ERR + 1`. -/
theorem main_firmware_crc_aborts (K : if_spi_h) (fuel wfuel : Nat) (c : if_spi_card)
    (image : List Nat) (hfuel : K.MAX_MAIN_FW_LOAD_CRC_ERR < fuel) (hwf : 0 < wfuel)
    (hM : K.MAX_MAIN_FW_LOAD_CRC_ERR < 65535) (hc : fw_dev_ok K c)
    (hmask : u16 K.IF_SPI_CMD_RDWRPORT_REG ≠ u16 K.IF_SPI_HOST_INT_STATUS_MASK_REG)
    (himg : c.sys.firmware c.main_fw_name = (0, image))
    (hcrc : ∀ i, len_reply K c i % 2 = 1 ∧ 3 ≤ len_reply K c i ∧
      len_reply K c i ≤ K.IF_SPI_CMD_BUF_SIZE) :
    ∃ d, if_spi_prog_main_firmware K fuel wfuel c = .ok (- EIO, d) ∧
      (cmd_chunks K d).length = (cmd_chunks K c).length + K.MAX_MAIN_FW_LOAD_CRC_ERR ∧
      d.spi.nrd (u16 K.IF_SPI_SCRATCH_1_REG) =
        c.spi.nrd (u16 K.IF_SPI_SCRATCH_1_REG) + 1 + (K.MAX_MAIN_FW_LOAD_CRC_ERR + 1) := by
  obtain ⟨c1, h1, ht1, hn1, hp1⟩ := spu_set_interrupt_mode_ok K c hc.1
  have hs1 := same_dev_of_touches ht1
  have hc1 := fw_dev_ok_same K hs1 hc
  have himg1 : c1.sys.firmware c1.main_fw_name = (0, image) := by
    rw [(touches_firmware ht1).1, (touches_firmware ht1).2]; exact himg
  have hr1 : ∀ i, len_reply K c1 i = len_reply K c i := by
    intro i
    have := len_reply_shift K hs1 0 (by rw [hn1]; rfl) i
    rwa [Nat.zero_add] at this
  have hhit : wait_hit (u16 0) (u16 0) (poll_u16 c1 K.IF_SPI_SCRATCH_1_REG 0) := by
    have := (hcrc 0).2.1
    rw [← hr1 0] at this
    simp only [len_reply] at this
    refine Or.inr ⟨rfl, ?_⟩
    omega
  have hres0 : poll_res c1 K.IF_SPI_SCRATCH_1_REG 0 = 0 := hc1.2.2.1 _
  obtain ⟨c2, h2, hn2⟩ := spu_wait_for_u16_ends K c1 K.IF_SPI_SCRATCH_1_REG 0 0 wfuel 0 hwf hc1.1
    (fun i hi => absurd hi (Nat.not_lt_zero i)) (Or.inr (Or.inl hhit))
  simp only [hres0, hhit, ne_eq, not_true_eq_false, ↓reduceIte] at h2
  obtain ⟨ht2, _⟩ := spu_wait_for_u16_touches K _ _ _ _ _ _ _ h2
  have hs2 := same_dev_of_touches ht2
  have hc2 := fw_dev_ok_same K hs2 hc1
  obtain ⟨d, v2, hl, he, hs3, hn3, hk3⟩ := loop_crc_aborts K wfuel hwf image hM
    K.MAX_MAIN_FW_LOAD_CRC_ERR fuel c2 (main_fw_vars_init image) hfuel hc2
    (fun i => by rw [len_reply_shift K hs2 1 hn2 i, hr1]; exact hcrc (1 + i))
    (by simp [main_fw_vars_init]) (by simp [main_fw_vars_init]) (by simp [main_fw_vars_init])
  have hne : (- EIO : Int) ≠ 0 := by decide
  refine ⟨emit d (.pr_err (- EIO)), ?_, ?_, ?_⟩
  · simp only [if_spi_prog_main_firmware, h1, ne_eq, not_true_eq_false, ↓reduceIte, himg1, h2,
      hl, he, if_spi_prog_main_firmware_out, hne, not_false_eq_true]
  · have e1 : cmd_chunks K c2 = cmd_chunks K c1 := cmd_chunks_of_read K ht2
    have e2 : cmd_chunks K c1 = cmd_chunks K c := hp1 _ hmask
    have e3 : cmd_chunks K (emit d (.pr_err (- EIO))) = cmd_chunks K d := by
      simp [cmd_chunks, emit, port_writes]
    rw [e3, hk3, e1, e2]
  · show d.spi.nrd _ = _
    rw [hn3, hn2, hn1]

/-- C9 (amended): with a device that sets the CRC-error bit on every length
reply of the main firmware load (each asking for a chunk), and a bound
`MAX_MAIN_FW_LOAD_CRC_ERR` below 65535, `if_spi_prog_main_firmware` aborts
with `-EIO` when the count of CRC failures exceeds the bound, that is on
CRC-flagged reply number `MAX_MAIN_FW_LOAD_CRC_ERR + 1`: it has then read that
many length replies (after the one read of its initial wait) and written
exactly `MAX_MAIN_FW_LOAD_CRC_ERR` chunks to the command port. -/
theorem main_firmware_aborts_past_bound (K : if_spi_h) (fuel wfuel : Nat) (c : if_spi_card)
    (image : List Nat) (hfuel : K.MAX_MAIN_FW_LOAD_CRC_ERR < fuel) (hwf : 0 < wfuel)
    (hM : K.MAX_MAIN_FW_LOAD_CRC_ERR < 65535) (hc : fw_dev_ok K c)
    (hmask : u16 K.IF_SPI_CMD_RDWRPORT_REG ≠ u16 K.IF_SPI_HOST_INT_STATUS_MASK_REG)
    (himg : c.sys.firmware c.main_fw_name = (0, image))
    (hcrc : ∀ i, len_reply K c i % 2 = 1 ∧ 3 ≤ len_reply K c i ∧
      len_reply K c i ≤ K.IF_SPI_CMD_BUF_SIZE) :
    ∃ d, if_spi_prog_main_firmware K fuel wfuel c = .ok (- EIO, d) ∧
      (cmd_chunks K d).length = (cmd_chunks K c).length + K.MAX_MAIN_FW_LOAD_CRC_ERR ∧
      reads_since c d K.IF_SPI_SCRATCH_1_REG = 1 + (K.MAX_MAIN_FW_LOAD_CRC_ERR + 1) := by
  obtain ⟨d, h, hk, hn⟩ := main_firmware_crc_aborts K fuel wfuel c image hfuel hwf hM hc hmask
    himg hcrc
  exact ⟨d, h, hk, by simp only [reads_since, hn]; omega⟩

theorem crc_always_card_ok : fw_dev_ok sample_h crc_always_card :=
  fw_dev_ok_sample crc_always_dev _ _ (fun _ => rfl)

/-- C9 (amended), on the sample device with the bound 5: abort with `-EIO`
after 6 CRC-flagged replies and 5 chunks. -/
theorem main_firmware_aborts_past_bound_witness :
    ∃ d, if_spi_prog_main_firmware sample_h 6 1 crc_always_card = .ok (- EIO, d) ∧
      (cmd_chunks sample_h d).length = (cmd_chunks sample_h crc_always_card).length + 5 ∧
      reads_since crc_always_card d sample_h.IF_SPI_SCRATCH_1_REG = 1 + (5 + 1) :=
  main_firmware_aborts_past_bound sample_h 6 1 crc_always_card [1, 2, 3, 4, 5, 6, 7, 8]
    (by decide) (by decide) (by decide) crc_always_card_ok (by decide) rfl
    (fun i => by
      have h : len_reply sample_h crc_always_card i = 3 := rfl
      rw [h]
      decide)

set_option maxRecDepth 100000 in
/-- C9 as stated fails on the sample device with the bound 5: every length
reply carries the CRC-error bit, the load returns `-EIO`, and a chunk is
written to the command port after the 5th CRC-flagged length reply (the 6th
read of scratch register 1, the first being the initial wait): the abort comes
with the 6th CRC-flagged reply, not the 5th. -/
theorem main_firmware_sends_after_fifth_crc :
    value_of (if_spi_prog_main_firmware sample_h 6 1 crc_always_card) = some (- EIO) ∧
    port_writes sample_h.IF_SPI_CMD_RDWRPORT_REG
      (after_read sample_h.IF_SPI_SCRATCH_1_REG 6
        (state_of (if_spi_prog_main_firmware sample_h 6 1 crc_always_card)
          crc_always_card).trace) = [[1, 2]] ∧
    (state_of (if_spi_prog_main_firmware sample_h 6 1 crc_always_card)
      crc_always_card).spi.nrd sample_h.IF_SPI_SCRATCH_1_REG = 7 := by
  decide

/-- C10 (amended): the CRC failure count that aborts
`if_spi_prog_main_firmware` is cumulative over the load.  In one iteration of
the chunk loop on a working device, for a length reply that asks for a chunk:
a reply without the CRC-error bit leaves `num_crc_errs` as it was (it is not
reset) and the chunk is sent; a reply with the bit increments it, and the loop
goes on if the new count is within `MAX_MAIN_FW_LOAD_CRC_ERR` and is left with
`-EIO` if it exceeds it. -/
theorem crc_count_is_cumulative (K : if_spi_h) (wfuel : Nat) (hf : 0 < wfuel)
    (image : List Nat) (c : if_spi_card) (v : main_fw_vars) (hc : fw_dev_ok K c)
    (hle : len_reply K c 0 ≤ K.IF_SPI_CMD_BUF_SIZE) (hpos : 2 ≤ len_reply K c 0)
    (hb : 0 ≤ v.bytes)
    (hb2 : 0 ≤ (vars_after K v (len_reply K c 0)).bytes)
    (hinv : (vars_after K v (len_reply K c 0)).bytes + (vars_after K v (len_reply K c 0)).fw =
      image.length) :
    (reply_crc (len_reply K c 0) = 0 →
      ∃ d v2, if_spi_prog_main_firmware_body K wfuel image c v = .ok ((none, v2), d) ∧
        v2.num_crc_errs = v.num_crc_errs) ∧
    (reply_crc (len_reply K c 0) = 1 →
      u16 (v.num_crc_errs + 1) ≤ K.MAX_MAIN_FW_LOAD_CRC_ERR →
      ∃ d v2, if_spi_prog_main_firmware_body K wfuel image c v = .ok ((none, v2), d) ∧
        v2.num_crc_errs = u16 (v.num_crc_errs + 1)) ∧
    (reply_crc (len_reply K c 0) = 1 →
      K.MAX_MAIN_FW_LOAD_CRC_ERR < u16 (v.num_crc_errs + 1) →
      ∃ d v2, if_spi_prog_main_firmware_body K wfuel image c v =
          .ok ((some .release, v2), d) ∧
        v2.err = - EIO ∧ v2.num_crc_errs = u16 (v.num_crc_errs + 1)) := by
  refine ⟨fun h0 => ?_, fun h1 hle1 => ?_, fun h1 hgt => ?_⟩
  · have hnot : crc_over K v (len_reply K c 0) = false := by
      simp [crc_over, if_spi_prog_main_firmware_count, h0]
    obtain ⟨d, hd, _⟩ := body_sends K wfuel hf image c v hc hle hpos hb hnot hb2 hinv
    exact ⟨d, _, hd, by simp [vars_after, if_spi_prog_main_firmware_count, h0]⟩
  · have hnot : crc_over K v (len_reply K c 0) = false := by
      simp [crc_over, if_spi_prog_main_firmware_count, h1]
      omega
    obtain ⟨d, hd, _⟩ := body_sends K wfuel hf image c v hc hle hpos hb hnot hb2 hinv
    exact ⟨d, _, hd, by simp [vars_after, if_spi_prog_main_firmware_count, h1]⟩
  · have hover : crc_over K v (len_reply K c 0) = true := by
      simp [crc_over, if_spi_prog_main_firmware_count, h1]
      omega
    obtain ⟨d, hd, _⟩ := body_aborts K wfuel hf image c v hc hle hpos hb hover
    exact ⟨d, _, hd, rfl, by simp [vars_after, if_spi_prog_main_firmware_count, h1]⟩

/-- C10 (amended), on the first length reply of the alternating device (a
request for 2 bytes with the CRC-error bit) with 5 errors already counted:
the loop is left with `-EIO`. -/
theorem crc_count_is_cumulative_witness :
    ∃ d v2, if_spi_prog_main_firmware_body sample_h 1 (List.range 16) crc_alternating_card
        { main_fw_vars_init (List.range 16) with num_crc_errs := 5 } =
          .ok ((some .release, v2), d) ∧
      v2.err = - EIO ∧ v2.num_crc_errs = u16 (5 + 1) :=
  (crc_count_is_cumulative sample_h 1 (by decide) (List.range 16) crc_alternating_card
    { main_fw_vars_init (List.range 16) with num_crc_errs := 5 }
    (fw_dev_ok_sample crc_alternating_dev _ _ (fun _ => rfl))
    (by decide) (by decide) (by decide) (by decide) (by decide)).2.2 (by decide) (by decide)

set_option maxRecDepth 100000 in
/-- C10 as stated fails on the alternating device with the bound 5: every
CRC-flagged length reply is followed by a clean one, so no two CRC failures
are consecutive, and yet the load aborts with `-EIO`, at the 6th CRC-flagged
reply it reads (the 13th read of scratch register 1). -/
theorem main_firmware_aborts_on_separated_crc :
    (∀ k, reply_crc (rd_u16 crc_alternating_card.spi sample_h.IF_SPI_SCRATCH_1_REG k) = 1 →
      reply_crc (rd_u16 crc_alternating_card.spi sample_h.IF_SPI_SCRATCH_1_REG (k + 1)) = 0) ∧
    value_of (if_spi_prog_main_firmware sample_h 12 1 crc_alternating_card) = some (- EIO) ∧
    (state_of (if_spi_prog_main_firmware sample_h 12 1 crc_alternating_card)
      crc_alternating_card).spi.nrd sample_h.IF_SPI_SCRATCH_1_REG = 13 := by
  refine ⟨fun k => ?_, by decide, by decide⟩
  have h : ∀ j, rd_u16 crc_alternating_card.spi sample_h.IF_SPI_SCRATCH_1_REG j =
      if j % 2 = 0 then 3 else 2 := by
    intro j
    show (crc_alternating_dev 0x28 j).getD 0 0 % 256 +
      256 * ((crc_alternating_dev 0x28 j).getD 1 0 % 256) = _
    by_cases hj : j % 2 = 0 <;> simp [crc_alternating_dev, hj]
  rw [h k, h (k + 1)]
  simp only [reply_crc]
  have : k % 2 = 0 ∨ k % 2 = 1 := by omega
  rcases this with h0 | h0
  · have h1 : (k + 1) % 2 = 1 := by omega
    simp [h0, h1]
  · have h1 : (k + 1) % 2 = 0 := by omega
    simp [h0, h1]


/-! ## Length replies, 32-bit transfers, chip select, transfers of the worker -/

/-- C14: `if_spi_prog_main_firmware_check_len`, once its wait for
command-download-ready has returned 0 and its read of scratch register 1 has
returned the 16-bit value `v`: it returns `-EIO`, leaving `*crc_err` alone,
when `v > IF_SPI_CMD_BUF_SIZE`; otherwise it returns `v` with its low bit
cleared and sets `*crc_err` to that low bit (1 if it was set, 0 if not).  When
the value returned is 0 (`v` is 0 or 1) the chunk loop of
`if_spi_prog_main_firmware` ends at that evaluation of its condition, in the
state the read left, without a write to the command port. -/
theorem check_len_reply (K : if_spi_h) (wfuel : Nat) (c c1 c2 : if_spi_card) (v : Nat)
    (h1 : spu_wait_for_u16 K wfuel c K.IF_SPI_HOST_INT_STATUS_REG
      K.IF_SPI_HIST_CMD_DOWNLOAD_RDY K.IF_SPI_HIST_CMD_DOWNLOAD_RDY = .ok (0, c1))
    (h2 : spu_read_u16 K c1 K.IF_SPI_SCRATCH_1_REG = .ok ((0, v), c2)) :
    (K.IF_SPI_CMD_BUF_SIZE < v → ∀ crc_err,
      if_spi_prog_main_firmware_check_len K wfuel c crc_err =
        .ok ((- EIO, crc_err), emit c2 (.pr_err (- EIO)))) ∧
    (v ≤ K.IF_SPI_CMD_BUF_SIZE → ∀ crc_err,
      if_spi_prog_main_firmware_check_len K wfuel c crc_err =
        .ok ((((v - v % 2 : Nat) : Int), ((v % 2 : Nat) : Int)), c2)) ∧
    (v ≤ K.IF_SPI_CMD_BUF_SIZE → v < 2 → ∀ image fuel vars,
      if_spi_prog_main_firmware_loop K wfuel image (fuel + 1) c vars =
        .ok ((.fall, { vars with crc_err := ((v % 2 : Nat) : Int) }), c2) ∧
      cmd_chunks K c2 = cmd_chunks K c) := by
  have hgood : v ≤ K.IF_SPI_CMD_BUF_SIZE → ∀ crc_err,
      if_spi_prog_main_firmware_check_len K wfuel c crc_err =
        .ok ((((v - v % 2 : Nat) : Int), ((v % 2 : Nat) : Int)), c2) := by
    intro hle crc_err
    have hle2 : ¬ v > K.IF_SPI_CMD_BUF_SIZE := by omega
    simp only [if_spi_prog_main_firmware_check_len, h1, h2, ne_eq, not_true_eq_false, ↓reduceIte,
      hle2]
    by_cases hodd : v % 2 = 1
    · simp [hodd]
    · have : v % 2 = 0 := by omega
      simp [this]
  refine ⟨fun hgt crc_err => ?_, hgood, fun hle hlt image fuel vars => ?_⟩
  · have hgt2 : v > K.IF_SPI_CMD_BUF_SIZE := hgt
    simp only [if_spi_prog_main_firmware_check_len, h1, h2, ne_eq, not_true_eq_false, ↓reduceIte,
      hgt2]
  · have hl0 : ((v - v % 2 : Nat) : Int) = 0 := by omega
    refine ⟨?_, ?_⟩
    · simp only [if_spi_prog_main_firmware_loop, if_spi_prog_main_firmware_body,
        hgood hle vars.crc_err, hl0, ↓reduceIte]
    · obtain ⟨ht1, _⟩ := spu_wait_for_u16_touches K _ _ _ _ _ _ _ h1
      obtain ⟨r, d, h, ht2, _⟩ := spu_read_u16_touches K c1 K.IF_SPI_SCRATCH_1_REG
      rw [h2] at h
      simp only [Except.ok.injEq, Prod.mk.injEq] at h
      rw [← h.2] at ht2
      exact cmd_chunks_of_read K (touches_trans ht1 ht2)

/-- C14, on the sample device whose scratch register 1 reads 3: the length
returned is 2 and the CRC flag is set. -/
theorem check_len_reply_witness :
    ∃ d, if_spi_prog_main_firmware_check_len sample_h 1 crc_always_card 0 =
      .ok ((((3 - 3 % 2 : Nat) : Int), ((3 % 2 : Nat) : Int)), d) := by
  obtain ⟨c1, h1, ht1, hn1⟩ := spu_wait_ready sample_h 1 (by decide) crc_always_card
    crc_always_card_ok
  obtain ⟨c2, h2, _⟩ := spu_read_u16_ok sample_h c1 sample_h.IF_SPI_SCRATCH_1_REG
    (touches_writes_ok ht1 (fun _ => rfl))
  have hr : c1.spi.rd_res (u16 sample_h.IF_SPI_SCRATCH_1_REG)
      (c1.spi.nrd (u16 sample_h.IF_SPI_SCRATCH_1_REG)) = 0 := by
    rw [touches_rd_res ht1]; rfl
  have hv : rd_u16 c1.spi (u16 sample_h.IF_SPI_SCRATCH_1_REG)
      (c1.spi.nrd (u16 sample_h.IF_SPI_SCRATCH_1_REG)) = 3 := by
    rw [touches_rd_u16 ht1, hn1]; rfl
  simp only [hr, hv, ↓reduceIte] at h2
  exact ⟨c2, (check_len_reply sample_h 1 crc_always_card c1 c2 3 h1 h2).2.1 (by decide) 0⟩

/-- The two halves of a 32-bit value as `spu_write_u32` cuts them. -/
theorem u32_halves (v : Nat) (hv : v < 4294967296) :
    u16 (v &&& 0xffff) = v % 65536 ∧ u16 ((v &&& 0xffff0000) >>> 16) = v / 65536 := by
  have h1 : v &&& 0xffff = v % 65536 := by
    have := Nat.and_pow_two_sub_one_eq_mod v 16
    simpa using this
  have h2 : (v &&& 0xffff0000) >>> 16 = v / 65536 := by
    have e : (0xffff0000 : Nat) = 0xffff <<< 16 := by decide
    rw [e]
    apply Nat.eq_of_testBit_eq
    intro i
    simp only [Nat.testBit_shiftRight, Nat.testBit_and, Nat.testBit_shiftLeft]
    have h3 : v / 65536 = v >>> 16 := by simp [Nat.shiftRight_eq_div_pow]
    rw [h3, Nat.testBit_shiftRight]
    have h4 : (0xffff : Nat) = 2 ^ 16 - 1 := by decide
    by_cases hi : i < 16
    · have : Nat.testBit 0xffff i = true := by
        rw [h4, Nat.testBit_two_pow_sub_one]
        simpa using hi
      simp [this]
    · have hb : v.testBit (16 + i) = false := by
        apply Nat.testBit_lt_two_pow
        calc v < 4294967296 := hv
          _ = 2 ^ 32 := by norm_num
          _ ≤ 2 ^ (16 + i) := Nat.pow_le_pow_right (by norm_num) (by omega)
      simp [hb]
  refine ⟨by rw [h1]; simp [u16], by rw [h2]; simp only [u16]; omega⟩

theorem u16_at_bytes (a b : Nat) (ha : a < 65536) (hb : b < 65536) :
    u16_at (bytes_of_u16 a ++ bytes_of_u16 b) 0 = a ∧
    u16_at (bytes_of_u16 a ++ bytes_of_u16 b) 1 = b := by
  simp [u16_at, bytes_of_u16]
  omega

theorem u32_join (v : Nat) (hv : v < 4294967296) :
    u32 (v % 65536 ||| (v / 65536) <<< 16) = v := by
  have h : (v / 65536) <<< 16 ||| v % 65536 = v := by
    rw [Nat.shiftLeft_eq, Nat.mul_comm]
    have := Nat.mul_add_lt_is_or (show v % 65536 < 2 ^ 16 by omega) (v / 65536)
    rw [← this]
    omega
  rw [Nat.lor_comm, h]
  simp only [u32]
  omega

/-- C18: for every 32-bit value `v`, `spu_write_u32` on a working bus puts on
the register one payload made of the two 16-bit words `v & 0xffff` and
`v >> 16`, in that order; `spu_read_u32`, for the words `(w0, w1)` the device
delivers, yields `w0 | (w1 << 16)`; and when the device delivers the payload
written for `v`, `spu_read_u32` yields `v` again: the low half travels first
in both directions. -/
theorem u32_low_half_first (K : if_spi_h) (c : if_spi_card) (reg v : Nat)
    (hv : v < 4294967296) (hw : writes_ok c) :
    (∃ d, spu_write_u32 K c reg v = .ok (0, d) ∧
      port_writes (u16 reg) d.trace = port_writes (u16 reg) c.trace ++
        [bytes_of_u16 (v &&& 0xffff) ++ bytes_of_u16 (v >>> 16)]) ∧
    u16_at (bytes_of_u16 (v &&& 0xffff) ++ bytes_of_u16 (v >>> 16)) 0 = v &&& 0xffff ∧
    u16_at (bytes_of_u16 (v &&& 0xffff) ++ bytes_of_u16 (v >>> 16)) 1 = v >>> 16 ∧
    (∀ (c2 : if_spi_card) (reg2 val : Nat), writes_ok c2 →
      c2.spi.rd_res (u16 reg2) (c2.spi.nrd (u16 reg2)) = 0 →
      ∃ d2, spu_read_u32 K c2 reg2 val = .ok ((0,
        u32 (u16_at (c2.spi.rd_data (u16 reg2) (c2.spi.nrd (u16 reg2))) 0 |||
          (u16_at (c2.spi.rd_data (u16 reg2) (c2.spi.nrd (u16 reg2))) 1 <<< 16))), d2)) ∧
    (∀ (c2 : if_spi_card) (reg2 val : Nat), writes_ok c2 →
      c2.spi.rd_res (u16 reg2) (c2.spi.nrd (u16 reg2)) = 0 →
      c2.spi.rd_data (u16 reg2) (c2.spi.nrd (u16 reg2)) =
        bytes_of_u16 (v &&& 0xffff) ++ bytes_of_u16 (v >>> 16) →
      ∃ d2, spu_read_u32 K c2 reg2 val = .ok ((0, v), d2)) := by
  obtain ⟨e1, e2⟩ := u32_halves v hv
  have e3 : v &&& 0xffff = v % 65536 := by
    have := Nat.and_pow_two_sub_one_eq_mod v 16
    simpa using this
  have e4 : v >>> 16 = v / 65536 := by simp [Nat.shiftRight_eq_div_pow]
  have hlo : v % 65536 < 65536 := by omega
  have hhi : v / 65536 < 65536 := by omega
  obtain ⟨w0, w1⟩ := u16_at_bytes (v % 65536) (v / 65536) hlo hhi
  have hdec : ∀ (c2 : if_spi_card) (reg2 val : Nat), writes_ok c2 →
      c2.spi.rd_res (u16 reg2) (c2.spi.nrd (u16 reg2)) = 0 →
      ∃ d2, spu_read_u32 K c2 reg2 val = .ok ((0,
        u32 (u16_at (c2.spi.rd_data (u16 reg2) (c2.spi.nrd (u16 reg2))) 0 |||
          (u16_at (c2.spi.rd_data (u16 reg2) (c2.spi.nrd (u16 reg2))) 1 <<< 16))), d2) := by
    intro c2 reg2 val hw2 hr2
    obtain ⟨d2, h, _⟩ := spu_read_u32_ok K c2 reg2 val hw2
    simp only [hr2, ↓reduceIte] at h
    refine ⟨d2, ?_⟩
    rw [h]
    simp [rd_u32, rd_u16, u16_at]
  refine ⟨?_, by rw [e3, e4]; exact w0, by rw [e3, e4]; exact w1, hdec, ?_⟩
  · obtain ⟨d, h, _, _, hp⟩ := spu_write_ok K c reg
      (bytes_of_u16 (u16 (v &&& 0xffff)) ++ bytes_of_u16 (u16 ((v &&& 0xffff0000) >>> 16))) 4 hw rfl
    refine ⟨d, by simpa [spu_write_u32] using h, ?_⟩
    rw [hp (u16 reg), e1, e2, e3, e4]
    simp [bytes_of_u16]
  · intro c2 reg2 val hw2 hr2 hdata
    obtain ⟨d2, h⟩ := hdec c2 reg2 val hw2 hr2
    refine ⟨d2, ?_⟩
    rw [h, hdata, e3, e4, w0, w1, u32_join v hv]

/-- C18, for the value 0x12345678 written to scratch register 3 of an idle
card and read back from a device that returns the payload written. -/
theorem u32_low_half_first_witness :
    (∃ d, spu_write_u32 sample_h (sim_card (fun _ _ => [0x78, 0x56, 0x34, 0x12]) (fun _ => 0) [])
        sample_h.IF_SPI_SCRATCH_3_REG 0x12345678 = .ok (0, d) ∧
      port_writes (u16 sample_h.IF_SPI_SCRATCH_3_REG) d.trace = [[0x78, 0x56, 0x34, 0x12]]) ∧
    ∃ d2, spu_read_u32 sample_h (sim_card (fun _ _ => [0x78, 0x56, 0x34, 0x12]) (fun _ => 0) [])
      sample_h.IF_SPI_SCRATCH_3_REG 0 = .ok ((0, 0x12345678), d2) :=
  ⟨(u32_low_half_first sample_h (sim_card (fun _ _ => [0x78, 0x56, 0x34, 0x12]) (fun _ => 0) [])
      sample_h.IF_SPI_SCRATCH_3_REG 0x12345678 (by decide) (fun _ => rfl)).1,
   (u32_low_half_first sample_h (sim_card (fun _ _ => [0x78, 0x56, 0x34, 0x12]) (fun _ => 0) [])
      sample_h.IF_SPI_SCRATCH_3_REG 0x12345678 (by decide) (fun _ => rfl)).2.2.2.2
      (sim_card (fun _ _ => [0x78, 0x56, 0x34, 0x12]) (fun _ => 0) [])
      sample_h.IF_SPI_SCRATCH_3_REG 0 (fun _ => rfl) rfl (by decide)⟩

theorem cs_level_cs (t : List Event) (l : Nat) : cs_level (t ++ [.cs l]) = some l := by
  simp [cs_level, List.filterMap_append]

theorem cs_level_emit (c : if_spi_card) (e : Event) (he : ∀ l, e ≠ .cs l) :
    cs_level (emit c e).trace = cs_level c.trace := by
  simp only [cs_level, emit, List.filterMap_append]
  cases e with
  | cs l => exact absurd rfl (he l)
  | _ => simp

theorem cs_level_init (c : if_spi_card) :
    cs_level (spu_transaction_init c).trace = some 0 ∧
    (spu_transaction_init c).prev_xfer_time = c.prev_xfer_time ∧
    (spu_transaction_init c).sys.nclk = c.sys.nclk + 1 ∧
    (spu_transaction_init c).sys.clock = c.sys.clock := by
  unfold spu_transaction_init
  simp only []
  split <;> exact ⟨cs_level_cs _ 0, rfl, rfl, rfl⟩

theorem cs_level_addr (c : if_spi_card) (reg_out : Nat) :
    cs_level (spu_addr c reg_out).2.trace = some 0 ∧
    (spu_addr c reg_out).2.prev_xfer_time = c.prev_xfer_time ∧
    (spu_addr c reg_out).2.sys.nclk = c.sys.nclk + 1 ∧
    (spu_addr c reg_out).2.sys.clock = c.sys.clock := by
  obtain ⟨h1, h2, h3, h4⟩ := cs_level_init c
  refine ⟨?_, h2, h3, h4⟩
  unfold spu_addr
  simp only []
  rw [cs_level_emit _ _ (fun l => by simp)]
  exact h1

theorem cs_level_finish (c : if_spi_card) :
    cs_level (spu_transaction_finish c).trace = some 1 ∧
    (spu_transaction_finish c).prev_xfer_time = ulong (c.sys.clock c.sys.nclk) := by
  simp [spu_transaction_finish, jiffies, emit, cs_level_cs]

/-- The dummy-clock loop when transfer `j` of its `n` is the first to fail: it
stops there with that error, leaving chip select and `prev_xfer_time` alone. -/
theorem spu_read_dummies_fails (n : Nat) (c : if_spi_card) (j : Nat) (hj : j < n)
    (hok : ∀ i, i < j → c.spi.wr_res (c.spi.nwr + i) = 0)
    (hfail : c.spi.wr_res (c.spi.nwr + j) ≠ 0) :
    (spu_read_dummies n c).1 = c.spi.wr_res (c.spi.nwr + j) ∧
    (spu_read_dummies n c).2.prev_xfer_time = c.prev_xfer_time ∧
    cs_level (spu_read_dummies n c).2.trace = cs_level c.trace := by
  induction n generalizing c j with
  | zero => omega
  | succ n ih =>
    simp only [spu_read_dummies]
    cases j with
    | zero =>
      have h0 : (spi_write c).1 ≠ 0 := by simpa [spi_write] using hfail
      simp only [h0, ne_eq, not_false_eq_true, ↓reduceIte]
      refine ⟨by simp [spi_write], rfl, ?_⟩
      rw [cs_level_emit _ _ (fun l => by simp)]
      rfl
    | succ j =>
      have h0 : (spi_write c).1 = 0 := by simpa [spi_write] using hok 0 (by omega)
      simp only [h0, ne_eq, not_true_eq_false, ↓reduceIte]
      obtain ⟨i1, i2, i3⟩ := ih (emit (spi_write c).2 (.spi_dummy 0)) j (by omega)
        (fun i hi => by
          have := hok (i + 1) (by omega)
          simpa [emit, spi_write, Nat.add_assoc, Nat.add_comm 1 i] using this)
        (by simpa [emit, spi_write, Nat.add_assoc, Nat.add_comm 1 j] using hfail)
      refine ⟨?_, ?_, ?_⟩
      · rw [i1]; simp [emit, spi_write, Nat.add_assoc, Nat.add_comm 1 j]
      · rw [i2]; rfl
      · rw [i3, cs_level_emit _ _ (fun l => by simp)]
        rfl

/-- The dummy-clock loop drives no chip select, and leaves `prev_xfer_time`
and the kernel alone. -/
theorem spu_read_dummies_keeps (n : Nat) (c : if_spi_card) :
    cs_level (spu_read_dummies n c).2.trace = cs_level c.trace ∧
    (spu_read_dummies n c).2.prev_xfer_time = c.prev_xfer_time ∧
    (spu_read_dummies n c).2.sys = c.sys := by
  induction n generalizing c with
  | zero => exact ⟨rfl, rfl, rfl⟩
  | succ n ih =>
    simp only [spu_read_dummies]
    split
    · exact ⟨cs_level_emit _ _ (fun l => by simp), rfl, rfl⟩
    · obtain ⟨i1, i2, i3⟩ := ih (emit (spi_write c).2 (.spi_dummy (spi_write c).1))
      exact ⟨by rw [i1]; exact cs_level_emit _ _ (fun l => by simp), by rw [i2]; rfl,
        by rw [i3]; rfl⟩

/-- The settle wait of `spu_read` drives no chip select and leaves
`prev_xfer_time` and the kernel alone; it fails in dummy-write mode only. -/
theorem spu_read_settle_keeps (K : if_spi_h) (c : if_spi_card) (reg : Nat) :
    cs_level (spu_read_settle K c reg).2.trace = cs_level c.trace ∧
    (spu_read_settle K c reg).2.prev_xfer_time = c.prev_xfer_time ∧
    (spu_read_settle K c reg).2.sys = c.sys ∧
    ((spu_read_settle K c reg).1 ≠ 0 → c.use_dummy_writes ≠ 0) := by
  unfold spu_read_settle
  simp only []
  split
  · rename_i h
    obtain ⟨i1, i2, i3⟩ := spu_read_dummies_keeps
      (u32 (if spu_reg_is_port_reg K reg then c.spu_port_delay else c.spu_reg_delay) / 16) c
    exact ⟨i1, i2, i3, fun _ => h⟩
  · exact ⟨cs_level_emit _ _ (fun l => by simp), rfl, rfl, fun h => absurd rfl h⟩

theorem spu_addr_mode (c : if_spi_card) (reg_out : Nat) :
    (spu_addr c reg_out).2.use_dummy_writes = c.use_dummy_writes := by
  simp only [spu_addr, spu_transaction_init, spi_write, emit, jiffies]
  split <;> rfl

/-- Every return of `spu_read` either goes through `spu_transaction_finish`,
or is the return from a failed dummy word, with chip select left asserted. -/
theorem spu_read_exits (K : if_spi_h) (c : if_spi_card) (reg : Nat) (buf : List Nat)
    (len : Nat) (r : Int × List Nat) (d : if_spi_card)
    (h : spu_read K c reg buf len = .ok (r, d)) :
    (cs_level d.trace = some 1 ∧ d.prev_xfer_time = ulong (c.sys.clock (c.sys.nclk + 1))) ∨
    (c.use_dummy_writes ≠ 0 ∧ r.1 ≠ 0 ∧ cs_level d.trace = some 0 ∧
      d.prev_xfer_time = c.prev_xfer_time) := by
  obtain ⟨a1, a2, a3, a4⟩ := cs_level_addr c (u16 (u16 reg ||| K.IF_SPI_READ_OPERATION_MASK))
  obtain ⟨s1, s2, s3, s4⟩ := spu_read_settle_keeps K
    (spu_addr c (u16 (u16 reg ||| K.IF_SPI_READ_OPERATION_MASK))).2 (u16 reg)
  unfold spu_read at h
  simp only [] at h
  split at h
  · simp at h
  · split at h
    · simp only [Except.ok.injEq, Prod.mk.injEq] at h
      rw [← h.2]
      obtain ⟨g1, g2⟩ := cs_level_finish
        (spu_addr c (u16 (u16 reg ||| K.IF_SPI_READ_OPERATION_MASK))).2
      exact Or.inl ⟨g1, by rw [g2, a3, a4]⟩
    · split at h
      · rename_i hs
        simp only [Except.ok.injEq, Prod.mk.injEq] at h
        rw [← h.2, ← h.1]
        refine Or.inr ⟨?_, hs, by rw [s1, a1], by rw [s2, a2]⟩
        have := s4 hs
        rwa [spu_addr_mode] at this
      · simp only [Except.ok.injEq, Prod.mk.injEq] at h
        rw [← h.2]
        obtain ⟨g1, g2⟩ := cs_level_finish (emit (spi_read (spu_read_settle K
          (spu_addr c (u16 (u16 reg ||| K.IF_SPI_READ_OPERATION_MASK))).2 (u16 reg)).2
          (u16 reg) buf len).2 (.spi_in (u16 reg) len (spi_read (spu_read_settle K
          (spu_addr c (u16 (u16 reg ||| K.IF_SPI_READ_OPERATION_MASK))).2 (u16 reg)).2
          (u16 reg) buf len).1.1))
        refine Or.inl ⟨g1, ?_⟩
        rw [g2]
        simp only [emit, spi_read, s3, a3, a4]

/-- Every return of `spu_write` goes through `spu_transaction_finish`. -/
theorem spu_write_exits (K : if_spi_h) (c : if_spi_card) (reg : Nat) (buf : List Nat)
    (len : Nat) (r : Int) (d : if_spi_card) (h : spu_write K c reg buf len = .ok (r, d)) :
    cs_level d.trace = some 1 ∧ d.prev_xfer_time = ulong (c.sys.clock (c.sys.nclk + 1)) := by
  obtain ⟨a1, a2, a3, a4⟩ := cs_level_addr c (u16 (u16 reg ||| K.IF_SPI_WRITE_OPERATION_MASK))
  unfold spu_write at h
  simp only [] at h
  split at h
  · simp at h
  · split at h
    · simp only [Except.ok.injEq, Prod.mk.injEq] at h
      rw [← h.2]
      obtain ⟨g1, g2⟩ := cs_level_finish
        (spu_addr c (u16 (u16 reg ||| K.IF_SPI_WRITE_OPERATION_MASK))).2
      exact ⟨g1, by rw [g2, a3, a4]⟩
    · simp only [Except.ok.injEq, Prod.mk.injEq] at h
      rw [← h.2]
      obtain ⟨g1, g2⟩ := cs_level_finish (emit (spi_write
        (spu_addr c (u16 (u16 reg ||| K.IF_SPI_WRITE_OPERATION_MASK))).2).2
        (.spi_out (u16 reg) (buf.take len) (spi_write
          (spu_addr c (u16 (u16 reg ||| K.IF_SPI_WRITE_OPERATION_MASK))).2).1))
      refine ⟨g1, ?_⟩
      rw [g2]
      simp only [emit, spi_write, a3, a4]

/-- Both `spu_read` and `spu_write` assert chip select before their first
transfer. -/
theorem spu_addr_asserts (c : if_spi_card) (reg_out : Nat) :
    ∃ evs, (spu_addr c reg_out).2.trace = c.trace ++ evs ++ [.cs 0, .spi_addr reg_out
      (c.spi.wr_res c.spi.nwr)] ∧ ∀ e ∈ evs, ∃ n, e = .ndelay n := by
  simp only [spu_addr, spu_transaction_init, spi_write, emit, jiffies]
  split
  · exact ⟨[.ndelay 400], by simp, by simp⟩
  · exact ⟨[], by simp, by simp⟩

theorem spu_read_dummies_grows (n : Nat) (c : if_spi_card) :
    ∃ rest, (spu_read_dummies n c).2.trace = c.trace ++ rest := by
  induction n generalizing c with
  | zero => exact ⟨[], by simp [spu_read_dummies]⟩
  | succ n ih =>
    simp only [spu_read_dummies]
    split
    · exact ⟨[.spi_dummy (spi_write c).1], rfl⟩
    · obtain ⟨rest, hr⟩ := ih (emit (spi_write c).2 (.spi_dummy (spi_write c).1))
      exact ⟨.spi_dummy (spi_write c).1 :: rest, by rw [hr]; simp [emit, spi_write]⟩

theorem spu_read_settle_grows (K : if_spi_h) (c : if_spi_card) (reg : Nat) :
    ∃ rest, (spu_read_settle K c reg).2.trace = c.trace ++ rest := by
  unfold spu_read_settle
  simp only []
  split
  · exact spu_read_dummies_grows _ c
  · exact ⟨_, rfl⟩

theorem starts_of_grows (c a d : if_spi_card) (evs : List Event) (e : Event)
    (he : a.trace = c.trace ++ evs ++ [Event.cs 0, e])
    (hall : ∀ x ∈ evs, ∃ n, x = Event.ndelay n) (rest : List Event)
    (hg : d.trace = a.trace ++ rest) :
    ∃ evs rest, d.trace = c.trace ++ evs ++ Event.cs 0 :: rest ∧
      ∀ x ∈ evs, ∃ n, x = Event.ndelay n :=
  ⟨evs, e :: rest, by rw [hg, he]; simp, hall⟩

/-- Chip select is the first line `spu_write` drives: before it there is at
most the guard delay. -/
theorem spu_write_starts (K : if_spi_h) (c : if_spi_card) (reg : Nat) (buf : List Nat)
    (len : Nat) (r : Int) (d : if_spi_card) (h : spu_write K c reg buf len = .ok (r, d)) :
    ∃ evs rest, d.trace = c.trace ++ evs ++ Event.cs 0 :: rest ∧
      ∀ e ∈ evs, ∃ n, e = Event.ndelay n := by
  obtain ⟨evs, he, hall⟩ := spu_addr_asserts c (u16 (u16 reg ||| K.IF_SPI_WRITE_OPERATION_MASK))
  unfold spu_write at h
  simp only [] at h
  split at h
  · simp at h
  · split at h
    · simp only [Except.ok.injEq, Prod.mk.injEq] at h
      rw [← h.2]
      exact starts_of_grows c _ _ evs _ he hall [.cs 1] rfl
    · simp only [Except.ok.injEq, Prod.mk.injEq] at h
      rw [← h.2]
      exact starts_of_grows c _ _ evs _ he hall
        [.spi_out (u16 reg) (buf.take len) (spi_write
          (spu_addr c (u16 (u16 reg ||| K.IF_SPI_WRITE_OPERATION_MASK))).2).1, .cs 1]
        (by simp [spu_transaction_finish, jiffies, emit, spi_write])

/-- Chip select is the first line `spu_read` drives: before it there is at
most the guard delay. -/
theorem spu_read_starts (K : if_spi_h) (c : if_spi_card) (reg : Nat) (buf : List Nat)
    (len : Nat) (r : Int × List Nat) (d : if_spi_card)
    (h : spu_read K c reg buf len = .ok (r, d)) :
    ∃ evs rest, d.trace = c.trace ++ evs ++ Event.cs 0 :: rest ∧
      ∀ e ∈ evs, ∃ n, e = Event.ndelay n := by
  obtain ⟨evs, he, hall⟩ := spu_addr_asserts c (u16 (u16 reg ||| K.IF_SPI_READ_OPERATION_MASK))
  obtain ⟨srest, hs⟩ := spu_read_settle_grows K
    (spu_addr c (u16 (u16 reg ||| K.IF_SPI_READ_OPERATION_MASK))).2 (u16 reg)
  unfold spu_read at h
  simp only [] at h
  split at h
  · simp at h
  · split at h
    · simp only [Except.ok.injEq, Prod.mk.injEq] at h
      rw [← h.2]
      exact starts_of_grows c _ _ evs _ he hall [.cs 1] rfl
    · split at h
      · simp only [Except.ok.injEq, Prod.mk.injEq] at h
        rw [← h.2]
        exact starts_of_grows c _ _ evs _ he hall srest hs
      · simp only [Except.ok.injEq, Prod.mk.injEq] at h
        rw [← h.2]
        exact starts_of_grows c _ _ evs _ he hall
          (srest ++ [.spi_in (u16 reg) len (spi_read (spu_read_settle K
            (spu_addr c (u16 (u16 reg ||| K.IF_SPI_READ_OPERATION_MASK))).2 (u16 reg)).2
            (u16 reg) buf len).1.1, .cs 1])
          (by simp [spu_transaction_finish, jiffies, emit, spi_read, hs])

/-- In dummy-write mode, when the register index word goes out and dummy word
`j` is the first transfer to fail, `spu_read` returns that error with chip
select still asserted and `prev_xfer_time` as it was. -/
theorem spu_read_dummy_failure (K : if_spi_h) (c : if_spi_card) (reg : Nat)
    (buf : List Nat) (len : Nat) (hl : len % 2 = 0) (hd : c.use_dummy_writes ≠ 0)
    (ha : c.spi.wr_res c.spi.nwr = 0) (j : Nat)
    (hj : j < u32 (if spu_reg_is_port_reg K (u16 reg) then c.spu_port_delay
      else c.spu_reg_delay) / 16)
    (hok : ∀ i, i < j → c.spi.wr_res (c.spi.nwr + 1 + i) = 0)
    (hfail : c.spi.wr_res (c.spi.nwr + 1 + j) ≠ 0) :
    ∃ d, spu_read K c reg buf len = .ok ((c.spi.wr_res (c.spi.nwr + 1 + j), buf), d) ∧
      cs_level d.trace = some 0 ∧ d.prev_xfer_time = c.prev_xfer_time := by
  have h1 : ¬ len % 2 = 1 := by omega
  have hac := spu_addr_counts c (u16 (u16 reg ||| K.IF_SPI_READ_OPERATION_MASK))
  obtain ⟨a1, a2, _, _⟩ := cs_level_addr c (u16 (u16 reg ||| K.IF_SPI_READ_OPERATION_MASK))
  have h2 : (spu_addr c (u16 (u16 reg ||| K.IF_SPI_READ_OPERATION_MASK))).1 = 0 := by
    rw [hac.2.2.2]; exact ha
  have hwr : (spu_addr c (u16 (u16 reg ||| K.IF_SPI_READ_OPERATION_MASK))).2.spi.wr_res =
      c.spi.wr_res := touches_wr_res
        (spu_addr_touches read_event_ndelay read_event_cs read_event_addr c _)
  have hud : (spu_addr c (u16 (u16 reg ||| K.IF_SPI_READ_OPERATION_MASK))).2.use_dummy_writes =
      c.use_dummy_writes := by
    simp only [spu_addr, spu_transaction_init, spi_write, emit, jiffies]
    split <;> rfl
  have hpd : (spu_addr c (u16 (u16 reg ||| K.IF_SPI_READ_OPERATION_MASK))).2.spu_port_delay =
      c.spu_port_delay := by
    simp only [spu_addr, spu_transaction_init, spi_write, emit, jiffies]
    split <;> rfl
  have hrd : (spu_addr c (u16 (u16 reg ||| K.IF_SPI_READ_OPERATION_MASK))).2.spu_reg_delay =
      c.spu_reg_delay := by
    simp only [spu_addr, spu_transaction_init, spi_write, emit, jiffies]
    split <;> rfl
  obtain ⟨f1, f2, f3⟩ := spu_read_dummies_fails _
    (spu_addr c (u16 (u16 reg ||| K.IF_SPI_READ_OPERATION_MASK))).2 j
    hj
    (fun i hi => by rw [hwr, hac.2.2.1]; exact hok i hi)
    (by rw [hwr, hac.2.2.1]; exact hfail)
  have hs : spu_read_settle K (spu_addr c (u16 (u16 reg ||| K.IF_SPI_READ_OPERATION_MASK))).2
      (u16 reg) = spu_read_dummies
        (u32 (if spu_reg_is_port_reg K (u16 reg) then c.spu_port_delay
          else c.spu_reg_delay) / 16)
        (spu_addr c (u16 (u16 reg ||| K.IF_SPI_READ_OPERATION_MASK))).2 := by
    simp only [spu_read_settle, hud, hd, ne_eq, not_false_eq_true, ↓reduceIte, hpd, hrd]
  rw [hwr, hac.2.2.1] at f1
  have h3 : (spu_read_settle K (spu_addr c (u16 (u16 reg ||| K.IF_SPI_READ_OPERATION_MASK))).2
      (u16 reg)).1 ≠ 0 := by rw [hs, f1]; exact hfail
  refine ⟨(spu_read_dummies
    (u32 (if spu_reg_is_port_reg K (u16 reg) then c.spu_port_delay else c.spu_reg_delay) / 16)
    (spu_addr c (u16 (u16 reg ||| K.IF_SPI_READ_OPERATION_MASK))).2).2, ?_, ?_, ?_⟩
  · unfold spu_read
    simp only [h1, h2, h3, ne_eq, not_true_eq_false, not_false_eq_true, ↓reduceIte]
    rw [hs, f1]
  · rw [f3, a1]
  · rw [f2, a2]

/-- C19 (divergence): every return of `spu_write` and of `spu_read` has driven
chip select low before anything but the guard delay.  Every return of
`spu_write` leaves chip select deasserted and `prev_xfer_time` set to the
reading of `jiffies` taken on the way out, and so does every return of
`spu_read` but one: in dummy-write mode, when the register index word goes out
and dummy word `j` is the first transfer to fail, `spu_read` returns that error
through `return err`, not through `out:`, with chip select still asserted and
`prev_xfer_time` what it was before the call. -/
theorem spu_read_leaves_cs_asserted (K : if_spi_h) (c : if_spi_card) (reg : Nat)
    (buf : List Nat) (len : Nat) (hl : len % 2 = 0) (hd : c.use_dummy_writes ≠ 0)
    (ha : c.spi.wr_res c.spi.nwr = 0) (j : Nat)
    (hj : j < u32 (if spu_reg_is_port_reg K (u16 reg) then c.spu_port_delay
      else c.spu_reg_delay) / 16)
    (hok : ∀ i, i < j → c.spi.wr_res (c.spi.nwr + 1 + i) = 0)
    (hfail : c.spi.wr_res (c.spi.nwr + 1 + j) ≠ 0) :
    (∃ d, spu_read K c reg buf len = .ok ((c.spi.wr_res (c.spi.nwr + 1 + j), buf), d) ∧
      cs_level d.trace = some 0 ∧ d.prev_xfer_time = c.prev_xfer_time) ∧
    (∀ (c2 : if_spi_card) (reg2 : Nat) (wbuf : List Nat) (n : Nat) r d,
      spu_write K c2 reg2 wbuf n = .ok (r, d) →
      (∃ evs rest, d.trace = c2.trace ++ evs ++ Event.cs 0 :: rest ∧
        ∀ e ∈ evs, ∃ t, e = Event.ndelay t) ∧
      cs_level d.trace = some 1 ∧ d.prev_xfer_time = ulong (c2.sys.clock (c2.sys.nclk + 1))) ∧
    (∀ (c2 : if_spi_card) (reg2 : Nat) (rbuf : List Nat) (n : Nat) r d,
      spu_read K c2 reg2 rbuf n = .ok (r, d) →
      (∃ evs rest, d.trace = c2.trace ++ evs ++ Event.cs 0 :: rest ∧
        ∀ e ∈ evs, ∃ t, e = Event.ndelay t) ∧
      ((cs_level d.trace = some 1 ∧
          d.prev_xfer_time = ulong (c2.sys.clock (c2.sys.nclk + 1))) ∨
        (c2.use_dummy_writes ≠ 0 ∧ r.1 ≠ 0 ∧ cs_level d.trace = some 0 ∧
          d.prev_xfer_time = c2.prev_xfer_time))) :=
  ⟨spu_read_dummy_failure K c reg buf len hl hd ha j hj hok hfail,
    fun c2 reg2 wbuf n r d h =>
      ⟨spu_write_starts K c2 reg2 wbuf n r d h, spu_write_exits K c2 reg2 wbuf n r d h⟩,
    fun c2 reg2 rbuf n r d h =>
      ⟨spu_read_starts K c2 reg2 rbuf n r d h, spu_read_exits K c2 reg2 rbuf n r d h⟩⟩

/-- C19 (divergence), on the sample card in dummy-write mode whose first
dummy word fails: `spu_read` of the host interrupt status register returns the
error with chip select asserted and `prev_xfer_time` still 0 although the
clock reads 7. -/
theorem spu_read_leaves_cs_asserted_witness :
    ∃ d, spu_read sample_h { dummy_fail_card with sys := { dummy_fail_card.sys with
          clock := fun _ => 7 } }
        sample_h.IF_SPI_HOST_INT_STATUS_REG [0, 0] 2 = .ok ((- EIO, [0, 0]), d) ∧
      cs_level d.trace = some 0 ∧ d.prev_xfer_time = 0 :=
  (spu_read_leaves_cs_asserted sample_h { dummy_fail_card with sys := { dummy_fail_card.sys with
      clock := fun _ => 7 } }
    sample_h.IF_SPI_HOST_INT_STATUS_REG [0, 0] 2 rfl (by decide) rfl 0 (by decide)
    (fun i hi => absurd hi (Nat.not_lt_zero i)) (by decide)).1

theorem bus_writes_append (u v : List Event) :
    bus_writes (u ++ v) = bus_writes u ++ bus_writes v := by
  simp [bus_writes]

theorem bus_reads_append (u v : List Event) :
    bus_reads (u ++ v) = bus_reads u ++ bus_reads v := by
  simp [bus_reads]

theorem frees_append (u v : List Event) : frees (u ++ v) = frees u ++ frees v := by
  simp [frees]

theorem bus_writes_quiet (u : List Event) (h : ∀ e ∈ u, read_event e = true) :
    bus_writes u = [] := by
  induction u with
  | nil => rfl
  | cons e u ih =>
    have he : read_event e = true := h e (List.mem_cons_self _ _)
    have ih2 := ih (fun x hx => h x (List.mem_cons_of_mem _ hx))
    have hcons : bus_writes (e :: u) = bus_writes [e] ++ bus_writes u := bus_writes_append [e] u
    rw [hcons, ih2, List.append_nil]
    cases e <;> first | rfl | exact absurd he (by simp [read_event])

theorem bus_reads_quiet (u : List Event) (h : ∀ e ∈ u, quiet_event e = true) :
    bus_reads u = [] := by
  induction u with
  | nil => rfl
  | cons e u ih =>
    have he : quiet_event e = true := h e (List.mem_cons_self _ _)
    have ih2 := ih (fun x hx => h x (List.mem_cons_of_mem _ hx))
    have hcons : bus_reads (e :: u) = bus_reads [e] ++ bus_reads u := bus_reads_append [e] u
    rw [hcons, ih2, List.append_nil]
    cases e <;> first | rfl | exact absurd he (by simp [quiet_event])

theorem frees_quiet (u : List Event) (h : ∀ e ∈ u, bus_event e = true) : frees u = [] := by
  induction u with
  | nil => rfl
  | cons e u ih =>
    have he : bus_event e = true := h e (List.mem_cons_self _ _)
    have ih2 := ih (fun x hx => h x (List.mem_cons_of_mem _ hx))
    have hcons : frees (e :: u) = frees [e] ++ frees u := frees_append [e] u
    rw [hcons, ih2, List.append_nil]
    cases e <;> first | rfl | exact absurd he (by simp [bus_event])

theorem touches_bus_writes {c d : if_spi_card} (h : touches read_event c d) :
    bus_writes d.trace = bus_writes c.trace := by
  obtain ⟨a, b, n, t, u, rfl, hu⟩ := h
  simp [bus_upd, bus_writes_append, bus_writes_quiet u hu]

theorem touches_bus_reads {c d : if_spi_card} (h : touches quiet_event c d) :
    bus_reads d.trace = bus_reads c.trace := by
  obtain ⟨a, b, n, t, u, rfl, hu⟩ := h
  simp [bus_upd, bus_reads_append, bus_reads_quiet u hu]

theorem touches_frees {c d : if_spi_card} (h : touches bus_event c d) :
    frees d.trace = frees c.trace := by
  obtain ⟨a, b, n, t, u, rfl, hu⟩ := h
  simp [bus_upd, frees_append, frees_quiet u hu]

theorem quiet_event_read (e : Event) (h : quiet_event e = true) : read_event e = true := by
  cases e <;> simp_all [quiet_event, read_event]

/-- With an even length `spu_write` returns, having only touched the bus: when
the register index word fails it returns that error and writes no payload,
else it puts the first `len` bytes of `buf` on the register and returns the
result of that transfer. -/
theorem spu_write_effect (K : if_spi_h) (c : if_spi_card) (reg : Nat) (buf : List Nat)
    (len : Nat) (hl : len % 2 = 0) :
    ∃ d, spu_write K c reg buf len =
        .ok (if c.spi.wr_res c.spi.nwr ≠ 0 then c.spi.wr_res c.spi.nwr
          else c.spi.wr_res (c.spi.nwr + 1), d) ∧
      touches bus_event c d ∧
      bus_writes d.trace = bus_writes c.trace ++
        (if c.spi.wr_res c.spi.nwr = 0 then [(u16 reg, buf.take len)] else []) := by
  have ha := spu_addr_touches read_event_ndelay read_event_cs read_event_addr c
    (u16 (u16 reg ||| K.IF_SPI_WRITE_OPERATION_MASK))
  have hac := spu_addr_counts c (u16 (u16 reg ||| K.IF_SPI_WRITE_OPERATION_MASK))
  have h1 : ¬ len % 2 = 1 := by omega
  have hwr := touches_wr_res ha
  by_cases h2 : c.spi.wr_res c.spi.nwr = 0
  · have h2a : (spu_addr c (u16 (u16 reg ||| K.IF_SPI_WRITE_OPERATION_MASK))).1 = 0 := by
      rw [hac.2.2.2]; exact h2
    have hres : spu_write K c reg buf len = .ok (c.spi.wr_res (c.spi.nwr + 1),
        spu_transaction_finish
          (emit (spi_write (spu_addr c (u16 (u16 reg ||| K.IF_SPI_WRITE_OPERATION_MASK))).2).2
            (.spi_out (u16 reg) (buf.take len) (c.spi.wr_res (c.spi.nwr + 1))))) := by
      unfold spu_write
      simp only [h1, h2a, ne_eq, not_true_eq_false, ↓reduceIte]
      simp only [spi_write, hwr, hac.2.2.1]
    refine ⟨_, by simpa [h2] using hres, (spu_write_touches K c reg buf len _ _ hres).1, ?_⟩
    rw [(spu_transaction_finish_counts _).2.2]
    have hp := touches_bus_writes (touches_spi_write ha)
    simp only [emit, bus_writes_append, hp, h2, ↓reduceIte]
    simp [bus_writes]
  · have h2a : (spu_addr c (u16 (u16 reg ||| K.IF_SPI_WRITE_OPERATION_MASK))).1 ≠ 0 := by
      rw [hac.2.2.2]; exact h2
    have hres : spu_write K c reg buf len = .ok (c.spi.wr_res c.spi.nwr,
        spu_transaction_finish (spu_addr c (u16 (u16 reg ||| K.IF_SPI_WRITE_OPERATION_MASK))).2) := by
      unfold spu_write
      simp only [h1, hac.2.2.2, h2, ne_eq, not_false_eq_true, ↓reduceIte]
    refine ⟨_, by simpa [h2] using hres, (spu_write_touches K c reg buf len _ _ hres).1, ?_⟩
    have hp := touches_bus_writes (touches_finish read_event_cs ha)
    simp [hp, h2]

/-- C17: `if_spi_h2c` on a packet of even `blen`.  For type `MVMS_CMD` it
issues one `spu_write` on the command port register, for `MVMS_DAT` one on the
data port register: once the register index word has gone out, the payload
put on that register is exactly the first `blen` bytes of the packet buffer
(`blen` bytes when the buffer holds that many), and no other payload is
written; for any other type nothing is transferred on the bus.  In each case,
whatever the write returned, the call returns having released the packet
exactly once. -/
theorem if_spi_h2c_writes_and_frees (K : if_spi_h) (c : if_spi_card) (p : if_spi_packet)
    (type : Int) (heven : p.blen % 2 = 0) (hne : K.MVMS_CMD ≠ K.MVMS_DAT) :
    (type = K.MVMS_CMD → ∃ d, if_spi_h2c K c p type = .ok ((), d) ∧
      frees d.trace = frees c.trace ++ [p] ∧
      bus_writes d.trace = bus_writes c.trace ++
        (if c.spi.wr_res c.spi.nwr = 0 then
          [(u16 K.IF_SPI_CMD_RDWRPORT_REG, p.buffer.take p.blen)] else [])) ∧
    (type = K.MVMS_DAT → ∃ d, if_spi_h2c K c p type = .ok ((), d) ∧
      frees d.trace = frees c.trace ++ [p] ∧
      bus_writes d.trace = bus_writes c.trace ++
        (if c.spi.wr_res c.spi.nwr = 0 then
          [(u16 K.IF_SPI_DATA_RDWRPORT_REG, p.buffer.take p.blen)] else [])) ∧
    (type ≠ K.MVMS_CMD → type ≠ K.MVMS_DAT → ∃ d, if_spi_h2c K c p type = .ok ((), d) ∧
      frees d.trace = frees c.trace ++ [p] ∧
      bus_writes d.trace = bus_writes c.trace ∧ d.spi = c.spi) ∧
    (p.blen ≤ p.buffer.length → (p.buffer.take p.blen).length = p.blen) := by
  have hout : ∀ (x : if_spi_card) (err : Int), ∃ d, if_spi_h2c_out x p err = .ok ((), d) ∧
      frees d.trace = frees x.trace ++ [p] ∧ bus_writes d.trace = bus_writes x.trace ∧
      d.spi = x.spi := by
    intro x err
    unfold if_spi_h2c_out
    split
    · exact ⟨_, rfl, by simp [emit, frees], by simp [emit, bus_writes], rfl⟩
    · exact ⟨_, rfl, by simp [emit, frees], by simp [emit, bus_writes], rfl⟩
  have hport : ∀ port, ∃ r d1 d, spu_write K (emit c (.h2c type.toNat p)) port p.buffer p.blen =
        .ok (r, d1) ∧ if_spi_h2c_out d1 p r = .ok ((), d) ∧
      frees d.trace = frees c.trace ++ [p] ∧
      bus_writes d.trace = bus_writes c.trace ++
        (if c.spi.wr_res c.spi.nwr = 0 then [(u16 port, p.buffer.take p.blen)] else []) := by
    intro port
    obtain ⟨d1, hw, ht, hb⟩ := spu_write_effect K (emit c (.h2c type.toNat p)) port p.buffer
      p.blen heven
    obtain ⟨d, ho, hf, hb2, _⟩ := hout d1 (if c.spi.wr_res c.spi.nwr ≠ 0 then
      c.spi.wr_res c.spi.nwr else c.spi.wr_res (c.spi.nwr + 1))
    refine ⟨_, d1, d, hw, ho, ?_, ?_⟩
    · rw [hf, touches_frees ht]
      simp [emit, frees]
    · rw [hb2, hb]
      simp [emit, bus_writes]
  refine ⟨fun hc => ?_, fun hd => ?_, fun hc hd => ?_, fun hlen => by simp [hlen]⟩
  · obtain ⟨r, d1, d, hw, ho, hf, hb⟩ := hport K.IF_SPI_CMD_RDWRPORT_REG
    have hnd : ¬ (K.MVMS_CMD : Int) = (K.MVMS_DAT : Int) := by
      exact_mod_cast hne
    refine ⟨d, ?_, hf, hb⟩
    rw [hc] at hw
    simp only [if_spi_h2c, hc, hnd, ↓reduceIte, hw]
    exact ho
  · obtain ⟨r, d1, d, hw, ho, hf, hb⟩ := hport K.IF_SPI_DATA_RDWRPORT_REG
    refine ⟨d, ?_, hf, hb⟩
    simp only [if_spi_h2c, hd, ↓reduceIte]
    rw [hd] at hw
    simp only [hw]
    exact ho
  · obtain ⟨d, ho, hf, hb, hs⟩ := hout (emit (emit c (.h2c type.toNat p)) (.pr_err (-EINVAL)))
      (-EINVAL)
    refine ⟨d, ?_, ?_, ?_, ?_⟩
    · simp only [if_spi_h2c, hc, hd, ↓reduceIte]
      exact ho
    · rw [hf]; simp [emit, frees]
    · rw [hb]; simp [emit, bus_writes]
    · rw [hs]; rfl

/-- C17, for a command packet of four bytes on an idle card with a working
bus: the four bytes go to the command port and the packet is released. -/
theorem if_spi_h2c_writes_and_frees_witness :
    ∃ d, if_spi_h2c sample_h (sim_card (fun _ _ => [0, 0]) (fun _ => 0) [])
        { blen := 4, buffer := [1, 2, 3, 4] } sample_h.MVMS_CMD = .ok ((), d) ∧
      frees d.trace = [{ blen := 4, buffer := [1, 2, 3, 4] }] ∧
      bus_writes d.trace = [(sample_h.IF_SPI_CMD_RDWRPORT_REG, [1, 2, 3, 4])] :=
  (if_spi_h2c_writes_and_frees sample_h (sim_card (fun _ _ => [0, 0]) (fun _ => 0) [])
    { blen := 4, buffer := [1, 2, 3, 4] } sample_h.MVMS_CMD (by decide) (by decide)).1 rfl

/-- Bus activity adds nothing to a list read off the trace through a filter
that ignores the events of that activity. -/
theorem touches_filterMap {α : Type} {P : Event → Bool} (f : Event → Option α)
    (hf : ∀ e, P e = true → f e = none) {c d : if_spi_card} (h : touches P c d) :
    d.trace.filterMap f = c.trace.filterMap f := by
  obtain ⟨a, b, n, t, u, rfl, hu⟩ := h
  have hnil : u.filterMap f = [] := by
    rw [List.filterMap_eq_nil_iff]
    exact fun e he => hf e (hu e he)
  simp [bus_upd, List.filterMap_append, hnil]

theorem touches_notified {c d : if_spi_card} (h : touches bus_event c d) :
    notified d.trace = notified c.trace :=
  touches_filterMap _ (fun e he => by cases e <;> first | rfl | simp [bus_event] at he) h

theorem quiet_event_ndelay (n : Nat) : quiet_event (.ndelay n) = true := rfl

theorem quiet_event_cs (l : Nat) : quiet_event (.cs l) = true := rfl

theorem quiet_event_addr (r : Nat) (e : Int) : quiet_event (.spi_addr r e) = true := rfl

theorem quiet_event_dummy (e : Int) : quiet_event (.spi_dummy e) = true := rfl

/-- Whatever `spu_read` returns, it has either read nothing, or read the
register once with one payload of `len` bytes. -/
theorem spu_read_reads (K : if_spi_h) (c : if_spi_card) (reg : Nat) (buf : List Nat)
    (len : Nat) (r : Int × List Nat) (d : if_spi_card)
    (h : spu_read K c reg buf len = .ok (r, d)) :
    (d.spi.nrd = c.spi.nrd ∧ bus_reads d.trace = bus_reads c.trace) ∨
    (d.spi.nrd = Function.update c.spi.nrd (u16 reg) (c.spi.nrd (u16 reg) + 1) ∧
      bus_reads d.trace = bus_reads c.trace ++ [(u16 reg, len)]) := by
  have ha := spu_addr_touches quiet_event_ndelay quiet_event_cs quiet_event_addr c
    (u16 (u16 reg ||| K.IF_SPI_READ_OPERATION_MASK))
  have hac := spu_addr_counts c (u16 (u16 reg ||| K.IF_SPI_READ_OPERATION_MASK))
  have hs := spu_read_settle_touches quiet_event_ndelay quiet_event_dummy K
    (spu_addr c (u16 (u16 reg ||| K.IF_SPI_READ_OPERATION_MASK))).2 (u16 reg)
  have hsc := spu_read_settle_counts K
    (spu_addr c (u16 (u16 reg ||| K.IF_SPI_READ_OPERATION_MASK))).2 (u16 reg)
  unfold spu_read at h
  simp only [] at h
  by_cases h1 : len % 2 = 1
  · simp [h1] at h
  · by_cases h2 : (spu_addr c (u16 (u16 reg ||| K.IF_SPI_READ_OPERATION_MASK))).1 = 0
    · by_cases h3 : (spu_read_settle K
          (spu_addr c (u16 (u16 reg ||| K.IF_SPI_READ_OPERATION_MASK))).2 (u16 reg)).1 = 0
      · simp only [h1, h2, h3, ne_eq, not_true_eq_false, ↓reduceIte, Except.ok.injEq,
          Prod.mk.injEq] at h
        rw [← h.2]
        refine Or.inr ⟨?_, ?_⟩
        · rw [(spu_transaction_finish_counts _).1]
          simp [emit, spi_read, hsc.1, hac.1]
        · rw [(spu_transaction_finish_counts _).2.2]
          have hq := touches_bus_reads (touches_spi_read (u16 reg) buf len (touches_trans ha hs))
          simp only [emit, bus_reads_append, hq]
          simp [bus_reads]
      · simp only [h1, h2, h3, ne_eq, not_true_eq_false, not_false_eq_true, ↓reduceIte,
          Except.ok.injEq, Prod.mk.injEq] at h
        rw [← h.2]
        exact Or.inl ⟨by rw [hsc.1, hac.1], touches_bus_reads (touches_trans ha hs)⟩
    · simp only [h1, h2, ne_eq, not_false_eq_true, ↓reduceIte, Except.ok.injEq,
        Prod.mk.injEq] at h
      rw [← h.2]
      exact Or.inl ⟨by rw [(spu_transaction_finish_counts _).1, hac.1],
        touches_bus_reads (touches_finish quiet_event_cs ha)⟩

/-- With working write transfers and an even length, `spu_read` returns the
result and bytes of the device's next read of the register, after exactly one
payload read of `len` bytes on it. -/
theorem spu_read_once (K : if_spi_h) (c : if_spi_card) (reg : Nat) (buf : List Nat)
    (len : Nat) (hw : writes_ok c) (hl : len % 2 = 0) :
    ∃ d, spu_read K c reg buf len =
        .ok ((c.spi.rd_res (u16 reg) (c.spi.nrd (u16 reg)),
          if c.spi.rd_res (u16 reg) (c.spi.nrd (u16 reg)) = 0 then
            rd_bytes c.spi (u16 reg) (c.spi.nrd (u16 reg)) len ++ buf.drop len
          else buf), d) ∧
      touches read_event c d ∧
      bus_reads d.trace = bus_reads c.trace ++ [(u16 reg, len)] := by
  obtain ⟨d, h, ht, hn, _⟩ := spu_read_ok K c reg buf len hw hl
  refine ⟨d, h, ht, ?_⟩
  rcases spu_read_reads K c reg buf len _ d h with ⟨h1, _⟩ | ⟨_, h2⟩
  · rw [hn] at h1
    have := congrFun h1 (u16 reg)
    simp at this
  · exact h2

theorem rd_bytes_take (d : spi_device) (reg k m n : Nat) (h : n ≤ m) :
    (rd_bytes d reg k m).take n = rd_bytes d reg k n := by
  simp only [rd_bytes, ← List.map_take, List.take_range, Nat.min_eq_left h]

theorem rd_bytes_length (d : spi_device) (reg k n : Nat) : (rd_bytes d reg k n).length = n := by
  simp [rd_bytes]

theorem ALIGN_4_even (n : Nat) : ALIGN n 4 % 2 = 0 := by
  have := (ALIGN_4_bounds n).2.2
  omega

/-- C15 (divergence): `if_spi_c2h_cmd`, once its read of scratch register 2
has returned the 16-bit length `len`.  For `len = 0` or
`len > IF_SPI_CMD_BUF_SIZE` it returns `-EINVAL`, delivers no response and
performs no port read.  Otherwise, when the port read succeeds and the response
slot is free, it reads `ALIGN(len, 4)` bytes from the command port register in
one payload read; then, if `len` is at most the size `LBS_UPLD_SIZE` of the
slot, it sets `resp_len` of the slot to `len`, stores exactly the first `len`
bytes read into `resp_buf` of the slot (the bytes beyond them stay as they
were) and, last, notifies the libertas core of the slot, returning 0; but if
`len` is more than the slot holds, the `memcpy` of `len` bytes runs past the
slot, a memory fault.  With a buffer size that is a multiple of 4 the read
does not exceed `IF_SPI_CMD_BUF_SIZE` bytes. -/
theorem if_spi_c2h_cmd_lengths (K : if_spi_h) (c c1 : if_spi_card) (len : Nat)
    (h1 : spu_read_u16 K c K.IF_SPI_SCRATCH_2_REG = .ok ((0, len), c1)) :
    (len = 0 ∨ K.IF_SPI_CMD_BUF_SIZE < len →
      ∃ d, if_spi_c2h_cmd K c = .ok (-EINVAL, d) ∧ d.priv = c.priv ∧
        notified d.trace = notified c.trace ∧ d.spi = c1.spi ∧
        bus_reads d.trace = bus_reads c1.trace) ∧
    (0 < len → len ≤ K.IF_SPI_CMD_BUF_SIZE → writes_ok c1 →
      c1.spi.rd_res (u16 K.IF_SPI_CMD_RDWRPORT_REG)
        (c1.spi.nrd (u16 K.IF_SPI_CMD_RDWRPORT_REG)) = 0 →
      c.priv.resp_len (if c.priv.resp_idx = 0 then 1 else 0) = 0 →
      len ≤ K.LBS_UPLD_SIZE →
      ∃ d, if_spi_c2h_cmd K c = .ok (0, d) ∧
        bus_reads d.trace = bus_reads c1.trace ++
          [(u16 K.IF_SPI_CMD_RDWRPORT_REG, ALIGN len 4)] ∧
        d.priv.resp_len (if c.priv.resp_idx = 0 then 1 else 0) = len ∧
        d.priv.resp_buf (if c.priv.resp_idx = 0 then 1 else 0) =
          rd_bytes c1.spi (u16 K.IF_SPI_CMD_RDWRPORT_REG)
            (c1.spi.nrd (u16 K.IF_SPI_CMD_RDWRPORT_REG)) len ++
            (c.priv.resp_buf (if c.priv.resp_idx = 0 then 1 else 0)).drop len ∧
        notified d.trace = notified c.trace ++ [if c.priv.resp_idx = 0 then 1 else 0] ∧
        d.trace.getLast? =
          some (.lbs_notify_command_response (if c.priv.resp_idx = 0 then 1 else 0))) ∧
    (len ≤ K.IF_SPI_CMD_BUF_SIZE → writes_ok c1 →
      c1.spi.rd_res (u16 K.IF_SPI_CMD_RDWRPORT_REG)
        (c1.spi.nrd (u16 K.IF_SPI_CMD_RDWRPORT_REG)) = 0 →
      c.priv.resp_len (if c.priv.resp_idx = 0 then 1 else 0) = 0 →
      K.LBS_UPLD_SIZE < len →
      if_spi_c2h_cmd K c = .error .fault) ∧
    (K.IF_SPI_CMD_BUF_SIZE % 4 = 0 → len ≤ K.IF_SPI_CMD_BUF_SIZE →
      ALIGN len 4 ≤ K.IF_SPI_CMD_BUF_SIZE) := by
  obtain ⟨r0, d0, h0, ht0, _⟩ := spu_read_u16_touches K c K.IF_SPI_SCRATCH_2_REG
  rw [h1] at h0
  simp only [Except.ok.injEq, Prod.mk.injEq] at h0
  rw [← h0.2] at ht0
  have hpriv := touches_priv ht0
  have hnot := touches_notified (touches_mono read_event_bus ht0)
  have hne : (-EINVAL : Int) ≠ 0 := by decide
  refine ⟨fun hbad => ?_, fun hpos hle hw hr hfree hslot => ?_,
    fun hle hw hr hfree hgt => ?_, fun h4 hle => ?_⟩
  · refine ⟨emit (emit c1 (.pr_err (-EINVAL))) (.pr_err (-EINVAL)), ?_, hpriv, ?_, rfl, ?_⟩
    · rcases hbad with hz | hbig
      · simp [if_spi_c2h_cmd, h1, hz, if_spi_c2h_out, hne]
      · have hnz : len ≠ 0 := by omega
        simp [if_spi_c2h_cmd, h1, hnz, hbig, if_spi_c2h_out, hne]
    · rw [← hnot]
      simp [emit, notified]
    · simp [emit, bus_reads]
  · obtain ⟨c2, h2, ht2, hb2⟩ := spu_read_once K c1 K.IF_SPI_CMD_RDWRPORT_REG c1.cmd_buffer
      (ALIGN len 4) hw (ALIGN_4_even len)
    simp only [hr, ↓reduceIte] at h2
    have hp2 : c2.priv = c.priv := by rw [touches_priv ht2, hpriv]
    have hnz : len ≠ 0 := by omega
    have hnb : ¬ len > K.IF_SPI_CMD_BUF_SIZE := by omega
    have hns : ¬ len > K.LBS_UPLD_SIZE := by omega
    have hal := (ALIGN_4_bounds len).1
    have htake : (rd_bytes c1.spi (u16 K.IF_SPI_CMD_RDWRPORT_REG)
        (c1.spi.nrd (u16 K.IF_SPI_CMD_RDWRPORT_REG)) (ALIGN len 4) ++
          c1.cmd_buffer.drop (ALIGN len 4)).take len =
        rd_bytes c1.spi (u16 K.IF_SPI_CMD_RDWRPORT_REG)
          (c1.spi.nrd (u16 K.IF_SPI_CMD_RDWRPORT_REG)) len := by
      rw [List.take_append_of_le_length (by rw [rd_bytes_length]; exact hal)]
      exact rd_bytes_take _ _ _ _ _ hal
    have hres : if_spi_c2h_cmd K c = .ok (0,
        emit { c2 with
          cmd_buffer := rd_bytes c1.spi (u16 K.IF_SPI_CMD_RDWRPORT_REG)
            (c1.spi.nrd (u16 K.IF_SPI_CMD_RDWRPORT_REG)) (ALIGN len 4) ++
            c1.cmd_buffer.drop (ALIGN len 4),
          priv := { c2.priv with
            resp_len := Function.update c2.priv.resp_len
              (if c.priv.resp_idx = 0 then 1 else 0) len,
            resp_buf := Function.update c2.priv.resp_buf
              (if c.priv.resp_idx = 0 then 1 else 0)
              (store (c2.priv.resp_buf (if c.priv.resp_idx = 0 then 1 else 0))
                (rd_bytes c1.spi (u16 K.IF_SPI_CMD_RDWRPORT_REG)
                  (c1.spi.nrd (u16 K.IF_SPI_CMD_RDWRPORT_REG)) len)) } }
          (.lbs_notify_command_response (if c.priv.resp_idx = 0 then 1 else 0))) := by
      simp only [if_spi_c2h_cmd, h1, ne_eq, not_true_eq_false, ↓reduceIte, hnz, hnb, h2,
        if_spi_c2h_cmd_notify, hp2, hfree, hns, if_spi_c2h_out, htake]
    refine ⟨_, hres, ?_, ?_, ?_, ?_, ?_⟩
    · simp only [emit, bus_reads_append]
      rw [show bus_reads c2.trace = _ from hb2]
      simp [bus_reads]
    · simp [emit]
    · simp only [emit, Function.update_same, store, rd_bytes_length, hp2]
    · simp only [emit]
      have : notified c2.trace = notified c.trace := by
        rw [touches_notified (touches_mono read_event_bus ht2), hnot]
      simp [notified, List.filterMap_append] at this ⊢
      exact this
    · simp [emit]
  · obtain ⟨c2, h2, ht2, hb2⟩ := spu_read_once K c1 K.IF_SPI_CMD_RDWRPORT_REG c1.cmd_buffer
      (ALIGN len 4) hw (ALIGN_4_even len)
    simp only [hr, ↓reduceIte] at h2
    have hp2 : c2.priv = c.priv := by rw [touches_priv ht2, hpriv]
    have hnz : len ≠ 0 := by omega
    have hnb : ¬ len > K.IF_SPI_CMD_BUF_SIZE := by omega
    have hbig : len > K.LBS_UPLD_SIZE := hgt
    simp only [if_spi_c2h_cmd, h1, ne_eq, not_true_eq_false, ↓reduceIte, hnz, hnb, h2,
      if_spi_c2h_cmd_notify, hp2, hfree, hbig]
  · have := ALIGN_4_bounds len
    omega

set_option maxRecDepth 100000 in
/-- C15 (divergence), with the sample constants, on cards whose response slots
have their 2312 bytes.  Where the device announces a response of 5 bytes, 8
bytes are read from the command port and the first 5 are stored at the start
of slot 1.  Where the device announces 2316 bytes, which the length check
accepts (the command buffer has 2400), the copy runs past the slot. -/
theorem if_spi_c2h_cmd_lengths_witness :
    (∃ d, if_spi_c2h_cmd sample_h (slot_card upload_dev) = .ok (0, d) ∧
      bus_reads d.trace = [(sample_h.IF_SPI_SCRATCH_2_REG, 2),
        (sample_h.IF_SPI_CMD_RDWRPORT_REG, 8)] ∧
      d.priv.resp_len 1 = 5 ∧
      d.priv.resp_buf 1 = [1, 2, 3, 4, 5] ++ List.replicate 2307 0) ∧
    sample_h.LBS_UPLD_SIZE < 2316 ∧ 2316 ≤ sample_h.IF_SPI_CMD_BUF_SIZE ∧
    sample_h.LBS_UPLD_SIZE ≤ sample_h.IF_SPI_CMD_BUF_SIZE ∧
    if_spi_c2h_cmd sample_h (slot_card long_resp_dev) = .error .fault := by
  refine ⟨?_, by decide, by decide, by decide, ?_⟩
  · obtain ⟨c1, h1, ht1, hb1⟩ := spu_read_once sample_h (slot_card upload_dev)
      sample_h.IF_SPI_SCRATCH_2_REG [0, 0] 2 (fun _ => rfl) rfl
    have h1u : spu_read_u16 sample_h (slot_card upload_dev)
        sample_h.IF_SPI_SCRATCH_2_REG = .ok ((0, 5), c1) := by
      simp only [spu_read_u16, h1]
      rfl
    obtain ⟨d, hd, hr, hl, hbuf, _⟩ := (if_spi_c2h_cmd_lengths sample_h
      (slot_card upload_dev) c1 5 h1u).2.1 (by decide) (by decide)
      (touches_writes_ok ht1 (fun _ => rfl)) (by rw [touches_rd_res ht1]; rfl) rfl (by decide)
    refine ⟨d, hd, ?_, hl, ?_⟩
    · rw [hr, hb1]
      rfl
    · have hbuf2 : d.priv.resp_buf 1 = rd_bytes c1.spi (u16 sample_h.IF_SPI_CMD_RDWRPORT_REG)
          (c1.spi.nrd (u16 sample_h.IF_SPI_CMD_RDWRPORT_REG)) 5 ++
          List.drop 5 (List.replicate 2312 0) := hbuf
      rw [hbuf2]
      have hn : c1.spi.nrd (u16 sample_h.IF_SPI_CMD_RDWRPORT_REG) = 0 := by
          rcases spu_read_reads sample_h _ _ _ _ _ c1 h1 with ⟨h, _⟩ | ⟨h, _⟩ <;> rw [h] <;> rfl
      simp only [rd_bytes, touches_rd_data ht1, hn, List.drop_replicate]
      rfl
  · obtain ⟨c1, h1, ht1, hb1⟩ := spu_read_once sample_h (slot_card long_resp_dev)
      sample_h.IF_SPI_SCRATCH_2_REG [0, 0] 2 (fun _ => rfl) rfl
    have h1u : spu_read_u16 sample_h (slot_card long_resp_dev)
        sample_h.IF_SPI_SCRATCH_2_REG = .ok ((0, 2316), c1) := by
      simp only [spu_read_u16, h1]
      rfl
    exact (if_spi_c2h_cmd_lengths sample_h
      (slot_card long_resp_dev) c1 2316 h1u).2.2.1 (by decide)
      (touches_writes_ok ht1 (fun _ => rfl)) (by rw [touches_rd_res ht1]; rfl) rfl (by decide)

theorem stays_refl (c : if_spi_card) : stays c c := ⟨rfl, rfl, [], by simp, by simp⟩

theorem stays_trans {c d e : if_spi_card} (h1 : stays c d) (h2 : stays d e) : stays c e := by
  obtain ⟨a1, a2, u, a3, a4⟩ := h1
  obtain ⟨b1, b2, v, b3, b4⟩ := h2
  refine ⟨b1.trans a1, b2.trans a2, u ++ v, by rw [b3, a3, List.append_assoc], ?_⟩
  intro x hx
  rcases List.mem_append.1 hx with h | h
  · exact a4 x h
  · exact b4 x h

theorem bus_event_worker (e : Event) (h : bus_event e = true) : worker_event e = true := by
  cases e <;> first | rfl | simp [bus_event] at h

theorem stays_bus {c d : if_spi_card} (h : touches bus_event c d) : stays c d := by
  obtain ⟨a, b, n, t, u, rfl, hu⟩ := h
  exact ⟨rfl, rfl, u, rfl, fun e he => bus_event_worker e (hu e he)⟩

theorem stays_read {c d : if_spi_card} (h : touches read_event c d) : stays c d :=
  stays_bus (touches_mono read_event_bus h)

theorem stays_emit (c : if_spi_card) (e : Event) (he : worker_event e = true) :
    stays c (emit c e) :=
  ⟨rfl, rfl, [e], rfl, by simpa using he⟩

/-- A change of fields other than `run_thread`, `spi_thread_terminated` and
the trace. -/
theorem stays_fields (c d : if_spi_card) (h1 : d.run_thread = c.run_thread)
    (h2 : d.spi_thread_terminated = c.spi_thread_terminated) (h3 : d.trace = c.trace) :
    stays c d :=
  ⟨h1, h2, [], by simp [h3], by simp⟩

theorem if_spi_c2h_out_stays (c : if_spi_card) (err : Int) (r : Int) (d : if_spi_card)
    (h : if_spi_c2h_out c err = .ok (r, d)) : stays c d := by
  unfold if_spi_c2h_out at h
  simp only [Except.ok.injEq, Prod.mk.injEq] at h
  rw [← h.2]
  split
  · exact stays_emit c _ rfl
  · exact stays_refl c

theorem if_spi_c2h_cmd_notify_stays (K : if_spi_h) (c : if_spi_card) (i len : Nat) (r : Int)
    (d : if_spi_card) (h : if_spi_c2h_cmd_notify K c i len = .ok (r, d)) : stays c d := by
  unfold if_spi_c2h_cmd_notify at h
  split at h
  · simp at h
  split at h
  · simp at h
  refine stays_trans ?_ (if_spi_c2h_out_stays _ _ _ _ h)
  exact ⟨rfl, rfl, [.lbs_notify_command_response i], rfl, by simp [worker_event]⟩

theorem if_spi_c2h_cmd_stays (K : if_spi_h) (c : if_spi_card) (err : Int) (d : if_spi_card)
    (h : if_spi_c2h_cmd K c = .ok (err, d)) : stays c d := by
  obtain ⟨⟨e1, len⟩, c1, h1, ht1, _⟩ := spu_read_u16_touches K c K.IF_SPI_SCRATCH_2_REG
  have q1 := stays_read ht1
  unfold if_spi_c2h_cmd at h
  simp only [h1] at h
  split at h
  · exact stays_trans q1 (if_spi_c2h_out_stays _ _ _ _ h)
  · split at h
    · exact stays_trans q1 (stays_trans (stays_emit _ (.pr_err _) rfl) (if_spi_c2h_out_stays _ _ _ _ h))
    · split at h
      · exact stays_trans q1 (stays_trans (stays_emit _ (.pr_err _) rfl) (if_spi_c2h_out_stays _ _ _ _ h))
      · cases hr : spu_read K c1 K.IF_SPI_CMD_RDWRPORT_REG c1.cmd_buffer (ALIGN len 4) with
        | error x => simp [hr] at h
        | ok x =>
          obtain ⟨⟨e2, buf⟩, c2⟩ := x
          have q2 := stays_read (spu_read_touches K c1 _ _ _ _ c2 hr).1
          have q3 : stays c2 { c2 with cmd_buffer := buf } := stays_fields _ _ rfl rfl rfl
          simp only [hr] at h
          split at h
          · exact stays_trans q1 (stays_trans q2 (stays_trans q3 (if_spi_c2h_out_stays _ _ _ _ h)))
          · exact stays_trans q1 (stays_trans q2 (stays_trans q3
              (if_spi_c2h_cmd_notify_stays _ _ _ _ _ _ h)))

theorem if_spi_c2h_data_rx_stays (c : if_spi_card) (data : List Nat) (len : Nat) (r : Int)
    (d : if_spi_card) (h : if_spi_c2h_data_rx c data len = .ok (r, d)) : stays c d := by
  unfold if_spi_c2h_data_rx at h
  simp only [] at h
  have q0 : stays c (emit { c with sys := { c.sys with nrx := c.sys.nrx + 1 } }
      (.lbs_process_rxed_packet (data.take len) (c.sys.rx_res c.sys.nrx))) :=
    ⟨rfl, rfl, [.lbs_process_rxed_packet (data.take len) (c.sys.rx_res c.sys.nrx)], rfl,
      by simp [worker_event]⟩
  split at h
  · exact stays_trans q0 (stays_trans (stays_emit _ .dev_kfree_skb rfl)
      (if_spi_c2h_out_stays _ _ _ _ h))
  · exact stays_trans q0 (if_spi_c2h_out_stays _ _ _ _ h)

theorem if_spi_c2h_data_stays (K : if_spi_h) (c : if_spi_card) (err : Int) (d : if_spi_card)
    (h : if_spi_c2h_data K c = .ok (err, d)) : stays c d := by
  obtain ⟨⟨e1, len⟩, c1, h1, ht1, _⟩ := spu_read_u16_touches K c K.IF_SPI_SCRATCH_1_REG
  have q1 := stays_read ht1
  unfold if_spi_c2h_data at h
  simp only [h1] at h
  split at h
  · exact stays_trans q1 (if_spi_c2h_out_stays _ _ _ _ h)
  · split at h
    · exact stays_trans q1 (stays_trans (stays_emit _ (.pr_err _) rfl) (if_spi_c2h_out_stays _ _ _ _ h))
    · split at h
      · exact stays_trans q1 (stays_trans (stays_emit _ (.pr_err _) rfl) (if_spi_c2h_out_stays _ _ _ _ h))
      · have qa : stays c1 { c1 with sys := { c1.sys with nalloc := c1.sys.nalloc + 1 } } :=
          stays_fields _ _ rfl rfl rfl
        split at h
        · exact stays_trans q1 (stays_trans qa (if_spi_c2h_out_stays _ _ _ _ h))
        split at h
        · simp at h
        cases hr : spu_read K { c1 with sys := { c1.sys with nalloc := c1.sys.nalloc + 1 } }
            K.IF_SPI_DATA_RDWRPORT_REG
            (List.replicate (K.MRVDRV_ETH_RX_PACKET_BUFFER_SIZE - K.IPFIELD_ALIGN_OFFSET) 0)
            (ALIGN len 4) with
        | error x => simp [hr] at h
        | ok x =>
          obtain ⟨⟨e2, buf⟩, c2⟩ := x
          have q2 := stays_read (spu_read_touches K _ _ _ _ _ c2 hr).1
          simp only [hr] at h
          split at h
          · exact stays_trans q1 (stays_trans qa (stays_trans q2
              (stays_trans (stays_emit _ .dev_kfree_skb rfl) (if_spi_c2h_out_stays _ _ _ _ h))))
          split at h
          · simp at h
          exact stays_trans q1 (stays_trans qa (stays_trans q2
            (if_spi_c2h_data_rx_stays _ _ _ _ _ h)))

theorem if_spi_e2h_stays (K : if_spi_h) (c : if_spi_card) (d : if_spi_card)
    (h : if_spi_e2h K c = .ok ((), d)) : stays c d := by
  obtain ⟨⟨e1, cause⟩, c1, h1, ht1, _⟩ := spu_read_u32_touches K c K.IF_SPI_SCRATCH_3_REG 0
  have q1 := stays_read ht1
  unfold if_spi_e2h at h
  simp only [h1] at h
  split at h
  · simp only [Except.ok.injEq, Prod.mk.injEq, true_and] at h
    rw [← h]
    exact stays_trans q1 (stays_emit _ (.pr_err _) rfl)
  · simp only [Except.ok.injEq, Prod.mk.injEq, true_and] at h
    rw [← h]
    exact stays_trans q1 (stays_emit _ (.lbs_queue_event _) rfl)

theorem if_spi_h2c_out_stays (c : if_spi_card) (p : if_spi_packet) (err : Int)
    (d : if_spi_card) (h : if_spi_h2c_out c p err = .ok ((), d)) : stays c d := by
  unfold if_spi_h2c_out at h
  simp only [Except.ok.injEq, Prod.mk.injEq, true_and] at h
  rw [← h]
  split
  · exact stays_trans (stays_emit c (.kfree p) rfl) (stays_emit _ (.pr_err _) rfl)
  · exact stays_emit c (.kfree p) rfl

theorem if_spi_h2c_stays (K : if_spi_h) (c : if_spi_card) (p : if_spi_packet) (type : Int)
    (d : if_spi_card) (h : if_spi_h2c K c p type = .ok ((), d)) : stays c d := by
  have q0 : stays c (emit c (.h2c type.toNat p)) := stays_emit c _ rfl
  unfold if_spi_h2c at h
  simp only [] at h
  split at h
  · cases hw : spu_write K (emit c (.h2c type.toNat p)) K.IF_SPI_DATA_RDWRPORT_REG
        p.buffer p.blen with
    | error x => simp [hw] at h
    | ok x =>
      obtain ⟨e, c1⟩ := x
      simp only [hw] at h
      exact stays_trans q0 (stays_trans (stays_bus (spu_write_touches K _ _ _ _ _ _ hw).1)
        (if_spi_h2c_out_stays _ _ _ _ h))
  · split at h
    · cases hw : spu_write K (emit c (.h2c type.toNat p)) K.IF_SPI_CMD_RDWRPORT_REG
          p.buffer p.blen with
      | error x => simp [hw] at h
      | ok x =>
        obtain ⟨e, c1⟩ := x
        simp only [hw] at h
        exact stays_trans q0 (stays_trans (stays_bus (spu_write_touches K _ _ _ _ _ _ hw).1)
          (if_spi_h2c_out_stays _ _ _ _ h))
    · exact stays_trans q0 (stays_trans (stays_emit _ (.pr_err _) rfl) (if_spi_h2c_out_stays _ _ _ _ h))

theorem lbs_spi_thread_cmd_download_stays (K : if_spi_h) (c d : if_spi_card)
    (h : lbs_spi_thread_cmd_download K c = .ok ((), d)) : stays c d := by
  unfold lbs_spi_thread_cmd_download at h
  simp only [] at h
  have q0 : stays c (emit c .lbs_host_to_card_done) := stays_emit c _ rfl
  cases hl : c.cmd_packet_list with
  | nil =>
    have hl2 : (emit c .lbs_host_to_card_done).cmd_packet_list = [] := hl
    simp only [hl2, Except.ok.injEq, Prod.mk.injEq, true_and] at h
    rw [← h]
    exact q0
  | cons p rest =>
    have hl2 : (emit c .lbs_host_to_card_done).cmd_packet_list = p :: rest := hl
    simp only [hl2] at h
    exact stays_trans q0 (stays_trans
      (stays_fields _ { emit c .lbs_host_to_card_done with cmd_packet_list := rest } rfl rfl rfl)
      (if_spi_h2c_stays K _ p _ d h))

theorem lbs_spi_thread_tx_download_stays (K : if_spi_h) (c d : if_spi_card)
    (h : lbs_spi_thread_tx_download K c = .ok ((), d)) : stays c d := by
  unfold lbs_spi_thread_tx_download at h
  cases hl : c.data_packet_list with
  | nil =>
    simp only [hl, Except.ok.injEq, Prod.mk.injEq, true_and] at h
    rw [← h]
    exact stays_refl c
  | cons p rest =>
    simp only [hl] at h
    exact stays_trans (stays_fields _ { c with data_packet_list := rest } rfl rfl rfl)
      (if_spi_h2c_stays K _ p _ d h)

theorem lbs_spi_thread_err_stays (c : if_spi_card) (err r : Int) (d : if_spi_card)
    (h : lbs_spi_thread_err c err = .ok (r, d)) : stays c d := by
  unfold lbs_spi_thread_err at h
  simp only [Except.ok.injEq, Prod.mk.injEq] at h
  rw [← h.2]
  split
  · exact stays_emit c _ rfl
  · exact stays_refl c

/-- Whatever one dispatch pass returns, the worker has not left in it. -/
theorem lbs_spi_thread_dispatch_stays (K : if_spi_h) (c : if_spi_card) (r : Int)
    (d : if_spi_card) (h : lbs_spi_thread_dispatch K c = .ok (r, d)) : stays c d := by
  obtain ⟨⟨e0, hi⟩, c1, h1, ht1, _⟩ := spu_read_u16_touches K c K.IF_SPI_HOST_INT_STATUS_REG
  have q1 := stays_read ht1
  unfold lbs_spi_thread_dispatch at h
  simp only [h1] at h
  split at h
  · exact stays_trans q1 (stays_trans (stays_emit _ (.pr_err _) rfl) (lbs_spi_thread_err_stays _ _ _ _ h))
  · cases hr1 : (if hi &&& K.IF_SPI_HIST_CMD_UPLOAD_RDY ≠ 0 then if_spi_c2h_cmd K c1
        else .ok (e0, c1)) with
    | error x => simp [hr1] at h
    | ok x =>
      obtain ⟨err1, c2⟩ := x
      have q2 : stays c1 c2 := by
        split at hr1
        · exact if_spi_c2h_cmd_stays K c1 err1 c2 hr1
        · simp only [Except.ok.injEq, Prod.mk.injEq] at hr1
          rw [← hr1.2]
          exact stays_refl c1
      simp only [hr1] at h
      split at h
      · exact stays_trans q1 (stays_trans q2 (lbs_spi_thread_err_stays _ _ _ _ h))
      · cases hr2 : (if hi &&& K.IF_SPI_HIST_RX_UPLOAD_RDY ≠ 0 then if_spi_c2h_data K c2
            else .ok (err1, c2)) with
        | error x => simp [hr2] at h
        | ok x =>
          obtain ⟨err2, c3⟩ := x
          have q3 : stays c2 c3 := by
            split at hr2
            · exact if_spi_c2h_data_stays K c2 err2 c3 hr2
            · simp only [Except.ok.injEq, Prod.mk.injEq] at hr2
              rw [← hr2.2]
              exact stays_refl c2
          simp only [hr2] at h
          split at h
          · exact stays_trans q1 (stays_trans q2 (stays_trans q3
              (lbs_spi_thread_err_stays _ _ _ _ h)))
          · cases hr3 : (if hi &&& K.IF_SPI_HIST_CMD_DOWNLOAD_RDY ≠ 0 then
                lbs_spi_thread_cmd_download K c3 else .ok ((), c3)) with
            | error x => simp [hr3] at h
            | ok x =>
              obtain ⟨_, c4⟩ := x
              have q4 : stays c3 c4 := by
                split at hr3
                · exact lbs_spi_thread_cmd_download_stays K c3 c4 hr3
                · simp only [Except.ok.injEq, Prod.mk.injEq, true_and] at hr3
                  rw [← hr3]
                  exact stays_refl c3
              simp only [hr3] at h
              cases hr4 : (if hi &&& K.IF_SPI_HIST_TX_DOWNLOAD_RDY ≠ 0 then
                  lbs_spi_thread_tx_download K c4 else .ok ((), c4)) with
              | error x => simp [hr4] at h
              | ok x =>
                obtain ⟨_, c5⟩ := x
                have q5 : stays c4 c5 := by
                  split at hr4
                  · exact lbs_spi_thread_tx_download_stays K c4 c5 hr4
                  · simp only [Except.ok.injEq, Prod.mk.injEq, true_and] at hr4
                    rw [← hr4]
                    exact stays_refl c4
                simp only [hr4] at h
                cases hr5 : (if hi &&& K.IF_SPI_HIST_CARD_EVENT ≠ 0 then if_spi_e2h K c5
                    else .ok ((), c5)) with
                | error x => simp [hr5] at h
                | ok x =>
                  obtain ⟨_, c6⟩ := x
                  have q6 : stays c5 c6 := by
                    split at hr5
                    · exact if_spi_e2h_stays K c5 c6 hr5
                    · simp only [Except.ok.injEq, Prod.mk.injEq, true_and] at hr5
                      rw [← hr5]
                      exact stays_refl c5
                  simp only [hr5] at h
                  exact stays_trans q1 (stays_trans q2 (stays_trans q3 (stays_trans q4
                    (stays_trans q5 (stays_trans q6 (lbs_spi_thread_err_stays _ _ _ _ h))))))

/-- With `run_thread` non-zero the wake-up does not leave through `do_exit`:
when it returns, it returns the result of `down_interruptible`, and the worker
has not left. -/
theorem lbs_spi_thread_wait_stays (fuel : Nat) (c : if_spi_card) (hrun : c.run_thread ≠ 0)
    (r : Option Int) (d : if_spi_card) (h : lbs_spi_thread_wait fuel c = .ok (r, d)) :
    r ≠ none ∧ stays c d := by
  induction fuel generalizing c with
  | zero => simp [lbs_spi_thread_wait] at h
  | succ n ih =>
    simp only [lbs_spi_thread_wait] at h
    simp only [hrun, ↓reduceIte] at h
    split at h
    · obtain ⟨i1, i2⟩ := ih { c with
          sys := { c.sys with ndown := c.sys.ndown + 1 },
          spi_ready := if c.sys.down_res c.sys.ndown = 0 then c.spi_ready - 1 else c.spi_ready }
        hrun h
      exact ⟨i1, stays_trans (stays_fields _ _ rfl rfl rfl) i2⟩
    · simp only [Except.ok.injEq, Prod.mk.injEq] at h
      rw [← h.1, ← h.2]
      exact ⟨by simp, stays_fields _ _ rfl rfl rfl⟩

/-- With its response slot free, `if_spi_c2h_cmd` returns, unless the response
is longer than the slot. -/
theorem if_spi_c2h_cmd_returns (K : if_spi_h) (c : if_spi_card)
    (hfree : c.priv.resp_len (if c.priv.resp_idx = 0 then 1 else 0) = 0) :
    (∃ r d, if_spi_c2h_cmd K c = .ok (r, d)) ∨ if_spi_c2h_cmd K c = .error .fault := by
  obtain ⟨⟨e1, len⟩, c1, h1, ht1, _⟩ := spu_read_u16_touches K c K.IF_SPI_SCRATCH_2_REG
  unfold if_spi_c2h_cmd
  simp only [h1]
  split
  · exact Or.inl ⟨_, _, rfl⟩
  · split
    · exact Or.inl ⟨_, _, rfl⟩
    · split
      · exact Or.inl ⟨_, _, rfl⟩
      · obtain ⟨⟨e2, buf⟩, c2, h2⟩ := spu_read_returns K c1 K.IF_SPI_CMD_RDWRPORT_REG
          c1.cmd_buffer (ALIGN len 4) (ALIGN_4_even len)
        have hp : c2.priv = c.priv := by
          rw [touches_priv (spu_read_touches K c1 _ _ _ _ c2 h2).1, touches_priv ht1]
        simp only [h2]
        split
        · exact Or.inl ⟨_, _, rfl⟩
        · simp only [if_spi_c2h_cmd_notify, hp, hfree, ne_eq, not_true_eq_false, ↓reduceIte]
          split
          · exact Or.inr rfl
          · exact Or.inl ⟨_, _, rfl⟩

/-- `if_spi_c2h_data` returns, unless the reception runs past the receive
buffer. -/
theorem if_spi_c2h_data_returns (K : if_spi_h) (c : if_spi_card) :
    (∃ r d, if_spi_c2h_data K c = .ok (r, d)) ∨ if_spi_c2h_data K c = .error .fault := by
  obtain ⟨⟨e1, len⟩, c1, h1, _, _⟩ := spu_read_u16_touches K c K.IF_SPI_SCRATCH_1_REG
  unfold if_spi_c2h_data
  simp only [h1]
  split
  · exact Or.inl ⟨_, _, rfl⟩
  · split
    · exact Or.inl ⟨_, _, rfl⟩
    · split
      · exact Or.inl ⟨_, _, rfl⟩
      · split
        · exact Or.inl ⟨_, _, rfl⟩
        · split
          · exact Or.inr rfl
          · obtain ⟨⟨e2, data⟩, c3, h3⟩ := spu_read_returns K
              { c1 with sys := { c1.sys with nalloc := c1.sys.nalloc + 1 } }
              K.IF_SPI_DATA_RDWRPORT_REG
              (List.replicate (K.MRVDRV_ETH_RX_PACKET_BUFFER_SIZE - K.IPFIELD_ALIGN_OFFSET) 0)
              (ALIGN len 4) (ALIGN_4_even len)
            simp only [h3]
            split
            · exact Or.inl ⟨_, _, rfl⟩
            · split
              · exact Or.inr rfl
              · unfold if_spi_c2h_data_rx
                simp only []
                split
                · exact Or.inl ⟨_, _, rfl⟩
                · exact Or.inl ⟨_, _, rfl⟩

/-- `if_spi_e2h` always returns. -/
theorem if_spi_e2h_returns (K : if_spi_h) (c : if_spi_card) :
    ∃ d, if_spi_e2h K c = .ok ((), d) := by
  obtain ⟨⟨e1, cause⟩, c1, h1, _, _⟩ := spu_read_u32_touches K c K.IF_SPI_SCRATCH_3_REG 0
  unfold if_spi_e2h
  simp only [h1]
  split
  · exact ⟨_, rfl⟩
  · exact ⟨_, rfl⟩

/-- With a packet of even length `if_spi_h2c` returns. -/
theorem if_spi_h2c_returns (K : if_spi_h) (c : if_spi_card) (p : if_spi_packet) (type : Int)
    (heven : p.blen % 2 = 0) : ∃ d, if_spi_h2c K c p type = .ok ((), d) := by
  unfold if_spi_h2c
  simp only []
  split
  · obtain ⟨r, d, h⟩ := spu_write_returns K (emit c (.h2c type.toNat p))
      K.IF_SPI_DATA_RDWRPORT_REG p.buffer p.blen heven
    simp only [h]
    exact ⟨_, rfl⟩
  · split
    · obtain ⟨r, d, h⟩ := spu_write_returns K (emit c (.h2c type.toNat p))
        K.IF_SPI_CMD_RDWRPORT_REG p.buffer p.blen heven
      simp only [h]
      exact ⟨_, rfl⟩
    · exact ⟨_, rfl⟩

/-- With command packets of even length the command-download block returns,
with the data list as it was. -/
theorem lbs_spi_thread_cmd_download_returns (K : if_spi_h) (c : if_spi_card)
    (hc : ∀ p ∈ c.cmd_packet_list, p.blen % 2 = 0) :
    ∃ d, lbs_spi_thread_cmd_download K c = .ok ((), d) ∧
      d.data_packet_list = c.data_packet_list := by
  unfold lbs_spi_thread_cmd_download
  simp only []
  cases hl : c.cmd_packet_list with
  | nil =>
    have : (emit c .lbs_host_to_card_done).cmd_packet_list = [] := hl
    simp only [this]
    exact ⟨_, rfl, rfl⟩
  | cons p rest =>
    have : (emit c .lbs_host_to_card_done).cmd_packet_list = p :: rest := hl
    simp only [this]
    obtain ⟨d, h⟩ := if_spi_h2c_returns K
      { emit c .lbs_host_to_card_done with cmd_packet_list := rest } p K.MVMS_CMD
      (hc p (by rw [hl]; exact List.mem_cons_self _ _))
    exact ⟨d, h, (if_spi_h2c_effect K _ p _ d h).2.1⟩

/-- With data packets of even length the data-download block returns. -/
theorem lbs_spi_thread_tx_download_returns (K : if_spi_h) (c : if_spi_card)
    (hc : ∀ p ∈ c.data_packet_list, p.blen % 2 = 0) :
    ∃ d, lbs_spi_thread_tx_download K c = .ok ((), d) := by
  unfold lbs_spi_thread_tx_download
  cases hl : c.data_packet_list with
  | nil => exact ⟨_, rfl⟩
  | cons p rest =>
    simp only []
    exact if_spi_h2c_returns K { c with data_packet_list := rest } p K.MVMS_DAT
      (hc p (by rw [hl]; exact List.mem_cons_self _ _))

/-- With the next response slot free and packets of even length in both
lists, the dispatch of one pass of the worker loop returns, unless a reception
runs past its buffer. -/
theorem lbs_spi_thread_dispatch_returns (K : if_spi_h) (c : if_spi_card)
    (hfree : c.priv.resp_len (if c.priv.resp_idx = 0 then 1 else 0) = 0)
    (hcmd : ∀ p ∈ c.cmd_packet_list, p.blen % 2 = 0)
    (hdat : ∀ p ∈ c.data_packet_list, p.blen % 2 = 0) :
    (∃ r d, lbs_spi_thread_dispatch K c = .ok (r, d)) ∨
      lbs_spi_thread_dispatch K c = .error .fault := by
  obtain ⟨⟨e0, hi⟩, c1, h1, ht1, _⟩ := spu_read_u16_touches K c K.IF_SPI_HOST_INT_STATUS_REG
  have hp1 : c1.priv = c.priv := touches_priv ht1
  have hq1 := touches_queues ht1
  unfold lbs_spi_thread_dispatch
  simp only [h1]
  split
  · exact Or.inl ⟨_, _, rfl⟩
  · have hr1 : (∃ err1 c2, (if hi &&& K.IF_SPI_HIST_CMD_UPLOAD_RDY ≠ 0 then if_spi_c2h_cmd K c1
        else .ok (e0, c1)) = .ok (err1, c2) ∧ qsame c1 c2) ∨
        (if hi &&& K.IF_SPI_HIST_CMD_UPLOAD_RDY ≠ 0 then if_spi_c2h_cmd K c1
          else .ok (e0, c1)) = .error .fault := by
      split
      · rcases if_spi_c2h_cmd_returns K c1 (by rw [hp1]; exact hfree) with ⟨r, d, h⟩ | h
        · exact Or.inl ⟨r, d, h, if_spi_c2h_cmd_qsame K c1 r d h⟩
        · exact Or.inr h
      · exact Or.inl ⟨_, _, rfl, rfl, rfl, fun _ => rfl⟩
    rcases hr1 with ⟨err1, c2, hr1, q2⟩ | hr1
    swap
    · simp only [hr1]
      exact Or.inr trivial
    simp only [hr1]
    split
    · exact Or.inl ⟨_, _, rfl⟩
    · have hr2 : (∃ err2 c3, (if hi &&& K.IF_SPI_HIST_RX_UPLOAD_RDY ≠ 0 then
          if_spi_c2h_data K c2 else .ok (err1, c2)) = .ok (err2, c3) ∧ qsame c2 c3) ∨
          (if hi &&& K.IF_SPI_HIST_RX_UPLOAD_RDY ≠ 0 then
            if_spi_c2h_data K c2 else .ok (err1, c2)) = .error .fault := by
        split
        · rcases if_spi_c2h_data_returns K c2 with ⟨r, d, h⟩ | h
          · exact Or.inl ⟨r, d, h, if_spi_c2h_data_qsame K c2 r d h⟩
          · exact Or.inr h
        · exact Or.inl ⟨_, _, rfl, rfl, rfl, fun _ => rfl⟩
      rcases hr2 with ⟨err2, c3, hr2, q3⟩ | hr2
      swap
      · simp only [hr2]
        exact Or.inr trivial
      simp only [hr2]
      split
      · exact Or.inl ⟨_, _, rfl⟩
      · have hc3 : c3.cmd_packet_list = c.cmd_packet_list := by rw [q3.1, q2.1, hq1.1]
        have hd3 : c3.data_packet_list = c.data_packet_list := by rw [q3.2.1, q2.2.1, hq1.2]
        have hr3 : ∃ c4, (if hi &&& K.IF_SPI_HIST_CMD_DOWNLOAD_RDY ≠ 0 then
            lbs_spi_thread_cmd_download K c3 else .ok ((), c3)) = .ok ((), c4) ∧
            c4.data_packet_list = c3.data_packet_list := by
          split
          · exact lbs_spi_thread_cmd_download_returns K c3 (by rw [hc3]; exact hcmd)
          · exact ⟨_, rfl, rfl⟩
        obtain ⟨c4, hr3, hd4⟩ := hr3
        simp only [hr3]
        have hr4 : ∃ c5, (if hi &&& K.IF_SPI_HIST_TX_DOWNLOAD_RDY ≠ 0 then
            lbs_spi_thread_tx_download K c4 else .ok ((), c4)) = .ok ((), c5) := by
          split
          · exact lbs_spi_thread_tx_download_returns K c4 (by rw [hd4, hd3]; exact hdat)
          · exact ⟨_, rfl⟩
        obtain ⟨c5, hr4⟩ := hr4
        simp only [hr4]
        have hr5 : ∃ c6, (if hi &&& K.IF_SPI_HIST_CARD_EVENT ≠ 0 then if_spi_e2h K c5
            else .ok ((), c5)) = .ok ((), c6) := by
          split
          · exact if_spi_e2h_returns K c5
          · exact ⟨_, rfl⟩
        obtain ⟨c6, hr5⟩ := hr5
        simp only [hr5]
        exact Or.inl ⟨_, _, rfl⟩

/-- With `run_thread` non-zero, the wake-up returns at the first result of
`down_interruptible` that is not `EINTR`, with the response slots and both
lists as they were. -/
theorem lbs_spi_thread_wait_returns (fuel : Nat) (c : if_spi_card) (hrun : c.run_thread ≠ 0)
    (k : Nat) (hk : k < fuel)
    (hint : ∀ i, i < k → c.sys.down_res (c.sys.ndown + i) = EINTR)
    (hgot : c.sys.down_res (c.sys.ndown + k) ≠ EINTR) :
    ∃ d, lbs_spi_thread_wait fuel c = .ok (some (c.sys.down_res (c.sys.ndown + k)), d) ∧
      d.priv = c.priv ∧ d.cmd_packet_list = c.cmd_packet_list ∧
      d.data_packet_list = c.data_packet_list := by
  induction k generalizing fuel c with
  | zero =>
    obtain ⟨n, rfl⟩ : ∃ n, fuel = n + 1 := ⟨fuel - 1, by omega⟩
    have hg : ¬ c.sys.down_res c.sys.ndown = EINTR := by simpa using hgot
    simp only [lbs_spi_thread_wait, hrun, hg, ↓reduceIte, Nat.add_zero]
    exact ⟨_, rfl, rfl, rfl, rfl⟩
  | succ k ih =>
    obtain ⟨n, rfl⟩ : ∃ n, fuel = n + 1 := ⟨fuel - 1, by omega⟩
    have h0 : c.sys.down_res c.sys.ndown = EINTR := by simpa using hint 0 (by omega)
    simp only [lbs_spi_thread_wait, hrun, h0, ↓reduceIte]
    obtain ⟨d, h, p1, p2, p3⟩ := ih n { c with
        sys := { c.sys with ndown := c.sys.ndown + 1 },
        spi_ready := if EINTR = 0 then c.spi_ready - 1 else c.spi_ready } hrun (by omega)
      (fun i hi => by
        have := hint (i + 1) (by omega)
        simpa [Nat.add_assoc, Nat.add_comm 1 i] using this)
      (by simpa [Nat.add_assoc, Nat.add_comm 1 k] using hgot)
    refine ⟨d, ?_, p1, p2, p3⟩
    rw [h]
    simp [Nat.add_assoc, Nat.add_comm 1 k]

/-- One pass of the worker loop returns without an exit, unless a reception
runs past its buffer, when `run_thread` is non-zero, the wake-up gets a result
other than `EINTR` within the fuel, the next response slot is free and the
queued packets have even lengths. -/
theorem lbs_spi_thread_cycle_returns (K : if_spi_h) (fuel : Nat) (c : if_spi_card)
    (hrun : c.run_thread ≠ 0) (k : Nat) (hk : k < fuel)
    (hint : ∀ i, i < k → c.sys.down_res (c.sys.ndown + i) = EINTR)
    (hgot : c.sys.down_res (c.sys.ndown + k) ≠ EINTR)
    (hfree : c.priv.resp_len (if c.priv.resp_idx = 0 then 1 else 0) = 0)
    (hcmd : ∀ p ∈ c.cmd_packet_list, p.blen % 2 = 0)
    (hdat : ∀ p ∈ c.data_packet_list, p.blen % 2 = 0) :
    (∃ d, lbs_spi_thread_cycle K fuel c = .ok (false, d)) ∨
      lbs_spi_thread_cycle K fuel c = .error .fault := by
  obtain ⟨c1, hw, p1, p2, p3⟩ := lbs_spi_thread_wait_returns fuel c hrun k hk hint hgot
  rcases lbs_spi_thread_dispatch_returns K c1 (by rw [p1]; exact hfree)
    (by rw [p2]; exact hcmd) (by rw [p3]; exact hdat) with ⟨r, d, hd⟩ | hd
  · exact Or.inl ⟨d, by simp only [lbs_spi_thread_cycle, hw, hd]⟩
  · exact Or.inr (by simp only [lbs_spi_thread_cycle, hw, hd])

/-- C20: one wake of `lbs_spi_thread`.  With `run_thread` 0 the worker posts
`spi_thread_terminated` once and leaves through `do_exit`, and these are the
only two things it does: the device is untouched (the interrupt status
register is not read), both packet lists and the response slots are as they
were and the libertas core is not called.  With `run_thread` non-zero at the
wake point, whatever the pass returns, it is not an exit: the pass does not
post `spi_thread_terminated`, does not call `do_exit`, and leaves `run_thread`
as it was; and the pass does return, unless a reception runs past its buffer
(a memory fault, which is no exit of the thread either), when the wake-up gets
a result other than `EINTR` within the fuel, the next response slot is free
and the queued packets have even lengths. -/
theorem lbs_spi_thread_exits_at_wake_only (K : if_spi_h) (fuel : Nat) (c : if_spi_card) :
    (c.run_thread = 0 →
      ∃ d, lbs_spi_thread_cycle K (fuel + 1) c = .ok (true, d) ∧
        d.trace = c.trace ++ [.up_spi_thread_terminated, .do_exit] ∧
        d.spi_thread_terminated = c.spi_thread_terminated + 1 ∧
        d.spi = c.spi ∧ d.priv = c.priv ∧
        d.cmd_packet_list = c.cmd_packet_list ∧ d.data_packet_list = c.data_packet_list) ∧
    (c.run_thread ≠ 0 → ∀ b d, lbs_spi_thread_cycle K fuel c = .ok (b, d) →
      b = false ∧ d.run_thread = c.run_thread ∧
        d.spi_thread_terminated = c.spi_thread_terminated ∧
        ∃ evs, d.trace = c.trace ++ evs ∧ Event.up_spi_thread_terminated ∉ evs ∧
          Event.do_exit ∉ evs) ∧
    (c.run_thread ≠ 0 → ∀ k, k < fuel →
      (∀ i, i < k → c.sys.down_res (c.sys.ndown + i) = EINTR) →
      c.sys.down_res (c.sys.ndown + k) ≠ EINTR →
      c.priv.resp_len (if c.priv.resp_idx = 0 then 1 else 0) = 0 →
      (∀ p ∈ c.cmd_packet_list, p.blen % 2 = 0) →
      (∀ p ∈ c.data_packet_list, p.blen % 2 = 0) →
      (∃ d, lbs_spi_thread_cycle K fuel c = .ok (false, d)) ∨
        lbs_spi_thread_cycle K fuel c = .error .fault) := by
  refine ⟨fun h0 => ?_, fun hrun b d h => ?_, fun hrun k hk hint hgot hfree hcmd hdat =>
    lbs_spi_thread_cycle_returns K fuel c hrun k hk hint hgot hfree hcmd hdat⟩
  · have hw : lbs_spi_thread_wait (fuel + 1) c = .ok (none,
        emit (emit { c with
          sys := { c.sys with ndown := c.sys.ndown + 1 },
          spi_ready := if c.sys.down_res c.sys.ndown = 0 then c.spi_ready - 1 else c.spi_ready,
          spi_thread_terminated := c.spi_thread_terminated + 1 }
          .up_spi_thread_terminated) .do_exit) := by
      simp only [lbs_spi_thread_wait]
      exact if_pos h0
    have hcy : lbs_spi_thread_cycle K (fuel + 1) c = .ok (true,
        emit (emit { c with
          sys := { c.sys with ndown := c.sys.ndown + 1 },
          spi_ready := if c.sys.down_res c.sys.ndown = 0 then c.spi_ready - 1 else c.spi_ready,
          spi_thread_terminated := c.spi_thread_terminated + 1 }
          .up_spi_thread_terminated) .do_exit) := by
      simp only [lbs_spi_thread_cycle, hw]
    exact ⟨_, hcy, by simp [emit], rfl, rfl, rfl, rfl, rfl⟩
  · unfold lbs_spi_thread_cycle at h
    cases hw : lbs_spi_thread_wait fuel c with
    | error x => simp [hw] at h
    | ok x =>
      obtain ⟨o, c1⟩ := x
      obtain ⟨hne, q1⟩ := lbs_spi_thread_wait_stays fuel c hrun o c1 hw
      cases o with
      | none => exact absurd rfl hne
      | some e =>
        simp only [hw] at h
        cases hd : lbs_spi_thread_dispatch K c1 with
        | error x => simp [hd] at h
        | ok x =>
          obtain ⟨e2, c2⟩ := x
          simp only [hd, Except.ok.injEq, Prod.mk.injEq] at h
          obtain ⟨s1, s2, evs, s3, s4⟩ := stays_trans q1 (lbs_spi_thread_dispatch_stays K c1 e2 c2 hd)
          rw [← h.1, ← h.2]
          refine ⟨rfl, s1, s2, evs, s3, fun hm => ?_, fun hm => ?_⟩
          · exact absurd (s4 _ hm) (by simp [worker_event])
          · exact absurd (s4 _ hm) (by simp [worker_event])

/-- C20, on the busy card: after `if_spi_terminate_spi_thread` the wake ends
the thread at once, with the device and the lists untouched; with `run_thread`
still 1 the pass returns and the thread goes on. -/
theorem lbs_spi_thread_exits_at_wake_only_witness :
    (∃ d, lbs_spi_thread_cycle sample_h 1 (if_spi_terminate_spi_thread busy_card) =
        .ok (true, d) ∧
      d.trace = [.up_spi_ready, .up_spi_thread_terminated, .do_exit] ∧
      d.spi.nrd = busy_card.spi.nrd ∧
      d.cmd_packet_list = busy_card.cmd_packet_list) ∧
    ∃ d, lbs_spi_thread_cycle sample_h 1 busy_card = .ok (false, d) ∧
      d.spi_thread_terminated = 0 := by
  refine ⟨?_, ?_⟩
  · obtain ⟨d, h1, h2, _, h4, _, h6, _⟩ :=
      (lbs_spi_thread_exits_at_wake_only sample_h 0 (if_spi_terminate_spi_thread busy_card)).1 rfl
    exact ⟨d, h1, h2, by rw [h4]; rfl, h6⟩
  · have hv : value_of (lbs_spi_thread_cycle sample_h 1 busy_card) = some false := by decide
    rcases (lbs_spi_thread_exits_at_wake_only sample_h 1 busy_card).2.2 (by decide) 0
      (by decide) (fun i hi => absurd hi (Nat.not_lt_zero i)) (by decide) (by decide)
      (by decide) (by decide) with ⟨d, h⟩ | h
    · obtain ⟨_, _, ht, _⟩ :=
        (lbs_spi_thread_exits_at_wake_only sample_h 1 busy_card).2.1 (by decide) false d h
      exact ⟨d, h, ht⟩
    · rw [h] at hv
      exact absurd hv (by simp [value_of])

/-- The main firmware load after its initial wait is the chunk phase entered
in the state the wait left. -/
theorem main_firmware_after_wait (K : if_spi_h) (fuel wfuel : Nat) (c c1 c2 : if_spi_card)
    (image : List Nat) (h1 : spu_set_interrupt_mode K c 1 0 = .ok (0, c1))
    (himg : c1.sys.firmware c1.main_fw_name = (0, image))
    (h2 : spu_wait_for_u16 K wfuel c1 K.IF_SPI_SCRATCH_1_REG 0 0 = .ok (0, c2)) :
    if_spi_prog_main_firmware K fuel wfuel c =
      if_spi_prog_main_firmware_chunks K fuel wfuel image c2 := by
  simp only [if_spi_prog_main_firmware, h1, ne_eq, not_true_eq_false, ↓reduceIte, himg, h2,
    if_spi_prog_main_firmware_chunks]

/-- C11 (amended): before its chunk loop, `if_spi_prog_main_firmware` (with
interrupts disabled, state `c1`, and the image at hand) waits until scratch
register 1 reads non-zero, polling with a zero mask.  While the polls read 0
within the time budget it keeps polling; at the first poll that reads a
non-zero value the wait succeeds, after exactly that many reads, and the load
goes on with its chunk loop; if the register still reads 0 when the clock has
passed the deadline the load fails with `-ETIMEDOUT`, having written no chunk
and read no other register. -/
theorem main_firmware_waits_for_nonzero (K : if_spi_h) (fuel wfuel : Nat)
    (c c1 : if_spi_card) (image : List Nat) (k : Nat) (hk : k < wfuel)
    (h1 : spu_set_interrupt_mode K c 1 0 = .ok (0, c1))
    (himg : c1.sys.firmware c1.main_fw_name = (0, image)) (hw : writes_ok c1)
    (hzero : ∀ i, i < k → poll_res c1 K.IF_SPI_SCRATCH_1_REG i = 0 ∧
      poll_u16 c1 K.IF_SPI_SCRATCH_1_REG i = 0 ∧
      time_after (wait_clock c1 i) (wait_deadline K c1) = false)
    (hres : poll_res c1 K.IF_SPI_SCRATCH_1_REG k = 0) :
    (poll_u16 c1 K.IF_SPI_SCRATCH_1_REG k ≠ 0 →
      ∃ c2, spu_wait_for_u16 K wfuel c1 K.IF_SPI_SCRATCH_1_REG 0 0 = .ok (0, c2) ∧
        c2.spi.nrd (u16 K.IF_SPI_SCRATCH_1_REG) =
          c1.spi.nrd (u16 K.IF_SPI_SCRATCH_1_REG) + (k + 1) ∧
        if_spi_prog_main_firmware K fuel wfuel c =
          if_spi_prog_main_firmware_chunks K fuel wfuel image c2) ∧
    (poll_u16 c1 K.IF_SPI_SCRATCH_1_REG k = 0 →
      time_after (wait_clock c1 k) (wait_deadline K c1) = true →
      ∃ d, if_spi_prog_main_firmware K fuel wfuel c = .ok (-ETIMEDOUT, d) ∧
        d.spi.nrd (u16 K.IF_SPI_SCRATCH_1_REG) =
          c1.spi.nrd (u16 K.IF_SPI_SCRATCH_1_REG) + (k + 1) ∧
        cmd_chunks K d = cmd_chunks K c1 ∧
        ∀ x, x ≠ u16 K.IF_SPI_SCRATCH_1_REG → d.spi.nrd x = c1.spi.nrd x) := by
  have hmiss : ∀ v, v = 0 → ¬ wait_hit (u16 0) (u16 0) v := by
    intro v hv
    simp [wait_hit, hv, u16]
  have key := spu_wait_for_u16_ends K c1 K.IF_SPI_SCRATCH_1_REG 0 0 wfuel k hk hw
    (fun i hi => ⟨(hzero i hi).1, hmiss _ (hzero i hi).2.1, (hzero i hi).2.2⟩)
  refine ⟨fun hnz => ?_, fun hz htime => ?_⟩
  · have hhit : wait_hit (u16 0) (u16 0) (poll_u16 c1 K.IF_SPI_SCRATCH_1_REG k) :=
      Or.inr ⟨rfl, hnz⟩
    obtain ⟨c2, h2, hn2⟩ := key (Or.inr (Or.inl hhit))
    simp only [hres, hhit, ne_eq, not_true_eq_false, ↓reduceIte] at h2
    exact ⟨c2, h2, hn2, main_firmware_after_wait K fuel wfuel c c1 c2 image h1 himg h2⟩
  · have hnh := hmiss _ hz
    obtain ⟨c2, h2, hn2⟩ := key (Or.inr (Or.inr htime))
    simp only [hres, hnh, ne_eq, not_true_eq_false, ↓reduceIte] at h2
    obtain ⟨ht2, hx2⟩ := spu_wait_for_u16_touches K _ _ _ _ _ _ _ h2
    have hne : (-ETIMEDOUT : Int) ≠ 0 := by decide
    refine ⟨emit (emit c2 (.pr_err (-ETIMEDOUT))) (.pr_err (-ETIMEDOUT)), ?_, hn2, ?_, hx2⟩
    · simp only [if_spi_prog_main_firmware, h1, ne_eq, not_true_eq_false, ↓reduceIte, himg, h2,
        hne, not_false_eq_true, if_spi_prog_main_firmware_out]
    · have := cmd_chunks_of_read K (touches_emit (touches_emit ht2
        (show read_event (.pr_err (-ETIMEDOUT)) = true from rfl))
        (show read_event (.pr_err (-ETIMEDOUT)) = true from rfl))
      exact this

/-- C11 (amended), on a device whose scratch register 1 reads 0 at the first
two polls and 3 at the third, with a clock that stands still: the wait polls
through the two zeros and ends after the third read. -/
theorem main_firmware_waits_for_nonzero_witness :
    ∃ c1 c2, spu_set_interrupt_mode sample_h late_scratch_card 1 0 = .ok (0, c1) ∧
      spu_wait_for_u16 sample_h 3 c1 sample_h.IF_SPI_SCRATCH_1_REG 0 0 = .ok (0, c2) ∧
      c2.spi.nrd (u16 sample_h.IF_SPI_SCRATCH_1_REG) =
        c1.spi.nrd (u16 sample_h.IF_SPI_SCRATCH_1_REG) + (2 + 1) := by
  obtain ⟨c1, h1, ht1, hn1, _⟩ := spu_set_interrupt_mode_ok sample_h late_scratch_card
    (fun _ => rfl)
  have hr : ∀ i, poll_res c1 sample_h.IF_SPI_SCRATCH_1_REG i = 0 := by
    intro i
    simp only [poll_res, touches_rd_res ht1]
    rfl
  have hv : ∀ i, poll_u16 c1 sample_h.IF_SPI_SCRATCH_1_REG i =
      if i < 2 then 0 else 3 := by
    intro i
    simp only [poll_u16, touches_rd_u16 ht1, hn1]
    by_cases hi : i < 2 <;>
      simp [rd_u16, late_scratch_card, sim_card, late_scratch_dev, sample_h, u16, hi]
  have ht : ∀ i, time_after (wait_clock c1 i) (wait_deadline sample_h c1) = false := by
    intro i
    simp only [wait_clock, wait_deadline, touches_clock ht1]
    simp [time_after, ulong, late_scratch_card, sim_card, sample_h]
  obtain ⟨c2, h2, hn2, _⟩ := (main_firmware_waits_for_nonzero sample_h 6 3 late_scratch_card c1
    [1, 2, 3, 4, 5, 6, 7, 8] 2 (by decide) h1
    (by rw [(touches_firmware ht1).1, (touches_firmware ht1).2]; rfl)
    (touches_writes_ok ht1 (fun _ => rfl))
    (fun i hi => ⟨hr i, by rw [hv i, if_pos hi], ht i⟩) (hr 2)).1 (by rw [hv 2]; decide)
  exact ⟨c1, c2, h1, h2, hn2⟩

set_option maxRecDepth 100000 in
/-- C11 as stated fails on a device whose scratch register 1 reads exactly 0
at every poll: the wait does not succeed at the first poll.  The load polls
the register again and, the clock having passed the deadline after the second
poll, returns `-ETIMEDOUT` without a read of the host interrupt status
register and without a chunk. -/
theorem main_firmware_times_out_on_zero :
    (∀ k, rd_u16 zero_scratch_card.spi sample_h.IF_SPI_SCRATCH_1_REG k = 0) ∧
    value_of (if_spi_prog_main_firmware sample_h 1 3 zero_scratch_card) = some (-ETIMEDOUT) ∧
    (state_of (if_spi_prog_main_firmware sample_h 1 3 zero_scratch_card)
      zero_scratch_card).spi.nrd sample_h.IF_SPI_SCRATCH_1_REG = 2 ∧
    (state_of (if_spi_prog_main_firmware sample_h 1 3 zero_scratch_card)
      zero_scratch_card).spi.nrd sample_h.IF_SPI_HOST_INT_STATUS_REG = 0 ∧
    cmd_chunks sample_h (state_of (if_spi_prog_main_firmware sample_h 1 3 zero_scratch_card)
      zero_scratch_card) = [] :=
  ⟨fun _ => rfl, by decide, by decide, by decide, by decide⟩

theorem fw_chunk_length (image : List Nat) (off l : Nat) :
    (fw_chunk image off (image.length - off) l).length = l := by
  simp only [fw_chunk]
  split
  · simp [List.length_take, List.length_drop]
    omega
  · simp [List.length_take, List.length_drop]
    omega

theorem main_chunks_lengths (image : List Nat) (off : Nat) (ls : List Nat) :
    (main_chunks image off ls).map List.length = ls := by
  induction ls generalizing off with
  | nil => rfl
  | cons l ls ih => simp [main_chunks, fw_chunk_length, ih]

theorem touches_grows {P : Event → Bool} {c d : if_spi_card} (h : touches P c d) :
    c.trace <+: d.trace := by
  obtain ⟨a, b, n, t, u, rfl, _⟩ := h
  exact ⟨u, rfl⟩

theorem emit_grows (c : if_spi_card) (e : Event) : c.trace <+: (emit c e).trace :=
  ⟨[e], rfl⟩

/-- Whatever the three writes that end an iteration return, they only touch
the bus. -/
theorem send_touches (K : if_spi_h) (c : if_spi_card) (len : Int) (r : Int) (d : if_spi_card)
    (h : if_spi_prog_main_firmware_send K c len = .ok (r, d)) : touches bus_event c d := by
  unfold if_spi_prog_main_firmware_send at h
  cases h1 : spu_write_u16 K c K.IF_SPI_HOST_INT_STATUS_REG 0 with
  | error x => simp [h1] at h
  | ok x =>
    obtain ⟨e1, c1⟩ := x
    have t1 := (spu_write_touches K c _ _ _ _ _ h1).1
    simp only [h1] at h
    split at h
    · simp only [Except.ok.injEq, Prod.mk.injEq] at h
      rw [← h.2]; exact t1
    · cases h2 : spu_write K c1 K.IF_SPI_CMD_RDWRPORT_REG c1.cmd_buffer len.toNat with
      | error x => simp [h2] at h
      | ok x =>
        obtain ⟨e2, c2⟩ := x
        have t2 := (spu_write_touches K c1 _ _ _ _ _ h2).1
        simp only [h2] at h
        split at h
        · simp only [Except.ok.injEq, Prod.mk.injEq] at h
          rw [← h.2]; exact touches_trans t1 t2
        · exact touches_trans t1 (touches_trans t2 (spu_write_touches K c2 _ _ _ _ _ h).1)

/-- Whatever `if_spi_prog_main_firmware_check_len` returns, it has written no
payload. -/
theorem check_len_touches (K : if_spi_h) (wfuel : Nat) (c : if_spi_card) (crc_err : Int)
    (r : Int × Int) (d : if_spi_card)
    (h : if_spi_prog_main_firmware_check_len K wfuel c crc_err = .ok (r, d)) :
    touches read_event c d := by
  unfold if_spi_prog_main_firmware_check_len at h
  cases h1 : spu_wait_for_u16 K wfuel c K.IF_SPI_HOST_INT_STATUS_REG
      K.IF_SPI_HIST_CMD_DOWNLOAD_RDY K.IF_SPI_HIST_CMD_DOWNLOAD_RDY with
  | error x => simp [h1] at h
  | ok x =>
    obtain ⟨e1, c1⟩ := x
    have t1 := (spu_wait_for_u16_touches K _ _ _ _ _ _ _ h1).1
    simp only [h1] at h
    split at h
    · simp only [Except.ok.injEq, Prod.mk.injEq] at h
      rw [← h.2]
      exact touches_emit t1 rfl
    · obtain ⟨r2, c2, h2, t2, _⟩ := spu_read_u16_touches K c1 K.IF_SPI_SCRATCH_1_REG
      simp only [h2] at h
      have t12 := touches_trans t1 t2
      split at h
      · simp only [Except.ok.injEq, Prod.mk.injEq] at h
        rw [← h.2]; exact t12
      · split at h
        · simp only [Except.ok.injEq, Prod.mk.injEq] at h
          rw [← h.2]
          exact touches_emit t12 rfl
        · split at h
          · simp only [Except.ok.injEq, Prod.mk.injEq] at h
            rw [← h.2]; exact t12
          · simp only [Except.ok.injEq, Prod.mk.injEq] at h
            rw [← h.2]; exact t12

/-- The trace at the end of an iteration of the chunk loop extends the trace
at the return of its length query. -/
theorem body_after_check_len (K : if_spi_h) (wfuel : Nat) (image : List Nat) (c : if_spi_card)
    (v : main_fw_vars) (x : Int × Int) (c1 : if_spi_card)
    (hq : if_spi_prog_main_firmware_check_len K wfuel c v.crc_err = .ok (x, c1))
    (r : Option loop_exit × main_fw_vars) (d : if_spi_card)
    (h : if_spi_prog_main_firmware_body K wfuel image c v = .ok (r, d)) :
    c1.trace <+: d.trace := by
  unfold if_spi_prog_main_firmware_body at h
  simp only [hq] at h
  split at h
  · simp only [Except.ok.injEq, Prod.mk.injEq] at h
    rw [← h.2]
  · split at h
    · simp only [Except.ok.injEq, Prod.mk.injEq] at h
      rw [← h.2]
    · split at h
      · simp only [Except.ok.injEq, Prod.mk.injEq] at h
        rw [← h.2]; exact emit_grows _ _
      · split at h
        · simp only [Except.ok.injEq, Prod.mk.injEq] at h
          rw [← h.2]; exact emit_grows _ _
        · split at h
          · simp at h
          · rename_i buf hfill
            cases hs : if_spi_prog_main_firmware_send K { c1 with cmd_buffer := buf } x.1 with
            | error y => simp [hs] at h
            | ok y =>
              obtain ⟨e, c2⟩ := y
              have t := touches_grows (send_touches K _ _ _ _ hs)
              simp only [hs] at h
              split at h
              · simp only [Except.ok.injEq, Prod.mk.injEq] at h
                rw [← h.2]; exact t
              · simp only [Except.ok.injEq, Prod.mk.injEq] at h
                rw [← h.2]; exact t

/-- The trace only grows over an iteration of the chunk loop. -/
theorem body_grows (K : if_spi_h) (wfuel : Nat) (image : List Nat) (c : if_spi_card)
    (v : main_fw_vars) (r : Option loop_exit × main_fw_vars) (d : if_spi_card)
    (h : if_spi_prog_main_firmware_body K wfuel image c v = .ok (r, d)) :
    c.trace <+: d.trace := by
  cases hq : if_spi_prog_main_firmware_check_len K wfuel c v.crc_err with
  | error y =>
    unfold if_spi_prog_main_firmware_body at h
    simp [hq] at h
  | ok y =>
    obtain ⟨x, c1⟩ := y
    exact (touches_grows (check_len_touches K wfuel c _ _ _ hq)).trans
      (body_after_check_len K wfuel image c v x c1 hq r d h)

/-- The trace only grows over the chunk loop. -/
theorem loop_grows (K : if_spi_h) (wfuel : Nat) (image : List Nat) (fuel : Nat)
    (c : if_spi_card) (v : main_fw_vars) (r : loop_exit × main_fw_vars) (d : if_spi_card)
    (h : if_spi_prog_main_firmware_loop K wfuel image fuel c v = .ok (r, d)) :
    c.trace <+: d.trace := by
  induction fuel generalizing c v with
  | zero => simp [if_spi_prog_main_firmware_loop] at h
  | succ n ih =>
    simp only [if_spi_prog_main_firmware_loop] at h
    cases hb : if_spi_prog_main_firmware_body K wfuel image c v with
    | error y => simp [hb] at h
    | ok y =>
      obtain ⟨⟨o, v1⟩, c1⟩ := y
      have g := body_grows K wfuel image c v _ _ hb
      simp only [hb] at h
      cases o with
      | some x =>
        simp only [Except.ok.injEq, Prod.mk.injEq] at h
        rw [← h.2]; exact g
      | none => exact g.trans (ih c1 v1 h)

/-- The trace at the end of the chunk loop extends the trace at the return of
its first length query. -/
theorem loop_after_first_query (K : if_spi_h) (wfuel : Nat) (image : List Nat) (fuel : Nat)
    (c : if_spi_card) (v : main_fw_vars) (x : Int × Int) (c1 : if_spi_card)
    (hq : if_spi_prog_main_firmware_check_len K wfuel c v.crc_err = .ok (x, c1))
    (r : loop_exit × main_fw_vars) (d : if_spi_card)
    (h : if_spi_prog_main_firmware_loop K wfuel image fuel c v = .ok (r, d)) :
    c1.trace <+: d.trace := by
  cases fuel with
  | zero => simp [if_spi_prog_main_firmware_loop] at h
  | succ n =>
    simp only [if_spi_prog_main_firmware_loop] at h
    cases hb : if_spi_prog_main_firmware_body K wfuel image c v with
    | error y => simp [hb] at h
    | ok y =>
      obtain ⟨⟨o, v1⟩, c2⟩ := y
      have g := body_after_check_len K wfuel image c v x c1 hq _ _ hb
      simp only [hb] at h
      cases o with
      | some z =>
        simp only [Except.ok.injEq, Prod.mk.injEq] at h
        rw [← h.2]; exact g
      | none => exact g.trans (loop_grows K wfuel image n c2 v1 r d h)

/-- The chunk loop on a working device whose length replies are the even,
non-zero lengths `ls` followed by 0, without CRC-error bit: the loop sends one
chunk per length, cut at the offset the lengths before it add up to, and ends
at the reply 0. -/
theorem loop_clean_sends (K : if_spi_h) (wfuel : Nat) (hf : 0 < wfuel) (image : List Nat)
    (ls : List Nat) :
    ∀ (fuel : Nat) (c : if_spi_card) (v : main_fw_vars), ls.length < fuel → fw_dev_ok K c →
      (∀ j, j < ls.length → len_reply K c j = ls.getD j 0) →
      len_reply K c ls.length = 0 →
      (∀ l ∈ ls, l % 2 = 0 ∧ l ≠ 0 ∧ l ≤ K.IF_SPI_CMD_BUF_SIZE) →
      0 ≤ v.bytes → 0 ≤ v.prev_len → v.bytes + v.fw = image.length →
      (ls ≠ [] → v.prev_len + ls.dropLast.sum ≤ v.bytes) →
      ∃ d v2, if_spi_prog_main_firmware_loop K wfuel image fuel c v = .ok ((.fall, v2), d) ∧
        same_dev c d ∧
        cmd_chunks K d = cmd_chunks K c ++ main_chunks image (v.fw + v.prev_len.toNat) ls := by
  induction ls with
  | nil =>
    intro fuel c v hfu hc _ hend _ _ _ _ _
    obtain ⟨f, rfl⟩ : ∃ f, fuel = f + 1 := ⟨fuel - 1, by omega⟩
    simp only [List.length_nil] at hend
    obtain ⟨d, hd, hs, _, hk⟩ := body_ends K wfuel hf image c v hc (by rw [hend]; omega)
      (by rw [hend]; omega)
    exact ⟨d, { v with crc_err := ((reply_crc (len_reply K c 0) : Nat) : Int) },
      by simp only [if_spi_prog_main_firmware_loop, hd], hs, by simp [hk, main_chunks]⟩
  | cons l ls ih =>
    intro fuel c v hfu hc hlen hend hls hb hp hinv hsum
    obtain ⟨f, rfl⟩ : ∃ f, fuel = f + 1 := ⟨fuel - 1, by omega⟩
    obtain ⟨hev, hnz, hle⟩ := hls l (List.mem_cons_self _ _)
    have h0 : len_reply K c 0 = l := by
      have := hlen 0 (by simp)
      simpa using this
    have hcrc : reply_crc l = 0 := hev
    have hrl : reply_len l = l := by simp only [reply_len, hev]; omega
    have hsum0 : v.prev_len ≤ v.bytes := by
      have := hsum (by simp)
      have hnn : 0 ≤ ((l :: ls).dropLast.sum : Int) := by positivity
      omega
    obtain ⟨p, hpn⟩ := Int.eq_ofNat_of_zero_le hp
    have hfw : ((v.fw + v.prev_len.toNat : Nat) : Int) = v.fw + v.prev_len := by
      rw [hpn]
      simp
    have hinv2 : v.bytes - v.prev_len + ((v.fw + v.prev_len.toNat : Nat) : Int) = image.length := by
      rw [hfw]
      omega
    have hva : vars_after K v l =
        { v with crc_err := 0, bytes := v.bytes - v.prev_len, fw := v.fw + v.prev_len.toNat } := by
      simp [vars_after, if_spi_prog_main_firmware_count, hcrc]
    have hnot : crc_over K v l = false := by
      simp [crc_over, if_spi_prog_main_firmware_count, hcrc]
    obtain ⟨d, hd, hs, hn, hk⟩ := body_sends K wfuel hf image c v hc (by rw [h0]; exact hle)
      (by rw [h0]; omega) hb (by rw [h0]; exact hnot)
      (by rw [h0, hva]; show 0 ≤ v.bytes - v.prev_len; omega)
      (by rw [h0, hva]; exact hinv2)
    rw [h0, hva, hrl] at hd hk
    have hbn : (v.bytes - v.prev_len).toNat = image.length - (v.fw + v.prev_len.toNat) := by
      rw [hpn] at hsum0 ⊢
      simp only [Int.toNat_ofNat]
      omega
    simp only [hbn] at hk
    obtain ⟨d2, v2, hl2, hs2, hk2⟩ := ih f d
      { ({ v with crc_err := 0, bytes := v.bytes - v.prev_len,
                  fw := v.fw + v.prev_len.toNat } : main_fw_vars) with
        err := 0, prev_len := (l : Int) }
      (by simp only [List.length_cons] at hfu; omega) (fw_dev_ok_same K hs hc)
      (fun j hj => by
        rw [len_reply_shift K hs 1 hn j]
        have := hlen (1 + j) (by simp only [List.length_cons]; omega)
        rw [this, Nat.add_comm 1 j]
        simp)
      (by
        rw [len_reply_shift K hs 1 hn ls.length]
        simpa [Nat.add_comm] using hend)
      (fun x hx => hls x (List.mem_cons_of_mem _ hx))
      (by show 0 ≤ v.bytes - v.prev_len; omega)
      (by show (0 : Int) ≤ (l : Int); positivity)
      hinv2
      (fun hne => by
        show (l : Int) + (ls.dropLast.sum : Int) ≤ v.bytes - v.prev_len
        have := hsum (by simp)
        rw [List.dropLast_cons_of_ne_nil hne, List.sum_cons, Nat.cast_add] at this
        omega)
    refine ⟨d2, v2, by simp only [if_spi_prog_main_firmware_loop, hd, hl2],
      same_dev_trans hs hs2, ?_⟩
    rw [hk2, hk]
    simp [main_chunks, List.append_assoc]

/-- When the chunk loop ends at a length of 0, the load returns after its
confirmation wait, without a further write to the command port. -/
theorem chunks_confirm (K : if_spi_h) (fuel wfuel : Nat) (image : List Nat)
    (c d3 : if_spi_card) (v2 : main_fw_vars)
    (hl : if_spi_prog_main_firmware_loop K wfuel image fuel c (main_fw_vars_init image) =
      .ok ((.fall, v2), d3)) :
    ∃ r d, if_spi_prog_main_firmware_chunks K fuel wfuel image c = .ok (r, d) ∧
      touches read_event d3 d := by
  have key : ∀ c4, touches read_event d3 c4 →
      ∃ r d, (match spu_wait_for_u32 K c4 K.IF_SPI_SCRATCH_4_REG
          K.SUCCESSFUL_FW_DOWNLOAD_MAGIC with
        | .error h => (.error h : Run Int)
        | .ok (cerr, c5) =>
          if cerr ≠ 0 then if_spi_prog_main_firmware_out (emit c5 (.pr_err cerr)) cerr
          else if_spi_prog_main_firmware_out c5 cerr) = .ok (r, d) ∧
        touches read_event d3 d := by
    intro c4 h4
    obtain ⟨r, c5, h5, ht5, _⟩ := spu_wait_for_u32_loop_le K K.IF_SPI_SCRATCH_4_REG
      (u32 K.SUCCESSFUL_FW_DOWNLOAD_MAGIC) 4 c4
    have h45 := touches_trans h4 ht5
    simp only [spu_wait_for_u32, h5, if_spi_prog_main_firmware_out]
    by_cases hr : r = 0
    · simp only [hr, ne_eq, not_true_eq_false, ↓reduceIte]
      exact ⟨_, _, rfl, h45⟩
    · simp only [hr, ne_eq, not_false_eq_true, ↓reduceIte]
      exact ⟨_, _, rfl, touches_emit (touches_emit h45
        (show read_event (.pr_err r) = true from rfl))
        (show read_event (.pr_err r) = true from rfl)⟩
  simp only [if_spi_prog_main_firmware_chunks, hl]
  by_cases hb : v2.bytes > v2.prev_len
  · simp only [hb, ↓reduceIte]
    exact key _ (touches_emit (touches_refl _ d3) (show read_event (.pr_err 0) = true from rfl))
  · simp only [hb, ↓reduceIte]
    exact key _ (touches_refl _ d3)

/-- C13: the main firmware load on a working device that shows a non-zero
scratch register 1 to the initial wait, then replies the lengths `ls` (each
even, non-zero and at most `IF_SPI_CMD_BUF_SIZE`, so without CRC-error bit)
followed by 0, the lengths but the last adding up to no more than the size of
the image.  The load returns, having written to the command port exactly one
chunk per length, in order: chunk `j` has the length asked for and holds the
image bytes from the offset the lengths before it add up to, followed by zeros
where it runs past the end of the image.  The first length is queried before
any chunk is written: when `if_spi_prog_main_firmware_check_len` returns it,
the command port has not been written, and everything the load does later
comes after that point of its trace. -/
theorem main_firmware_clean_load (K : if_spi_h) (fuel wfuel : Nat) (c : if_spi_card)
    (image : List Nat) (ls : List Nat) (hfuel : ls.length < fuel) (hwf : 0 < wfuel)
    (_hsize : image.length < 2147483648) (hc : fw_dev_ok K c)
    (hmask : u16 K.IF_SPI_CMD_RDWRPORT_REG ≠ u16 K.IF_SPI_HOST_INT_STATUS_MASK_REG)
    (himg : c.sys.firmware c.main_fw_name = (0, image))
    (hfirst : len_reply K c 0 ≠ 0)
    (hlen : ∀ j, j < ls.length → len_reply K c (1 + j) = ls.getD j 0)
    (hend : len_reply K c (1 + ls.length) = 0)
    (hls : ∀ l ∈ ls, l % 2 = 0 ∧ l ≠ 0 ∧ l ≤ K.IF_SPI_CMD_BUF_SIZE)
    (hsum : ls.dropLast.sum ≤ image.length) :
    ∃ r d, if_spi_prog_main_firmware K fuel wfuel c = .ok (r, d) ∧
      cmd_chunks K d = cmd_chunks K c ++ main_chunks image 0 ls ∧
      (main_chunks image 0 ls).map List.length = ls ∧
      ∃ c1 c2 c3, spu_set_interrupt_mode K c 1 0 = .ok (0, c1) ∧
        spu_wait_for_u16 K wfuel c1 K.IF_SPI_SCRATCH_1_REG 0 0 = .ok (0, c2) ∧
        if_spi_prog_main_firmware_check_len K wfuel c2 0 =
          .ok ((((ls.headD 0 : Nat) : Int), 0), c3) ∧
        cmd_chunks K c3 = cmd_chunks K c ∧ c3.trace <+: d.trace := by
  obtain ⟨c1, h1, ht1, hn1, hp1⟩ := spu_set_interrupt_mode_ok K c hc.1
  have hs1 := same_dev_of_touches ht1
  have hc1 := fw_dev_ok_same K hs1 hc
  have himg1 : c1.sys.firmware c1.main_fw_name = (0, image) := by
    rw [(touches_firmware ht1).1, (touches_firmware ht1).2]; exact himg
  have hr1 : ∀ i, len_reply K c1 i = len_reply K c i := by
    intro i
    have := len_reply_shift K hs1 0 (by rw [hn1]; rfl) i
    rwa [Nat.zero_add] at this
  have hhit : wait_hit (u16 0) (u16 0) (poll_u16 c1 K.IF_SPI_SCRATCH_1_REG 0) := by
    have := hfirst
    rw [← hr1 0] at this
    exact Or.inr ⟨rfl, this⟩
  have hres0 : poll_res c1 K.IF_SPI_SCRATCH_1_REG 0 = 0 := hc1.2.2.1 _
  obtain ⟨c2, h2, hn2⟩ := spu_wait_for_u16_ends K c1 K.IF_SPI_SCRATCH_1_REG 0 0 wfuel 0 hwf hc1.1
    (fun i hi => absurd hi (Nat.not_lt_zero i)) (Or.inr (Or.inl hhit))
  simp only [hres0, hhit, ne_eq, not_true_eq_false, ↓reduceIte] at h2
  obtain ⟨ht2, _⟩ := spu_wait_for_u16_touches K _ _ _ _ _ _ _ h2
  have hs2 := same_dev_of_touches ht2
  have hc2 := fw_dev_ok_same K hs2 hc1
  have hr2 : ∀ i, len_reply K c2 i = len_reply K c (1 + i) := by
    intro i
    rw [len_reply_shift K hs2 1 hn2 i, hr1]
  have e1 : cmd_chunks K c2 = cmd_chunks K c1 := cmd_chunks_of_read K ht2
  have e2 : cmd_chunks K c1 = cmd_chunks K c := hp1 _ hmask
  -- the chunk loop
  obtain ⟨d3, v2, hl, _, hk3⟩ := loop_clean_sends K wfuel hwf image ls fuel c2
    (main_fw_vars_init image) hfuel hc2
    (fun j hj => by rw [hr2]; exact hlen j hj)
    (by rw [hr2]; exact hend) hls
    (by simp [main_fw_vars_init]) (by simp [main_fw_vars_init]) (by simp [main_fw_vars_init])
    (fun _ => by
      show (0 : Int) + (ls.dropLast.sum : Int) ≤ (image.length : Int)
      omega)
  obtain ⟨r, d, hd, htd⟩ := chunks_confirm K fuel wfuel image c2 d3 v2 hl
  -- the first length query
  have hle0 : len_reply K c2 0 ≤ K.IF_SPI_CMD_BUF_SIZE := by
    rw [hr2]
    cases ls with
    | nil =>
      simp only [List.length_nil] at hend
      rw [hend]; omega
    | cons l tl =>
      have := hlen 0 (by simp)
      simp only [List.getD_cons_zero] at this
      rw [this]
      exact (hls l (List.mem_cons_self _ _)).2.2
  obtain ⟨c3, h3, ht3, _⟩ := check_len_ok K wfuel hwf c2 hc2 0 hle0
  have hq : (((len_reply K c2 0 - len_reply K c2 0 % 2 : Nat) : Int),
      ((len_reply K c2 0 % 2 : Nat) : Int)) = (((ls.headD 0 : Nat) : Int), (0 : Int)) := by
    rw [hr2]
    cases ls with
    | nil =>
      simp only [List.length_nil] at hend
      rw [hend]; rfl
    | cons l tl =>
      have := hlen 0 (by simp)
      simp only [List.getD_cons_zero] at this
      rw [this]
      have hev := (hls l (List.mem_cons_self _ _)).1
      simp [hev]
  rw [hq] at h3
  have hg : c3.trace <+: d3.trace :=
    loop_after_first_query K wfuel image fuel c2 (main_fw_vars_init image) _ c3 h3 _ d3 hl
  refine ⟨r, d, ?_, ?_, main_chunks_lengths image 0 ls, c1, c2, c3, h1, h2, h3, ?_,
    hg.trans (touches_grows htd)⟩
  · rw [main_firmware_after_wait K fuel wfuel c c1 c2 image h1 himg1 h2]
    exact hd
  · rw [cmd_chunks_of_read K htd, hk3, e1, e2]
    simp [main_fw_vars_init]
  · rw [cmd_chunks_of_read K ht3, e1, e2]

theorem clean_card_ok : fw_dev_ok sample_h clean_card :=
  fw_dev_ok_sample clean_dev _ _ (fun _ => rfl)

/-- C13, on the sample device that asks for 4, 2 and 4 bytes of an image of 8
bytes: three chunks, the last one cut at offset 6 and padded with two zeros. -/
theorem main_firmware_clean_load_witness :
    ∃ r d, if_spi_prog_main_firmware sample_h 4 1 clean_card = .ok (r, d) ∧
      cmd_chunks sample_h d = [[1, 2, 3, 4], [5, 6], [7, 8, 0, 0]] := by
  obtain ⟨r, d, h, hk, _⟩ := main_firmware_clean_load sample_h 4 1 clean_card
    [1, 2, 3, 4, 5, 6, 7, 8] [4, 2, 4] (by decide) (by decide) (by decide) clean_card_ok
    (by decide) rfl (by decide)
    (fun j hj => by
      have : j = 0 ∨ j = 1 ∨ j = 2 := by
        simp only [List.length_cons, List.length_nil] at hj
        omega
      rcases this with h | h | h <;> subst h <;> decide)
    (by decide) (by decide) (by decide)
  exact ⟨r, d, h, hk.trans (by decide)⟩

theorem helper_dev_ok_same (K : if_spi_h) {c d : if_spi_card} (h : same_dev c d)
    (hc : helper_dev_ok K c) : helper_dev_ok K d := by
  obtain ⟨h1, h2, h3⟩ := hc
  refine ⟨fun n => ?_, fun k => ?_, fun k => ?_⟩
  · rw [h.1]; exact h1 n
  · rw [h.2.1]; exact h2 k
  · have : rd_u16 d.spi (u16 K.IF_SPI_HOST_INT_STATUS_REG) k =
        rd_u16 c.spi (u16 K.IF_SPI_HOST_INT_STATUS_REG) k := by simp [rd_u16, h.2.2.1]
    rw [this]; exact h3 k

/-- With working write transfers and an even length, `spu_write` returns 0
and the payload it puts on the bus is the first `len` bytes of `buf` on
register `reg`. -/
theorem spu_write_sends (K : if_spi_h) (c : if_spi_card) (reg : Nat) (buf : List Nat)
    (len : Nat) (hw : writes_ok c) (hl : len % 2 = 0) :
    ∃ d, spu_write K c reg buf len = .ok (0, d) ∧ touches bus_event c d ∧
      bus_writes d.trace = bus_writes c.trace ++ [(u16 reg, buf.take len)] := by
  obtain ⟨d, h, ht, hb⟩ := spu_write_effect K c reg buf len hl
  simp only [hw _, ne_eq, not_true_eq_false, ↓reduceIte] at h hb
  exact ⟨d, h, ht, hb⟩

theorem spu_write_u16_sends (K : if_spi_h) (c : if_spi_card) (reg val : Nat)
    (hw : writes_ok c) :
    ∃ d, spu_write_u16 K c reg val = .ok (0, d) ∧ touches bus_event c d ∧
      bus_writes d.trace = bus_writes c.trace ++ [(u16 reg, bytes_of_u16 (u16 val))] := by
  obtain ⟨d, h, ht, hb⟩ := spu_write_sends K c reg (bytes_of_u16 (u16 val)) 2 hw rfl
  exact ⟨d, h, ht, by rw [hb]; simp [bytes_of_u16]⟩

/-- On a working bus the download-over cause signal is two writes. -/
theorem helper_signal_ok (K : if_spi_h) (c : if_spi_card) (hw : writes_ok c) :
    ∃ d, if_spi_prog_helper_firmware_signal K c = .ok (0, d) ∧ touches bus_event c d ∧
      bus_writes d.trace = bus_writes c.trace ++
        [(u16 K.IF_SPI_HOST_INT_STATUS_REG, bytes_of_u16 0),
         (u16 K.IF_SPI_CARD_INT_CAUSE_REG, bytes_of_u16 (u16 K.IF_SPI_CIC_CMD_DOWNLOAD_OVER))] := by
  obtain ⟨c1, h1, ht1, hb1⟩ := spu_write_u16_sends K c K.IF_SPI_HOST_INT_STATUS_REG 0 hw
  obtain ⟨c2, h2, ht2, hb2⟩ := spu_write_u16_sends K c1 K.IF_SPI_CARD_INT_CAUSE_REG
    K.IF_SPI_CIC_CMD_DOWNLOAD_OVER (touches_writes_ok ht1 hw)
  refine ⟨c2, ?_, touches_trans ht1 ht2, ?_⟩
  · simp only [if_spi_prog_helper_firmware_signal, h1, ne_eq, not_true_eq_false, ↓reduceIte, h2]
  · rw [hb2, hb1]
    simp [u16]

/-- On a working bus the end of the helper load is three writes. -/
theorem helper_done_ok (K : if_spi_h) (c : if_spi_card) (hw : writes_ok c) :
    ∃ d, if_spi_prog_helper_firmware_done K c = .ok (0, d) ∧ touches bus_event c d ∧
      bus_writes d.trace = bus_writes c.trace ++
        [(u16 K.IF_SPI_SCRATCH_1_REG, bytes_of_u16 (u16 K.FIRMWARE_DNLD_OK)),
         (u16 K.IF_SPI_HOST_INT_STATUS_REG, bytes_of_u16 0),
         (u16 K.IF_SPI_CARD_INT_CAUSE_REG, bytes_of_u16 (u16 K.IF_SPI_CIC_CMD_DOWNLOAD_OVER))] := by
  obtain ⟨c1, h1, ht1, hb1⟩ := spu_write_u16_sends K c K.IF_SPI_SCRATCH_1_REG
    K.FIRMWARE_DNLD_OK hw
  obtain ⟨c2, h2, ht2, hb2⟩ := helper_signal_ok K c1 (touches_writes_ok ht1 hw)
  refine ⟨c2, ?_, touches_trans ht1 ht2, ?_⟩
  · simp only [if_spi_prog_helper_firmware_done, h1, ne_eq, not_true_eq_false, ↓reduceIte, h2]
  · rw [hb2, hb1]
    simp

/-- With bytes left in the image, `temp` is filled without leaving the image
and holds the next chunk. -/
theorem helper_temp_ok (K : if_spi_h) (image : List Nat) (fw : Nat) (hlt : fw < image.length) :
    ∃ t, if_spi_prog_helper_firmware_temp K image fw ((image.length : Int) - fw) = some t ∧
      t.take K.HELPER_FW_LOAD_CHUNK_SZ =
        fw_chunk image fw (image.length - fw) K.HELPER_FW_LOAD_CHUNK_SZ := by
  have hmin : (min ((image.length : Int) - fw) (K.HELPER_FW_LOAD_CHUNK_SZ : Int)).toNat =
      min (image.length - fw) K.HELPER_FW_LOAD_CHUNK_SZ := by
    omega
  have hm : memcpy_src image fw (min (image.length - fw) K.HELPER_FW_LOAD_CHUNK_SZ) =
      some ((image.drop fw).take (min (image.length - fw) K.HELPER_FW_LOAD_CHUNK_SZ)) := by
    simp only [memcpy_src]
    rw [if_pos (by omega)]
  refine ⟨store (List.replicate K.HELPER_FW_LOAD_CHUNK_SZ 0)
    ((image.drop fw).take (min (image.length - fw) K.HELPER_FW_LOAD_CHUNK_SZ)),
    by simp only [if_spi_prog_helper_firmware_temp, hmin, hm, Option.map_some'], ?_⟩
  have hdl : (image.drop fw).length = image.length - fw := by simp
  simp only [store, fw_chunk]
  by_cases hb : image.length - fw < K.HELPER_FW_LOAD_CHUNK_SZ
  · have h1 : min (image.length - fw) K.HELPER_FW_LOAD_CHUNK_SZ = image.length - fw := by omega
    simp only [h1, hb, ↓reduceIte]
    have htl : ((image.drop fw).take (image.length - fw)).length = image.length - fw := by
      simp [List.length_take, hdl]
    rw [htl, List.drop_replicate]
    rw [List.take_of_length_le (by
      simp only [List.length_append, htl, List.length_replicate]
      omega)]
  · have h1 : min (image.length - fw) K.HELPER_FW_LOAD_CHUNK_SZ = K.HELPER_FW_LOAD_CHUNK_SZ := by
      omega
    simp only [h1, hb, ↓reduceIte]
    have htl : ((image.drop fw).take K.HELPER_FW_LOAD_CHUNK_SZ).length =
        K.HELPER_FW_LOAD_CHUNK_SZ := by
      simp [List.length_take, hdl]; omega
    rw [htl, List.drop_replicate]
    simp [List.take_append_eq_append_take, htl]

/-- On a device that is ready at once, the wait for command-download-ready of
the helper load returns 0. -/
theorem helper_wait_ready (K : if_spi_h) (wfuel : Nat) (hf : 0 < wfuel) (c : if_spi_card)
    (hc : helper_dev_ok K c) :
    ∃ d, spu_wait_for_u16 K wfuel c K.IF_SPI_HOST_INT_STATUS_REG
        K.IF_SPI_HIST_CMD_DOWNLOAD_RDY K.IF_SPI_HIST_CMD_DOWNLOAD_RDY = .ok (0, d) ∧
      touches read_event c d := by
  obtain ⟨h1, h2, h4⟩ := hc
  obtain ⟨d, h, _⟩ := spu_wait_for_u16_ends K c K.IF_SPI_HOST_INT_STATUS_REG
    K.IF_SPI_HIST_CMD_DOWNLOAD_RDY K.IF_SPI_HIST_CMD_DOWNLOAD_RDY wfuel 0 hf h1
    (fun i hi => absurd hi (Nat.not_lt_zero i)) (Or.inr (Or.inl (h4 _)))
  have hp0 : poll_res c K.IF_SPI_HOST_INT_STATUS_REG 0 = 0 := h2 _
  have hh0 : wait_hit (u16 K.IF_SPI_HIST_CMD_DOWNLOAD_RDY) (u16 K.IF_SPI_HIST_CMD_DOWNLOAD_RDY)
      (poll_u16 c K.IF_SPI_HOST_INT_STATUS_REG 0) := h4 _
  simp only [hp0, hh0, ne_eq, not_true_eq_false, ↓reduceIte] at h
  exact ⟨d, h, (spu_wait_for_u16_touches K _ _ _ _ _ _ _ h).1⟩

/-- One round of the helper load on a working device, with bytes left in the
image: the four writes of the round, the chunk being cut from the image at the
offset of the source pointer. -/
theorem helper_body_ok (K : if_spi_h) (wfuel : Nat) (hf : 0 < wfuel) (image : List Nat)
    (c : if_spi_card) (fw : Nat) (hc : helper_dev_ok K c)
    (heven : K.HELPER_FW_LOAD_CHUNK_SZ % 2 = 0) (hlt : fw < image.length) :
    ∃ d, if_spi_prog_helper_firmware_body K wfuel image c fw ((image.length : Int) - fw) =
        .ok (0, d) ∧ touches bus_event c d ∧
      bus_writes d.trace = bus_writes c.trace ++ helper_writes K
        [fw_chunk image fw (image.length - fw) K.HELPER_FW_LOAD_CHUNK_SZ] := by
  obtain ⟨c1, h1, ht1, hb1⟩ := spu_write_u16_sends K c K.IF_SPI_SCRATCH_1_REG
    K.HELPER_FW_LOAD_CHUNK_SZ hc.1
  have hc1 := helper_dev_ok_same K (same_dev_of_touches ht1) hc
  obtain ⟨c2, h2, ht2⟩ := helper_wait_ready K wfuel hf c1 hc1
  have hc2 := helper_dev_ok_same K (same_dev_of_touches ht2) hc1
  obtain ⟨t, htemp, hchunk⟩ := helper_temp_ok K image fw hlt
  have hte : touches read_event c2 (emit c2 (.mdelay 10)) :=
    touches_emit (touches_refl _ c2) rfl
  have hw2 : writes_ok (emit c2 (.mdelay 10)) := hc2.1
  obtain ⟨c3, h3, ht3, hb3⟩ := spu_write_sends K (emit c2 (.mdelay 10))
    K.IF_SPI_CMD_RDWRPORT_REG t K.HELPER_FW_LOAD_CHUNK_SZ hw2 heven
  obtain ⟨c4, h4, ht4, hb4⟩ := helper_signal_ok K c3 (touches_writes_ok ht3 hw2)
  refine ⟨c4, ?_, ?_, ?_⟩
  · simp only [if_spi_prog_helper_firmware_body, h1, ne_eq, not_true_eq_false, ↓reduceIte, h2,
      htemp, h3, h4]
  · exact touches_trans ht1 (touches_trans (touches_mono read_event_bus (touches_trans ht2 hte))
      (touches_trans ht3 ht4))
  · rw [hb4, hb3, touches_bus_writes hte, touches_bus_writes ht2, hb1, hchunk]
    simp [helper_writes]

/-- The chunks of `m` rounds of the helper load that start with the source
pointer at offset `fw`. -/
theorem helper_loop_sends (K : if_spi_h) (wfuel : Nat) (hf : 0 < wfuel) (image : List Nat)
    (heven : K.HELPER_FW_LOAD_CHUNK_SZ % 2 = 0) (m : Nat) :
    ∀ (fuel : Nat) (c : if_spi_card) (fw : Nat), m < fuel → helper_dev_ok K c →
      image.length ≤ fw + K.HELPER_FW_LOAD_CHUNK_SZ * m →
      (∀ j, j < m → fw + K.HELPER_FW_LOAD_CHUNK_SZ * j < image.length) →
      ∃ d, if_spi_prog_helper_firmware_loop K wfuel image fuel c fw
          ((image.length : Int) - fw) = .ok (0, d) ∧ touches bus_event c d ∧
        bus_writes d.trace = bus_writes c.trace ++
          helper_writes K ((List.range m).map (fun i =>
            fw_chunk image (fw + K.HELPER_FW_LOAD_CHUNK_SZ * i)
              (image.length - (fw + K.HELPER_FW_LOAD_CHUNK_SZ * i)) K.HELPER_FW_LOAD_CHUNK_SZ)) ++
          [(u16 K.IF_SPI_SCRATCH_1_REG, bytes_of_u16 (u16 K.FIRMWARE_DNLD_OK)),
           (u16 K.IF_SPI_HOST_INT_STATUS_REG, bytes_of_u16 0),
           (u16 K.IF_SPI_CARD_INT_CAUSE_REG,
             bytes_of_u16 (u16 K.IF_SPI_CIC_CMD_DOWNLOAD_OVER))] := by
  induction m with
  | zero =>
    intro fuel c fw hfu hc hle _
    obtain ⟨f, rfl⟩ : ∃ f, fuel = f + 1 := ⟨fuel - 1, by omega⟩
    have hnot : ¬ ((image.length : Int) - fw > 0) := by
      simp only [Nat.mul_zero, Nat.add_zero] at hle
      omega
    obtain ⟨d, hd, ht, hb⟩ := helper_done_ok K c hc.1
    refine ⟨d, by simp only [if_spi_prog_helper_firmware_loop, hnot, ↓reduceIte, hd], ht, ?_⟩
    rw [hb]
    simp [helper_writes]
  | succ m ih =>
    intro fuel c fw hfu hc hle hlt
    obtain ⟨f, rfl⟩ : ∃ f, fuel = f + 1 := ⟨fuel - 1, by omega⟩
    have h0 : fw < image.length := by
      have := hlt 0 (by omega)
      simpa using this
    have hpos : (image.length : Int) - fw > 0 := by omega
    obtain ⟨c1, h1, ht1, hb1⟩ := helper_body_ok K wfuel hf image c fw hc heven h0
    have hrem : (image.length : Int) - fw - (K.HELPER_FW_LOAD_CHUNK_SZ : Int) =
        (image.length : Int) - ((fw + K.HELPER_FW_LOAD_CHUNK_SZ : Nat) : Int) := by
      push_cast
      omega
    obtain ⟨d, hd, htd, hbd⟩ := ih f c1 (fw + K.HELPER_FW_LOAD_CHUNK_SZ) (by omega)
      (helper_dev_ok_same K (same_dev_of_touches ht1) hc)
      (by rw [Nat.mul_succ] at hle; omega)
      (fun j hj => by
        have := hlt (j + 1) (by omega)
        rw [Nat.mul_succ] at this
        omega)
    refine ⟨d, ?_, touches_trans ht1 htd, ?_⟩
    · simp only [if_spi_prog_helper_firmware_loop, hpos, ↓reduceIte, h1, ne_eq,
        not_true_eq_false, hrem]
      exact hd
    · rw [hbd, hb1, List.range_succ_eq_map]
      simp only [List.map_cons, List.map_map, helper_writes, Nat.mul_zero, Nat.add_zero,
        List.append_assoc, List.cons_append, List.nil_append]
      congr 6
      congr 1
      apply List.map_congr_left
      intro i _
      simp only [Function.comp, Nat.mul_succ]
      congr 1 <;> omega

theorem port_writes_of_bus_writes (r : Nat) (t : List Event) :
    port_writes r t = (bus_writes t).filterMap (fun p => if p.1 = r then some p.2 else none) := by
  induction t with
  | nil => rfl
  | cons e t ih =>
    have h1 : port_writes r (e :: t) = port_writes r [e] ++ port_writes r t :=
      port_writes_append r [e] t
    have h2 : bus_writes (e :: t) = bus_writes [e] ++ bus_writes t := bus_writes_append [e] t
    rw [h1, h2, List.filterMap_append, ih]
    congr 1
    cases e with
    | spi_out r2 b res =>
      by_cases hr : r2 = r <;> simp [port_writes, bus_writes, List.filterMap_cons, hr]
    | _ => simp [port_writes, bus_writes]

theorem helper_writes_port (K : if_spi_h) (chunks : List (List Nat))
    (h1 : u16 K.IF_SPI_SCRATCH_1_REG ≠ u16 K.IF_SPI_CMD_RDWRPORT_REG)
    (h2 : u16 K.IF_SPI_HOST_INT_STATUS_REG ≠ u16 K.IF_SPI_CMD_RDWRPORT_REG)
    (h3 : u16 K.IF_SPI_CARD_INT_CAUSE_REG ≠ u16 K.IF_SPI_CMD_RDWRPORT_REG) :
    (helper_writes K chunks).filterMap
      (fun p => if p.1 = u16 K.IF_SPI_CMD_RDWRPORT_REG then some p.2 else none) = chunks := by
  induction chunks with
  | nil => rfl
  | cons ch rest ih => simp [helper_writes, h1, h2, h3, ih]

/-- With working write transfers `spu_set_interrupt_mode(card, 1, 0)` is two
writes of 0 to the host interrupt status mask register. -/
theorem spu_set_interrupt_mode_sends (K : if_spi_h) (c : if_spi_card) (hw : writes_ok c) :
    ∃ d, spu_set_interrupt_mode K c 1 0 = .ok (0, d) ∧ touches bus_event c d ∧
      bus_writes d.trace = bus_writes c.trace ++
        [(u16 K.IF_SPI_HOST_INT_STATUS_MASK_REG, bytes_of_u16 0),
         (u16 K.IF_SPI_HOST_INT_STATUS_MASK_REG, bytes_of_u16 0)] := by
  obtain ⟨c1, h1, ht1, hb1⟩ := spu_write_u16_sends K c K.IF_SPI_HOST_INT_STATUS_MASK_REG 0 hw
  obtain ⟨c2, h2, ht2, hb2⟩ := spu_write_u16_sends K c1 K.IF_SPI_HOST_INT_STATUS_MASK_REG 0
    (touches_writes_ok ht1 hw)
  refine ⟨c2, ?_, touches_trans ht1 ht2, ?_⟩
  · simp only [spu_set_interrupt_mode, ne_eq, one_ne_zero, not_false_eq_true, ↓reduceIte, h1,
      not_true_eq_false, h2]
  · rw [hb2, hb1]
    simp [u16]

theorem helper_chunks_count (sz n : Nat) (hsz : 0 < sz) :
    n ≤ sz * ((n + sz - 1) / sz) ∧ ∀ j, j < (n + sz - 1) / sz → sz * j < n := by
  have hdm := Nat.div_add_mod (n + sz - 1) sz
  have hmod := Nat.mod_lt (n + sz - 1) hsz
  refine ⟨by omega, fun j hj => ?_⟩
  have h1 : sz * (j + 1) ≤ sz * ((n + sz - 1) / sz) := Nat.mul_le_mul_left sz hj
  rw [Nat.mul_succ] at h1
  omega

/-- C12: the helper firmware load for an image of `n` bytes, on a device on
which every write succeeds and every poll of the host interrupt status shows
command-download-ready, for an even, non-zero chunk size
`HELPER_FW_LOAD_CHUNK_SZ` (64 in the specification).  The load returns 0 and
its payload writes are, in order: the two writes of
`spu_set_interrupt_mode`; for each of the `ceil(n / HELPER_FW_LOAD_CHUNK_SZ)`
chunks, the chunk size to scratch register 1, the chunk to the command port
and a download-over cause signal, chunk `i` being of exactly
`HELPER_FW_LOAD_CHUNK_SZ` bytes and holding the image bytes from offset
`HELPER_FW_LOAD_CHUNK_SZ * i` followed by zeros; then `FIRMWARE_DNLD_OK` to
scratch register 1 and one more download-over cause signal.  Where the
command port is distinct from the other registers written, the payloads on the
command port are exactly these chunks (none for an empty image). -/
theorem helper_firmware_chunks (K : if_spi_h) (fuel wfuel : Nat) (c : if_spi_card)
    (image : List Nat) (hsz : 0 < K.HELPER_FW_LOAD_CHUNK_SZ)
    (heven : K.HELPER_FW_LOAD_CHUNK_SZ % 2 = 0)
    (hfuel : (image.length + K.HELPER_FW_LOAD_CHUNK_SZ - 1) / K.HELPER_FW_LOAD_CHUNK_SZ < fuel)
    (hwf : 0 < wfuel) (_hsize : image.length < 2147483648) (hc : helper_dev_ok K c)
    (himg : c.sys.firmware c.helper_fw_name = (0, image)) :
    ∃ d, if_spi_prog_helper_firmware K fuel wfuel c = .ok (0, d) ∧
      bus_writes d.trace = bus_writes c.trace ++
        [(u16 K.IF_SPI_HOST_INT_STATUS_MASK_REG, bytes_of_u16 0),
         (u16 K.IF_SPI_HOST_INT_STATUS_MASK_REG, bytes_of_u16 0)] ++
        helper_writes K (helper_chunks K image) ++
        [(u16 K.IF_SPI_SCRATCH_1_REG, bytes_of_u16 (u16 K.FIRMWARE_DNLD_OK)),
         (u16 K.IF_SPI_HOST_INT_STATUS_REG, bytes_of_u16 0),
         (u16 K.IF_SPI_CARD_INT_CAUSE_REG, bytes_of_u16 (u16 K.IF_SPI_CIC_CMD_DOWNLOAD_OVER))] ∧
      (helper_chunks K image).length =
        (image.length + K.HELPER_FW_LOAD_CHUNK_SZ - 1) / K.HELPER_FW_LOAD_CHUNK_SZ ∧
      (∀ ch ∈ helper_chunks K image, ch.length = K.HELPER_FW_LOAD_CHUNK_SZ) ∧
      (u16 K.IF_SPI_HOST_INT_STATUS_MASK_REG ≠ u16 K.IF_SPI_CMD_RDWRPORT_REG →
        u16 K.IF_SPI_SCRATCH_1_REG ≠ u16 K.IF_SPI_CMD_RDWRPORT_REG →
        u16 K.IF_SPI_HOST_INT_STATUS_REG ≠ u16 K.IF_SPI_CMD_RDWRPORT_REG →
        u16 K.IF_SPI_CARD_INT_CAUSE_REG ≠ u16 K.IF_SPI_CMD_RDWRPORT_REG →
        cmd_chunks K d = cmd_chunks K c ++ helper_chunks K image) := by
  obtain ⟨c1, h1, ht1, hb1⟩ := spu_set_interrupt_mode_sends K c hc.1
  have hc1 := helper_dev_ok_same K (same_dev_of_touches ht1) hc
  have himg1 : c1.sys.firmware c1.helper_fw_name = (0, image) := by
    obtain ⟨a, b, n, t, u, rfl, _⟩ := ht1
    exact himg
  obtain ⟨hcnt1, hcnt2⟩ := helper_chunks_count K.HELPER_FW_LOAD_CHUNK_SZ image.length hsz
  obtain ⟨d, hd, _, hbd⟩ := helper_loop_sends K wfuel hwf image heven
    ((image.length + K.HELPER_FW_LOAD_CHUNK_SZ - 1) / K.HELPER_FW_LOAD_CHUNK_SZ) fuel c1 0 hfuel hc1
    (by simpa using hcnt1) (fun j hj => by simpa using hcnt2 j hj)
  have hch : (List.range ((image.length + K.HELPER_FW_LOAD_CHUNK_SZ - 1) /
      K.HELPER_FW_LOAD_CHUNK_SZ)).map (fun i =>
        fw_chunk image (0 + K.HELPER_FW_LOAD_CHUNK_SZ * i)
          (image.length - (0 + K.HELPER_FW_LOAD_CHUNK_SZ * i)) K.HELPER_FW_LOAD_CHUNK_SZ) =
      helper_chunks K image := by
    simp [helper_chunks]
  rw [hch] at hbd
  have hres : if_spi_prog_helper_firmware K fuel wfuel c = .ok (0, d) := by
    have hd2 : if_spi_prog_helper_firmware_loop K wfuel image fuel c1 0 (image.length : Int) =
        .ok (0, d) := by
      have : (image.length : Int) - ((0 : Nat) : Int) = (image.length : Int) := by simp
      rw [this] at hd
      exact hd
    simp only [if_spi_prog_helper_firmware, h1, ne_eq, not_true_eq_false, ↓reduceIte, himg1, hd2,
      if_spi_prog_helper_firmware_out]
  have hall : bus_writes d.trace = bus_writes c.trace ++
        [(u16 K.IF_SPI_HOST_INT_STATUS_MASK_REG, bytes_of_u16 0),
         (u16 K.IF_SPI_HOST_INT_STATUS_MASK_REG, bytes_of_u16 0)] ++
        helper_writes K (helper_chunks K image) ++
        [(u16 K.IF_SPI_SCRATCH_1_REG, bytes_of_u16 (u16 K.FIRMWARE_DNLD_OK)),
         (u16 K.IF_SPI_HOST_INT_STATUS_REG, bytes_of_u16 0),
         (u16 K.IF_SPI_CARD_INT_CAUSE_REG, bytes_of_u16 (u16 K.IF_SPI_CIC_CMD_DOWNLOAD_OVER))] := by
    rw [hbd, hb1]
  refine ⟨d, hres, hall, by simp [helper_chunks], ?_, fun m1 m2 m3 m4 => ?_⟩
  · intro ch hch
    simp only [helper_chunks, List.mem_map, List.mem_range] at hch
    obtain ⟨i, _, rfl⟩ := hch
    simp only [fw_chunk]
    split
    · simp [List.length_take, List.length_drop]
      omega
    · simp [List.length_take, List.length_drop]
      omega
  · simp only [cmd_chunks, port_writes_of_bus_writes, hall, List.filterMap_append,
      helper_writes_port K _ m2 m3 m4]
    simp [m1, m2, m3, m4]

theorem helper_card_ok : helper_dev_ok sample_h helper_card := by
  refine ⟨fun _ => rfl, fun _ => rfl, fun k => ?_⟩
  have : rd_u16 helper_card.spi (u16 sample_h.IF_SPI_HOST_INT_STATUS_REG) k = 4 := rfl
  rw [this]
  decide

/-- C12, for an image of 70 bytes and the chunk size 64: two chunks of 64
bytes on the command port, the second one holding the last six bytes of the
image followed by 58 zeros. -/
theorem helper_firmware_chunks_witness :
    ∃ d, if_spi_prog_helper_firmware sample_h 3 1 helper_card = .ok (0, d) ∧
      cmd_chunks sample_h d =
        [List.range 64, [64, 65, 66, 67, 68, 69] ++ List.replicate 58 0] := by
  obtain ⟨d, h, _, _, _, hk⟩ := helper_firmware_chunks sample_h 3 1 helper_card (List.range 70)
    (by decide) (by decide) (by decide) (by decide) (by decide) helper_card_ok rfl
  exact ⟨d, h, (hk (by decide) (by decide) (by decide) (by decide)).trans (by decide)⟩

/-- A run whose value is known has returned. -/
theorem value_of_some {α : Type} (r : Run α) (a : α) (h : value_of r = some a) :
    ∃ d, r = .ok (a, d) := by
  cases r with
  | error x => simp [value_of] at h
  | ok x =>
    obtain ⟨v, d⟩ := x
    simp only [value_of, Option.some.injEq] at h
    exact ⟨d, by rw [h]⟩

/-- A run whose value is known has returned, in the state `state_of` gives. -/
theorem value_of_state {α : Type} (r : Run α) (a : α) (c : if_spi_card)
    (h : value_of r = some a) : r = .ok (a, state_of r c) := by
  cases r with
  | error x => simp [value_of] at h
  | ok x =>
    obtain ⟨v, d⟩ := x
    simp only [value_of, Option.some.injEq] at h
    rw [h]
    rfl

theorem halt_of_error {α : Type} (r : Except Halt α) (x : Halt) (h : halt_of r = some x) :
    r = .error x := by
  cases r with
  | error y =>
    simp only [halt_of, Option.some.injEq] at h
    rw [h]
  | ok y => simp [halt_of] at h

theorem grows_refl (P : Event → Bool) (c : if_spi_card) : grows P c c :=
  ⟨rfl, rfl, rfl, [], by simp, by simp⟩

theorem grows_trans {P : Event → Bool} {c d e : if_spi_card} (h1 : grows P c d)
    (h2 : grows P d e) : grows P c e := by
  obtain ⟨a1, a2, a3, u, a4, a5⟩ := h1
  obtain ⟨b1, b2, b3, v, b4, b5⟩ := h2
  refine ⟨b1.trans a1, b2.trans a2, b3.trans a3, u ++ v, by rw [b4, a4, List.append_assoc], ?_⟩
  intro x hx
  rcases List.mem_append.1 hx with h | h
  · exact a5 x h
  · exact b5 x h

theorem grows_mono {P Q : Event → Bool} (hPQ : ∀ e, P e = true → Q e = true)
    {c d : if_spi_card} (h : grows P c d) : grows Q c d := by
  obtain ⟨a1, a2, a3, u, a4, a5⟩ := h
  exact ⟨a1, a2, a3, u, a4, fun e he => hPQ e (a5 e he)⟩

theorem grows_of_touches {P : Event → Bool} {c d : if_spi_card} (h : touches P c d) :
    grows P c d := by
  obtain ⟨a, b, n, t, u, rfl, hu⟩ := h
  exact ⟨rfl, rfl, rfl, u, rfl, hu⟩

theorem grows_emit {P : Event → Bool} (c : if_spi_card) (e : Event) (he : P e = true) :
    grows P c (emit c e) :=
  ⟨rfl, rfl, rfl, [e], rfl, by simpa using he⟩

/-- A change of fields other than the queues, `run_thread` and the trace. -/
theorem grows_fields (P : Event → Bool) (c d : if_spi_card)
    (h1 : d.cmd_packet_list = c.cmd_packet_list) (h2 : d.data_packet_list = c.data_packet_list)
    (h3 : d.run_thread = c.run_thread) (h4 : d.trace = c.trace) : grows P c d :=
  ⟨h1, h2, h3, [], by simp [h4], by simp⟩

theorem grows_filterMap {α : Type} {P : Event → Bool} (f : Event → Option α)
    (hf : ∀ e, P e = true → f e = none) {c d : if_spi_card} (h : grows P c d) :
    d.trace.filterMap f = c.trace.filterMap f := by
  obtain ⟨_, _, _, u, hu, hall⟩ := h
  have hnil : u.filterMap f = [] := by
    rw [List.filterMap_eq_nil_iff]
    exact fun e he => hf e (hall e he)
  simp [hu, List.filterMap_append, hnil]

theorem bus_event_transfer (e : Event) (h : bus_event e = true) : transfer_event e = true := by
  cases e <;> first | rfl | simp [bus_event] at h

theorem read_event_transfer (e : Event) (h : read_event e = true) : transfer_event e = true :=
  bus_event_transfer e (read_event_bus e h)

theorem grows_read {c d : if_spi_card} (h : touches read_event c d) : grows transfer_event c d :=
  grows_mono read_event_transfer (grows_of_touches h)

theorem grows_bus {c d : if_spi_card} (h : touches bus_event c d) : grows transfer_event c d :=
  grows_mono bus_event_transfer (grows_of_touches h)

theorem grows_queue_events {c d : if_spi_card} (h : grows transfer_event c d) :
    queue_events d.trace = queue_events c.trace :=
  grows_filterMap _ (fun e he => by cases e <;> first | rfl | simp [transfer_event, bus_event] at he) h

theorem grows_bus_reads {c d : if_spi_card} (h : grows quiet_event c d) :
    bus_reads d.trace = bus_reads c.trace :=
  grows_filterMap _ (fun e he => by
    cases e <;> first | rfl | simp [quiet_event, read_event, bus_event] at he) h

theorem if_spi_c2h_out_grows (c : if_spi_card) (err : Int) (r : Int) (d : if_spi_card)
    (h : if_spi_c2h_out c err = .ok (r, d)) : grows transfer_event c d := by
  unfold if_spi_c2h_out at h
  simp only [Except.ok.injEq, Prod.mk.injEq] at h
  rw [← h.2]
  split
  · exact grows_emit c (.pr_err err) rfl
  · exact grows_refl _ c

theorem if_spi_c2h_cmd_notify_grows (K : if_spi_h) (c : if_spi_card) (i len : Nat) (r : Int)
    (d : if_spi_card) (h : if_spi_c2h_cmd_notify K c i len = .ok (r, d)) :
    grows transfer_event c d := by
  unfold if_spi_c2h_cmd_notify at h
  split at h
  · simp at h
  split at h
  · simp at h
  refine grows_trans ?_ (if_spi_c2h_out_grows _ _ _ _ h)
  exact ⟨rfl, rfl, rfl, [.lbs_notify_command_response i], rfl, by simp [transfer_event]⟩

/-- `if_spi_c2h_cmd` leaves the queues and `run_thread` alone and adds only
bus events and notifications to the trace. -/
theorem if_spi_c2h_cmd_grows (K : if_spi_h) (c : if_spi_card) (err : Int) (d : if_spi_card)
    (h : if_spi_c2h_cmd K c = .ok (err, d)) : grows transfer_event c d := by
  obtain ⟨⟨e1, len⟩, c1, h1, ht1, _⟩ := spu_read_u16_touches K c K.IF_SPI_SCRATCH_2_REG
  have q1 := grows_read ht1
  unfold if_spi_c2h_cmd at h
  simp only [h1] at h
  split at h
  · exact grows_trans q1 (if_spi_c2h_out_grows _ _ _ _ h)
  · split at h
    · exact grows_trans q1 (grows_trans (grows_emit _ (.pr_err _) rfl)
        (if_spi_c2h_out_grows _ _ _ _ h))
    · split at h
      · exact grows_trans q1 (grows_trans (grows_emit _ (.pr_err _) rfl)
          (if_spi_c2h_out_grows _ _ _ _ h))
      · cases hr : spu_read K c1 K.IF_SPI_CMD_RDWRPORT_REG c1.cmd_buffer (ALIGN len 4) with
        | error x => simp [hr] at h
        | ok x =>
          obtain ⟨⟨e2, buf⟩, c2⟩ := x
          have q2 := grows_read (spu_read_touches K c1 _ _ _ _ c2 hr).1
          have q3 : grows transfer_event c2 { c2 with cmd_buffer := buf } :=
            grows_fields _ _ _ rfl rfl rfl rfl
          simp only [hr] at h
          split at h
          · exact grows_trans q1 (grows_trans q2 (grows_trans q3 (if_spi_c2h_out_grows _ _ _ _ h)))
          · exact grows_trans q1 (grows_trans q2 (grows_trans q3
              (if_spi_c2h_cmd_notify_grows _ _ _ _ _ _ h)))

theorem if_spi_c2h_data_rx_grows (c : if_spi_card) (data : List Nat) (len : Nat) (r : Int)
    (d : if_spi_card) (h : if_spi_c2h_data_rx c data len = .ok (r, d)) :
    grows transfer_event c d := by
  unfold if_spi_c2h_data_rx at h
  simp only [] at h
  have q0 : grows transfer_event c (emit { c with sys := { c.sys with nrx := c.sys.nrx + 1 } }
      (.lbs_process_rxed_packet (data.take len) (c.sys.rx_res c.sys.nrx))) :=
    ⟨rfl, rfl, rfl, [.lbs_process_rxed_packet (data.take len) (c.sys.rx_res c.sys.nrx)], rfl,
      by simp [transfer_event]⟩
  split at h
  · exact grows_trans q0 (grows_trans (grows_emit _ .dev_kfree_skb rfl)
      (if_spi_c2h_out_grows _ _ _ _ h))
  · exact grows_trans q0 (if_spi_c2h_out_grows _ _ _ _ h)

/-- `if_spi_c2h_data` leaves the queues and `run_thread` alone and adds only
bus events and notifications to the trace. -/
theorem if_spi_c2h_data_grows (K : if_spi_h) (c : if_spi_card) (err : Int) (d : if_spi_card)
    (h : if_spi_c2h_data K c = .ok (err, d)) : grows transfer_event c d := by
  obtain ⟨⟨e1, len⟩, c1, h1, ht1, _⟩ := spu_read_u16_touches K c K.IF_SPI_SCRATCH_1_REG
  have q1 := grows_read ht1
  unfold if_spi_c2h_data at h
  simp only [h1] at h
  split at h
  · exact grows_trans q1 (if_spi_c2h_out_grows _ _ _ _ h)
  · split at h
    · exact grows_trans q1 (grows_trans (grows_emit _ (.pr_err _) rfl)
        (if_spi_c2h_out_grows _ _ _ _ h))
    · split at h
      · exact grows_trans q1 (grows_trans (grows_emit _ (.pr_err _) rfl)
          (if_spi_c2h_out_grows _ _ _ _ h))
      · have qa : grows transfer_event c1
            { c1 with sys := { c1.sys with nalloc := c1.sys.nalloc + 1 } } :=
          grows_fields _ _ _ rfl rfl rfl rfl
        split at h
        · exact grows_trans q1 (grows_trans qa (if_spi_c2h_out_grows _ _ _ _ h))
        split at h
        · simp at h
        cases hr : spu_read K { c1 with sys := { c1.sys with nalloc := c1.sys.nalloc + 1 } }
            K.IF_SPI_DATA_RDWRPORT_REG
            (List.replicate (K.MRVDRV_ETH_RX_PACKET_BUFFER_SIZE - K.IPFIELD_ALIGN_OFFSET) 0)
            (ALIGN len 4) with
        | error x => simp [hr] at h
        | ok x =>
          obtain ⟨⟨e2, buf⟩, c2⟩ := x
          have q2 := grows_read (spu_read_touches K _ _ _ _ _ c2 hr).1
          simp only [hr] at h
          split at h
          · exact grows_trans q1 (grows_trans qa (grows_trans q2
              (grows_trans (grows_emit _ .dev_kfree_skb rfl) (if_spi_c2h_out_grows _ _ _ _ h))))
          split at h
          · simp at h
          exact grows_trans q1 (grows_trans qa (grows_trans q2
            (if_spi_c2h_data_rx_grows _ _ _ _ _ h)))

/-- `if_spi_e2h` leaves the queues and `run_thread` alone and adds only bus
events and a card event to the trace. -/
theorem if_spi_e2h_grows (K : if_spi_h) (c : if_spi_card) (d : if_spi_card)
    (h : if_spi_e2h K c = .ok ((), d)) : grows transfer_event c d := by
  obtain ⟨⟨e1, cause⟩, c1, h1, ht1, _⟩ := spu_read_u32_touches K c K.IF_SPI_SCRATCH_3_REG 0
  have q1 := grows_read ht1
  unfold if_spi_e2h at h
  simp only [h1] at h
  split at h
  · simp only [Except.ok.injEq, Prod.mk.injEq, true_and] at h
    rw [← h]
    exact grows_trans q1 (grows_emit _ (.pr_err _) rfl)
  · simp only [Except.ok.injEq, Prod.mk.injEq, true_and] at h
    rw [← h]
    exact grows_trans q1 (grows_emit _ (.lbs_queue_event _) rfl)

theorem lbs_spi_thread_err_grows (c : if_spi_card) (err r : Int) (d : if_spi_card)
    (h : lbs_spi_thread_err c err = .ok (r, d)) : grows transfer_event c d := by
  unfold lbs_spi_thread_err at h
  simp only [Except.ok.injEq, Prod.mk.injEq] at h
  rw [← h.2]
  split
  · exact grows_emit c (.pr_err err) rfl
  · exact grows_refl _ c

theorem if_spi_h2c_out_grows (c : if_spi_card) (p : if_spi_packet) (err : Int)
    (d : if_spi_card) (h : if_spi_h2c_out c p err = .ok ((), d)) : grows transfer_event c d := by
  unfold if_spi_h2c_out at h
  simp only [Except.ok.injEq, Prod.mk.injEq, true_and] at h
  rw [← h]
  split
  · exact grows_trans (grows_emit c (.kfree p) rfl) (grows_emit _ (.pr_err err) rfl)
  · exact grows_emit c (.kfree p) rfl

/-- After its hand-over event `if_spi_h2c` adds only bus events and the
release of the packet to the trace. -/
theorem if_spi_h2c_grows (K : if_spi_h) (c : if_spi_card) (p : if_spi_packet) (type : Int)
    (d : if_spi_card) (h : if_spi_h2c K c p type = .ok ((), d)) :
    grows transfer_event (emit c (.h2c type.toNat p)) d := by
  unfold if_spi_h2c at h
  simp only [] at h
  split at h
  · cases hw : spu_write K (emit c (.h2c type.toNat p)) K.IF_SPI_DATA_RDWRPORT_REG
        p.buffer p.blen with
    | error x => simp [hw] at h
    | ok x =>
      obtain ⟨e, c1⟩ := x
      simp only [hw] at h
      exact grows_trans (grows_bus (spu_write_touches K _ _ _ _ _ _ hw).1)
        (if_spi_h2c_out_grows _ _ _ _ h)
  · split at h
    · cases hw : spu_write K (emit c (.h2c type.toNat p)) K.IF_SPI_CMD_RDWRPORT_REG
          p.buffer p.blen with
      | error x => simp [hw] at h
      | ok x =>
        obtain ⟨e, c1⟩ := x
        simp only [hw] at h
        exact grows_trans (grows_bus (spu_write_touches K _ _ _ _ _ _ hw).1)
          (if_spi_h2c_out_grows _ _ _ _ h)
    · exact grows_trans (grows_emit _ (.pr_err _) rfl) (if_spi_h2c_out_grows _ _ _ _ h)

theorem queue_events_append (u v : List Event) :
    queue_events (u ++ v) = queue_events u ++ queue_events v := by
  simp [queue_events]

/-- With command packets of even length, the command-download block calls
`lbs_host_to_card_done` and then hands over the head of the command list, if
there is one. -/
theorem lbs_spi_thread_cmd_download_queue (K : if_spi_h) (c : if_spi_card)
    (hc : ∀ p ∈ c.cmd_packet_list, p.blen % 2 = 0) :
    ∃ d, lbs_spi_thread_cmd_download K c = .ok ((), d) ∧
      queue_events d.trace = queue_events c.trace ++ Event.lbs_host_to_card_done ::
        c.cmd_packet_list.head?.toList.map (Event.h2c K.MVMS_CMD) ∧
      d.cmd_packet_list = c.cmd_packet_list.tail ∧
      d.data_packet_list = c.data_packet_list := by
  obtain ⟨d, h, hd⟩ := lbs_spi_thread_cmd_download_returns K c hc
  refine ⟨d, h, ?_, ?_, hd⟩
  · unfold lbs_spi_thread_cmd_download at h
    simp only [] at h
    cases hl : c.cmd_packet_list with
    | nil =>
      have : (emit c .lbs_host_to_card_done).cmd_packet_list = [] := hl
      simp only [this, Except.ok.injEq, Prod.mk.injEq, true_and] at h
      rw [← h]
      simp [emit, queue_events]
    | cons p rest =>
      have : (emit c .lbs_host_to_card_done).cmd_packet_list = p :: rest := hl
      simp only [this] at h
      rw [grows_queue_events (if_spi_h2c_grows K _ p _ d h)]
      simp [emit, queue_events]
  · unfold lbs_spi_thread_cmd_download at h
    simp only [] at h
    cases hl : c.cmd_packet_list with
    | nil =>
      have : (emit c .lbs_host_to_card_done).cmd_packet_list = [] := hl
      simp only [this, Except.ok.injEq, Prod.mk.injEq, true_and] at h
      rw [← h]
      exact hl
    | cons p rest =>
      have : (emit c .lbs_host_to_card_done).cmd_packet_list = p :: rest := hl
      simp only [this] at h
      rw [(if_spi_h2c_effect K _ p _ d h).1]
      rfl

/-- With data packets of even length, the data-download block hands over the
head of the data list, if there is one. -/
theorem lbs_spi_thread_tx_download_queue (K : if_spi_h) (c : if_spi_card)
    (hc : ∀ p ∈ c.data_packet_list, p.blen % 2 = 0) :
    ∃ d, lbs_spi_thread_tx_download K c = .ok ((), d) ∧
      queue_events d.trace = queue_events c.trace ++
        c.data_packet_list.head?.toList.map (Event.h2c K.MVMS_DAT) ∧
      d.data_packet_list = c.data_packet_list.tail ∧
      d.cmd_packet_list = c.cmd_packet_list := by
  obtain ⟨d, h⟩ := lbs_spi_thread_tx_download_returns K c hc
  refine ⟨d, h, ?_⟩
  unfold lbs_spi_thread_tx_download at h
  cases hl : c.data_packet_list with
  | nil =>
    simp only [hl, Except.ok.injEq, Prod.mk.injEq, true_and] at h
    rw [← h]
    simp [hl]
  | cons p rest =>
    simp only [hl] at h
    obtain ⟨e1, e2, _⟩ := if_spi_h2c_effect K _ p _ d h
    refine ⟨?_, ?_, ?_⟩
    · rw [grows_queue_events (if_spi_h2c_grows K _ p _ d h)]
      simp [emit, queue_events]
    · rw [e2]
      rfl
    · rw [e1]

/-- The command-download block leaves the data list alone. -/
theorem lbs_spi_thread_cmd_download_data (K : if_spi_h) (c d : if_spi_card)
    (h : lbs_spi_thread_cmd_download K c = .ok ((), d)) :
    d.data_packet_list = c.data_packet_list := by
  unfold lbs_spi_thread_cmd_download at h
  simp only [] at h
  cases hl : c.cmd_packet_list with
  | nil =>
    have : (emit c .lbs_host_to_card_done).cmd_packet_list = [] := hl
    simp only [this, Except.ok.injEq, Prod.mk.injEq, true_and] at h
    rw [← h]
    rfl
  | cons p rest =>
    have : (emit c .lbs_host_to_card_done).cmd_packet_list = p :: rest := hl
    simp only [this] at h
    rw [(if_spi_h2c_effect K _ p _ d h).2.1]
    rfl

/-- The data-download block leaves the command list alone. -/
theorem lbs_spi_thread_tx_download_cmd (K : if_spi_h) (c d : if_spi_card)
    (h : lbs_spi_thread_tx_download K c = .ok ((), d)) :
    d.cmd_packet_list = c.cmd_packet_list := by
  unfold lbs_spi_thread_tx_download at h
  cases hl : c.data_packet_list with
  | nil =>
    simp only [hl, Except.ok.injEq, Prod.mk.injEq, true_and] at h
    rw [← h]
  | cons p rest =>
    simp only [hl] at h
    rw [(if_spi_h2c_effect K _ p _ d h).1]

/-- Every pass of the dispatch leaves alone a list whose download-ready bit is
clear in the status it read. -/
theorem lbs_spi_thread_dispatch_clear (K : if_spi_h) (c c1 : if_spi_card) (e0 : Int)
    (hi : Nat) (h1 : spu_read_u16 K c K.IF_SPI_HOST_INT_STATUS_REG = .ok ((e0, hi), c1))
    (r : Int) (d : if_spi_card) (h : lbs_spi_thread_dispatch K c = .ok (r, d)) :
    (hi &&& K.IF_SPI_HIST_CMD_DOWNLOAD_RDY = 0 → d.cmd_packet_list = c.cmd_packet_list) ∧
    (hi &&& K.IF_SPI_HIST_TX_DOWNLOAD_RDY = 0 → d.data_packet_list = c.data_packet_list) := by
  have ht1 : touches read_event c c1 := by
    obtain ⟨r2, c2, h2, ht, _⟩ := spu_read_u16_touches K c K.IF_SPI_HOST_INT_STATUS_REG
    rw [h1] at h2
    simp only [Except.ok.injEq, Prod.mk.injEq] at h2
    rw [h2.2]
    exact ht
  have q1 := grows_read ht1
  have fin : ∀ m, grows transfer_event c m → grows transfer_event m d →
      (hi &&& K.IF_SPI_HIST_CMD_DOWNLOAD_RDY = 0 → d.cmd_packet_list = c.cmd_packet_list) ∧
      (hi &&& K.IF_SPI_HIST_TX_DOWNLOAD_RDY = 0 → d.data_packet_list = c.data_packet_list) := by
    intro m g1 g2
    have g := grows_trans g1 g2
    exact ⟨fun _ => g.1, fun _ => g.2.1⟩
  unfold lbs_spi_thread_dispatch at h
  simp only [h1] at h
  split at h
  · exact fin _ (grows_trans q1 (grows_emit _ (.pr_err _) rfl)) (lbs_spi_thread_err_grows _ _ _ _ h)
  · cases hr1 : (if hi &&& K.IF_SPI_HIST_CMD_UPLOAD_RDY ≠ 0 then if_spi_c2h_cmd K c1
        else .ok (e0, c1)) with
    | error x => simp [hr1] at h
    | ok x =>
      obtain ⟨err1, c2⟩ := x
      have q2 : grows transfer_event c1 c2 := by
        split at hr1
        · exact if_spi_c2h_cmd_grows K c1 err1 c2 hr1
        · simp only [Except.ok.injEq, Prod.mk.injEq] at hr1
          rw [← hr1.2]
          exact grows_refl _ c1
      simp only [hr1] at h
      split at h
      · exact fin _ (grows_trans q1 q2) (lbs_spi_thread_err_grows _ _ _ _ h)
      · cases hr2 : (if hi &&& K.IF_SPI_HIST_RX_UPLOAD_RDY ≠ 0 then if_spi_c2h_data K c2
            else .ok (err1, c2)) with
        | error x => simp [hr2] at h
        | ok x =>
          obtain ⟨err2, c3⟩ := x
          have q3 : grows transfer_event c2 c3 := by
            split at hr2
            · exact if_spi_c2h_data_grows K c2 err2 c3 hr2
            · simp only [Except.ok.injEq, Prod.mk.injEq] at hr2
              rw [← hr2.2]
              exact grows_refl _ c2
          have q13 := grows_trans q1 (grows_trans q2 q3)
          simp only [hr2] at h
          split at h
          · exact fin _ q13 (lbs_spi_thread_err_grows _ _ _ _ h)
          · cases hr3 : (if hi &&& K.IF_SPI_HIST_CMD_DOWNLOAD_RDY ≠ 0 then
                lbs_spi_thread_cmd_download K c3 else .ok ((), c3)) with
            | error x => simp [hr3] at h
            | ok x =>
              obtain ⟨_, c4⟩ := x
              have q4 : c4.data_packet_list = c3.data_packet_list ∧
                  (hi &&& K.IF_SPI_HIST_CMD_DOWNLOAD_RDY = 0 →
                    c4.cmd_packet_list = c3.cmd_packet_list) := by
                split at hr3
                · rename_i hb
                  exact ⟨lbs_spi_thread_cmd_download_data K c3 c4 hr3, fun hz => absurd hz hb⟩
                · simp only [Except.ok.injEq, Prod.mk.injEq, true_and] at hr3
                  rw [← hr3]
                  exact ⟨rfl, fun _ => rfl⟩
              simp only [hr3] at h
              cases hr4 : (if hi &&& K.IF_SPI_HIST_TX_DOWNLOAD_RDY ≠ 0 then
                  lbs_spi_thread_tx_download K c4 else .ok ((), c4)) with
              | error x => simp [hr4] at h
              | ok x =>
                obtain ⟨_, c5⟩ := x
                have q5 : c5.cmd_packet_list = c4.cmd_packet_list ∧
                    (hi &&& K.IF_SPI_HIST_TX_DOWNLOAD_RDY = 0 →
                      c5.data_packet_list = c4.data_packet_list) := by
                  split at hr4
                  · rename_i hb
                    exact ⟨lbs_spi_thread_tx_download_cmd K c4 c5 hr4, fun hz => absurd hz hb⟩
                  · simp only [Except.ok.injEq, Prod.mk.injEq, true_and] at hr4
                    rw [← hr4]
                    exact ⟨rfl, fun _ => rfl⟩
                simp only [hr4] at h
                cases hr5 : (if hi &&& K.IF_SPI_HIST_CARD_EVENT ≠ 0 then if_spi_e2h K c5
                    else .ok ((), c5)) with
                | error x => simp [hr5] at h
                | ok x =>
                  obtain ⟨_, c6⟩ := x
                  have q6 : grows transfer_event c5 c6 := by
                    split at hr5
                    · exact if_spi_e2h_grows K c5 c6 hr5
                    · simp only [Except.ok.injEq, Prod.mk.injEq, true_and] at hr5
                      rw [← hr5]
                      exact grows_refl _ c5
                  simp only [hr5] at h
                  have q7 := grows_trans q6 (lbs_spi_thread_err_grows _ _ _ _ h)
                  refine ⟨fun hz => ?_, fun hz => ?_⟩
                  · rw [q7.1, q5.1, q4.2 hz, q13.1]
                  · rw [q7.2.1, q5.2 hz, q4.1, q13.2.1]

/-- C22: one pass of the dispatch of `lbs_spi_thread` whose status read
returns `hi` with the command-download-ready bit set, whose upload branches (if
taken) return 0, with packets of even length queued.  The pass returns 0; it
calls `lbs_host_to_card_done` exactly once, before any hand-over and whether or
not the command list is empty; then it hands the head of the command list, if
any, to `if_spi_h2c` as `MVMS_CMD` and, only when the data-download-ready bit is
set, the head of the data list as `MVMS_DAT`; it makes no other hand-over.  The
command list loses its head and the data list loses its head exactly when its
bit is set.  On every card and in every pass that returns, a list whose bit is
clear in the status read is unchanged. -/
theorem lbs_spi_thread_cmd_download_once (K : if_spi_h) (c c1 c2 c3 : if_spi_card) (hi : Nat)
    (h1 : spu_read_u16 K c K.IF_SPI_HOST_INT_STATUS_REG = .ok ((0, hi), c1))
    (h2 : (if hi &&& K.IF_SPI_HIST_CMD_UPLOAD_RDY ≠ 0 then if_spi_c2h_cmd K c1
      else .ok (0, c1)) = .ok (0, c2))
    (h3 : (if hi &&& K.IF_SPI_HIST_RX_UPLOAD_RDY ≠ 0 then if_spi_c2h_data K c2
      else .ok (0, c2)) = .ok (0, c3))
    (hbit : hi &&& K.IF_SPI_HIST_CMD_DOWNLOAD_RDY ≠ 0)
    (hcmd : ∀ p ∈ c.cmd_packet_list, p.blen % 2 = 0)
    (hdat : ∀ p ∈ c.data_packet_list, p.blen % 2 = 0) :
    (∃ d, lbs_spi_thread_dispatch K c = .ok (0, d) ∧
      queue_events d.trace = queue_events c.trace ++ Event.lbs_host_to_card_done ::
        (c.cmd_packet_list.head?.toList.map (Event.h2c K.MVMS_CMD) ++
          if hi &&& K.IF_SPI_HIST_TX_DOWNLOAD_RDY ≠ 0 then
            c.data_packet_list.head?.toList.map (Event.h2c K.MVMS_DAT) else []) ∧
      d.cmd_packet_list = c.cmd_packet_list.tail ∧
      d.data_packet_list = (if hi &&& K.IF_SPI_HIST_TX_DOWNLOAD_RDY ≠ 0 then
        c.data_packet_list.tail else c.data_packet_list)) ∧
    (∀ (b b1 : if_spi_card) (e : Int) (hj : Nat) (r : Int) (d : if_spi_card),
      spu_read_u16 K b K.IF_SPI_HOST_INT_STATUS_REG = .ok ((e, hj), b1) →
      lbs_spi_thread_dispatch K b = .ok (r, d) →
      (hj &&& K.IF_SPI_HIST_CMD_DOWNLOAD_RDY = 0 → d.cmd_packet_list = b.cmd_packet_list) ∧
      (hj &&& K.IF_SPI_HIST_TX_DOWNLOAD_RDY = 0 →
        d.data_packet_list = b.data_packet_list)) := by
  refine ⟨?_, fun b b1 e hj r d hb hd => lbs_spi_thread_dispatch_clear K b b1 e hj hb r d hd⟩
  have ht1 : touches read_event c c1 := by
    obtain ⟨r2, b2, hb2, ht, _⟩ := spu_read_u16_touches K c K.IF_SPI_HOST_INT_STATUS_REG
    rw [h1] at hb2
    simp only [Except.ok.injEq, Prod.mk.injEq] at hb2
    rw [hb2.2]
    exact ht
  have g2 : grows transfer_event c1 c2 := by
    split at h2
    · exact if_spi_c2h_cmd_grows K c1 0 c2 h2
    · simp only [Except.ok.injEq, Prod.mk.injEq, true_and] at h2
      rw [← h2]
      exact grows_refl _ c1
  have g3 : grows transfer_event c2 c3 := by
    split at h3
    · exact if_spi_c2h_data_grows K c2 0 c3 h3
    · simp only [Except.ok.injEq, Prod.mk.injEq, true_and] at h3
      rw [← h3]
      exact grows_refl _ c2
  have g13 := grows_trans (grows_read ht1) (grows_trans g2 g3)
  have e13 := grows_queue_events g13
  obtain ⟨c4, h4, q4, l4, d4⟩ := lbs_spi_thread_cmd_download_queue K c3
    (by rw [g13.1]; exact hcmd)
  have hr4 : ∃ c5, (if hi &&& K.IF_SPI_HIST_TX_DOWNLOAD_RDY ≠ 0 then
      lbs_spi_thread_tx_download K c4 else .ok ((), c4)) = .ok ((), c5) ∧
      queue_events c5.trace = queue_events c4.trace ++
        (if hi &&& K.IF_SPI_HIST_TX_DOWNLOAD_RDY ≠ 0 then
          c.data_packet_list.head?.toList.map (Event.h2c K.MVMS_DAT) else []) ∧
      c5.cmd_packet_list = c4.cmd_packet_list ∧
      c5.data_packet_list = (if hi &&& K.IF_SPI_HIST_TX_DOWNLOAD_RDY ≠ 0 then
        c.data_packet_list.tail else c.data_packet_list) := by
    split
    · obtain ⟨c5, h5, q5, l5, k5⟩ := lbs_spi_thread_tx_download_queue K c4
        (by rw [d4, g13.2.1]; exact hdat)
      rw [d4, g13.2.1] at q5 l5
      exact ⟨c5, h5, q5, k5, l5⟩
    · exact ⟨c4, rfl, by simp, rfl, by rw [d4, g13.2.1]⟩
  obtain ⟨c5, h5, q5, k5, l5⟩ := hr4
  have hr5 : ∃ c6, (if hi &&& K.IF_SPI_HIST_CARD_EVENT ≠ 0 then if_spi_e2h K c5
      else .ok ((), c5)) = .ok ((), c6) ∧ grows transfer_event c5 c6 := by
    split
    · obtain ⟨c6, h6⟩ := if_spi_e2h_returns K c5
      exact ⟨c6, h6, if_spi_e2h_grows K c5 c6 h6⟩
    · exact ⟨c5, rfl, grows_refl _ c5⟩
  obtain ⟨c6, h6, g6⟩ := hr5
  have hz : ¬ ((0 : Int) ≠ 0) := fun x => x rfl
  refine ⟨c6, ?_, ?_, ?_, ?_⟩
  · unfold lbs_spi_thread_dispatch
    simp only [h1]
    rw [if_neg hz]
    simp only [h2]
    rw [if_neg hz]
    simp only [h3]
    rw [if_neg hz, if_pos hbit]
    simp only [h4, h5, h6, lbs_spi_thread_err]
    rw [if_neg hz]
  · rw [grows_queue_events g6, q5, q4, e13, g13.1]
    simp
  · rw [g6.1, k5, l4, g13.1]
  · rw [g6.2.1, l5]

set_option maxRecDepth 100000 in
/-- C22, on a card with two commands and one data packet queued whose status
reads command- and data-download ready: one call of `lbs_host_to_card_done`,
then the first command and the data packet are handed over; the second command
stays queued. -/
theorem lbs_spi_thread_cmd_download_once_witness :
    ∃ d, lbs_spi_thread_dispatch sample_h download_card = .ok (0, d) ∧
      queue_events d.trace = [.lbs_host_to_card_done,
        .h2c 1 { blen := 4, buffer := [1, 2, 3, 4] },
        .h2c 0 { blen := 4, buffer := [5, 6, 7, 8] }] ∧
      d.cmd_packet_list = [{ blen := 2, buffer := [9, 9] }] ∧ d.data_packet_list = [] := by
  have h1 := value_of_state (spu_read_u16 sample_h download_card
    sample_h.IF_SPI_HOST_INT_STATUS_REG) (0, 5) download_card (by decide)
  obtain ⟨d, hd, hq, hl, hk⟩ := (lbs_spi_thread_cmd_download_once sample_h download_card _ _ _ 5
    h1 (if_neg (by decide)) (if_neg (by decide)) (by decide) (by decide) (by decide)).1
  exact ⟨d, hd, hq, hl, hk⟩

theorem spu_addr_delays (c : if_spi_card) (reg_out : Nat) :
    (spu_addr c reg_out).2.spu_port_delay = c.spu_port_delay ∧
    (spu_addr c reg_out).2.spu_reg_delay = c.spu_reg_delay := by
  simp only [spu_addr, spu_transaction_init, spi_write, emit, jiffies]
  split <;> exact ⟨rfl, rfl⟩

/-- When the dummy-clock loop ends without an error it has clocked out all
its words. -/
theorem spu_read_dummies_all (n : Nat) (c : if_spi_card) (h : (spu_read_dummies n c).1 = 0) :
    (spu_read_dummies n c).2.trace = c.trace ++ List.replicate n (.spi_dummy 0) := by
  induction n generalizing c with
  | zero => simp [spu_read_dummies]
  | succ n ih =>
    simp only [spu_read_dummies] at h ⊢
    split at h
    · rename_i hne
      exact absurd h hne
    · rename_i hz
      have hz0 : (spi_write c).1 = 0 := not_not.1 hz
      simp only [hz, ↓reduceIte]
      rw [ih _ h, hz0]
      simp [emit, spi_write, List.replicate_succ]

/-- C23: a `spu_read` that returns 0, on a card whose two delays are below
2^32.  After the guard delay (if any) it asserts chip select and sends the
register index word; then, in dummy-write mode, it clocks out exactly
`delay / 16` zero words, each transfer succeeding, where `delay` is
`spu_port_delay` for the three port registers and `spu_reg_delay` for every
other register; in timed mode it clocks out no word and busy-waits instead,
for the `100 + delay * 10` nanoseconds it computes in `unsigned int`, that is
modulo 2^32; then it reads the payload and drops chip select. -/
theorem spu_read_dummy_words (K : if_spi_h) (c : if_spi_card) (reg : Nat) (buf : List Nat)
    (len : Nat) (b : List Nat) (d : if_spi_card)
    (hp : c.spu_port_delay < 4294967296) (hr : c.spu_reg_delay < 4294967296)
    (h : spu_read K c reg buf len = .ok ((0, b), d)) :
    ∃ evs, (∀ e ∈ evs, ∃ n, e = Event.ndelay n) ∧
      d.trace = c.trace ++ evs ++
        [Event.cs 0, Event.spi_addr (u16 (u16 reg ||| K.IF_SPI_READ_OPERATION_MASK)) 0] ++
        (if c.use_dummy_writes ≠ 0 then
          List.replicate ((if spu_reg_is_port_reg K (u16 reg) then c.spu_port_delay
            else c.spu_reg_delay) / 16) (Event.spi_dummy 0)
        else [Event.ndelay (u32 (100 + (if spu_reg_is_port_reg K (u16 reg) then c.spu_port_delay
            else c.spu_reg_delay) * 10))]) ++
        [Event.spi_in (u16 reg) len 0, Event.cs 1] ∧
      dummy_words d.trace = dummy_words c.trace ++
        (if c.use_dummy_writes ≠ 0 then
          List.replicate ((if spu_reg_is_port_reg K (u16 reg) then c.spu_port_delay
            else c.spu_reg_delay) / 16) 0
        else []) := by
  obtain ⟨evs, he, hall⟩ := spu_addr_asserts c (u16 (u16 reg ||| K.IF_SPI_READ_OPERATION_MASK))
  have hac := spu_addr_counts c (u16 (u16 reg ||| K.IF_SPI_READ_OPERATION_MASK))
  obtain ⟨hpd, hrd⟩ := spu_addr_delays c (u16 (u16 reg ||| K.IF_SPI_READ_OPERATION_MASK))
  have hud := spu_addr_mode c (u16 (u16 reg ||| K.IF_SPI_READ_OPERATION_MASK))
  have hdel : u32 (if spu_reg_is_port_reg K (u16 reg) then c.spu_port_delay
      else c.spu_reg_delay) = (if spu_reg_is_port_reg K (u16 reg) then c.spu_port_delay
      else c.spu_reg_delay) := by
    unfold u32
    split <;> exact Nat.mod_eq_of_lt (by assumption)
  have hq : dummy_words evs = [] := by
    unfold dummy_words
    rw [List.filterMap_eq_nil_iff]
    intro e hm
    obtain ⟨n, rfl⟩ := hall e hm
    rfl
  have hrep : ∀ n, dummy_words (List.replicate n (Event.spi_dummy 0)) = List.replicate n 0 := by
    intro n
    induction n with
    | zero => rfl
    | succ n ih => simp [dummy_words, List.replicate_succ]
  suffices hmain : d.trace = c.trace ++ evs ++
        [Event.cs 0, Event.spi_addr (u16 (u16 reg ||| K.IF_SPI_READ_OPERATION_MASK)) 0] ++
        (if c.use_dummy_writes ≠ 0 then
          List.replicate ((if spu_reg_is_port_reg K (u16 reg) then c.spu_port_delay
            else c.spu_reg_delay) / 16) (Event.spi_dummy 0)
        else [Event.ndelay (u32 (100 + (if spu_reg_is_port_reg K (u16 reg) then c.spu_port_delay
            else c.spu_reg_delay) * 10))]) ++
        [Event.spi_in (u16 reg) len 0, Event.cs 1] by
    refine ⟨evs, hall, hmain, ?_⟩
    rw [hmain]
    have happ : ∀ u v, dummy_words (u ++ v) = dummy_words u ++ dummy_words v := by
      intro u v
      simp [dummy_words]
    simp only [happ, hq, List.append_nil]
    split
    · rw [hrep]
      simp [dummy_words]
    · simp [dummy_words]
  unfold spu_read at h
  simp only [] at h
  split at h
  · simp at h
  · split at h
    · rename_i hne
      simp only [Except.ok.injEq, Prod.mk.injEq] at h
      exact absurd h.1.1 hne
    · rename_i ha
      have ha0 := not_not.1 ha
      rw [hac.2.2.2] at ha0
      rw [ha0] at he
      split at h
      · rename_i hne
        simp only [Except.ok.injEq, Prod.mk.injEq] at h
        exact absurd h.1.1 hne
      · rename_i hs
        have hs0 := not_not.1 hs
        simp only [Except.ok.injEq, Prod.mk.injEq] at h
        obtain ⟨hv, hd⟩ := h
        have hres := congrArg Prod.fst hv
        simp only [spi_read] at hres
        rw [← hd]
        have hst : (spu_read_settle K
            (spu_addr c (u16 (u16 reg ||| K.IF_SPI_READ_OPERATION_MASK))).2 (u16 reg)).2.trace =
            (spu_addr c (u16 (u16 reg ||| K.IF_SPI_READ_OPERATION_MASK))).2.trace ++
            (if c.use_dummy_writes ≠ 0 then
              List.replicate ((if spu_reg_is_port_reg K (u16 reg) then c.spu_port_delay
                else c.spu_reg_delay) / 16) (Event.spi_dummy 0)
            else [Event.ndelay (u32 (100 + (if spu_reg_is_port_reg K (u16 reg) then c.spu_port_delay
                else c.spu_reg_delay) * 10))]) := by
          unfold spu_read_settle at hs0 ⊢
          simp only [hud, hpd, hrd, hdel] at hs0 ⊢
          split
          · rename_i hm
            rw [if_pos hm] at hs0
            exact spu_read_dummies_all _ _ hs0
          · rfl
        simp only [spu_transaction_finish, jiffies, emit, spi_read, hst, he, hres]
        simp only [List.append_assoc, List.cons_append, List.nil_append]

/-- C23, on a card in dummy-write mode with a port delay of 48 and a register
delay of 16: a read of the command port clocks out three dummy words, a read
of scratch register 1 one. -/
theorem spu_read_dummy_words_witness :
    (∃ b d, spu_read sample_h dummy_card sample_h.IF_SPI_CMD_RDWRPORT_REG [0, 0] 2 =
        .ok ((0, b), d) ∧ dummy_words d.trace = [0, 0, 0]) ∧
    ∃ b d, spu_read sample_h dummy_card sample_h.IF_SPI_SCRATCH_1_REG [0, 0] 2 =
        .ok ((0, b), d) ∧ dummy_words d.trace = [0] := by
  refine ⟨?_, ?_⟩
  · obtain ⟨d, h, _⟩ := spu_read_once sample_h dummy_card sample_h.IF_SPI_CMD_RDWRPORT_REG
      [0, 0] 2 (fun _ => rfl) rfl
    obtain ⟨_, _, _, hq⟩ := spu_read_dummy_words sample_h dummy_card
      sample_h.IF_SPI_CMD_RDWRPORT_REG [0, 0] 2 _ d (by decide) (by decide) h
    exact ⟨_, d, h, hq⟩
  · obtain ⟨d, h, _⟩ := spu_read_once sample_h dummy_card sample_h.IF_SPI_SCRATCH_1_REG
      [0, 0] 2 (fun _ => rfl) rfl
    obtain ⟨_, _, _, hq⟩ := spu_read_dummy_words sample_h dummy_card
      sample_h.IF_SPI_SCRATCH_1_REG [0, 0] 2 _ d (by decide) (by decide) h
    exact ⟨_, d, h, hq⟩

theorem bus_errno_same {c d : if_spi_card} (h : same_dev c d) (hc : bus_errno c) :
    bus_errno d := by
  obtain ⟨h1, h2, _, _⟩ := h
  exact ⟨fun n => by rw [h1]; exact hc.1 n, fun r k => by rw [h2]; exact hc.2 r k⟩

theorem spu_read_dummies_errno (n : Nat) (c : if_spi_card) (hc : ∀ k, c.spi.wr_res k ≤ 0) :
    (spu_read_dummies n c).1 ≤ 0 := by
  induction n generalizing c with
  | zero => simp [spu_read_dummies]
  | succ n ih =>
    simp only [spu_read_dummies]
    split
    · exact hc _
    · exact ih _ hc

/-- Under the contract of the bus layer `spu_read` returns 0 or a negative
error code. -/
theorem spu_read_errno (K : if_spi_h) (c : if_spi_card) (reg : Nat) (buf : List Nat)
    (len : Nat) (r : Int × List Nat) (d : if_spi_card)
    (h : spu_read K c reg buf len = .ok (r, d)) (hc : bus_errno c) : r.1 ≤ 0 := by
  have hac := spu_addr_counts c (u16 (u16 reg ||| K.IF_SPI_READ_OPERATION_MASK))
  have ta : touches read_event c (spu_addr c (u16 (u16 reg ||| K.IF_SPI_READ_OPERATION_MASK))).2 :=
    spu_addr_touches read_event_ndelay read_event_cs read_event_addr c _
  have ts := touches_trans ta (spu_read_settle_touches read_event_ndelay read_event_dummy K
    (spu_addr c (u16 (u16 reg ||| K.IF_SPI_READ_OPERATION_MASK))).2 (u16 reg))
  unfold spu_read at h
  simp only [] at h
  split at h
  · simp at h
  · split at h
    · simp only [Except.ok.injEq, Prod.mk.injEq] at h
      rw [← h.1, hac.2.2.2]
      exact hc.1 _
    · split at h
      · simp only [Except.ok.injEq, Prod.mk.injEq] at h
        rw [← h.1]
        simp only [spu_read_settle]
        split
        · exact spu_read_dummies_errno _ _ (fun k => by rw [touches_wr_res ta]; exact hc.1 k)
        · exact le_refl _
      · simp only [Except.ok.injEq, Prod.mk.injEq] at h
        rw [← h.1]
        simp only [spi_read, touches_rd_res ts]
        exact hc.2 _ _

theorem spu_read_u16_errno (K : if_spi_h) (c : if_spi_card) (reg : Nat) (r : Int × Nat)
    (d : if_spi_card) (h : spu_read_u16 K c reg = .ok (r, d)) (hc : bus_errno c) : r.1 ≤ 0 := by
  unfold spu_read_u16 at h
  cases hr : spu_read K c reg [0, 0] 2 with
  | error x => simp [hr] at h
  | ok x =>
    obtain ⟨⟨e, b⟩, c1⟩ := x
    simp only [hr, Except.ok.injEq, Prod.mk.injEq] at h
    rw [← h.1]
    exact spu_read_errno K c reg _ _ _ _ hr hc

theorem spu_wait_for_u16_loop_errno (K : if_spi_h) (reg m t timeout : Nat) (fuel : Nat)
    (c : if_spi_card) (r : Int) (d : if_spi_card)
    (h : spu_wait_for_u16_loop K reg m t timeout fuel c = .ok (r, d)) (hc : bus_errno c) :
    r ≤ 0 := by
  induction fuel generalizing c with
  | zero => simp [spu_wait_for_u16_loop] at h
  | succ n ih =>
    obtain ⟨⟨e, v⟩, c1, h1, ht1, _⟩ := spu_read_u16_touches K c reg
    have he := spu_read_u16_errno K c reg _ _ h1 hc
    simp only [spu_wait_for_u16_loop, h1] at h
    split at h
    · simp only [Except.ok.injEq, Prod.mk.injEq] at h
      rw [← h.1]; exact he
    · split at h
      · simp only [Except.ok.injEq, Prod.mk.injEq] at h
        rw [← h.1]
      · split at h
        · simp only [Except.ok.injEq, Prod.mk.injEq] at h
          rw [← h.1]
        · split at h
          · simp only [Except.ok.injEq, Prod.mk.injEq] at h
            rw [← h.1]
            decide
          · exact ih _ h (bus_errno_same (same_dev_of_touches
              (touches_jiffies (touches_emit ht1 (show read_event (.udelay 100) = true from rfl))))
              hc)

/-- Under the contract of the bus layer `spu_wait_for_u16` returns 0 or a
negative error code. -/
theorem spu_wait_for_u16_errno (K : if_spi_h) (fuel : Nat) (c : if_spi_card)
    (reg mask target : Nat) (r : Int) (d : if_spi_card)
    (h : spu_wait_for_u16 K fuel c reg mask target = .ok (r, d)) (hc : bus_errno c) : r ≤ 0 := by
  unfold spu_wait_for_u16 at h
  simp only [] at h
  exact spu_wait_for_u16_loop_errno K _ _ _ _ _ _ _ _ h
    (bus_errno_same (same_dev_of_touches (touches_jiffies (touches_refl read_event c))) hc)

theorem spu_wait_for_u16_loop_no_bug (K : if_spi_h) (reg m t timeout : Nat) (fuel : Nat)
    (c : if_spi_card) :
    halt_of (spu_wait_for_u16_loop K reg m t timeout fuel c) ≠ some .bug := by
  induction fuel generalizing c with
  | zero => simp [spu_wait_for_u16_loop, halt_of]
  | succ n ih =>
    obtain ⟨⟨e, v⟩, c1, h1, _, _⟩ := spu_read_u16_touches K c reg
    simp only [spu_wait_for_u16_loop, h1]
    split
    · simp [halt_of]
    · split
      · simp [halt_of]
      · split
        · simp [halt_of]
        · split
          · simp [halt_of]
          · exact ih _

/-- No call of `spu_wait_for_u16` runs into a `BUG_ON`. -/
theorem spu_wait_for_u16_no_bug (K : if_spi_h) (fuel : Nat) (c : if_spi_card)
    (reg mask target : Nat) :
    halt_of (spu_wait_for_u16 K fuel c reg mask target) ≠ some .bug := by
  unfold spu_wait_for_u16
  exact spu_wait_for_u16_loop_no_bug K _ _ _ _ _ _

/-- The 16-bit write always returns. -/
theorem spu_write_u16_returns (K : if_spi_h) (c : if_spi_card) (reg val : Nat) :
    ∃ r d, spu_write_u16 K c reg val = .ok (r, d) ∧ touches bus_event c d := by
  obtain ⟨r, d, h⟩ := spu_write_returns K c reg (bytes_of_u16 (u16 val)) 2 rfl
  exact ⟨r, d, h, (spu_write_touches K c _ _ _ _ _ h).1⟩

/-- The 32-bit write always returns. -/
theorem spu_write_u32_returns (K : if_spi_h) (c : if_spi_card) (reg val : Nat) :
    ∃ r d, spu_write_u32 K c reg val = .ok (r, d) := by
  unfold spu_write_u32
  exact spu_write_returns K c reg _ 4 rfl

/-- `spu_set_interrupt_mode` always returns. -/
theorem spu_set_interrupt_mode_returns (K : if_spi_h) (c : if_spi_card) (s a : Int) :
    ∃ r d, spu_set_interrupt_mode K c s a = .ok (r, d) ∧ touches bus_event c d := by
  unfold spu_set_interrupt_mode
  simp only []
  have key : ∀ v, ∃ r d, ((match spu_write_u16 K c K.IF_SPI_HOST_INT_STATUS_MASK_REG v with
      | .error h => .error h
      | .ok (err, c1) =>
        if err ≠ 0 then .ok (err, c1)
        else if a ≠ 0 then
          spu_write_u16 K c1 K.IF_SPI_HOST_INT_CTRL_REG
            (K.IF_SPI_HICT_TX_DOWNLOAD_OVER_AUTO ||| K.IF_SPI_HICT_RX_UPLOAD_OVER_AUTO |||
              K.IF_SPI_HICT_CMD_DOWNLOAD_OVER_AUTO ||| K.IF_SPI_HICT_CMD_UPLOAD_OVER_AUTO)
        else spu_write_u16 K c1 K.IF_SPI_HOST_INT_STATUS_MASK_REG 0) : Run Int) = .ok (r, d) ∧
      touches bus_event c d := by
    intro v
    obtain ⟨e1, c1, h1, t1⟩ := spu_write_u16_returns K c K.IF_SPI_HOST_INT_STATUS_MASK_REG v
    simp only [h1]
    split
    · exact ⟨_, _, rfl, t1⟩
    · split
      · obtain ⟨e2, c2, h2, t2⟩ := spu_write_u16_returns K c1 K.IF_SPI_HOST_INT_CTRL_REG
          (K.IF_SPI_HICT_TX_DOWNLOAD_OVER_AUTO ||| K.IF_SPI_HICT_RX_UPLOAD_OVER_AUTO |||
            K.IF_SPI_HICT_CMD_DOWNLOAD_OVER_AUTO ||| K.IF_SPI_HICT_CMD_UPLOAD_OVER_AUTO)
        exact ⟨e2, c2, h2, touches_trans t1 t2⟩
      · obtain ⟨e2, c2, h2, t2⟩ := spu_write_u16_returns K c1 K.IF_SPI_HOST_INT_STATUS_MASK_REG 0
        exact ⟨e2, c2, h2, touches_trans t1 t2⟩
  by_cases hs : s ≠ 0
  · rw [if_pos hs]
    exact key 0
  · rw [if_neg hs]
    exact key _

theorem helper_signal_returns (K : if_spi_h) (c : if_spi_card) :
    ∃ r d, if_spi_prog_helper_firmware_signal K c = .ok (r, d) := by
  unfold if_spi_prog_helper_firmware_signal
  obtain ⟨e1, c1, h1, _⟩ := spu_write_u16_returns K c K.IF_SPI_HOST_INT_STATUS_REG 0
  simp only [h1]
  split
  · exact ⟨_, _, rfl⟩
  · obtain ⟨e2, c2, h2, _⟩ := spu_write_u16_returns K c1 K.IF_SPI_CARD_INT_CAUSE_REG
      K.IF_SPI_CIC_CMD_DOWNLOAD_OVER
    exact ⟨e2, c2, h2⟩

theorem helper_done_returns (K : if_spi_h) (c : if_spi_card) :
    ∃ r d, if_spi_prog_helper_firmware_done K c = .ok (r, d) := by
  unfold if_spi_prog_helper_firmware_done
  obtain ⟨e1, c1, h1, _⟩ := spu_write_u16_returns K c K.IF_SPI_SCRATCH_1_REG K.FIRMWARE_DNLD_OK
  simp only [h1]
  split
  · exact ⟨_, _, rfl⟩
  · exact helper_signal_returns K c1

theorem halt_of_ok {α : Type} (r : Run α) (h : ∃ a d, r = .ok (a, d)) :
    halt_of r ≠ some .bug := by
  obtain ⟨a, d, rfl⟩ := h
  simp [halt_of]

theorem helper_body_no_bug (K : if_spi_h) (heven : K.HELPER_FW_LOAD_CHUNK_SZ % 2 = 0)
    (wfuel : Nat) (image : List Nat) (c : if_spi_card) (fw : Nat) (br : Int) :
    halt_of (if_spi_prog_helper_firmware_body K wfuel image c fw br) ≠ some .bug := by
  unfold if_spi_prog_helper_firmware_body
  obtain ⟨e1, c1, h1, _⟩ := spu_write_u16_returns K c K.IF_SPI_SCRATCH_1_REG
    K.HELPER_FW_LOAD_CHUNK_SZ
  simp only [h1]
  split
  · simp [halt_of]
  · cases hw : spu_wait_for_u16 K wfuel c1 K.IF_SPI_HOST_INT_STATUS_REG
        K.IF_SPI_HIST_CMD_DOWNLOAD_RDY K.IF_SPI_HIST_CMD_DOWNLOAD_RDY with
    | error x =>
      have := spu_wait_for_u16_no_bug K wfuel c1 K.IF_SPI_HOST_INT_STATUS_REG
        K.IF_SPI_HIST_CMD_DOWNLOAD_RDY K.IF_SPI_HIST_CMD_DOWNLOAD_RDY
      rw [hw] at this
      exact this
    | ok x =>
      obtain ⟨e2, c2⟩ := x
      simp only []
      split
      · simp [halt_of]
      · cases ht : if_spi_prog_helper_firmware_temp K image fw br with
        | none => simp [halt_of]
        | some temp =>
          obtain ⟨e3, c3, h3⟩ := spu_write_returns K (emit c2 (.mdelay 10))
            K.IF_SPI_CMD_RDWRPORT_REG temp K.HELPER_FW_LOAD_CHUNK_SZ heven
          simp only [h3]
          split
          · simp [halt_of]
          · exact halt_of_ok _ (helper_signal_returns K c3)

theorem helper_loop_no_bug (K : if_spi_h) (heven : K.HELPER_FW_LOAD_CHUNK_SZ % 2 = 0)
    (wfuel : Nat) (image : List Nat) (fuel : Nat) (c : if_spi_card) (fw : Nat) (br : Int) :
    halt_of (if_spi_prog_helper_firmware_loop K wfuel image fuel c fw br) ≠ some .bug := by
  induction fuel generalizing c fw br with
  | zero => simp [if_spi_prog_helper_firmware_loop, halt_of]
  | succ n ih =>
    simp only [if_spi_prog_helper_firmware_loop]
    split
    · cases hb : if_spi_prog_helper_firmware_body K wfuel image c fw br with
      | error x =>
        have := helper_body_no_bug K heven wfuel image c fw br
        rw [hb] at this
        exact this
      | ok x =>
        obtain ⟨e, c1⟩ := x
        simp only []
        split
        · simp [halt_of]
        · exact ih _ _ _
    · exact halt_of_ok _ (helper_done_returns K c)

/-- With an even chunk size the helper firmware load runs into no `BUG_ON`. -/
theorem helper_firmware_no_bug (K : if_spi_h) (heven : K.HELPER_FW_LOAD_CHUNK_SZ % 2 = 0)
    (fuel wfuel : Nat) (c : if_spi_card) :
    halt_of (if_spi_prog_helper_firmware K fuel wfuel c) ≠ some .bug := by
  unfold if_spi_prog_helper_firmware
  obtain ⟨e1, c1, h1, _⟩ := spu_set_interrupt_mode_returns K c 1 0
  simp only [h1]
  split
  · simp [if_spi_prog_helper_firmware_out, halt_of]
  · split
    · simp [if_spi_prog_helper_firmware_out, halt_of]
    · cases hl : if_spi_prog_helper_firmware_loop K wfuel (c1.sys.firmware c1.helper_fw_name).2
          fuel c1 0 (c1.sys.firmware c1.helper_fw_name).2.length with
      | error x =>
        have := helper_loop_no_bug K heven wfuel (c1.sys.firmware c1.helper_fw_name).2 fuel c1 0
          (c1.sys.firmware c1.helper_fw_name).2.length
        rw [hl] at this
        exact this
      | ok x =>
        obtain ⟨e, c2⟩ := x
        simp [if_spi_prog_helper_firmware_out, halt_of]

theorem check_len_no_bug (K : if_spi_h) (wfuel : Nat) (c : if_spi_card) (crc : Int) :
    halt_of (if_spi_prog_main_firmware_check_len K wfuel c crc) ≠ some .bug := by
  unfold if_spi_prog_main_firmware_check_len
  cases hw : spu_wait_for_u16 K wfuel c K.IF_SPI_HOST_INT_STATUS_REG
      K.IF_SPI_HIST_CMD_DOWNLOAD_RDY K.IF_SPI_HIST_CMD_DOWNLOAD_RDY with
  | error x =>
    have := spu_wait_for_u16_no_bug K wfuel c K.IF_SPI_HOST_INT_STATUS_REG
      K.IF_SPI_HIST_CMD_DOWNLOAD_RDY K.IF_SPI_HIST_CMD_DOWNLOAD_RDY
    rw [hw] at this
    exact this
  | ok x =>
    obtain ⟨e, c1⟩ := x
    simp only []
    split
    · simp [halt_of]
    · obtain ⟨⟨e2, len⟩, c2, h2, _, _⟩ := spu_read_u16_touches K c1 K.IF_SPI_SCRATCH_1_REG
      simp only [h2]
      split
      · simp [halt_of]
      · split
        · simp [halt_of]
        · split <;> simp [halt_of]

/-- Under the contract of the bus layer, a positive value returned by
`if_spi_prog_main_firmware_check_len` is a length with its low bit cleared. -/
theorem check_len_even (K : if_spi_h) (wfuel : Nat) (c : if_spi_card) (crc : Int)
    (r : Int × Int) (d : if_spi_card)
    (h : if_spi_prog_main_firmware_check_len K wfuel c crc = .ok (r, d)) (hc : bus_errno c)
    (hpos : 0 < r.1) : r.1.toNat % 2 = 0 := by
  unfold if_spi_prog_main_firmware_check_len at h
  cases hw : spu_wait_for_u16 K wfuel c K.IF_SPI_HOST_INT_STATUS_REG
      K.IF_SPI_HIST_CMD_DOWNLOAD_RDY K.IF_SPI_HIST_CMD_DOWNLOAD_RDY with
  | error x => simp [hw] at h
  | ok x =>
    obtain ⟨e, c1⟩ := x
    have he := spu_wait_for_u16_errno K wfuel c _ _ _ e c1 hw hc
    have hc1 := bus_errno_same (same_dev_of_touches
      (spu_wait_for_u16_touches K wfuel c _ _ _ e c1 hw).1) hc
    simp only [hw] at h
    split at h
    · simp only [Except.ok.injEq, Prod.mk.injEq] at h
      rw [← h.1] at hpos
      simp only at hpos
      omega
    · cases h2 : spu_read_u16 K c1 K.IF_SPI_SCRATCH_1_REG with
      | error x => simp [h2] at h
      | ok x =>
        obtain ⟨⟨e2, len⟩, c2⟩ := x
        have he2 := spu_read_u16_errno K c1 _ _ _ h2 hc1
        simp only [h2] at h
        split at h
        · simp only [Except.ok.injEq, Prod.mk.injEq] at h
          rw [← h.1] at hpos
          simp only at hpos he2
          omega
        · split at h
          · simp only [Except.ok.injEq, Prod.mk.injEq] at h
            rw [← h.1] at hpos
            simp only [ EIO] at hpos
            omega
          · split at h
            · rename_i hodd
              simp only [Except.ok.injEq, Prod.mk.injEq] at h
              rw [← h.1]
              simp only [Int.toNat_ofNat]
              omega
            · rename_i hodd
              simp only [Except.ok.injEq, Prod.mk.injEq] at h
              rw [← h.1]
              simp only [Int.toNat_ofNat]
              omega

theorem send_returns (K : if_spi_h) (c : if_spi_card) (len : Int)
    (heven : len.toNat % 2 = 0) :
    ∃ r d, if_spi_prog_main_firmware_send K c len = .ok (r, d) := by
  unfold if_spi_prog_main_firmware_send
  obtain ⟨e1, c1, h1, _⟩ := spu_write_u16_returns K c K.IF_SPI_HOST_INT_STATUS_REG 0
  simp only [h1]
  split
  · exact ⟨_, _, rfl⟩
  · obtain ⟨e2, c2, h2⟩ := spu_write_returns K c1 K.IF_SPI_CMD_RDWRPORT_REG c1.cmd_buffer
      len.toNat heven
    simp only [h2]
    split
    · exact ⟨_, _, rfl⟩
    · obtain ⟨e3, c3, h3, _⟩ := spu_write_u16_returns K c2 K.IF_SPI_CARD_INT_CAUSE_REG
        K.IF_SPI_CIC_CMD_DOWNLOAD_OVER
      exact ⟨e3, c3, h3⟩

theorem main_body_no_bug (K : if_spi_h) (wfuel : Nat) (image : List Nat) (c : if_spi_card)
    (v : main_fw_vars) (hc : bus_errno c) :
    halt_of (if_spi_prog_main_firmware_body K wfuel image c v) ≠ some .bug := by
  unfold if_spi_prog_main_firmware_body
  cases hl : if_spi_prog_main_firmware_check_len K wfuel c v.crc_err with
  | error x =>
    have := check_len_no_bug K wfuel c v.crc_err
    rw [hl] at this
    exact this
  | ok x =>
    obtain ⟨⟨len, crc⟩, c1⟩ := x
    simp only []
    split
    · simp [halt_of]
    · split
      · simp [halt_of]
      · rename_i hn0 hneg
        split
        · simp [halt_of]
        · split
          · simp [halt_of]
          · cases hf : if_spi_prog_main_firmware_fill image c1.cmd_buffer
                (if_spi_prog_main_firmware_count K { v with crc_err := crc }).1 len with
            | none => simp [halt_of]
            | some buf =>
              have hev := check_len_even K wfuel c v.crc_err _ c1 hl hc (by
                show 0 < len
                omega)
              obtain ⟨e, c2, h2⟩ := send_returns K { c1 with cmd_buffer := buf } len hev
              simp only [h2]
              split <;> simp [halt_of]

theorem main_body_same_dev (K : if_spi_h) (wfuel : Nat) (image : List Nat) (c : if_spi_card)
    (v : main_fw_vars) (r : Option loop_exit × main_fw_vars) (d : if_spi_card)
    (h : if_spi_prog_main_firmware_body K wfuel image c v = .ok (r, d)) : same_dev c d := by
  unfold if_spi_prog_main_firmware_body at h
  cases hl : if_spi_prog_main_firmware_check_len K wfuel c v.crc_err with
  | error x => simp [hl] at h
  | ok x =>
    obtain ⟨⟨len, crc⟩, c1⟩ := x
    have s1 := same_dev_of_touches (check_len_touches K wfuel c _ _ c1 hl)
    simp only [hl] at h
    split at h
    · simp only [Except.ok.injEq, Prod.mk.injEq] at h
      rw [← h.2]; exact s1
    · split at h
      · simp only [Except.ok.injEq, Prod.mk.injEq] at h
        rw [← h.2]; exact s1
      · split at h
        · simp only [Except.ok.injEq, Prod.mk.injEq] at h
          rw [← h.2]; exact s1
        · split at h
          · simp only [Except.ok.injEq, Prod.mk.injEq] at h
            rw [← h.2]; exact s1
          · cases hf : if_spi_prog_main_firmware_fill image c1.cmd_buffer
                (if_spi_prog_main_firmware_count K { v with crc_err := crc }).1 len with
            | none => simp [hf] at h
            | some buf =>
              simp only [hf] at h
              cases hs : if_spi_prog_main_firmware_send K { c1 with cmd_buffer := buf } len with
              | error x => simp [hs] at h
              | ok x =>
                obtain ⟨e, c2⟩ := x
                have s2 : same_dev { c1 with cmd_buffer := buf } c2 :=
                  same_dev_of_touches (send_touches K _ _ _ _ hs)
                have s12 : same_dev c c2 := same_dev_trans s1 s2
                simp only [hs] at h
                split at h
                · simp only [Except.ok.injEq, Prod.mk.injEq] at h
                  rw [← h.2]; exact s12
                · simp only [Except.ok.injEq, Prod.mk.injEq] at h
                  rw [← h.2]; exact s12

theorem main_loop_no_bug (K : if_spi_h) (wfuel : Nat) (image : List Nat) (fuel : Nat)
    (c : if_spi_card) (v : main_fw_vars) (hc : bus_errno c) :
    halt_of (if_spi_prog_main_firmware_loop K wfuel image fuel c v) ≠ some .bug := by
  induction fuel generalizing c v with
  | zero => simp [if_spi_prog_main_firmware_loop, halt_of]
  | succ n ih =>
    simp only [if_spi_prog_main_firmware_loop]
    cases hb : if_spi_prog_main_firmware_body K wfuel image c v with
    | error x =>
      have := main_body_no_bug K wfuel image c v hc
      rw [hb] at this
      exact this
    | ok x =>
      obtain ⟨⟨o, v1⟩, c1⟩ := x
      cases o with
      | some l => simp [halt_of]
      | none => exact ih c1 v1 (bus_errno_same (main_body_same_dev K wfuel image c v _ c1 hb) hc)

/-- Under the contract of the bus layer the main firmware load runs into no
`BUG_ON`. -/
theorem main_firmware_no_bug (K : if_spi_h) (fuel wfuel : Nat) (c : if_spi_card)
    (hc : bus_errno c) :
    halt_of (if_spi_prog_main_firmware K fuel wfuel c) ≠ some .bug := by
  unfold if_spi_prog_main_firmware
  obtain ⟨e1, c1, h1, t1⟩ := spu_set_interrupt_mode_returns K c 1 0
  have hc1 := bus_errno_same (same_dev_of_touches t1) hc
  simp only [h1]
  split
  · simp [if_spi_prog_main_firmware_out, halt_of]
  · split
    · simp [if_spi_prog_main_firmware_out, halt_of]
    · cases hw : spu_wait_for_u16 K wfuel c1 K.IF_SPI_SCRATCH_1_REG 0 0 with
      | error x =>
        have := spu_wait_for_u16_no_bug K wfuel c1 K.IF_SPI_SCRATCH_1_REG 0 0
        rw [hw] at this
        exact this
      | ok x =>
        obtain ⟨e2, c2⟩ := x
        have hc2 := bus_errno_same (same_dev_of_touches
          (spu_wait_for_u16_touches K wfuel c1 _ _ _ e2 c2 hw).1) hc1
        simp only []
        split
        · simp [if_spi_prog_main_firmware_out, halt_of]
        · cases hl : if_spi_prog_main_firmware_loop K wfuel (c1.sys.firmware c1.main_fw_name).2
              fuel c2 (main_fw_vars_init (c1.sys.firmware c1.main_fw_name).2) with
          | error x =>
            have := main_loop_no_bug K wfuel (c1.sys.firmware c1.main_fw_name).2 fuel c2
              (main_fw_vars_init (c1.sys.firmware c1.main_fw_name).2) hc2
            rw [hl] at this
            exact this
          | ok x =>
            obtain ⟨⟨o, v⟩, c3⟩ := x
            cases o with
            | release => simp [if_spi_prog_main_firmware_out, halt_of]
            | fall =>
              simp only []
              obtain ⟨r, d, h5, _, _⟩ := spu_wait_for_u32_loop_le K K.IF_SPI_SCRATCH_4_REG
                (u32 K.SUCCESSFUL_FW_DOWNLOAD_MAGIC) 4
                (if v.bytes > v.prev_len then emit c3 (.pr_err 0) else c3)
              simp only [spu_wait_for_u32, h5]
              split <;> simp [if_spi_prog_main_firmware_out, halt_of]

/-- A submission keeps the lengths of the queued packets even. -/
theorem if_spi_host_to_card_even (K : if_spi_h) (c : if_spi_card) (type : Nat)
    (buf : List Nat) (nb : Nat) (err : Int) (d : if_spi_card)
    (h : if_spi_host_to_card K c type buf nb = .ok (err, d)) (hc : even_queues c) :
    even_queues d := by
  obtain ⟨_, e1, e2, e3⟩ := if_spi_host_to_card_effect K c type buf nb err d h
  have hp : (padded_packet buf (u16 nb)).blen % 2 = 0 := ALIGN_4_even _
  by_cases he : err = 0
  · by_cases ht : u8 type = K.MVMS_CMD
    · obtain ⟨a, b⟩ := e2 he ht
      refine ⟨fun p hm => ?_, fun p hm => hc.2 p (by rw [← b]; exact hm)⟩
      rw [a] at hm
      rcases List.mem_append.1 hm with hm | hm
      · exact hc.1 p hm
      · rw [List.mem_singleton.1 hm]; exact hp
    · obtain ⟨_, a, b⟩ := e3 he ht
      refine ⟨fun p hm => hc.1 p (by rw [← b]; exact hm), fun p hm => ?_⟩
      rw [a] at hm
      rcases List.mem_append.1 hm with hm | hm
      · exact hc.2 p hm
      · rw [List.mem_singleton.1 hm]; exact hp
  · obtain ⟨a, b⟩ := e1 he
    exact ⟨fun p hm => hc.1 p (by rw [← a]; exact hm), fun p hm => hc.2 p (by rw [← b]; exact hm)⟩

/-- A pass of the worker keeps the lengths of the queued packets even. -/
theorem lbs_spi_thread_cycle_even (K : if_spi_h) (hne : K.MVMS_CMD ≠ K.MVMS_DAT) (fuel : Nat)
    (c : if_spi_card) (r : Bool) (d : if_spi_card)
    (h : lbs_spi_thread_cycle K fuel c = .ok (r, d)) (hc : even_queues c) : even_queues d := by
  obtain ⟨nc, nd, _, a, _, b⟩ := lbs_spi_thread_cycle_effect K hne fuel c r d h
  simp only [List.append_nil] at a b
  exact ⟨fun p hm => hc.1 p (by rw [← a]; exact List.mem_append_right _ hm),
    fun p hm => hc.2 p (by rw [← b]; exact List.mem_append_right _ hm)⟩

/-- Over any sequence of submissions and passes of the worker the queued
packets keep even lengths. -/
theorem run_ops_even (K : if_spi_h) (hne : K.MVMS_CMD ≠ K.MVMS_DAT) (ops : List queue_op)
    (c d : if_spi_card) (acc : List (Nat × if_spi_packet))
    (h : run_ops K ops c = .ok (d, acc)) (hc : even_queues c) : even_queues d := by
  induction ops generalizing c acc with
  | nil =>
    simp only [run_ops, Except.ok.injEq, Prod.mk.injEq] at h
    rw [← h.1]
    exact hc
  | cons op ops ih =>
    cases op with
    | submit type buf nb =>
      simp only [run_ops] at h
      cases h1 : if_spi_host_to_card K c type buf nb with
      | error x => simp [h1] at h
      | ok x =>
        obtain ⟨err, c1⟩ := x
        simp only [h1] at h
        cases h2 : run_ops K ops c1 with
        | error x => simp [h2] at h
        | ok y =>
          obtain ⟨d2, acc2⟩ := y
          have hd : d2 = d := by
            simp only [h2, Except.ok.injEq, Prod.mk.injEq] at h
            exact h.1
          rw [hd] at h2
          exact ih c1 acc2 h2 (if_spi_host_to_card_even K c type buf nb err c1 h1 hc)
    | wake fuel =>
      simp only [run_ops] at h
      cases h1 : lbs_spi_thread_cycle K fuel c with
      | error x => simp [h1] at h
      | ok x =>
        obtain ⟨r, c1⟩ := x
        simp only [h1] at h
        exact ih c1 acc h (lbs_spi_thread_cycle_even K hne fuel c r c1 h1 hc)

/-- C24: with an even helper chunk size (the 64 of the specification) and
distinct packet types, no `spu_read` or `spu_write` of the driver stops at
`BUG_ON(len & 0x1)`: the 16- and 32-bit helpers always return; the helper
download never halts at a `BUG_ON`; neither does the main download on a bus
that reports its errors as negative codes (`bus_errno`), where every positive
length `if_spi_prog_main_firmware_check_len` returns is even; command
reception (given a free response slot, the other `BUG_ON` of that routine) and
data reception return or run past the buffer they fill, a memory fault and
not a `BUG_ON`, and the `ALIGN(len, 4)` bytes they read are an even number;
`if_spi_host_to_card`, and every sequence of submissions and wake-ups of the
worker, keep every queued packet at an even length; `if_spi_h2c` returns for a
packet of even length; and a dispatch of the worker on queues of even lengths
returns, or stops at such a memory fault of a reception. -/
theorem spu_lengths_even (K : if_spi_h) (heven : K.HELPER_FW_LOAD_CHUNK_SZ % 2 = 0)
    (hne : K.MVMS_CMD ≠ K.MVMS_DAT) :
    (∀ c reg, (∃ r d, spu_read_u16 K c reg = .ok (r, d)) ∧
      (∃ r d, spu_read_u32 K c reg 0 = .ok (r, d))) ∧
    (∀ c reg val, (∃ r d, spu_write_u16 K c reg val = .ok (r, d)) ∧
      (∃ r d, spu_write_u32 K c reg val = .ok (r, d))) ∧
    (∀ fuel wfuel c, halt_of (if_spi_prog_helper_firmware K fuel wfuel c) ≠ some .bug) ∧
    (∀ fuel wfuel c, bus_errno c →
      halt_of (if_spi_prog_main_firmware K fuel wfuel c) ≠ some .bug) ∧
    (∀ wfuel c crc r d, bus_errno c →
      if_spi_prog_main_firmware_check_len K wfuel c crc = .ok (r, d) → 0 < r.1 →
      r.1.toNat % 2 = 0) ∧
    (∀ c, c.priv.resp_len (if c.priv.resp_idx = 0 then 1 else 0) = 0 →
      (∃ r d, if_spi_c2h_cmd K c = .ok (r, d)) ∨ if_spi_c2h_cmd K c = .error .fault) ∧
    (∀ c, (∃ r d, if_spi_c2h_data K c = .ok (r, d)) ∨ if_spi_c2h_data K c = .error .fault) ∧
    (∀ len, ALIGN len 4 % 2 = 0) ∧
    (∀ c type buf nb err d, if_spi_host_to_card K c type buf nb = .ok (err, d) →
      even_queues c → even_queues d) ∧
    (∀ ops c d acc, run_ops K ops c = .ok (d, acc) → even_queues c → even_queues d) ∧
    (∀ c p type, p.blen % 2 = 0 → ∃ d, if_spi_h2c K c p type = .ok ((), d)) ∧
    (∀ c, c.priv.resp_len (if c.priv.resp_idx = 0 then 1 else 0) = 0 → even_queues c →
      (∃ r d, lbs_spi_thread_dispatch K c = .ok (r, d)) ∨
        lbs_spi_thread_dispatch K c = .error .fault) := by
  refine ⟨fun c reg => ?_, fun c reg val => ?_, fun fuel wfuel c => ?_, fun fuel wfuel c hc => ?_,
    fun wfuel c crc r d hc h hpos => ?_, fun c hf => ?_, fun c => ?_, ALIGN_4_even,
    fun c type buf nb err d h hc => ?_, fun ops c d acc h hc => ?_, fun c p type hp => ?_,
    fun c hf hc => ?_⟩
  · obtain ⟨r1, d1, h1, _⟩ := spu_read_u16_touches K c reg
    obtain ⟨r2, d2, h2, _⟩ := spu_read_u32_touches K c reg 0
    exact ⟨⟨r1, d1, h1⟩, ⟨r2, d2, h2⟩⟩
  · obtain ⟨r1, d1, h1, _⟩ := spu_write_u16_returns K c reg val
    exact ⟨⟨r1, d1, h1⟩, spu_write_u32_returns K c reg val⟩
  · exact helper_firmware_no_bug K heven fuel wfuel c
  · exact main_firmware_no_bug K fuel wfuel c hc
  · exact check_len_even K wfuel c crc r d h hc hpos
  · exact if_spi_c2h_cmd_returns K c hf
  · exact if_spi_c2h_data_returns K c
  · exact if_spi_host_to_card_even K c type buf nb err d h hc
  · exact run_ops_even K hne ops c d acc h hc
  · exact if_spi_h2c_returns K c p type hp
  · exact lbs_spi_thread_dispatch_returns K c hf hc.1 hc.2

/-- C24, with the sample constants: the helper download on `helper_card` does
not stop at a `BUG_ON`, and a dispatch of the worker on `busy_card` returns. -/
theorem spu_lengths_even_witness :
    halt_of (if_spi_prog_helper_firmware sample_h 3 1 helper_card) ≠ some .bug ∧
    ∃ r d, lbs_spi_thread_dispatch sample_h busy_card = .ok (r, d) := by
  refine ⟨(spu_lengths_even sample_h rfl (by decide)).2.2.1 3 1 helper_card, ?_⟩
  have hv : halt_of (lbs_spi_thread_dispatch sample_h busy_card) = none := by decide
  rcases (spu_lengths_even sample_h rfl (by decide)).2.2.2.2.2.2.2.2.2.2.2 busy_card rfl
    ⟨by decide, by decide⟩ with h | h
  · exact h
  · rw [h] at hv
    exact absurd hv (by simp [halt_of])

/-- Bus activity leaves the mode and delay fields of the card alone. -/
theorem touches_modes {P : Event → Bool} {c d : if_spi_card} (h : touches P c d) :
    d.use_dummy_writes = c.use_dummy_writes ∧ d.spu_port_delay = c.spu_port_delay ∧
    d.spu_reg_delay = c.spu_reg_delay ∧ d.run_thread = c.run_thread := by
  obtain ⟨a, b, n, t, u, rfl, _⟩ := h
  exact ⟨rfl, rfl, rfl, rfl⟩

/-- A `spu_read` that returns 0 has read its register once. -/
theorem spu_read_done (K : if_spi_h) (c : if_spi_card) (reg : Nat) (buf : List Nat)
    (len : Nat) (b : List Nat) (d : if_spi_card)
    (h : spu_read K c reg buf len = .ok ((0, b), d)) :
    d.spi.nrd = Function.update c.spi.nrd (u16 reg) (c.spi.nrd (u16 reg) + 1) := by
  have hac := spu_addr_counts c (u16 (u16 reg ||| K.IF_SPI_READ_OPERATION_MASK))
  have hsc := spu_read_settle_counts K
    (spu_addr c (u16 (u16 reg ||| K.IF_SPI_READ_OPERATION_MASK))).2 (u16 reg)
  unfold spu_read at h
  simp only [] at h
  split at h
  · simp at h
  · split at h
    · rename_i hne
      simp only [Except.ok.injEq, Prod.mk.injEq] at h
      exact absurd h.1.1 hne
    · split at h
      · rename_i hne
        simp only [Except.ok.injEq, Prod.mk.injEq] at h
        exact absurd h.1.1 hne
      · simp only [Except.ok.injEq, Prod.mk.injEq] at h
        rw [← h.2, (spu_transaction_finish_counts _).1]
        simp only [emit, spi_read, hsc.1, hac.1]

/-- `spu_set_bus_mode` is bus activity that reads no register but the bus mode
register. -/
theorem spu_set_bus_mode_touches (K : if_spi_h) (c : if_spi_card) (mode : Nat) (r : Int)
    (d : if_spi_card) (h : spu_set_bus_mode K c mode = .ok (r, d)) :
    touches bus_event c d ∧
      ∀ x, x ≠ u16 K.IF_SPI_SPU_BUS_MODE_REG → d.spi.nrd x = c.spi.nrd x := by
  unfold spu_set_bus_mode at h
  simp only [] at h
  cases hw : spu_write_u16 K c K.IF_SPI_SPU_BUS_MODE_REG (u16 mode) with
  | error x => simp [hw] at h
  | ok x =>
    obtain ⟨e1, c1⟩ := x
    obtain ⟨t1, n1⟩ := spu_write_touches K c _ _ _ _ c1 hw
    simp only [hw] at h
    split at h
    · simp only [Except.ok.injEq, Prod.mk.injEq] at h
      rw [← h.2]
      exact ⟨t1, fun x _ => by rw [n1]⟩
    · obtain ⟨⟨e2, rval⟩, c2, h2, t2, n2⟩ := spu_read_u16_touches K c1 K.IF_SPI_SPU_BUS_MODE_REG
      have t12 := touches_trans t1 (touches_mono read_event_bus t2)
      have n12 : ∀ x, x ≠ u16 K.IF_SPI_SPU_BUS_MODE_REG → c2.spi.nrd x = c.spi.nrd x := by
        intro x hx
        rcases n2 with n2 | n2
        · rw [n2, n1]
        · rw [n2, Function.update_noteq hx, n1]
      simp only [h2] at h
      split at h
      · simp only [Except.ok.injEq, Prod.mk.injEq] at h
        rw [← h.2]
        exact ⟨t12, n12⟩
      · split at h
        · simp only [Except.ok.injEq, Prod.mk.injEq] at h
          rw [← h.2]
          exact ⟨touches_emit t12 rfl, n12⟩
        · simp only [Except.ok.injEq, Prod.mk.injEq] at h
          rw [← h.2]
          exact ⟨t12, n12⟩

theorem upper_half (D : Nat) (hD : D < 4294967296) :
    (D &&& 0xffff0000) >>> 16 = D >>> 16 ∧ D >>> 16 < 65536 ∧ D &&& 0xffff < 65536 := by
  have h1 := (u32_halves D hD).2
  have hx : (D &&& 0xffff0000) >>> 16 < 65536 := by
    rw [Nat.shiftRight_eq_div_pow]
    have : D &&& 0xffff0000 ≤ 0xffff0000 := Nat.and_le_right
    omega
  have h2 : D >>> 16 = D / 65536 := by rw [Nat.shiftRight_eq_div_pow]
  have h3 : D &&& 0xffff ≤ 0xffff := Nat.and_le_right
  refine ⟨?_, ?_, by omega⟩
  · rw [h2, ← h1, u16, Nat.mod_eq_of_lt hx]
  · omega

/-- C25: a `spu_init` that returns 0, for constants under which the delay
register is not the bus mode register.  It has set timed mode with
`use_dummy_writes` 0, then read the delay register exactly once, in a state
with `use_dummy_writes` 0 and both delays 1000; for the value `D` read,
`spu_port_delay` ends as `D & 0xffff` and `spu_reg_delay` as `D >> 16`, both
below 65536, and `use_dummy_writes` ends as 1 if dummy-write mode was asked
for and as 0 otherwise. -/
theorem spu_init_delays (K : if_spi_h) (c d : if_spi_card) (use_dummy_writes : Int)
    (hreg : u16 K.IF_SPI_DELAY_READ_REG ≠ u16 K.IF_SPI_SPU_BUS_MODE_REG)
    (h : spu_init K c use_dummy_writes = .ok (0, d)) :
    ∃ c1 c2 D,
      spu_set_bus_mode K { c with use_dummy_writes := 0 }
        (K.IF_SPI_BUS_MODE_SPI_CLOCK_PHASE_RISING ||| K.IF_SPI_BUS_MODE_DELAY_METHOD_TIMED |||
          K.IF_SPI_BUS_MODE_16_BIT_ADDRESS_16_BIT_DATA) = .ok (0, c1) ∧
      c1.use_dummy_writes = 0 ∧
      spu_read_u32 K { c1 with spu_port_delay := 1000, spu_reg_delay := 1000 }
        K.IF_SPI_DELAY_READ_REG 0 = .ok ((0, D), c2) ∧
      d.spi.nrd (u16 K.IF_SPI_DELAY_READ_REG) = c.spi.nrd (u16 K.IF_SPI_DELAY_READ_REG) + 1 ∧
      d.spu_port_delay = D &&& 0xffff ∧ d.spu_reg_delay = D >>> 16 ∧
      d.spu_port_delay < 65536 ∧ d.spu_reg_delay < 65536 ∧
      d.use_dummy_writes = if use_dummy_writes ≠ 0 then 1 else 0 := by
  unfold spu_init at h
  cases h1 : spu_set_bus_mode K { c with use_dummy_writes := 0 }
      (K.IF_SPI_BUS_MODE_SPI_CLOCK_PHASE_RISING ||| K.IF_SPI_BUS_MODE_DELAY_METHOD_TIMED |||
        K.IF_SPI_BUS_MODE_16_BIT_ADDRESS_16_BIT_DATA) with
  | error x => simp [h1] at h
  | ok x =>
    obtain ⟨e1, c1⟩ := x
    obtain ⟨t1, n1⟩ := spu_set_bus_mode_touches K _ _ _ c1 h1
    simp only [h1] at h
    split at h
    · rename_i hne
      simp only [Except.ok.injEq, Prod.mk.injEq] at h
      exact absurd h.1 hne
    · rename_i he
      have he0 : e1 = 0 := not_not.1 he
      subst he0
      cases h2 : spu_read_u32 K { c1 with spu_port_delay := 1000, spu_reg_delay := 1000 }
          K.IF_SPI_DELAY_READ_REG 0 with
      | error x => simp [h2] at h
      | ok x =>
        obtain ⟨⟨e2, D⟩, c2⟩ := x
        simp only [h2] at h
        split at h
        · rename_i hne
          simp only [Except.ok.injEq, Prod.mk.injEq] at h
          exact absurd h.1 hne
        · rename_i he2
          have he20 : e2 = 0 := not_not.1 he2
          subst he20
          have hD : D < 4294967296 ∧ c2.spi.nrd = Function.update c1.spi.nrd
              (u16 K.IF_SPI_DELAY_READ_REG) (c1.spi.nrd (u16 K.IF_SPI_DELAY_READ_REG) + 1) ∧
              c2.use_dummy_writes = 0 := by
            unfold spu_read_u32 at h2
            cases h3 : spu_read K { c1 with spu_port_delay := 1000, spu_reg_delay := 1000 }
                K.IF_SPI_DELAY_READ_REG [0, 0, 0, 0] 4 with
            | error x => simp [h3] at h2
            | ok x =>
              obtain ⟨⟨e3, buf⟩, c3⟩ := x
              simp only [h3] at h2
              split at h2
              · rename_i he3
                subst he3
                simp only [Except.ok.injEq, Prod.mk.injEq] at h2
                obtain ⟨⟨_, hv⟩, hc⟩ := h2
                subst hc
                have hdone := spu_read_done K _ _ _ _ _ _ h3
                refine ⟨?_, hdone, ?_⟩
                · rw [← hv]
                  exact Nat.mod_lt _ (by norm_num)
                · rw [(touches_modes (spu_read_touches K _ _ _ _ _ _ h3).1).1]
                  exact (touches_modes t1).1
              · rename_i he3
                simp only [Except.ok.injEq, Prod.mk.injEq] at h2
                exact absurd h2.1.1.symm (fun x => he3 x.symm)
          obtain ⟨hDlt, hn2, hu2⟩ := hD
          obtain ⟨u1, u2, u3⟩ := upper_half D hDlt
          have hcnt : c2.spi.nrd (u16 K.IF_SPI_DELAY_READ_REG) =
              c.spi.nrd (u16 K.IF_SPI_DELAY_READ_REG) + 1 := by
            rw [hn2, Function.update_same]
            have := n1 _ hreg
            simpa using this
          refine ⟨c1, c2, D, rfl, (touches_modes t1).1, h2, ?_⟩
          split at h
          · rename_i hdm
            obtain ⟨t3, n3⟩ := spu_set_bus_mode_touches K _ _ _ d h
            obtain ⟨m1, m2, m3, _⟩ := touches_modes t3
            refine ⟨by rw [n3 _ hreg]; exact hcnt, m2, by rw [m3]; exact u1, by rw [m2]; exact u3,
              by rw [m3]; exact u1 ▸ u2, by rw [m1, if_pos hdm]⟩
          · rename_i hdm
            simp only [Except.ok.injEq, Prod.mk.injEq, true_and] at h
            rw [← h]
            exact ⟨hcnt, rfl, u1, u3, u1 ▸ u2, by rw [if_neg hdm]; exact hu2⟩

set_option maxRecDepth 100000 in
/-- C25, on a device whose delay register reads 0x00300010: `spu_init` returns
0 with a port delay of 0x10 and a register delay of 0x30 after one read of the
delay register (0x6C with the sample constants), in timed mode when called
with 0 and in dummy-write mode when called with 1. -/
theorem spu_init_delays_witness :
    (∃ d, spu_init sample_h delay_card 0 = .ok (0, d) ∧ d.spi.nrd 0x6C = 1 ∧
      d.use_dummy_writes = 0 ∧ d.spu_port_delay = 0x10 ∧ d.spu_reg_delay = 0x30) ∧
    ∃ d, spu_init sample_h delay_card 1 = .ok (0, d) ∧ d.spi.nrd 0x6C = 1 ∧
      d.use_dummy_writes = 1 ∧ d.spu_port_delay = 0x10 ∧ d.spu_reg_delay = 0x30 := by
  refine ⟨?_, ?_⟩
  · obtain ⟨d, hd⟩ := value_of_some (spu_init sample_h delay_card 0) 0 (by decide)
    obtain ⟨_, _, _, _, _, _, hn, _, _, _, _, hu⟩ :=
      spu_init_delays sample_h delay_card d 0 (by decide) hd
    have hs : state_of (spu_init sample_h delay_card 0) delay_card = d := by rw [hd]; rfl
    refine ⟨d, hd, hn, hu, ?_, ?_⟩
    · rw [← hs]; decide
    · rw [← hs]; decide
  · obtain ⟨d, hd⟩ := value_of_some (spu_init sample_h delay_card 1) 0 (by decide)
    obtain ⟨_, _, _, _, _, _, hn, _, _, _, _, hu⟩ :=
      spu_init_delays sample_h delay_card d 1 (by decide) hd
    have hs : state_of (spu_init sample_h delay_card 1) delay_card = d := by rw [hd]; rfl
    refine ⟨d, hd, hn, hu, ?_, ?_⟩
    · rw [← hs]; decide
    · rw [← hs]; decide

/-- C26 (divergence): take an iteration of the chunk loop of
`if_spi_prog_main_firmware` that starts with `bytes` bytes of the image left at
offset `fw` (`fw + bytes` is the image size and `bytes` is not negative, so the
check `bytes < 0` passes), after a chunk of `prev_len` bytes, on a length reply
`len > 0` without CRC error.  When `bytes < prev_len`, that is after a
zero-padded chunk, the loop subtracts `prev_len` and then calls `memcpy` with
the negative count `bytes - prev_len`: a memory fault.  When `prev_len ≤ bytes`
the copy lies inside the image.  Either way `fw + bytes` stays the image
size. -/
theorem main_firmware_copy_past_image (K : if_spi_h) (wfuel : Nat) (image : List Nat)
    (c c1 : if_spi_card) (v : main_fw_vars) (len : Int)
    (hcl : if_spi_prog_main_firmware_check_len K wfuel c v.crc_err = .ok ((len, 0), c1))
    (hpos : 0 < len) (hb : 0 ≤ v.bytes) (hprev : 0 ≤ v.prev_len)
    (hinv : (v.fw : Int) + v.bytes = image.length) :
    (v.bytes < v.prev_len →
      if_spi_prog_main_firmware_body K wfuel image c v = .error .fault) ∧
    (v.prev_len ≤ v.bytes →
      (if_spi_prog_main_firmware_fill image c1.cmd_buffer
        (if_spi_prog_main_firmware_count K { v with crc_err := 0 }).1 len).isSome = true) ∧
    (((if_spi_prog_main_firmware_count K { v with crc_err := 0 }).1.fw : Int) +
      (if_spi_prog_main_firmware_count K { v with crc_err := 0 }).1.bytes = image.length) := by
  have hc : if_spi_prog_main_firmware_count K { v with crc_err := 0 } =
      ({ v with crc_err := 0, bytes := v.bytes - v.prev_len, fw := v.fw + v.prev_len.toNat },
        false) := by
    simp [if_spi_prog_main_firmware_count]
  have hl0 : ¬ len = 0 := by omega
  have hl1 : ¬ len < 0 := by omega
  have hb1 : ¬ v.bytes < 0 := by omega
  have hpn : ((v.prev_len.toNat : Nat) : Int) = v.prev_len := Int.toNat_of_nonneg hprev
  refine ⟨fun hlt => ?_, fun hle => ?_, ?_⟩
  · have h1 : v.bytes - v.prev_len < len := by omega
    have h2 : v.bytes - v.prev_len < 0 := by omega
    simp only [if_spi_prog_main_firmware_body, hcl, hl0, hl1, hb1, ↓reduceIte, hc,
      Bool.false_eq_true, if_spi_prog_main_firmware_fill, h1, h2]
  · rw [hc]
    simp only [if_spi_prog_main_firmware_fill]
    have h3 : ¬ v.bytes - v.prev_len < 0 := by omega
    split
    · simp only [h3, ↓reduceIte, Option.isSome_map']
      have : v.fw + v.prev_len.toNat + (v.bytes - v.prev_len).toNat ≤ image.length := by
        have := Int.toNat_of_nonneg (show 0 ≤ v.bytes - v.prev_len by omega)
        omega
      simp [memcpy_src, this]
    · rename_i hge
      simp only [Option.isSome_map']
      have : v.fw + v.prev_len.toNat + len.toNat ≤ image.length := by
        have := Int.toNat_of_nonneg (show 0 ≤ len by omega)
        omega
      simp [memcpy_src, this]
  · rw [hc]
    simp only [Nat.cast_add, hpn]
    omega

set_option maxRecDepth 100000 in
/-- C26 (divergence), on a card with an image of 4 bytes whose device asks for
6 bytes at every length reply: the second iteration of the chunk loop faults,
and so does `if_spi_prog_main_firmware`. -/
theorem main_firmware_copy_past_image_witness :
    if_spi_prog_main_firmware_body sample_h 1 [1, 2, 3, 4] short_image_card short_image_vars =
      .error .fault ∧
    if_spi_prog_main_firmware sample_h 3 1 short_image_card = .error .fault := by
  refine ⟨?_, halt_of_error _ _ (by decide)⟩
  exact (main_firmware_copy_past_image sample_h 1 [1, 2, 3, 4] short_image_card _
    short_image_vars 6
    (value_of_state (if_spi_prog_main_firmware_check_len sample_h 1 short_image_card 0) (6, 0)
      short_image_card (by decide))
    (by decide) (by decide) (by decide) (by decide)).1 (by decide)

/-- C27 (amended): `if_spi_host_to_card` with `0 < nb ≤ 65532` bytes of the
caller's buffer and a type other than `MVMS_CMD` and `MVMS_DAT`.  When the
packet allocation succeeds it logs and returns `-EINVAL`, leaves both lists
and `priv` (so `dnld_sent`) as they were and posts `spi_ready` exactly once;
when the allocation fails it returns `-ENOMEM` and posts nothing.  Called with
`nb = 0` it returns `-EINVAL` and posts no wake signal. -/
theorem if_spi_host_to_card_unknown_type (K : if_spi_h) (c : if_spi_card) (type : Nat)
    (buf : List Nat) (nb : Nat) (h0 : 0 < nb) (h1 : nb ≤ 65532) (hb : nb ≤ buf.length)
    (hc : u8 type ≠ K.MVMS_CMD) (hd : u8 type ≠ K.MVMS_DAT) :
    (c.sys.alloc_ok c.sys.nalloc = true →
      ∃ d, if_spi_host_to_card K c type buf nb = .ok (-EINVAL, d) ∧
        d.cmd_packet_list = c.cmd_packet_list ∧ d.data_packet_list = c.data_packet_list ∧
        d.priv = c.priv ∧ d.spi_ready = c.spi_ready + 1 ∧
        d.trace = c.trace ++ [.pr_err (-EINVAL), .up_spi_ready] ∧
        wakes d.trace = wakes c.trace + 1) ∧
    (c.sys.alloc_ok c.sys.nalloc = false →
      ∃ d, if_spi_host_to_card K c type buf nb = .ok (-ENOMEM, d) ∧
        d.cmd_packet_list = c.cmd_packet_list ∧ d.data_packet_list = c.data_packet_list ∧
        d.priv = c.priv ∧ d.spi_ready = c.spi_ready ∧ d.trace = c.trace) ∧
    (∀ ty b, ∃ d, if_spi_host_to_card K c ty b 0 = .ok (-EINVAL, d) ∧
      d.spi_ready = c.spi_ready ∧ wakes d.trace = wakes c.trace) := by
  have hu : u16 nb = nb := Nat.mod_eq_of_lt (by omega)
  have hz : ¬ u16 nb = 0 := by omega
  have hz2 : ¬ nb = 0 := by omega
  refine ⟨fun hg => ?_, fun hg => ?_, fun ty b => ?_⟩
  · have hp := if_spi_host_to_card_packet_some buf nb h1 hb
    refine ⟨up_spi_ready (emit { c with sys := { c.sys with nalloc := c.sys.nalloc + 1 } }
      (.pr_err (-EINVAL))), ?_, ?_⟩
    · simp only [if_spi_host_to_card, hz, ↓reduceIte, hg, Bool.not_true, Bool.false_eq_true, hu, hz2, hp,
        if_spi_host_to_card_enqueue, hc, hd]
    · simp [up_spi_ready, emit, wakes, List.count_append]
  · refine ⟨{ c with sys := { c.sys with nalloc := c.sys.nalloc + 1 } }, ?_, ?_⟩
    · simp only [if_spi_host_to_card, hz, ↓reduceIte, hg, Bool.not_false]
    · exact ⟨rfl, rfl, rfl, rfl, rfl⟩
  · refine ⟨emit c (.pr_err (-EINVAL)), ?_, ?_⟩
    · simp only [if_spi_host_to_card, u16, Nat.zero_mod, ↓reduceIte]
    · simp [emit, wakes, List.count_append]

/-- C27 as stated fails when the allocation of the packet fails: a submission
of 3 bytes with the unknown type 7 returns `-ENOMEM`, not `-EINVAL`, and the
wake signal is not posted. -/
theorem if_spi_host_to_card_unknown_type_no_memory :
    value_of (if_spi_host_to_card sample_h no_memory_card 7 [1, 2, 3] 3) = some (-ENOMEM) ∧
    wakes (state_of (if_spi_host_to_card sample_h no_memory_card 7 [1, 2, 3] 3)
      no_memory_card).trace = 0 := by
  decide

/-- C27 (amended), on the sample card: 3 bytes submitted with the unknown type
7 are refused with `-EINVAL` after one log line and one post of `spi_ready`. -/
theorem if_spi_host_to_card_unknown_type_witness :
    ∃ d, if_spi_host_to_card sample_h (sim_card (fun _ _ => [0, 0]) (fun _ => 0) []) 7
        [1, 2, 3] 3 = .ok (-EINVAL, d) ∧
      d.trace = [.pr_err (-EINVAL), .up_spi_ready] ∧ d.spi_ready = 1 ∧
      d.cmd_packet_list = [] ∧ d.data_packet_list = [] := by
  obtain ⟨d, h, h1, h2, _, h4, h5, _⟩ := (if_spi_host_to_card_unknown_type sample_h
    (sim_card (fun _ _ => [0, 0]) (fun _ => 0) []) 7 [1, 2, 3] 3 (by decide) (by decide)
    (by decide) (by decide) (by decide)).1 rfl
  exact ⟨d, h, h5, h4, h1, h2⟩

theorem spu_write_u16_effect (K : if_spi_h) (c : if_spi_card) (reg val : Nat) :
    ∃ d, spu_write_u16 K c reg val =
        .ok (if c.spi.wr_res c.spi.nwr ≠ 0 then c.spi.wr_res c.spi.nwr
          else c.spi.wr_res (c.spi.nwr + 1), d) ∧
      touches bus_event c d ∧
      bus_writes d.trace = bus_writes c.trace ++
        (if c.spi.wr_res c.spi.nwr = 0 then [(u16 reg, bytes_of_u16 (u16 val))] else []) := by
  obtain ⟨d, h, ht, hb⟩ := spu_write_effect K c reg (bytes_of_u16 (u16 val)) 2 rfl
  exact ⟨d, h, ht, by simpa [bytes_of_u16] using hb⟩

/-- A 16-bit write that returns 0 has put its payload on the bus. -/
theorem spu_write_u16_sent (K : if_spi_h) (c : if_spi_card) (reg val : Nat) (d : if_spi_card)
    (h : spu_write_u16 K c reg val = .ok (0, d)) :
    touches bus_event c d ∧
      bus_writes d.trace = bus_writes c.trace ++ [(u16 reg, bytes_of_u16 (u16 val))] := by
  obtain ⟨d2, h2, ht, hb⟩ := spu_write_u16_effect K c reg val
  rw [h2] at h
  simp only [Except.ok.injEq, Prod.mk.injEq] at h
  obtain ⟨hv, rfl⟩ := h
  refine ⟨ht, ?_⟩
  by_cases h0 : c.spi.wr_res c.spi.nwr = 0
  · simpa [h0] using hb
  · simp [h0] at hv

theorem port_writes_eq_bus_writes (reg : Nat) (t : List Event) :
    port_writes reg t = (bus_writes t).filterMap (fun w => if w.1 = reg then some w.2 else none) := by
  induction t with
  | nil => rfl
  | cons e t ih =>
    cases e <;> simp [port_writes, bus_writes, List.filterMap_cons] at ih ⊢ <;> try exact ih
    rename_i r b res
    by_cases hr : r = reg <;> simp [hr, ih]

/-- With working write transfers `spu_set_interrupt_mode` without automatic
interrupts returns 0. -/
theorem spu_set_interrupt_mode_manual_returns (K : if_spi_h) (c : if_spi_card)
    (hw : writes_ok c) (s : Int) : ∃ d2, spu_set_interrupt_mode K c s 0 = .ok (0, d2) := by
  unfold spu_set_interrupt_mode
  simp only []
  by_cases hs : s ≠ 0
  · simp only [hs, ne_eq, not_false_eq_true, ↓reduceIte]
    obtain ⟨c1, h1, ht1, _⟩ := spu_write_u16_sends K c K.IF_SPI_HOST_INT_STATUS_MASK_REG 0 hw
    simp only [h1, ne_eq, not_true_eq_false, ↓reduceIte]
    obtain ⟨c2, h2, _, _⟩ := spu_write_u16_sends K c1 K.IF_SPI_HOST_INT_STATUS_MASK_REG 0
      (touches_writes_ok ht1 hw)
    exact ⟨c2, h2⟩
  · simp only [hs, ↓reduceIte]
    obtain ⟨c1, h1, ht1, _⟩ := spu_write_u16_sends K c K.IF_SPI_HOST_INT_STATUS_MASK_REG
      (K.IF_SPI_HISM_TX_DOWNLOAD_RDY ||| K.IF_SPI_HISM_RX_UPLOAD_RDY |||
        K.IF_SPI_HISM_CMD_DOWNLOAD_RDY ||| K.IF_SPI_HISM_CARDEVENT |||
        K.IF_SPI_HISM_CMD_UPLOAD_RDY) hw
    simp only [h1, ne_eq, not_true_eq_false, ↓reduceIte]
    obtain ⟨c2, h2, _, _⟩ := spu_write_u16_sends K c1 K.IF_SPI_HOST_INT_STATUS_MASK_REG 0
      (touches_writes_ok ht1 hw)
    exact ⟨c2, h2⟩

/-- C28: a call of `spu_set_interrupt_mode` without automatic interrupts that
returns 0 has written exactly two payloads, both to the host interrupt status
mask register: first 0 or, when host interrupts are not to be suppressed, the
five enable bits, then 0.  So the last value written to the mask register is 0
whatever `suppress_host_int` is, and nothing is written to the host interrupt
control register.  With working write transfers the call does return 0. -/
theorem spu_set_interrupt_mode_masks (K : if_spi_h) (c d : if_spi_card)
    (suppress_host_int : Int)
    (h : spu_set_interrupt_mode K c suppress_host_int 0 = .ok (0, d)) :
    bus_writes d.trace = bus_writes c.trace ++
      [(u16 K.IF_SPI_HOST_INT_STATUS_MASK_REG,
          bytes_of_u16 (if suppress_host_int ≠ 0 then 0
            else u16 (K.IF_SPI_HISM_TX_DOWNLOAD_RDY ||| K.IF_SPI_HISM_RX_UPLOAD_RDY |||
              K.IF_SPI_HISM_CMD_DOWNLOAD_RDY ||| K.IF_SPI_HISM_CARDEVENT |||
              K.IF_SPI_HISM_CMD_UPLOAD_RDY))),
       (u16 K.IF_SPI_HOST_INT_STATUS_MASK_REG, bytes_of_u16 0)] ∧
    last_write (u16 K.IF_SPI_HOST_INT_STATUS_MASK_REG) d.trace = some (bytes_of_u16 0) ∧
    (u16 K.IF_SPI_HOST_INT_CTRL_REG ≠ u16 K.IF_SPI_HOST_INT_STATUS_MASK_REG →
      port_writes (u16 K.IF_SPI_HOST_INT_CTRL_REG) d.trace =
        port_writes (u16 K.IF_SPI_HOST_INT_CTRL_REG) c.trace) ∧
    (writes_ok c → ∀ s, ∃ d2, spu_set_interrupt_mode K c s 0 = .ok (0, d2)) := by
  have key : bus_writes d.trace = bus_writes c.trace ++
      [(u16 K.IF_SPI_HOST_INT_STATUS_MASK_REG,
          bytes_of_u16 (if suppress_host_int ≠ 0 then 0
            else u16 (K.IF_SPI_HISM_TX_DOWNLOAD_RDY ||| K.IF_SPI_HISM_RX_UPLOAD_RDY |||
              K.IF_SPI_HISM_CMD_DOWNLOAD_RDY ||| K.IF_SPI_HISM_CARDEVENT |||
              K.IF_SPI_HISM_CMD_UPLOAD_RDY))),
       (u16 K.IF_SPI_HOST_INT_STATUS_MASK_REG, bytes_of_u16 0)] := by
    have aux : ∀ v, ((match spu_write_u16 K c K.IF_SPI_HOST_INT_STATUS_MASK_REG v with
        | .error x => .error x
        | .ok (err, c1) =>
          if err ≠ 0 then .ok (err, c1)
          else spu_write_u16 K c1 K.IF_SPI_HOST_INT_STATUS_MASK_REG 0) : Run Int) =
          .ok (0, d) →
        bus_writes d.trace = bus_writes c.trace ++
          [(u16 K.IF_SPI_HOST_INT_STATUS_MASK_REG, bytes_of_u16 (u16 v)),
           (u16 K.IF_SPI_HOST_INT_STATUS_MASK_REG, bytes_of_u16 0)] := by
      intro v hv
      cases hf : spu_write_u16 K c K.IF_SPI_HOST_INT_STATUS_MASK_REG v with
      | error x => simp [hf] at hv
      | ok x =>
        obtain ⟨e1, c1⟩ := x
        simp only [hf] at hv
        split at hv
        · rename_i he
          simp only [Except.ok.injEq, Prod.mk.injEq] at hv
          exact absurd hv.1 he
        · rename_i he
          have he0 : e1 = 0 := not_not.1 he
          rw [he0] at hf
          obtain ⟨_, b1⟩ := spu_write_u16_sent K c _ _ c1 hf
          obtain ⟨_, b2⟩ := spu_write_u16_sent K c1 _ _ d hv
          rw [b2, b1]
          simp [u16]
    unfold spu_set_interrupt_mode at h
    simp only [ne_eq, not_true_eq_false, ↓reduceIte] at h
    by_cases hs : suppress_host_int = 0
    · simp only [hs, ↓reduceIte, ne_eq, not_true_eq_false] at h ⊢
      exact aux _ h
    · simp only [hs, ↓reduceIte, ne_eq, not_false_eq_true] at h ⊢
      have := aux 0 h
      simpa [u16] using this
  refine ⟨key, ?_, fun hne => ?_, fun hw s => ?_⟩
  · simp [last_write, port_writes_eq_bus_writes, key, List.filterMap_append]
  · simp [port_writes_eq_bus_writes, key, List.filterMap_append, Ne.symm hne]
  · exact spu_set_interrupt_mode_manual_returns K c hw s

/-- C28, on the sample card with `suppress_host_int = 0`: the enable bits
0x1f are written to the mask register (0x64 with the sample constants) and
then overwritten with 0. -/
theorem spu_set_interrupt_mode_masks_witness :
    ∃ d, spu_set_interrupt_mode sample_h (sim_card (fun _ _ => [0, 0]) (fun _ => 0) []) 0 0 =
        .ok (0, d) ∧
      bus_writes d.trace = [(0x64, [0x1f, 0]), (0x64, [0, 0])] ∧
      last_write 0x64 d.trace = some [0, 0] := by
  obtain ⟨d, h⟩ := spu_set_interrupt_mode_manual_returns sample_h
    (sim_card (fun _ _ => [0, 0]) (fun _ => 0) []) (fun _ => rfl) 0
  obtain ⟨h1, h2, _⟩ := spu_set_interrupt_mode_masks sample_h _ d 0 h
  exact ⟨d, h, h1, h2⟩

theorem if_spi_c2h_out_reads (c : if_spi_card) (err : Int) (r : Int) (d : if_spi_card)
    (h : if_spi_c2h_out c err = .ok (r, d)) : bus_reads d.trace = bus_reads c.trace := by
  unfold if_spi_c2h_out at h
  simp only [Except.ok.injEq, Prod.mk.injEq] at h
  rw [← h.2]
  split <;> simp [emit, bus_reads]

theorem if_spi_c2h_cmd_notify_reads (K : if_spi_h) (c : if_spi_card) (i len : Nat) (r : Int)
    (d : if_spi_card) (h : if_spi_c2h_cmd_notify K c i len = .ok (r, d)) :
    bus_reads d.trace = bus_reads c.trace := by
  unfold if_spi_c2h_cmd_notify at h
  split at h
  · simp at h
  split at h
  · simp at h
  rw [if_spi_c2h_out_reads _ _ _ _ h]
  simp [emit, bus_reads]

set_option maxRecDepth 100000 in
/-- C30: for a length `len` read from scratch register 2 with
`0 < len ≤ IF_SPI_CMD_BUF_SIZE`, the only payload read `if_spi_c2h_cmd`
performs after the length read is one of `ALIGN(len, 4)` bytes from the command
port into `cmd_buffer`, and with a buffer size that is a multiple of 4 these
`ALIGN(len, 4)` bytes fit the buffer.  Without that hypothesis they need not:
with a buffer of 6 bytes the length 5 is accepted and 8 bytes are read. -/
theorem if_spi_c2h_cmd_read_fits (K : if_spi_h) (c c1 : if_spi_card) (len : Nat)
    (h1 : spu_read_u16 K c K.IF_SPI_SCRATCH_2_REG = .ok ((0, len), c1))
    (hpos : 0 < len) (hle : len ≤ K.IF_SPI_CMD_BUF_SIZE) :
    (K.IF_SPI_CMD_BUF_SIZE % 4 = 0 → ALIGN len 4 ≤ K.IF_SPI_CMD_BUF_SIZE) ∧
    (∀ r d, if_spi_c2h_cmd K c = .ok (r, d) →
      bus_reads d.trace = bus_reads c1.trace ∨
      bus_reads d.trace = bus_reads c1.trace ++
        [(u16 K.IF_SPI_CMD_RDWRPORT_REG, ALIGN len 4)]) ∧
    (5 ≤ odd_buf_h.IF_SPI_CMD_BUF_SIZE ∧ odd_buf_h.IF_SPI_CMD_BUF_SIZE < ALIGN 5 4 ∧
      value_of (spu_read_u16 odd_buf_h (sim_card upload_dev (fun _ => 0) [])
        odd_buf_h.IF_SPI_SCRATCH_2_REG) = some (0, 5) ∧
      value_of (if_spi_c2h_cmd odd_buf_h (sim_card upload_dev (fun _ => 0) [])) = some 0 ∧
      bus_reads (state_of (if_spi_c2h_cmd odd_buf_h (sim_card upload_dev (fun _ => 0) []))
        (sim_card upload_dev (fun _ => 0) [])).trace =
        [(u16 odd_buf_h.IF_SPI_SCRATCH_2_REG, 2),
         (u16 odd_buf_h.IF_SPI_CMD_RDWRPORT_REG, ALIGN 5 4)]) := by
  refine ⟨fun h4 => ?_, fun r d h => ?_, by decide⟩
  · have := ALIGN_4_bounds len
    omega
  · have hz : ¬ len = 0 := by omega
    have hb : ¬ len > K.IF_SPI_CMD_BUF_SIZE := by omega
    unfold if_spi_c2h_cmd at h
    simp only [h1, ne_eq, not_true_eq_false, ↓reduceIte, hz, hb] at h
    cases hr : spu_read K c1 K.IF_SPI_CMD_RDWRPORT_REG c1.cmd_buffer (ALIGN len 4) with
    | error x => simp [hr] at h
    | ok x =>
      obtain ⟨⟨e2, buf⟩, c2⟩ := x
      have hrd := spu_read_reads K c1 _ _ _ _ c2 hr
      simp only [hr] at h
      have hd : bus_reads d.trace = bus_reads c2.trace := by
        split at h
        · exact (if_spi_c2h_out_reads _ _ _ _ h).trans rfl
        · exact (if_spi_c2h_cmd_notify_reads _ _ _ _ _ _ h).trans rfl
      rcases hrd with ⟨_, h2⟩ | ⟨_, h2⟩
      · exact Or.inl (by rw [hd, h2])
      · exact Or.inr (by rw [hd, h2])

/-- C30, on a device that announces a response of 5 bytes, with the sample
buffer size 2400: the 8 bytes read fit the buffer. -/
theorem if_spi_c2h_cmd_read_fits_witness :
    ∃ c1, spu_read_u16 sample_h (sim_card upload_dev (fun _ => 0) [])
        sample_h.IF_SPI_SCRATCH_2_REG = .ok ((0, 5), c1) ∧
      ALIGN 5 4 ≤ sample_h.IF_SPI_CMD_BUF_SIZE := by
  obtain ⟨c1, h1, _, _⟩ := spu_read_once sample_h (sim_card upload_dev (fun _ => 0) [])
    sample_h.IF_SPI_SCRATCH_2_REG [0, 0] 2 (fun _ => rfl) rfl
  have h1u : spu_read_u16 sample_h (sim_card upload_dev (fun _ => 0) [])
      sample_h.IF_SPI_SCRATCH_2_REG = .ok ((0, 5), c1) := by
    simp only [spu_read_u16, h1]
    rfl
  exact ⟨c1, h1u, (if_spi_c2h_cmd_read_fits sample_h (sim_card upload_dev (fun _ => 0) []) c1 5
    h1u (by decide) (by decide)).1 rfl⟩

theorem touches_thread {P : Event → Bool} {c d : if_spi_card} (h : touches P c d) :
    d.run_thread = c.run_thread := (touches_modes h).2.2.2

theorem spu_set_interrupt_mode_thread (K : if_spi_h) (c : if_spi_card) (s a : Int) (r : Int)
    (d : if_spi_card) (h : spu_set_interrupt_mode K c s a = .ok (r, d)) :
    d.run_thread = c.run_thread := by
  obtain ⟨r2, d2, h2, t⟩ := spu_set_interrupt_mode_returns K c s a
  rw [h] at h2
  simp only [Except.ok.injEq, Prod.mk.injEq] at h2
  rw [h2.2]
  exact touches_thread t

theorem spu_init_thread (K : if_spi_h) (c : if_spi_card) (u : Int) (r : Int)
    (d : if_spi_card) (h : spu_init K c u = .ok (r, d)) : d.run_thread = c.run_thread := by
  unfold spu_init at h
  cases h1 : spu_set_bus_mode K { c with use_dummy_writes := 0 }
      (K.IF_SPI_BUS_MODE_SPI_CLOCK_PHASE_RISING ||| K.IF_SPI_BUS_MODE_DELAY_METHOD_TIMED |||
        K.IF_SPI_BUS_MODE_16_BIT_ADDRESS_16_BIT_DATA) with
  | error x => simp [h1] at h
  | ok x =>
    obtain ⟨e1, c1⟩ := x
    have t1 : c1.run_thread = c.run_thread := by
      have := touches_thread (spu_set_bus_mode_touches K _ _ _ c1 h1).1
      exact this
    simp only [h1] at h
    split at h
    · simp only [Except.ok.injEq, Prod.mk.injEq] at h
      rw [← h.2]; exact t1
    · cases h2 : spu_read_u32 K { c1 with spu_port_delay := 1000, spu_reg_delay := 1000 }
          K.IF_SPI_DELAY_READ_REG 0 with
      | error x => simp [h2] at h
      | ok x =>
        obtain ⟨⟨e2, D⟩, c2⟩ := x
        have t2 : c2.run_thread = c1.run_thread := by
          obtain ⟨r3, d3, h3, t, _⟩ := spu_read_u32_touches K
            { c1 with spu_port_delay := 1000, spu_reg_delay := 1000 } K.IF_SPI_DELAY_READ_REG 0
          rw [h2] at h3
          simp only [Except.ok.injEq, Prod.mk.injEq] at h3
          rw [h3.2]
          have := touches_thread t
          exact this
        simp only [h2] at h
        split at h
        · simp only [Except.ok.injEq, Prod.mk.injEq] at h
          rw [← h.2, t2]; exact t1
        · split at h
          · have t3 := touches_thread (spu_set_bus_mode_touches K _ _ _ d h).1
            rw [t3]
            show c2.run_thread = c.run_thread
            rw [t2]; exact t1
          · simp only [Except.ok.injEq, Prod.mk.injEq] at h
            rw [← h.2]
            show c2.run_thread = c.run_thread
            rw [t2]; exact t1

theorem spu_get_chip_revision_thread (K : if_spi_h) (c : if_spi_card) (r : Int)
    (d : if_spi_card) (h : spu_get_chip_revision K c = .ok (r, d)) :
    d.run_thread = c.run_thread := by
  unfold spu_get_chip_revision at h
  obtain ⟨⟨e, v⟩, c1, h1, t, _⟩ := spu_read_u32_touches K c K.IF_SPI_DEVICEID_CTRL_REG 0
  simp only [h1] at h
  split at h
  · simp only [Except.ok.injEq, Prod.mk.injEq] at h
    rw [← h.2]; exact touches_thread t
  · simp only [Except.ok.injEq, Prod.mk.injEq] at h
    rw [← h.2]
    have := touches_thread t
    exact this

theorem spu_write_u16_thread (K : if_spi_h) (c : if_spi_card) (reg val : Nat) (r : Int)
    (d : if_spi_card) (h : spu_write_u16 K c reg val = .ok (r, d)) :
    d.run_thread = c.run_thread :=
  touches_thread (spu_write_touches K c _ _ _ _ _ h).1

theorem helper_signal_thread (K : if_spi_h) (c : if_spi_card) (r : Int) (d : if_spi_card)
    (h : if_spi_prog_helper_firmware_signal K c = .ok (r, d)) :
    d.run_thread = c.run_thread := by
  unfold if_spi_prog_helper_firmware_signal at h
  cases h1 : spu_write_u16 K c K.IF_SPI_HOST_INT_STATUS_REG 0 with
  | error x => simp [h1] at h
  | ok x =>
    obtain ⟨e1, c1⟩ := x
    have t1 := spu_write_u16_thread K c _ _ _ _ h1
    simp only [h1] at h
    split at h
    · simp only [Except.ok.injEq, Prod.mk.injEq] at h
      rw [← h.2]; exact t1
    · rw [spu_write_u16_thread K c1 _ _ _ _ h]; exact t1

theorem helper_done_thread (K : if_spi_h) (c : if_spi_card) (r : Int) (d : if_spi_card)
    (h : if_spi_prog_helper_firmware_done K c = .ok (r, d)) :
    d.run_thread = c.run_thread := by
  unfold if_spi_prog_helper_firmware_done at h
  cases h1 : spu_write_u16 K c K.IF_SPI_SCRATCH_1_REG K.FIRMWARE_DNLD_OK with
  | error x => simp [h1] at h
  | ok x =>
    obtain ⟨e1, c1⟩ := x
    have t1 := spu_write_u16_thread K c _ _ _ _ h1
    simp only [h1] at h
    split at h
    · simp only [Except.ok.injEq, Prod.mk.injEq] at h
      rw [← h.2]; exact t1
    · rw [helper_signal_thread K c1 _ _ h]; exact t1

theorem helper_body_thread (K : if_spi_h) (wfuel : Nat) (image : List Nat) (c : if_spi_card)
    (fw : Nat) (br : Int) (r : Int) (d : if_spi_card)
    (h : if_spi_prog_helper_firmware_body K wfuel image c fw br = .ok (r, d)) :
    d.run_thread = c.run_thread := by
  unfold if_spi_prog_helper_firmware_body at h
  cases h1 : spu_write_u16 K c K.IF_SPI_SCRATCH_1_REG K.HELPER_FW_LOAD_CHUNK_SZ with
  | error x => simp [h1] at h
  | ok x =>
    obtain ⟨e1, c1⟩ := x
    have t1 := spu_write_u16_thread K c _ _ _ _ h1
    simp only [h1] at h
    split at h
    · simp only [Except.ok.injEq, Prod.mk.injEq] at h
      rw [← h.2]; exact t1
    · cases h2 : spu_wait_for_u16 K wfuel c1 K.IF_SPI_HOST_INT_STATUS_REG
          K.IF_SPI_HIST_CMD_DOWNLOAD_RDY K.IF_SPI_HIST_CMD_DOWNLOAD_RDY with
      | error x => simp [h2] at h
      | ok x =>
        obtain ⟨e2, c2⟩ := x
        have t2 := touches_thread (spu_wait_for_u16_touches K wfuel c1 _ _ _ _ _ h2).1
        simp only [h2] at h
        split at h
        · simp only [Except.ok.injEq, Prod.mk.injEq] at h
          rw [← h.2, t2]; exact t1
        · cases ht : if_spi_prog_helper_firmware_temp K image fw br with
          | none => simp [ht] at h
          | some temp =>
            simp only [ht] at h
            cases h3 : spu_write K (emit c2 (.mdelay 10)) K.IF_SPI_CMD_RDWRPORT_REG temp
                K.HELPER_FW_LOAD_CHUNK_SZ with
            | error x => simp [h3] at h
            | ok x =>
              obtain ⟨e3, c3⟩ := x
              have t3 : c3.run_thread = c2.run_thread := by
                have := touches_thread (spu_write_touches K _ _ _ _ _ _ h3).1
                exact this
              simp only [h3] at h
              split at h
              · simp only [Except.ok.injEq, Prod.mk.injEq] at h
                rw [← h.2, t3, t2]; exact t1
              · rw [helper_signal_thread K c3 _ _ h, t3, t2]; exact t1

theorem helper_loop_thread (K : if_spi_h) (wfuel : Nat) (image : List Nat) (fuel : Nat)
    (c : if_spi_card) (fw : Nat) (br : Int) (r : Int) (d : if_spi_card)
    (h : if_spi_prog_helper_firmware_loop K wfuel image fuel c fw br = .ok (r, d)) :
    d.run_thread = c.run_thread := by
  induction fuel generalizing c fw br with
  | zero => simp [if_spi_prog_helper_firmware_loop] at h
  | succ n ih =>
    simp only [if_spi_prog_helper_firmware_loop] at h
    split at h
    · cases hb : if_spi_prog_helper_firmware_body K wfuel image c fw br with
      | error x => simp [hb] at h
      | ok x =>
        obtain ⟨e, c1⟩ := x
        have t1 := helper_body_thread K wfuel image c fw br _ _ hb
        simp only [hb] at h
        split at h
        · simp only [Except.ok.injEq, Prod.mk.injEq] at h
          rw [← h.2]; exact t1
        · rw [ih _ _ _ h]; exact t1
    · exact helper_done_thread K c _ _ h

/-- The helper firmware load leaves `run_thread` alone. -/
theorem helper_firmware_thread (K : if_spi_h) (fuel wfuel : Nat) (c : if_spi_card) (r : Int)
    (d : if_spi_card) (h : if_spi_prog_helper_firmware K fuel wfuel c = .ok (r, d)) :
    d.run_thread = c.run_thread := by
  unfold if_spi_prog_helper_firmware at h
  cases h1 : spu_set_interrupt_mode K c 1 0 with
  | error x => simp [h1] at h
  | ok x =>
    obtain ⟨e1, c1⟩ := x
    have t1 := spu_set_interrupt_mode_thread K c 1 0 _ _ h1
    simp only [h1] at h
    split at h
    · simp only [if_spi_prog_helper_firmware_out, Except.ok.injEq, Prod.mk.injEq] at h
      rw [← h.2]
      split <;> exact t1
    · split at h
      · simp only [if_spi_prog_helper_firmware_out, Except.ok.injEq, Prod.mk.injEq] at h
        rw [← h.2]
        split <;> exact t1
      · cases hl : if_spi_prog_helper_firmware_loop K wfuel (c1.sys.firmware c1.helper_fw_name).2
            fuel c1 0 (c1.sys.firmware c1.helper_fw_name).2.length with
        | error x => simp [hl] at h
        | ok x =>
          obtain ⟨e, c2⟩ := x
          have t2 := helper_loop_thread K wfuel _ fuel c1 0 _ _ _ hl
          simp only [hl, if_spi_prog_helper_firmware_out, Except.ok.injEq, Prod.mk.injEq] at h
          rw [← h.2]
          split <;> (show c2.run_thread = c.run_thread; rw [t2]; exact t1)

theorem main_body_thread (K : if_spi_h) (wfuel : Nat) (image : List Nat) (c : if_spi_card)
    (v : main_fw_vars) (r : Option loop_exit × main_fw_vars) (d : if_spi_card)
    (h : if_spi_prog_main_firmware_body K wfuel image c v = .ok (r, d)) :
    d.run_thread = c.run_thread := by
  unfold if_spi_prog_main_firmware_body at h
  cases hl : if_spi_prog_main_firmware_check_len K wfuel c v.crc_err with
  | error x => simp [hl] at h
  | ok x =>
    obtain ⟨⟨len, crc⟩, c1⟩ := x
    have s1 := touches_thread (check_len_touches K wfuel c _ _ c1 hl)
    simp only [hl] at h
    split at h
    · simp only [Except.ok.injEq, Prod.mk.injEq] at h
      rw [← h.2]; exact s1
    · split at h
      · simp only [Except.ok.injEq, Prod.mk.injEq] at h
        rw [← h.2]; exact s1
      · split at h
        · simp only [Except.ok.injEq, Prod.mk.injEq] at h
          rw [← h.2]; exact s1
        · split at h
          · simp only [Except.ok.injEq, Prod.mk.injEq] at h
            rw [← h.2]; exact s1
          · cases hf : if_spi_prog_main_firmware_fill image c1.cmd_buffer
                (if_spi_prog_main_firmware_count K { v with crc_err := crc }).1 len with
            | none => simp [hf] at h
            | some buf =>
              simp only [hf] at h
              cases hs : if_spi_prog_main_firmware_send K { c1 with cmd_buffer := buf } len with
              | error x => simp [hs] at h
              | ok x =>
                obtain ⟨e, c2⟩ := x
                have s2 : c2.run_thread = c1.run_thread := by
                  have := touches_thread (send_touches K _ _ _ _ hs)
                  exact this
                simp only [hs] at h
                split at h
                · simp only [Except.ok.injEq, Prod.mk.injEq] at h
                  rw [← h.2, s2]; exact s1
                · simp only [Except.ok.injEq, Prod.mk.injEq] at h
                  rw [← h.2, s2]; exact s1

theorem main_loop_thread (K : if_spi_h) (wfuel : Nat) (image : List Nat) (fuel : Nat)
    (c : if_spi_card) (v : main_fw_vars) (r : loop_exit × main_fw_vars) (d : if_spi_card)
    (h : if_spi_prog_main_firmware_loop K wfuel image fuel c v = .ok (r, d)) :
    d.run_thread = c.run_thread := by
  induction fuel generalizing c v with
  | zero => simp [if_spi_prog_main_firmware_loop] at h
  | succ n ih =>
    simp only [if_spi_prog_main_firmware_loop] at h
    cases hb : if_spi_prog_main_firmware_body K wfuel image c v with
    | error x => simp [hb] at h
    | ok x =>
      obtain ⟨⟨o, v1⟩, c1⟩ := x
      have t1 := main_body_thread K wfuel image c v _ c1 hb
      cases o with
      | some l =>
        simp only [hb, Except.ok.injEq, Prod.mk.injEq] at h
        rw [← h.2]; exact t1
      | none =>
        simp only [hb] at h
        rw [ih c1 v1 h]; exact t1

theorem spu_wait_for_u32_thread (K : if_spi_h) (c : if_spi_card) (reg target : Nat) (r : Int)
    (d : if_spi_card) (h : spu_wait_for_u32 K c reg target = .ok (r, d)) :
    d.run_thread = c.run_thread := by
  unfold spu_wait_for_u32 at h
  obtain ⟨r2, d2, h2, t, _⟩ := spu_wait_for_u32_loop_le K reg (u32 target) 4 c
  rw [h] at h2
  simp only [Except.ok.injEq, Prod.mk.injEq] at h2
  rw [h2.2]
  exact touches_thread t

/-- The main firmware load leaves `run_thread` alone. -/
theorem main_firmware_thread (K : if_spi_h) (fuel wfuel : Nat) (c : if_spi_card) (r : Int)
    (d : if_spi_card) (h : if_spi_prog_main_firmware K fuel wfuel c = .ok (r, d)) :
    d.run_thread = c.run_thread := by
  unfold if_spi_prog_main_firmware at h
  cases h1 : spu_set_interrupt_mode K c 1 0 with
  | error x => simp [h1] at h
  | ok x =>
    obtain ⟨e1, c1⟩ := x
    have t1 := spu_set_interrupt_mode_thread K c 1 0 _ _ h1
    simp only [h1] at h
    split at h
    · simp only [if_spi_prog_main_firmware_out, Except.ok.injEq, Prod.mk.injEq] at h
      rw [← h.2]
      split <;> exact t1
    · split at h
      · simp only [if_spi_prog_main_firmware_out, Except.ok.injEq, Prod.mk.injEq] at h
        rw [← h.2]
        split <;> exact t1
      · cases hw : spu_wait_for_u16 K wfuel c1 K.IF_SPI_SCRATCH_1_REG 0 0 with
        | error x => simp [hw] at h
        | ok x =>
          obtain ⟨e2, c2⟩ := x
          have t2 := touches_thread (spu_wait_for_u16_touches K wfuel c1 _ _ _ e2 c2 hw).1
          simp only [hw] at h
          split at h
          · simp only [if_spi_prog_main_firmware_out, Except.ok.injEq, Prod.mk.injEq] at h
            rw [← h.2]
            split <;> (show c2.run_thread = c.run_thread; rw [t2]; exact t1)
          · cases hl : if_spi_prog_main_firmware_loop K wfuel (c1.sys.firmware c1.main_fw_name).2
                fuel c2 (main_fw_vars_init (c1.sys.firmware c1.main_fw_name).2) with
            | error x => simp [hl] at h
            | ok x =>
              obtain ⟨⟨o, v⟩, c3⟩ := x
              have t3 := main_loop_thread K wfuel _ fuel c2 _ _ c3 hl
              simp only [hl] at h
              cases o with
              | release =>
                simp only [if_spi_prog_main_firmware_out, Except.ok.injEq, Prod.mk.injEq] at h
                rw [← h.2]
                split <;> (show c3.run_thread = c.run_thread; rw [t3, t2]; exact t1)
              | fall =>
                simp only [] at h
                cases h5 : spu_wait_for_u32 K (if v.bytes > v.prev_len then emit c3 (.pr_err 0)
                    else c3) K.IF_SPI_SCRATCH_4_REG K.SUCCESSFUL_FW_DOWNLOAD_MAGIC with
                | error x => simp [h5] at h
                | ok x =>
                  obtain ⟨e5, c5⟩ := x
                  have t5 : c5.run_thread = c3.run_thread := by
                    rw [spu_wait_for_u32_thread K _ _ _ _ _ h5]
                    split <;> rfl
                  simp only [h5] at h
                  split at h
                  · simp only [if_spi_prog_main_firmware_out, Except.ok.injEq, Prod.mk.injEq] at h
                    rw [← h.2]
                    split <;> (show c5.run_thread = c.run_thread; rw [t5, t3, t2]; exact t1)
                  · simp only [if_spi_prog_main_firmware_out, Except.ok.injEq, Prod.mk.injEq] at h
                    rw [← h.2]
                    split <;> (show c5.run_thread = c.run_thread; rw [t5, t3, t2]; exact t1)

theorem if_spi_probe_firmware_thread (K : if_spi_h) (fuel wfuel : Nat) (c : if_spi_card)
    (r : Int) (d : if_spi_card) (h : if_spi_probe_firmware K fuel wfuel c = .ok (r, d)) :
    d.run_thread = c.run_thread := by
  unfold if_spi_probe_firmware at h
  obtain ⟨⟨e, v⟩, c1, h1, t, _⟩ := spu_read_u32_touches K c K.IF_SPI_SCRATCH_4_REG 0
  have t1 := touches_thread t
  simp only [h1] at h
  split at h
  · simp only [Except.ok.injEq, Prod.mk.injEq] at h
    rw [← h.2]; exact t1
  · split at h
    · simp only [Except.ok.injEq, Prod.mk.injEq] at h
      rw [← h.2]; exact t1
    · split at h
      · simp only [Except.ok.injEq, Prod.mk.injEq] at h
        rw [← h.2]; exact t1
      · cases hh : if_spi_prog_helper_firmware K fuel wfuel
            { c1 with
              helper_fw_name :=
                (if_spi_calculate_fw_names c1.card_id c1.helper_fw_name c1.main_fw_name).2.1,
              main_fw_name :=
                (if_spi_calculate_fw_names c1.card_id c1.helper_fw_name c1.main_fw_name).2.2 } with
        | error x => simp [hh] at h
        | ok x =>
          obtain ⟨e2, c2⟩ := x
          have t2 : c2.run_thread = c1.run_thread := by
            have := helper_firmware_thread K fuel wfuel _ _ _ hh
            exact this
          simp only [hh] at h
          split at h
          · simp only [Except.ok.injEq, Prod.mk.injEq] at h
            rw [← h.2, t2]; exact t1
          · rw [main_firmware_thread K fuel wfuel c2 _ _ h, t2]; exact t1

/-- The part of `if_spi_probe` that talks to the SPI Interface Unit leaves
`run_thread` alone. -/
theorem if_spi_probe_spu_thread (K : if_spi_h) (fuel wfuel : Nat) (c : if_spi_card)
    (pdata : libertas_spi_platform_data) (r : Int) (d : if_spi_card)
    (h : if_spi_probe_spu K fuel wfuel c pdata = .ok (r, d)) :
    d.run_thread = c.run_thread := by
  unfold if_spi_probe_spu at h
  cases h1 : spu_init K c pdata.use_dummy_writes with
  | error x => simp [h1] at h
  | ok x =>
    obtain ⟨e1, c1⟩ := x
    have t1 := spu_init_thread K c _ _ _ h1
    simp only [h1] at h
    split at h
    · simp only [Except.ok.injEq, Prod.mk.injEq] at h
      rw [← h.2]; exact t1
    · cases h2 : spu_get_chip_revision K c1 with
      | error x => simp [h2] at h
      | ok x =>
        obtain ⟨e2, c2⟩ := x
        have t2 := spu_get_chip_revision_thread K c1 _ _ h2
        simp only [h2] at h
        split at h
        · simp only [Except.ok.injEq, Prod.mk.injEq] at h
          rw [← h.2, t2]; exact t1
        · cases h3 : if_spi_probe_firmware K fuel wfuel c2 with
          | error x => simp [h3] at h
          | ok x =>
            obtain ⟨e3, c3⟩ := x
            have t3 := if_spi_probe_firmware_thread K fuel wfuel c2 _ _ h3
            simp only [h3] at h
            split at h
            · simp only [Except.ok.injEq, Prod.mk.injEq] at h
              rw [← h.2, t3, t2]; exact t1
            · rw [spu_set_interrupt_mode_thread K c3 0 1 _ _ h, t3, t2]; exact t1

/-- The label `if_spi_probe_start` leaves to and the value of `run_thread`
there, for a card that enters with `run_thread` 0. -/
theorem if_spi_probe_start_labels (E : attach_env) (c : if_spi_card) (h0 : c.run_thread = 0) :
    ((if_spi_probe_start E c).1 ≠ .out → (if_spi_probe_start E c).2.1 ≠ 0) ∧
    ((if_spi_probe_start E c).1 = .free_card ∨ (if_spi_probe_start E c).1 = .free_gpio ∨
      (if_spi_probe_start E c).1 = .remove_card → (if_spi_probe_start E c).2.2.run_thread = 0) ∧
    ((if_spi_probe_start E c).1 = .terminate_thread →
      E.kthread_run = 0 ∧ E.request_irq ≠ 0 ∧ (if_spi_probe_start E c).2.2.run_thread = 1) ∧
    ((if_spi_probe_start E c).1 = .release_irq →
      E.kthread_run = 0 ∧ E.request_irq = 0 ∧ E.lbs_start_card ≠ 0 ∧
        (if_spi_probe_start E c).2.2.run_thread = 1) := by
  unfold if_spi_probe_start
  simp only []
  by_cases ha : E.lbs_add_card = true
  · by_cases hk : E.kthread_run = 0
    · by_cases hq : E.request_irq = 0
      · by_cases hs : E.lbs_start_card = 0
        · simp [ha, hk, hq, hs, emit]
        · simp [ha, hk, hq, hs, emit]
      · simp [ha, hk, hq, emit]
    · simp [ha, hk, emit]
  · simp [ha, emit, h0, ENOMEM]

/-- The label the body of `if_spi_probe` leaves to and the value of `run_thread`
there. -/
theorem if_spi_probe_body_labels (K : if_spi_h) (E : attach_env) (fuel wfuel : Nat)
    (c : if_spi_card) (l : probe_label) (err : Int) (d : if_spi_card)
    (h : if_spi_probe_body K E fuel wfuel c = .ok ((l, err), d)) :
    (l ≠ .out → err ≠ 0) ∧
    (l = .free_card ∨ l = .free_gpio ∨ l = .remove_card → d.run_thread = 0) ∧
    (l = .terminate_thread → E.kthread_run = 0 ∧ E.request_irq ≠ 0 ∧ d.run_thread = 1) ∧
    (l = .release_irq →
      E.kthread_run = 0 ∧ E.request_irq = 0 ∧ E.lbs_start_card ≠ 0 ∧ d.run_thread = 1) := by
  unfold if_spi_probe_body at h
  cases hp : E.pdata with
  | none =>
    simp only [hp, Except.ok.injEq, Prod.mk.injEq] at h
    obtain ⟨⟨rfl, _⟩, _⟩ := h
    simp
  | some pdata =>
    simp only [hp] at h
    split at h
    · simp only [Except.ok.injEq, Prod.mk.injEq] at h
      obtain ⟨⟨rfl, _⟩, _⟩ := h
      simp
    · split at h
      · simp only [Except.ok.injEq, Prod.mk.injEq] at h
        obtain ⟨⟨rfl, _⟩, _⟩ := h
        simp
      · have hcard : (if_spi_probe_card K (if_spi_probe_setup c pdata).2 pdata).run_thread = 0 :=
          rfl
        generalize if_spi_probe_card K (if_spi_probe_setup c pdata).2 pdata = k at h hcard
        have hg : (if_spi_probe_gpio K E k).2.2.run_thread = 0 ∧
            ((if_spi_probe_gpio K E k).1 = some .free_card ∨
              (if_spi_probe_gpio K E k).1 = some .free_gpio ∨
              (if_spi_probe_gpio K E k).1 = none) ∧
            ((if_spi_probe_gpio K E k).1 ≠ none → (if_spi_probe_gpio K E k).2.1 ≠ 0) := by
          unfold if_spi_probe_gpio
          by_cases hl : K.CONFIG_ARCH_LF1000 = true
          · simp [hl, hcard]
          · by_cases h1 : E.gpio_request = 0
            · by_cases h2 : E.gpio_direction_output = 0
              · simp [hl, h1, h2, emit, hcard]
              · simp [hl, h1, h2, emit, hcard]
            · simp [hl, h1, emit, hcard]
        generalize if_spi_probe_gpio K E k = g at h hg
        obtain ⟨gl, gerr, gc⟩ := g
        simp only [] at hg
        obtain ⟨g0, g1, g2⟩ := hg
        cases gl with
        | some l1 =>
          simp only [Except.ok.injEq, Prod.mk.injEq] at h
          obtain ⟨⟨rfl, rfl⟩, rfl⟩ := h
          have hne := g2 (by simp)
          rcases g1 with g1 | g1 | g1
          · simp only [Option.some.injEq] at g1
            subst g1
            simp [g0, hne]
          · simp only [Option.some.injEq] at g1
            subst g1
            simp [g0, hne]
          · simp at g1
        | none =>
          simp only [] at h
          cases hs : if_spi_probe_spu K fuel wfuel gc pdata with
          | error x => simp [hs] at h
          | ok x =>
            obtain ⟨e3, c3⟩ := x
            have t3 : c3.run_thread = 0 := by
              rw [if_spi_probe_spu_thread K fuel wfuel gc pdata _ _ hs]; exact g0
            simp only [hs] at h
            split at h
            · rename_i hne
              simp only [Except.ok.injEq, Prod.mk.injEq] at h
              obtain ⟨⟨rfl, rfl⟩, rfl⟩ := h
              simp [t3, hne]
            · simp only [Except.ok.injEq, Prod.mk.injEq] at h
              obtain ⟨⟨rfl, rfl⟩, rfl⟩ := h
              exact if_spi_probe_start_labels E c3 t3

/-- The card `free_if_spi_card` is given at the end of the code below a label
of `if_spi_probe`. -/
theorem if_spi_probe_unwind_frees (K : if_spi_h) (l : probe_label) (d : if_spi_card)
    (hl : l ≠ .out)
    (h0 : l = .free_card ∨ l = .free_gpio ∨ l = .remove_card → d.run_thread = 0) :
    ∃ a, a.run_thread = 0 ∧ a.cmd_packet_list = d.cmd_packet_list ∧
      a.data_packet_list = d.data_packet_list ∧
      a.trace = d.trace ++ (if l = .release_irq then [Event.free_irq] else []) ++
        (if l = .release_irq ∨ l = .terminate_thread then [Event.up_spi_ready] else []) ++
        (if l = .release_irq ∨ l = .terminate_thread ∨ l = .remove_card then
          [Event.lbs_remove_card] else []) ++
        (if l = .free_card ∨ K.CONFIG_ARCH_LF1000 = true then [] else [Event.gpio_free]) ∧
      if_spi_probe_unwind K l d = free_if_spi_card a := by
  cases l with
  | out => exact absurd rfl hl
  | free_card =>
    exact ⟨d, h0 (Or.inl rfl), rfl, rfl, by simp, rfl⟩
  | free_gpio =>
    have hd := h0 (Or.inr (Or.inl rfl))
    refine ⟨if K.CONFIG_ARCH_LF1000 then d else emit d .gpio_free, ?_, ?_, ?_, ?_, rfl⟩
    · split <;> simp [emit, hd]
    · split <;> simp [emit]
    · split <;> simp [emit]
    · by_cases hk : K.CONFIG_ARCH_LF1000 = true <;> simp [hk, emit]
  | remove_card =>
    have hd := h0 (Or.inr (Or.inr rfl))
    refine ⟨if K.CONFIG_ARCH_LF1000 then emit d .lbs_remove_card
      else emit (emit d .lbs_remove_card) .gpio_free, ?_, ?_, ?_, ?_, rfl⟩
    · split <;> simp [emit, hd]
    · split <;> simp [emit]
    · split <;> simp [emit]
    · by_cases hk : K.CONFIG_ARCH_LF1000 = true <;> simp [hk, emit]
  | terminate_thread =>
    refine ⟨if K.CONFIG_ARCH_LF1000 then emit (if_spi_terminate_spi_thread d) .lbs_remove_card
      else emit (emit (if_spi_terminate_spi_thread d) .lbs_remove_card) .gpio_free,
      ?_, ?_, ?_, ?_, rfl⟩
    · split <;> simp [emit, if_spi_terminate_spi_thread]
    · split <;> simp [emit, if_spi_terminate_spi_thread]
    · split <;> simp [emit, if_spi_terminate_spi_thread]
    · by_cases hk : K.CONFIG_ARCH_LF1000 = true <;>
        simp [hk, emit, if_spi_terminate_spi_thread]
  | release_irq =>
    refine ⟨if K.CONFIG_ARCH_LF1000 then
        emit (if_spi_terminate_spi_thread (emit d .free_irq)) .lbs_remove_card
      else emit (emit (if_spi_terminate_spi_thread (emit d .free_irq)) .lbs_remove_card)
        .gpio_free, ?_, ?_, ?_, ?_, rfl⟩
    · split <;> simp [emit, if_spi_terminate_spi_thread]
    · split <;> simp [emit, if_spi_terminate_spi_thread]
    · split <;> simp [emit, if_spi_terminate_spi_thread]
    · by_cases hk : K.CONFIG_ARCH_LF1000 = true <;>
        simp [hk, emit, if_spi_terminate_spi_thread]

/-- A card whose `run_thread` is 0 is freed: `free_if_spi_card` returns, having
freed the queued packets, the driver data and the card. -/
theorem free_if_spi_card_returns (a : if_spi_card) (h : a.run_thread = 0) :
    ∃ d, free_if_spi_card a = .ok ((), d) ∧
      d.trace = a.trace ++ a.cmd_packet_list.map Event.kfree ++
        a.data_packet_list.map Event.kfree ++ [.spi_set_drvdata false, .kfree_card] := by
  unfold free_if_spi_card
  rw [if_neg (by simp [h])]
  exact ⟨_, rfl, rfl⟩

/-- C21: whenever the body of `if_spi_probe` leaves to a label with the card
allocated (any label but `out`, and then `err` is not 0), the card that reaches
`free_if_spi_card` has `run_thread` 0, so that `free_if_spi_card` returns
instead of stopping at its `BUG_ON`, and `if_spi_probe` returns `err`.  At the
labels `free_card`, `free_gpio` and `remove_card` the field is 0 already; the
labels `terminate_thread` (reached only when the interrupt request fails) and
`release_irq` (only when `lbs_start_card` fails) are reached with `run_thread`
1, where freeing the card at once would stop at the `BUG_ON`, and there the
code runs `if_spi_terminate_spi_thread` (the `up` of `spi_ready`) before
`lbs_remove_card` and both before `free_if_spi_card`, as the trace tells.
`libertas_spi_remove` on any card `c0` likewise terminates the worker before
`lbs_remove_card`, hands `free_if_spi_card` a card with `run_thread` 0 and
returns 0. -/
theorem if_spi_probe_frees_stopped_card (K : if_spi_h) (E : attach_env) (fuel wfuel : Nat)
    (c : if_spi_card) (l : probe_label) (err : Int) (d : if_spi_card)
    (c0 : if_spi_card) (pdata0 : libertas_spi_platform_data)
    (h : if_spi_probe_body K E fuel wfuel c = .ok ((l, err), d)) :
    (l ≠ .out → err ≠ 0) ∧
    (l = .free_card ∨ l = .free_gpio ∨ l = .remove_card → d.run_thread = 0) ∧
    (l = .terminate_thread → E.kthread_run = 0 ∧ E.request_irq ≠ 0 ∧ d.run_thread = 1) ∧
    (l = .release_irq →
      E.kthread_run = 0 ∧ E.request_irq = 0 ∧ E.lbs_start_card ≠ 0 ∧ d.run_thread = 1) ∧
    (l = .terminate_thread ∨ l = .release_irq → free_if_spi_card d = .error .bug) ∧
    (l ≠ .out → ∃ a d2, a.run_thread = 0 ∧ a.cmd_packet_list = d.cmd_packet_list ∧
      a.data_packet_list = d.data_packet_list ∧
      a.trace = d.trace ++ (if l = .release_irq then [Event.free_irq] else []) ++
        (if l = .release_irq ∨ l = .terminate_thread then [Event.up_spi_ready] else []) ++
        (if l = .release_irq ∨ l = .terminate_thread ∨ l = .remove_card then
          [Event.lbs_remove_card] else []) ++
        (if l = .free_card ∨ K.CONFIG_ARCH_LF1000 = true then [] else [Event.gpio_free]) ∧
      if_spi_probe_unwind K l d = free_if_spi_card a ∧
      free_if_spi_card a = .ok ((), d2) ∧
      d2.trace = a.trace ++ a.cmd_packet_list.map Event.kfree ++
        a.data_packet_list.map Event.kfree ++ [.spi_set_drvdata false, .kfree_card] ∧
      if_spi_probe K E fuel wfuel c = .ok (err, d2)) ∧
    ∃ a d2, a.run_thread = 0 ∧ a.cmd_packet_list = c0.cmd_packet_list ∧
      a.data_packet_list = c0.data_packet_list ∧
      a.trace = c0.trace ++
        [Event.lbs_stop_card, Event.free_irq, Event.up_spi_ready, Event.lbs_remove_card] ++
        (if K.CONFIG_ARCH_LF1000 = true then [] else [Event.gpio_free]) ++
        (if pdata0.teardown = true then [Event.pdata_teardown] else []) ∧
      free_if_spi_card a = .ok ((), d2) ∧
      d2.trace = a.trace ++ a.cmd_packet_list.map Event.kfree ++
        a.data_packet_list.map Event.kfree ++ [.spi_set_drvdata false, .kfree_card] ∧
      libertas_spi_remove K c0 pdata0 = .ok (0, d2) := by
  obtain ⟨b1, b2, b3, b4⟩ := if_spi_probe_body_labels K E fuel wfuel c l err d h
  refine ⟨b1, b2, b3, b4, ?_, ?_, ?_⟩
  · intro hl
    have h1 : d.run_thread = 1 := by
      rcases hl with hl | hl
      · exact (b3 hl).2.2
      · exact (b4 hl).2.2.2
    unfold free_if_spi_card
    rw [if_pos (by simp [h1])]
  · intro hl
    obtain ⟨a, a0, ac, ad, atr, hu⟩ := if_spi_probe_unwind_frees K l d hl b2
    obtain ⟨d2, hf, htr⟩ := free_if_spi_card_returns a a0
    refine ⟨a, d2, a0, ac, ad, atr, hu, hf, htr, ?_⟩
    unfold if_spi_probe
    simp only [h, hu, hf]
  · have key : ∃ a, a.run_thread = 0 ∧ a.cmd_packet_list = c0.cmd_packet_list ∧
        a.data_packet_list = c0.data_packet_list ∧
        a.trace = c0.trace ++
          [Event.lbs_stop_card, Event.free_irq, Event.up_spi_ready, Event.lbs_remove_card] ++
          (if K.CONFIG_ARCH_LF1000 = true then [] else [Event.gpio_free]) ++
          (if pdata0.teardown = true then [Event.pdata_teardown] else []) ∧
        libertas_spi_remove K c0 pdata0 =
          (match free_if_spi_card a with
           | .error x => .error x
           | .ok (_, c5) => .ok (0, c5) : Run Int) := by
      refine ⟨if pdata0.teardown then
          emit (if K.CONFIG_ARCH_LF1000 then
            emit (if_spi_terminate_spi_thread (emit (emit
              { c0 with priv := { c0.priv with surpriseremoved := 1 } } .lbs_stop_card)
              .free_irq)) .lbs_remove_card
            else emit (emit (if_spi_terminate_spi_thread (emit (emit
              { c0 with priv := { c0.priv with surpriseremoved := 1 } } .lbs_stop_card)
              .free_irq)) .lbs_remove_card) .gpio_free) .pdata_teardown
        else (if K.CONFIG_ARCH_LF1000 then
            emit (if_spi_terminate_spi_thread (emit (emit
              { c0 with priv := { c0.priv with surpriseremoved := 1 } } .lbs_stop_card)
              .free_irq)) .lbs_remove_card
            else emit (emit (if_spi_terminate_spi_thread (emit (emit
              { c0 with priv := { c0.priv with surpriseremoved := 1 } } .lbs_stop_card)
              .free_irq)) .lbs_remove_card) .gpio_free), ?_, ?_, ?_, ?_, rfl⟩
      · by_cases ht : pdata0.teardown = true <;> by_cases hk : K.CONFIG_ARCH_LF1000 = true <;>
          simp [ht, hk, emit, if_spi_terminate_spi_thread]
      · by_cases ht : pdata0.teardown = true <;> by_cases hk : K.CONFIG_ARCH_LF1000 = true <;>
          simp [ht, hk, emit, if_spi_terminate_spi_thread]
      · by_cases ht : pdata0.teardown = true <;> by_cases hk : K.CONFIG_ARCH_LF1000 = true <;>
          simp [ht, hk, emit, if_spi_terminate_spi_thread]
      · by_cases ht : pdata0.teardown = true <;> by_cases hk : K.CONFIG_ARCH_LF1000 = true <;>
          simp [ht, hk, emit, if_spi_terminate_spi_thread]
    obtain ⟨a, a0, ac, ad, atr, hr⟩ := key
    obtain ⟨d2, hf, htr⟩ := free_if_spi_card_returns a a0
    refine ⟨a, d2, a0, ac, ad, atr, hf, htr, ?_⟩
    rw [hr, hf]

set_option maxRecDepth 100000 in
/-- C21, on a device that already runs its firmware (sample constants): when
the interrupt line is refused with -16 the attach leaves to `terminate_thread`
with `run_thread` 1 and `if_spi_probe` returns -16 after waking the worker,
`lbs_remove_card` and the two frees, in that order. -/
theorem if_spi_probe_frees_stopped_card_witness :
    ∃ d d2, if_spi_probe_body sample_h irq_busy_env 1 1 attach_card =
        .ok ((.terminate_thread, -16), d) ∧
      d.run_thread = 1 ∧ free_if_spi_card d = .error .bug ∧
      if_spi_probe sample_h irq_busy_env 1 1 attach_card = .ok (-16, d2) ∧
      d2.trace = d.trace ++
        [.up_spi_ready, .lbs_remove_card, .spi_set_drvdata false, .kfree_card] := by
  obtain ⟨d, hd⟩ := value_of_some (if_spi_probe_body sample_h irq_busy_env 1 1 attach_card)
    (.terminate_thread, -16) (by decide)
  obtain ⟨_, _, b3, _, b5, b6, _⟩ :=
    if_spi_probe_frees_stopped_card sample_h irq_busy_env 1 1 attach_card .terminate_thread
      (-16) d attach_card plain_pdata hd
  obtain ⟨a, d2, a0, ac, ad, atr, hu, hf, htr, hp⟩ := b6 (by decide)
  have hs : state_of (if_spi_probe_body sample_h irq_busy_env 1 1 attach_card) attach_card
      = d := by rw [hd]; rfl
  have hc : d.cmd_packet_list = [] := by rw [← hs]; decide
  have hdl : d.data_packet_list = [] := by rw [← hs]; decide
  refine ⟨d, d2, hd, (b3 rfl).2.2, b5 (Or.inl rfl), hp, ?_⟩
  rw [htr, atr, ac, ad, hc, hdl]
  simp [sample_h]

/-- A chip id outside the table is refused and the name buffers left alone. -/
theorem if_spi_calculate_fw_names_unsupported (card_id : Nat) (helper_fw main_fw : List Char)
    (h4 : u16 card_id ≠ 0x04) (hb : u16 card_id ≠ 0x0b) :
    if_spi_calculate_fw_names card_id helper_fw main_fw = (-EAFNOSUPPORT, helper_fw, main_fw) := by
  have h4b : ¬ (4 = u16 card_id) := fun h => h4 h.symm
  have hbb : ¬ (11 = u16 card_id) := fun h => hb h.symm
  simp [if_spi_calculate_fw_names, chip_id_to_device_name, List.findIdx_cons, h4b, hbb]

/-- A chip id of the table is accepted. -/
theorem if_spi_calculate_fw_names_supported (card_id : Nat) (helper_fw main_fw : List Char)
    (h : u16 card_id = 0x04 ∨ u16 card_id = 0x0b) :
    (if_spi_calculate_fw_names card_id helper_fw main_fw).1 = 0 := by
  rcases h with h | h <;>
    simp [if_spi_calculate_fw_names, chip_id_to_device_name, List.findIdx_cons, h]

/-- Once the platform data, the card and the chip-select pin are set up, the
body of `if_spi_probe` is decided by `if_spi_probe_spu` and
`if_spi_probe_start`. -/
theorem if_spi_probe_body_spu (K : if_spi_h) (E : attach_env) (fuel wfuel : Nat)
    (c0 c : if_spi_card) (pdata : libertas_spi_platform_data) (e : Int)
    (hp : E.pdata = some pdata)
    (hs : (if_spi_probe_setup c0 pdata).1 = 0)
    (ha : (if_spi_probe_setup c0 pdata).2.sys.alloc_ok
      (if_spi_probe_setup c0 pdata).2.sys.nalloc = true)
    (hg : if_spi_probe_gpio K E (if_spi_probe_card K (if_spi_probe_setup c0 pdata).2 pdata) =
      (none, e, c)) :
    if_spi_probe_body K E fuel wfuel c0 =
      (match if_spi_probe_spu K fuel wfuel c pdata with
       | .error h => .error h
       | .ok (err, c3) =>
         if err ≠ 0 then .ok ((.free_gpio, err), c3)
         else .ok (((if_spi_probe_start E c3).1, (if_spi_probe_start E c3).2.1),
           (if_spi_probe_start E c3).2.2) : Run (probe_label × Int)) := by
  unfold if_spi_probe_body
  simp only [hp]
  rw [if_neg (by simp [hs]), if_neg (by simp [ha]), hg]

/-- The chip-select set-up hands on a card whose `run_thread` is 0. -/
theorem if_spi_probe_gpio_thread (K : if_spi_h) (E : attach_env) (k : if_spi_card)
    (h0 : k.run_thread = 0) : (if_spi_probe_gpio K E k).2.2.run_thread = 0 := by
  unfold if_spi_probe_gpio
  by_cases hl : K.CONFIG_ARCH_LF1000 = true
  · simp [hl, h0]
  · by_cases h1 : E.gpio_request = 0
    · by_cases h2 : E.gpio_direction_output = 0
      · simp [hl, h1, h2, emit, h0]
      · simp [hl, h1, h2, emit, h0]
    · simp [hl, h1, emit, h0]

/-- C29: take an attach that got as far as the firmware load: platform data,
card and chip-select pin are set up (leaving card `c`), `spu_init` and
`spu_get_chip_revision` returned 0 (leaving `a2`, which holds the chip id) and
the read of scratch register 4 returned 0 with value `scratch` (leaving `a3`).
If `scratch` is the magic, the firmware load is over with that read, whatever
the chip id: `if_spi_probe_firmware` returns 0 in state `a3`, the attach goes on
with `spu_set_interrupt_mode(card, 0, 1)`, and when that returns 0 and the
kernel grants the rest, `if_spi_probe` returns 0.  If `scratch` is not the
magic and the chip id is neither 0x04 nor 0x0b, the firmware load returns
`-EAFNOSUPPORT` in state `a3` with nothing but the error message added (no
firmware was requested and nothing written to the bus), the body leaves to
`free_gpio` and `if_spi_probe` returns `-EAFNOSUPPORT` after freeing the card.
If `scratch` is not the magic and the chip id is 0x04 or 0x0b, the firmware
load is the helper download followed by the main download. -/
theorem if_spi_probe_chip_id_after_magic (K : if_spi_h) (E : attach_env) (fuel wfuel : Nat)
    (c0 c a1 a2 a3 : if_spi_card) (pdata : libertas_spi_platform_data) (e : Int)
    (scratch : Nat)
    (hp : E.pdata = some pdata)
    (hs : (if_spi_probe_setup c0 pdata).1 = 0)
    (ha : (if_spi_probe_setup c0 pdata).2.sys.alloc_ok
      (if_spi_probe_setup c0 pdata).2.sys.nalloc = true)
    (hg : if_spi_probe_gpio K E (if_spi_probe_card K (if_spi_probe_setup c0 pdata).2 pdata) =
      (none, e, c))
    (hi : spu_init K c pdata.use_dummy_writes = .ok (0, a1))
    (hr : spu_get_chip_revision K a1 = .ok (0, a2))
    (h : spu_read_u32 K a2 K.IF_SPI_SCRATCH_4_REG 0 = .ok ((0, scratch), a3)) :
    a3.card_id = a2.card_id ∧
    (scratch = K.SUCCESSFUL_FW_DOWNLOAD_MAGIC →
      if_spi_probe_firmware K fuel wfuel a2 = .ok (0, a3) ∧
      if_spi_probe_spu K fuel wfuel c pdata = spu_set_interrupt_mode K a3 0 1 ∧
      ∀ a4, spu_set_interrupt_mode K a3 0 1 = .ok (0, a4) →
        E.lbs_add_card = true → E.kthread_run = 0 → E.request_irq = 0 → E.lbs_start_card = 0 →
        ∃ d, if_spi_probe K E fuel wfuel c0 = .ok (0, d) ∧
          d.trace = a4.trace ++ [.lbs_add_card true, .kthread_run 0, .request_irq 0,
            .lbs_start_card 0]) ∧
    (scratch ≠ K.SUCCESSFUL_FW_DOWNLOAD_MAGIC → u16 a2.card_id ≠ 0x04 → u16 a2.card_id ≠ 0x0b →
      if_spi_probe_firmware K fuel wfuel a2 =
        .ok (-EAFNOSUPPORT, emit a3 (.pr_err (-EAFNOSUPPORT))) ∧
      bus_writes (emit a3 (.pr_err (-EAFNOSUPPORT))).trace = bus_writes a3.trace ∧
      if_spi_probe_body K E fuel wfuel c0 =
        .ok ((.free_gpio, -EAFNOSUPPORT), emit a3 (.pr_err (-EAFNOSUPPORT))) ∧
      ∃ d, if_spi_probe K E fuel wfuel c0 = .ok (-EAFNOSUPPORT, d) ∧
        d.trace = a3.trace ++ [.pr_err (-EAFNOSUPPORT)] ++
          (if K.CONFIG_ARCH_LF1000 = true then [] else [Event.gpio_free]) ++
          a3.cmd_packet_list.map Event.kfree ++ a3.data_packet_list.map Event.kfree ++
          [.spi_set_drvdata false, .kfree_card]) ∧
    (scratch ≠ K.SUCCESSFUL_FW_DOWNLOAD_MAGIC → (u16 a2.card_id = 0x04 ∨ u16 a2.card_id = 0x0b) →
      if_spi_probe_firmware K fuel wfuel a2 =
        (match if_spi_prog_helper_firmware K fuel wfuel
            { a3 with
              helper_fw_name :=
                (if_spi_calculate_fw_names a3.card_id a3.helper_fw_name a3.main_fw_name).2.1,
              main_fw_name :=
                (if_spi_calculate_fw_names a3.card_id a3.helper_fw_name a3.main_fw_name).2.2 }
          with
         | .error x => .error x
         | .ok (e1, c2) =>
           if e1 ≠ 0 then .ok (e1, c2) else if_spi_prog_main_firmware K fuel wfuel c2 :
          Run Int)) := by
  have hid : a3.card_id = a2.card_id := by
    obtain ⟨r, d, h1, t, _⟩ := spu_read_u32_touches K a2 K.IF_SPI_SCRATCH_4_REG 0
    rw [h] at h1
    simp only [Except.ok.injEq, Prod.mk.injEq] at h1
    rw [h1.2]
    obtain ⟨a, b, n, t2, u, rfl, _⟩ := t
    rfl
  have hth : a3.run_thread = 0 := by
    have t3 : a3.run_thread = a2.run_thread := by
      obtain ⟨r, d, h1, t, _⟩ := spu_read_u32_touches K a2 K.IF_SPI_SCRATCH_4_REG 0
      rw [h] at h1
      simp only [Except.ok.injEq, Prod.mk.injEq] at h1
      rw [h1.2]
      exact touches_thread t
    have hc : c.run_thread = 0 := by
      have := if_spi_probe_gpio_thread K E
        (if_spi_probe_card K (if_spi_probe_setup c0 pdata).2 pdata) rfl
      rw [hg] at this
      exact this
    rw [t3, spu_get_chip_revision_thread K a1 _ _ hr, spu_init_thread K c _ _ _ hi]
    exact hc
  have hbody := if_spi_probe_body_spu K E fuel wfuel c0 c pdata e hp hs ha hg
  refine ⟨hid, ?_, ?_, ?_⟩
  · intro hm
    have hf : if_spi_probe_firmware K fuel wfuel a2 = .ok (0, a3) := by
      unfold if_spi_probe_firmware
      simp only [h]
      rw [if_neg (by simp), if_pos hm]
    have hspu : if_spi_probe_spu K fuel wfuel c pdata = spu_set_interrupt_mode K a3 0 1 := by
      unfold if_spi_probe_spu
      simp only [hi, hr, hf]
      rw [if_neg (by simp), if_neg (by simp), if_neg (by simp)]
    refine ⟨hf, hspu, ?_⟩
    intro a4 h4 e1 e2 e3 e4
    have hst : if_spi_probe_start E a4 = (.out, 0,
        emit (emit (emit { emit a4 (.lbs_add_card true) with
          priv := { a4.priv with fw_ready := 1, ps_supported := 1 },
          run_thread := 1 } (.kthread_run 0)) (.request_irq 0)) (.lbs_start_card 0)) := by
      unfold if_spi_probe_start
      simp [e1, e2, e3, e4, emit]
    refine ⟨(if_spi_probe_start E a4).2.2, ?_, ?_⟩
    · unfold if_spi_probe
      rw [hbody, hspu, h4]
      simp only []
      rw [if_neg (by simp)]
      simp only [hst, if_spi_probe_unwind]
    · rw [hst]
      simp [emit]
  · intro hm h4 hb
    have hn := if_spi_calculate_fw_names_unsupported a3.card_id a3.helper_fw_name
      a3.main_fw_name (by rw [hid]; exact h4) (by rw [hid]; exact hb)
    have hf : if_spi_probe_firmware K fuel wfuel a2 =
        .ok (-EAFNOSUPPORT, emit a3 (.pr_err (-EAFNOSUPPORT))) := by
      unfold if_spi_probe_firmware
      simp only [h]
      rw [if_neg (by simp), if_neg hm]
      simp only [hn]
      rw [if_pos (by simp [EAFNOSUPPORT])]
    have hspu : if_spi_probe_spu K fuel wfuel c pdata =
        .ok (-EAFNOSUPPORT, emit a3 (.pr_err (-EAFNOSUPPORT))) := by
      unfold if_spi_probe_spu
      simp only [hi, hr, hf]
      rw [if_neg (by simp), if_neg (by simp), if_pos (by simp [EAFNOSUPPORT])]
    have hb2 : if_spi_probe_body K E fuel wfuel c0 =
        .ok ((.free_gpio, -EAFNOSUPPORT), emit a3 (.pr_err (-EAFNOSUPPORT))) := by
      rw [hbody, hspu]
      simp only []
      rw [if_pos (by simp [EAFNOSUPPORT])]
    refine ⟨hf, by simp [bus_writes, emit, List.filterMap_append], hb2, ?_⟩
    obtain ⟨d, hfree, htr⟩ := free_if_spi_card_returns
      (if K.CONFIG_ARCH_LF1000 then emit a3 (.pr_err (-EAFNOSUPPORT))
        else emit (emit a3 (.pr_err (-EAFNOSUPPORT))) .gpio_free)
      (by split <;> simp [emit, hth])
    refine ⟨d, ?_, ?_⟩
    · unfold if_spi_probe
      rw [hb2]
      simp only [if_spi_probe_unwind, hfree]
    · rw [htr]
      by_cases hk : K.CONFIG_ARCH_LF1000 = true <;> simp [hk, emit]
  · intro hm hsup
    have hn := if_spi_calculate_fw_names_supported a3.card_id a3.helper_fw_name
      a3.main_fw_name (by rw [hid]; exact hsup)
    unfold if_spi_probe_firmware
    simp only [h]
    rw [if_neg (by simp), if_neg hm]
    rw [if_neg (by simp [hn])]

set_option maxRecDepth 100000 in
/-- C29, on two devices with chip id 0x99 (sample constants, a kernel that
grants everything): where scratch register 4 reads the magic, `if_spi_probe`
returns 0; where it reads 0, `if_spi_probe` returns `-EAFNOSUPPORT` (-97),
having written to the bus nothing more than `spu_init` had. -/
theorem if_spi_probe_chip_id_after_magic_witness :
    (∃ d, if_spi_probe sample_h granting_env 1 1 alien_loaded_card = .ok (0, d)) ∧
    (∃ d, if_spi_probe sample_h granting_env 1 1 alien_blank_card = .ok (-97, d)) ∧
    bus_writes (state_of (if_spi_probe sample_h granting_env 1 1 alien_blank_card)
        alien_blank_card).trace =
      bus_writes (state_of (spu_init sample_h
        (if_spi_probe_card sample_h alien_blank_card plain_pdata) 0)
        alien_blank_card).trace := by
  refine ⟨?_, ?_, by decide⟩
  · have hi := value_of_state (spu_init sample_h
      (if_spi_probe_card sample_h alien_loaded_card plain_pdata) 0) 0 alien_loaded_card
      (by decide)
    have hr := value_of_state (spu_get_chip_revision sample_h
      (state_of (spu_init sample_h
        (if_spi_probe_card sample_h alien_loaded_card plain_pdata) 0) alien_loaded_card))
      0 alien_loaded_card (by decide)
    have h := value_of_state (spu_read_u32 sample_h
      (state_of (spu_get_chip_revision sample_h
        (state_of (spu_init sample_h
          (if_spi_probe_card sample_h alien_loaded_card plain_pdata) 0) alien_loaded_card))
        alien_loaded_card) 0x34 0) (0, 0x88888888) alien_loaded_card (by decide)
    have h4 := value_of_state (spu_set_interrupt_mode sample_h
      (state_of (spu_read_u32 sample_h
        (state_of (spu_get_chip_revision sample_h
          (state_of (spu_init sample_h
            (if_spi_probe_card sample_h alien_loaded_card plain_pdata) 0) alien_loaded_card))
          alien_loaded_card) 0x34 0) alien_loaded_card) 0 1) 0 alien_loaded_card (by decide)
    obtain ⟨_, hm, _, _⟩ := if_spi_probe_chip_id_after_magic sample_h granting_env 1 1
      alien_loaded_card _ _ _ _ plain_pdata 0 0x88888888 rfl rfl rfl rfl hi hr h
    obtain ⟨d, hd, _⟩ := (hm rfl).2.2 _ h4 rfl rfl rfl rfl
    exact ⟨d, hd⟩
  · have hi := value_of_state (spu_init sample_h
      (if_spi_probe_card sample_h alien_blank_card plain_pdata) 0) 0 alien_blank_card
      (by decide)
    have hr := value_of_state (spu_get_chip_revision sample_h
      (state_of (spu_init sample_h
        (if_spi_probe_card sample_h alien_blank_card plain_pdata) 0) alien_blank_card))
      0 alien_blank_card (by decide)
    have h := value_of_state (spu_read_u32 sample_h
      (state_of (spu_get_chip_revision sample_h
        (state_of (spu_init sample_h
          (if_spi_probe_card sample_h alien_blank_card plain_pdata) 0) alien_blank_card))
        alien_blank_card) 0x34 0) (0, 0) alien_blank_card (by decide)
    obtain ⟨_, _, hn, _⟩ := if_spi_probe_chip_id_after_magic sample_h granting_env 1 1
      alien_blank_card _ _ _ _ plain_pdata 0 0 rfl rfl rfl rfl hi hr h
    obtain ⟨_, _, _, d, hd, _⟩ := hn (by decide) (by decide) (by decide)
    exact ⟨d, hd⟩

end IfSpi
